import Mathlib

/-!
# gmpy2 numeric contexts (src/gmpy_context.c)

A shallow embedding of the context subsystem of gmpy2: the C struct `gmpy_context`,
the context objects that carry it, the per-thread registry of active contexts with its
one-slot cache, the context managers created by `local_context`, the keyword
constructor, and the attribute setters.

Modelling conventions.

* A context object lives at an address (a natural number) of a heap; two references are
  the same object exactly when the addresses are equal.  Reference counts are not
  modelled: an object that the C code releases simply becomes unreachable.
* C `int` / `long` fields are integers; every value that reaches a field has been
  range-checked by the Python conversion routines (`'l'` and `'i'` formats,
  `PyIntOrLong_AsLong`), which is modelled explicitly.
* A function that may raise returns the raised exception (or the result) together with
  the world after the call, so that what a failed call leaves behind is visible.
* MPFR is a collaborator: its precision bounds, default exponent bounds and the set of
  exponents it accepts are parameters (`Backend`).
* Allocation failures and a missing thread-state dictionary are not modelled.
-/

set_option maxRecDepth 100000

namespace Gmpy

/-! ## Constants of the C environment -/

/-- Value of `MPFR_RNDN` in the `mpfr_rnd_t` enumeration (round to nearest). -/
def MPFR_RNDN : Int := 0
/-- Value of `MPFR_RNDZ` in the `mpfr_rnd_t` enumeration (round toward zero). -/
def MPFR_RNDZ : Int := 1
/-- Value of `MPFR_RNDU` in the `mpfr_rnd_t` enumeration (round up). -/
def MPFR_RNDU : Int := 2
/-- Value of `MPFR_RNDD` in the `mpfr_rnd_t` enumeration (round down). -/
def MPFR_RNDD : Int := 3
/-- Value of `MPFR_RNDA` in the `mpfr_rnd_t` enumeration (round away from zero). -/
def MPFR_RNDA : Int := 4
/-- The sentinel `GMPY_DEFAULT` ("-1 implies use mpfr_prec" in the constructor docstring). -/
def GMPY_DEFAULT : Int := -1
/-- Significand width of a C double. -/
def DBL_MANT_DIG : Int := 53
/-- Largest C `long` (LP64). -/
def LONG_MAX : Int := 2 ^ 63 - 1
/-- Smallest C `long` (LP64). -/
def LONG_MIN : Int := -(2 ^ 63)
/-- Largest C `int`. -/
def INT_MAX : Int := 2 ^ 31 - 1
/-- Smallest C `int`. -/
def INT_MIN : Int := -(2 ^ 31)

/-- What the sources take from MPFR: `MPFR_PREC_MIN`, `MPFR_PREC_MAX`,
`MPFR_EMAX_DEFAULT`, `MPFR_EMIN_DEFAULT`, and which exponents `mpfr_set_emin` /
`mpfr_set_emax` accept. -/
structure Backend where
  MPFR_PREC_MIN : Int
  MPFR_PREC_MAX : Int
  MPFR_EMAX_DEFAULT : Int
  MPFR_EMIN_DEFAULT : Int
  emin_ok : Int → Bool
  emax_ok : Int → Bool

/-! ## Python values and exceptions -/

/-- A Python object as seen by the setters and the keyword parser: a `bool`, an `int`
(of any size), or something that is not an integer. -/
inductive PyVal where
  | bool (b : Bool)
  | int (n : Int)
  | obj
deriving DecidableEq, Repr

/-- The exceptions raised by this file, with their message. -/
inductive PyErr where
  | ValueError (msg : String)
  | TypeError (msg : String)
deriving DecidableEq, Repr

/-- `VALUE_ERROR("can not modify a readonly context")`, raised by every guarded setter. -/
def readonly_error : PyErr := PyErr.ValueError "can not modify a readonly context"

/-- `PyBool_Check`. -/
def PyBool_Check : PyVal → Bool
  | PyVal.bool _ => true
  | _ => false

/-- `PyIntOrLong_Check`: Python integers, and `bool`, which is a subclass of `int`. -/
def PyIntOrLong_Check : PyVal → Bool
  | PyVal.bool _ => true
  | PyVal.int _ => true
  | PyVal.obj => false

/-- `PyIntOrLong_AsLong` / `PyIntOrLong_AsSsize_t`: the converted value and whether an
exception is pending (`PyErr_Occurred`); on overflow the value is `-1`. -/
def PyIntOrLong_AsLong : PyVal → Int × Bool
  | PyVal.bool b => (if b then 1 else 0, false)
  | PyVal.int n => if LONG_MIN ≤ n ∧ n ≤ LONG_MAX then (n, false) else (-1, true)
  | PyVal.obj => (-1, true)

/-- Conversion of one argument with format unit `l` (C long) of `PyArg_ParseTupleAndKeywords`;
`none` when the conversion raises. -/
def convert_l : PyVal → Option Int
  | PyVal.bool b => some (if b then 1 else 0)
  | PyVal.int n => if LONG_MIN ≤ n ∧ n ≤ LONG_MAX then some n else none
  | PyVal.obj => none

/-- Conversion of one argument with format unit `i` (C int); `none` when it raises. -/
def convert_i : PyVal → Option Int
  | PyVal.bool b => some (if b then 1 else 0)
  | PyVal.int n => if INT_MIN ≤ n ∧ n ≤ INT_MAX then some n else none
  | PyVal.obj => none

/-! ## The data model -/

/-- The C struct `gmpy_context`, fields in the order `GMPyContext_new` initialises them. -/
structure gmpy_context where
  mpfr_prec : Int
  mpfr_round : Int
  emax : Int
  emin : Int
  subnormalize : Int
  underflow : Int
  overflow : Int
  inexact : Int
  invalid : Int
  erange : Int
  divzero : Int
  trap_underflow : Int
  trap_overflow : Int
  trap_inexact : Int
  trap_invalid : Int
  trap_erange : Int
  trap_divzero : Int
  trap_expbound : Int
  real_prec : Int
  imag_prec : Int
  real_round : Int
  imag_round : Int
  allow_complex : Int
  readonly : Int
deriving DecidableEq

/-- A `GMPyContextObject`: the struct plus the thread state that last cached it. -/
structure GMPyContextObject where
  ctx : gmpy_context
  tstate : Option Nat
deriving DecidableEq

/-- A `GMPyContextManagerObject`: the addresses of the context to install on
`__enter__` and of the context to restore on `__exit__`. -/
structure GMPyContextManagerObject where
  new_context : Nat
  old_context : Nat
deriving DecidableEq, Repr

/-- The process state the file works on: the heap of context objects, the entry
`tls_context_key` of each thread's state dictionary (latest binding first), the global
`cached_context`, and MPFR's process-wide exponent registers. -/
structure World where
  heap : List GMPyContextObject
  tls : List (Nat × Nat)
  cached_context : Option Nat
  emin : Int
  emax : Int
deriving DecidableEq

/-- The object stored at an address, if the address holds a context object. -/
def World.obj (w : World) (r : Nat) : Option GMPyContextObject := w.heap[r]?

/-- The struct of the context object at an address. -/
def World.ctx (w : World) (r : Nat) : Option gmpy_context := (w.obj r).map (fun o => o.ctx)

/-- `PyObject_New`: a fresh object at the next free address. -/
def World.alloc (w : World) (o : GMPyContextObject) : Nat × World :=
  (w.heap.length, { w with heap := w.heap ++ [o] })

/-- Overwrite the object at an address. -/
def World.store (w : World) (r : Nat) (o : GMPyContextObject) : World :=
  { w with heap := w.heap.set r o }

/-- `PyDict_GetItem(dict, tls_context_key)` in the state dictionary of thread `t`. -/
def World.binding (w : World) (t : Nat) : Option Nat := w.tls.lookup t

/-- `mpfr_set_emin`: a nonzero return when MPFR rejects the exponent, in which case the
register is not changed. -/
def mpfr_set_emin (B : Backend) (e : Int) (w : World) : Int × World :=
  if B.emin_ok e then (0, { w with emin := e }) else (1, w)

/-- `mpfr_set_emax`: a nonzero return when MPFR rejects the exponent, in which case the
register is not changed. -/
def mpfr_set_emax (B : Backend) (e : Int) (w : World) : Int × World :=
  if B.emax_ok e then (0, { w with emax := e }) else (1, w)

/-- The statement pair `mpfr_set_emin(c.emin); mpfr_set_emax(c.emax);` with both return
values ignored, as it follows every installation of a context. -/
def push_bounds (B : Backend) (c : gmpy_context) (w : World) : World :=
  (mpfr_set_emax B c.emax (mpfr_set_emin B c.emin w).2).2

/-! ## Creating contexts -/

/-- The field values written by `GMPyContext_new`. -/
def new_ctx (B : Backend) : gmpy_context :=
  { mpfr_prec := DBL_MANT_DIG
    mpfr_round := MPFR_RNDN
    emax := B.MPFR_EMAX_DEFAULT
    emin := B.MPFR_EMIN_DEFAULT
    subnormalize := 0
    underflow := 0
    overflow := 0
    inexact := 0
    invalid := 0
    erange := 0
    divzero := 0
    trap_underflow := 0
    trap_overflow := 0
    trap_inexact := 0
    trap_invalid := 0
    trap_erange := 0
    trap_divzero := 0
    trap_expbound := 0
    real_prec := -1
    imag_prec := -1
    real_round := -1
    imag_round := -1
    allow_complex := 0
    readonly := 0 }

/-- `GMPyContext_new`: allocate a context object with the default field values and no
thread state. -/
def GMPyContext_new (B : Backend) (w : World) : Nat × World :=
  w.alloc { ctx := new_ctx B, tstate := none }

/-- The two assignments of `GMPyContext_context_copy`: `result->ctx = self->ctx;`
followed by `result->ctx.readonly = 0;`. -/
def copy_ctx (c : gmpy_context) : gmpy_context := { c with readonly := 0 }

/-- `GMPyContext_context_copy`: a new object whose struct is a copy of `self`'s with
`readonly` cleared.  An address that holds no context raises `TypeError` (the method
cannot be bound to it). -/
def GMPyContext_context_copy (B : Backend) (self : Nat) (w : World) :
    Except PyErr Nat × World :=
  match w.obj self with
  | none => (Except.error (PyErr.TypeError "not a context"), w)
  | some o =>
    let r := GMPyContext_new B w
    let w1 := r.2.store r.1 { ctx := copy_ctx o.ctx, tstate := none }
    (Except.ok r.1, w1)

/-! ## The active context of a thread -/

/-- The caching step shared by `current_context_from_dict` and `GMPyContext_set_context`:
`cached_context = c; cached_context->tstate = tstate`. -/
def cache_context (t : Nat) (r : Nat) (w : World) : World :=
  match w.obj r with
  | none => w
  | some o => { w.store r { o with tstate := some t } with cached_context := some r }

/-- `current_context_from_dict`, called by thread `t`. -/
def current_context_from_dict (B : Backend) (t : Nat) (w : World) : Nat × World :=
  match w.binding t with
  | some r => (r, cache_context t r w)
  | none =>
    let r := GMPyContext_new B w
    let w1 := { r.2 with tls := (t, r.1) :: r.2.tls }
    (r.1, cache_context t r.1 w1)

/-- `GMPyContext_current` (thread-local build), called by thread `t`. -/
def GMPyContext_current (B : Backend) (t : Nat) (w : World) : Nat × World :=
  match w.cached_context with
  | none => current_context_from_dict B t w
  | some r =>
    match w.obj r with
    | none => current_context_from_dict B t w
    | some o => if o.tstate = some t then (r, w) else current_context_from_dict B t w

/-- `GMPyContext_set_context` (thread-local build), called by thread `t`. -/
def GMPyContext_set_context (B : Backend) (t : Nat) (other : Nat) (w : World) :
    Except PyErr Unit × World :=
  match w.obj other with
  | none => (Except.error (PyErr.ValueError "set_context() requires a context argument"), w)
  | some o =>
    let sel : Except PyErr Nat × World :=
      if o.ctx.readonly ≠ 0 then GMPyContext_context_copy B other w else (Except.ok other, w)
    match sel with
    | (Except.error e, w1) => (Except.error e, w1)
    | (Except.ok other1, w1) =>
      match w1.ctx other1 with
      | none => (Except.error (PyErr.TypeError "not a context"), w1)
      | some c =>
        let w2 := { w1 with tls := (t, other1) :: w1.tls }
        let w3 := push_bounds B c w2
        let w4 := cache_context t other1 { w3 with cached_context := none }
        (Except.ok (), w4)

/-! ## The build without thread support (`#ifdef WITHOUT_THREADS`) -/

/-- The process state of the `WITHOUT_THREADS` build: the heap and MPFR's registers (the
thread fields of `World` are not used) and the global pointer `module_context`. -/
structure WorldNoThreads where
  world : World
  module_context : Nat
deriving DecidableEq

/-- `GMPyContext_current` of the `WITHOUT_THREADS` build: `return module_context;`. -/
def GMPyContext_current_WITHOUT_THREADS (s : WorldNoThreads) : Nat := s.module_context

/-- `GMPyContext_set_context` of the `WITHOUT_THREADS` build. -/
def GMPyContext_set_context_WITHOUT_THREADS (B : Backend) (other : Nat) (s : WorldNoThreads) :
    Except PyErr Unit × WorldNoThreads :=
  match s.world.obj other with
  | none => (Except.error (PyErr.ValueError "set_context() requires a context argument"), s)
  | some o =>
    let sel : Except PyErr Nat × World :=
      if o.ctx.readonly ≠ 0 then GMPyContext_context_copy B other s.world
      else (Except.ok other, s.world)
    match sel with
    | (Except.error e, w1) => (Except.error e, { s with world := w1 })
    | (Except.ok mc, w1) =>
      match w1.ctx mc with
      | none => (Except.error (PyErr.TypeError "not a context"), { s with world := w1 })
      | some c => (Except.ok (), { world := push_bounds B c w1, module_context := mc })

/-! ## Keyword arguments of `context()` and `local_context()` -/

/-- The keyword arguments accepted by `context()` and `local_context()`, in the order of
`kwlist`; `none` is an argument that was not supplied. -/
structure Kwargs where
  precision : Option PyVal := none
  real_prec : Option PyVal := none
  imag_prec : Option PyVal := none
  round : Option PyVal := none
  real_round : Option PyVal := none
  imag_round : Option PyVal := none
  emax : Option PyVal := none
  emin : Option PyVal := none
  subnormalize : Option PyVal := none
  trap_underflow : Option PyVal := none
  trap_overflow : Option PyVal := none
  trap_inexact : Option PyVal := none
  trap_invalid : Option PyVal := none
  trap_erange : Option PyVal := none
  trap_divzero : Option PyVal := none
  trap_expbound : Option PyVal := none
  allow_complex : Option PyVal := none
deriving DecidableEq

/-- One format unit of `PyArg_ParseTupleAndKeywords`: once a conversion has failed
nothing more is written; an argument that was not supplied leaves its destination
alone; a converted value is written through the destination pointer at once. -/
def parse_arg (conv : PyVal → Option Int) (arg : Option PyVal)
    (dest : gmpy_context → Int → gmpy_context) (st : Bool × gmpy_context) :
    Bool × gmpy_context :=
  if st.1 then
    match arg with
    | none => st
    | some v =>
      match conv v with
      | some n => (true, dest st.2 n)
      | none => (false, st.2)
  else st

/-- `PyArg_ParseTupleAndKeywords(args, kwargs, "|llliiilliiiiiiiii", kwlist, ...)` with the
seventeen destinations inside the struct `c`: whether parsing succeeded, and the struct
as the parser left it (arguments before a failing one have already been written). -/
def PyArg_ParseTupleAndKeywords (kw : Kwargs) (c : gmpy_context) : Bool × gmpy_context :=
  parse_arg convert_i kw.allow_complex (fun c v => { c with allow_complex := v })
  (parse_arg convert_i kw.trap_expbound (fun c v => { c with trap_expbound := v })
  (parse_arg convert_i kw.trap_divzero (fun c v => { c with trap_divzero := v })
  (parse_arg convert_i kw.trap_erange (fun c v => { c with trap_erange := v })
  (parse_arg convert_i kw.trap_invalid (fun c v => { c with trap_invalid := v })
  (parse_arg convert_i kw.trap_inexact (fun c v => { c with trap_inexact := v })
  (parse_arg convert_i kw.trap_overflow (fun c v => { c with trap_overflow := v })
  (parse_arg convert_i kw.trap_underflow (fun c v => { c with trap_underflow := v })
  (parse_arg convert_i kw.subnormalize (fun c v => { c with subnormalize := v })
  (parse_arg convert_l kw.emin (fun c v => { c with emin := v })
  (parse_arg convert_l kw.emax (fun c v => { c with emax := v })
  (parse_arg convert_i kw.imag_round (fun c v => { c with imag_round := v })
  (parse_arg convert_i kw.real_round (fun c v => { c with real_round := v })
  (parse_arg convert_i kw.round (fun c v => { c with mpfr_round := v })
  (parse_arg convert_l kw.imag_prec (fun c v => { c with imag_prec := v })
  (parse_arg convert_l kw.real_prec (fun c v => { c with real_prec := v })
  (parse_arg convert_l kw.precision (fun c v => { c with mpfr_prec := v })
    (true, c)))))))))))))))))

/-- The assignment guarded by `if (mpfr_round == MPFR_RNDA)` in the sanity checks:
"Since RNDA is not supported for MPC, set the MPC rounding modes to MPFR_RNDN." -/
def force_mpc_rounding (c : gmpy_context) : gmpy_context :=
  if c.mpfr_round = MPFR_RNDA then
    { c with real_round := MPFR_RNDN, imag_round := MPFR_RNDN }
  else c

/-- Second half of the block "Sanity check for values": the checks that follow the
`MPFR_RNDA` assignment (MPC rounding modes, sign of the exponent bounds, acceptance by
`mpfr_set_emin` and then `mpfr_set_emax`, which write MPFR's registers). -/
def sanity_check_mpc_exp (B : Backend) (c : gmpy_context) (w : World) :
    Option PyErr × gmpy_context × World :=
  if ¬ (c.real_round = MPFR_RNDN ∨ c.real_round = MPFR_RNDZ ∨ c.real_round = MPFR_RNDU ∨
      c.real_round = MPFR_RNDD ∨ c.real_round = GMPY_DEFAULT) then
    (some (PyErr.ValueError "invalid value for real_round"), c, w)
  else if ¬ (c.imag_round = MPFR_RNDN ∨ c.imag_round = MPFR_RNDZ ∨
      c.imag_round = MPFR_RNDU ∨ c.imag_round = MPFR_RNDD ∨
      c.imag_round = GMPY_DEFAULT) then
    (some (PyErr.ValueError "invalid value for imag_round"), c, w)
  else if ¬ (c.emin < 0 ∧ c.emax > 0) then
    (some (PyErr.ValueError "invalid values for emin and/or emax"), c, w)
  else if (mpfr_set_emin B c.emin w).1 ≠ 0 then
    (some (PyErr.ValueError "invalid value for emin"), c, (mpfr_set_emin B c.emin w).2)
  else if (mpfr_set_emax B c.emax (mpfr_set_emin B c.emin w).2).1 ≠ 0 then
    (some (PyErr.ValueError "invalid value for emax"), c,
      (mpfr_set_emax B c.emax (mpfr_set_emin B c.emin w).2).2)
  else (none, c, (mpfr_set_emax B c.emax (mpfr_set_emin B c.emin w).2).2)

/-- The block "Sanity check for values" that `GMPyContext_context` and
`GMPyContext_local_context` both run on the struct they have just parsed into: the
exception raised (if any), the struct as the block leaves it (the MPC rounding modes
are overwritten as soon as `round` is seen to be `MPFR_RNDA`), and the world, whose
exponent registers `mpfr_set_emin` / `mpfr_set_emax` may have written. -/
def sanity_check (B : Backend) (c : gmpy_context) (w : World) :
    Option PyErr × gmpy_context × World :=
  if c.mpfr_prec < B.MPFR_PREC_MIN ∨ c.mpfr_prec > B.MPFR_PREC_MAX then
    (some (PyErr.ValueError "invalid value for precision"), c, w)
  else if ¬ (c.real_prec = GMPY_DEFAULT ∨
      (c.real_prec ≥ B.MPFR_PREC_MIN ∧ c.real_prec ≤ B.MPFR_PREC_MAX)) then
    (some (PyErr.ValueError "invalid value for real_prec"), c, w)
  else if ¬ (c.imag_prec = GMPY_DEFAULT ∨
      (c.imag_prec ≥ B.MPFR_PREC_MIN ∧ c.imag_prec ≤ B.MPFR_PREC_MAX)) then
    (some (PyErr.ValueError "invalid value for imag_prec"), c, w)
  else if ¬ (c.mpfr_round = MPFR_RNDN ∨ c.mpfr_round = MPFR_RNDZ ∨ c.mpfr_round = MPFR_RNDU ∨
      c.mpfr_round = MPFR_RNDD ∨ c.mpfr_round = MPFR_RNDA) then
    (some (PyErr.ValueError "invalid value for round"), c, w)
  else sanity_check_mpc_exp B (force_mpc_rounding c) w

/-- `GMPyContext_context`, the keyword constructor.  On success the new object stays in
the heap and its address is returned; on failure the object is released (dropped from
the heap) and only the exponent registers may differ from before. -/
def GMPyContext_context (B : Backend) (kw : Kwargs) (w : World) : Except PyErr Nat × World :=
  let r := GMPyContext_new B w
  let p := PyArg_ParseTupleAndKeywords kw (new_ctx B)
  if p.1 then
    match sanity_check B p.2 r.2 with
    | (some e, _, w1) => (Except.error e, { w1 with heap := w.heap })
    | (none, c1, w1) =>
      let c2 : gmpy_context :=
        { c1 with underflow := 0, overflow := 0, inexact := 0, invalid := 0, erange := 0,
                  divzero := 0 }
      (Except.ok r.1, w1.store r.1 { ctx := c2, tstate := none })
  else
    (Except.error (PyErr.ValueError "invalid keyword arguments in context()"), w)

/-- The part of `GMPyContext_local_context` that follows the choice of `new_context`:
`old_context` becomes a copy of the active context `context`, the keyword values are
parsed straight into the struct of `new_context`, and the sanity checks run on it.
`n0` is the heap size on entry: on failure the manager and the copies it owns are
released (dropped from the heap); what was written into a live object stays. -/
def local_context_fill (B : Backend) (context new_context n0 : Nat) (kw : Kwargs)
    (w1 : World) : Except PyErr GMPyContextManagerObject × World :=
  match GMPyContext_context_copy B context w1 with
  | (Except.error e, w2) => (Except.error e, { w2 with heap := w2.heap.take n0 })
  | (Except.ok old_context, w2) =>
    match w2.obj new_context with
    | none => (Except.error (PyErr.TypeError "not a context"), w2)
    | some o =>
      let p := PyArg_ParseTupleAndKeywords kw o.ctx
      let w3 := w2.store new_context { o with ctx := p.2 }
      if p.1 then
        match sanity_check B p.2 w3 with
        | (some e, c1, w4) =>
          let w5 := w4.store new_context { o with ctx := c1 }
          (Except.error e, { w5 with heap := w5.heap.take n0 })
        | (none, c1, w4) =>
          let w5 := w4.store new_context { o with ctx := c1 }
          (Except.ok { new_context := new_context, old_context := old_context }, w5)
      else
        (Except.error (PyErr.ValueError "invalid keyword arguments in local_context()"),
          { w3 with heap := w3.heap.take n0 })

/-- `GMPyContext_local_context`, called by thread `t` with an optional positional
context `base`.  `new_context` is the active context itself when no base is given, the
base itself when it is writable, and a copy of the base when it is readonly. -/
def GMPyContext_local_context (B : Backend) (t : Nat) (base : Option Nat) (kw : Kwargs)
    (w : World) : Except PyErr GMPyContextManagerObject × World :=
  let cur := GMPyContext_current B t w
  let context := cur.1
  let w0 := cur.2
  match base with
  | some b =>
    match w0.ctx b with
    | none =>
      (Except.error
        (PyErr.ValueError "local_context() only supports [context[,keyword]] arguments"), w0)
    | some bc =>
      if bc.readonly ≠ 0 then
        match GMPyContext_context_copy B b w0 with
        | (Except.error e, w1) => (Except.error e, w1)
        | (Except.ok new_context, w1) =>
          local_context_fill B context new_context w0.heap.length kw w1
      else local_context_fill B context b w0.heap.length kw w0
  | none => local_context_fill B context context w0.heap.length kw w0

/-! ## Scopes -/

/-- `GMPyContextManager_enter`, called by thread `t`: install `new_context` through
`GMPyContext_set_context`, push its exponent bounds, return it. -/
def GMPyContextManager_enter (B : Backend) (t : Nat) (self : GMPyContextManagerObject)
    (w : World) : Except PyErr Nat × World :=
  match GMPyContext_set_context B t self.new_context w with
  | (Except.error e, w1) => (Except.error e, w1)
  | (Except.ok _, w1) =>
    match w1.ctx self.new_context with
    | none => (Except.error (PyErr.TypeError "not a context"), w1)
    | some c =>
      (Except.ok self.new_context, push_bounds B c w1)

/-- `GMPyContextManager_exit`, called by thread `t`: install `old_context` through
`GMPyContext_set_context` and push its exponent bounds. -/
def GMPyContextManager_exit (B : Backend) (t : Nat) (self : GMPyContextManagerObject)
    (w : World) : Except PyErr Unit × World :=
  match GMPyContext_set_context B t self.old_context w with
  | (Except.error e, w1) => (Except.error e, w1)
  | (Except.ok _, w1) =>
    match w1.ctx self.old_context with
    | none => (Except.error (PyErr.TypeError "not a context"), w1)
    | some c =>
      (Except.ok (), push_bounds B c w1)

/-- `GMPyContext_enter` (`__enter__` of a context), called by thread `t`: install a copy
of `self` and return the copy. -/
def GMPyContext_enter (B : Backend) (t : Nat) (self : Nat) (w : World) :
    Except PyErr Nat × World :=
  match GMPyContext_context_copy B self w with
  | (Except.error e, w1) => (Except.error e, w1)
  | (Except.ok result, w1) =>
    match GMPyContext_set_context B t result w1 with
    | (Except.error e, w2) => (Except.error e, w2)
    | (Except.ok _, w2) =>
      match w2.ctx result with
      | none => (Except.error (PyErr.TypeError "not a context"), w2)
      | some c =>
        (Except.ok result, push_bounds B c w2)

/-- `GMPyContext_exit` (`__exit__` of a context), called by thread `t`: install `self`. -/
def GMPyContext_exit (B : Backend) (t : Nat) (self : Nat) (w : World) :
    Except PyErr Unit × World :=
  match GMPyContext_set_context B t self w with
  | (Except.error e, w1) => (Except.error e, w1)
  | (Except.ok _, w1) =>
    match w1.ctx self with
    | none => (Except.error (PyErr.TypeError "not a context"), w1)
    | some c =>
      (Except.ok (), push_bounds B c w1)

/-! ## Presets and flags -/

/-- `GMPyContext_ieee`. -/
def GMPyContext_ieee (B : Backend) (other : PyVal) (w : World) : Except PyErr Nat × World :=
  let bw := PyIntOrLong_AsLong other
  if bw.1 = -1 ∧ bw.2 then
    (Except.error (PyErr.TypeError "ieee() requires 'int' argument"), w)
  else if bw.1 = 32 then
    let r := GMPyContext_new B w
    (Except.ok r.1, r.2.store r.1
      { ctx := { new_ctx B with subnormalize := 1, mpfr_prec := 24, emax := 128, emin := -148 },
        tstate := none })
  else if bw.1 = 64 then
    let r := GMPyContext_new B w
    (Except.ok r.1, r.2.store r.1
      { ctx := { new_ctx B with subnormalize := 1, mpfr_prec := 53, emax := 1024, emin := -1073 },
        tstate := none })
  else if bw.1 = 128 then
    let r := GMPyContext_new B w
    (Except.ok r.1, r.2.store r.1
      { ctx := { new_ctx B with subnormalize := 1, mpfr_prec := 113, emax := 16384,
                                emin := -16493 },
        tstate := none })
  else
    (Except.error (PyErr.ValueError "bitwidth must be 32, 64, or 128"), w)

/-- The struct after `GMPyContext_clear_flags`. -/
def clear_flags_ctx (c : gmpy_context) : gmpy_context :=
  { c with underflow := 0, overflow := 0, inexact := 0, invalid := 0, erange := 0, divzero := 0 }

/-- `GMPyContext_clear_flags`. -/
def GMPyContext_clear_flags (self : Nat) (w : World) : Except PyErr Unit × World :=
  match w.obj self with
  | none => (Except.error (PyErr.TypeError "not a context"), w)
  | some o => (Except.ok (), w.store self { o with ctx := clear_flags_ctx o.ctx })

/-! ## Attribute setters -/

/-- The setter generated by `GETSET_BOOLEAN(NAME)`; `dest` writes the field `NAME`.  The
result is the exception raised (return value `-1`) or `none` (return value `0`), and
the struct afterwards. -/
def GETSET_BOOLEAN (name : String) (dest : gmpy_context → Int → gmpy_context)
    (self : gmpy_context) (value : PyVal) : Option PyErr × gmpy_context :=
  if self.readonly ≠ 0 then (some readonly_error, self)
  else if ¬ PyBool_Check value then
    (some (PyErr.TypeError (name ++ " must be True or False")), self)
  else (none, dest self (if value = PyVal.bool true then 1 else 0))

/-- The setter generated by `GETSET_BOOLEAN_EX(NAME)`, which does not look at
`readonly`. -/
def GETSET_BOOLEAN_EX (name : String) (dest : gmpy_context → Int → gmpy_context)
    (self : gmpy_context) (value : PyVal) : Option PyErr × gmpy_context :=
  if ¬ PyBool_Check value then
    (some (PyErr.TypeError (name ++ " must be True or False")), self)
  else (none, dest self (if value = PyVal.bool true then 1 else 0))

/-- `GMPyContext_set_precision`. -/
def GMPyContext_set_precision (B : Backend) (self : gmpy_context) (value : PyVal) :
    Option PyErr × gmpy_context :=
  if self.readonly ≠ 0 then (some readonly_error, self)
  else if ¬ PyIntOrLong_Check value then
    (some (PyErr.TypeError "precision must be Python integer"), self)
  else
    let temp := PyIntOrLong_AsLong value
    if temp.1 < B.MPFR_PREC_MIN ∨ temp.1 > B.MPFR_PREC_MAX ∨ temp.2 then
      (some (PyErr.ValueError "invalid value for precision"), self)
    else (none, { self with mpfr_prec := temp.1 })

/-- `GMPyContext_set_real_prec`. -/
def GMPyContext_set_real_prec (B : Backend) (self : gmpy_context) (value : PyVal) :
    Option PyErr × gmpy_context :=
  if self.readonly ≠ 0 then (some readonly_error, self)
  else if ¬ PyIntOrLong_Check value then
    (some (PyErr.TypeError "real_prec must be Python integer"), self)
  else
    let temp := PyIntOrLong_AsLong value
    if temp.1 = -1 then
      if temp.2 then (some (PyErr.ValueError "invalid value for real_prec"), self)
      else (none, { self with real_prec := temp.1 })
    else if temp.1 < B.MPFR_PREC_MIN ∨ temp.1 > B.MPFR_PREC_MAX then
      (some (PyErr.ValueError "invalid value for real_prec"), self)
    else (none, { self with real_prec := temp.1 })

/-- `GMPyContext_set_imag_prec`. -/
def GMPyContext_set_imag_prec (B : Backend) (self : gmpy_context) (value : PyVal) :
    Option PyErr × gmpy_context :=
  if self.readonly ≠ 0 then (some readonly_error, self)
  else if ¬ PyIntOrLong_Check value then
    (some (PyErr.TypeError "imag_prec must be Python integer"), self)
  else
    let temp := PyIntOrLong_AsLong value
    if temp.1 = -1 then
      if temp.2 then (some (PyErr.ValueError "invalid value for imag_prec"), self)
      else (none, { self with imag_prec := temp.1 })
    else if temp.1 < B.MPFR_PREC_MIN ∨ temp.1 > B.MPFR_PREC_MAX then
      (some (PyErr.ValueError "invalid value for imag_prec"), self)
    else (none, { self with imag_prec := temp.1 })

/-- `GMPyContext_set_round`. -/
def GMPyContext_set_round (self : gmpy_context) (value : PyVal) :
    Option PyErr × gmpy_context :=
  if self.readonly ≠ 0 then (some readonly_error, self)
  else if ¬ PyIntOrLong_Check value then
    (some (PyErr.TypeError "round mode must be Python integer"), self)
  else
    let temp := PyIntOrLong_AsLong value
    if temp.1 = -1 ∧ temp.2 then
      (some (PyErr.ValueError "invalid value for round mode"), self)
    else if temp.1 = MPFR_RNDN then (none, { self with mpfr_round := MPFR_RNDN })
    else if temp.1 = MPFR_RNDZ then (none, { self with mpfr_round := MPFR_RNDZ })
    else if temp.1 = MPFR_RNDU then (none, { self with mpfr_round := MPFR_RNDU })
    else if temp.1 = MPFR_RNDD then (none, { self with mpfr_round := MPFR_RNDD })
    else if temp.1 = MPFR_RNDA then
      (none, { self with mpfr_round := MPFR_RNDA, real_round := MPFR_RNDN,
                         imag_round := MPFR_RNDN })
    else (some (PyErr.ValueError "invalid value for round mode"), self)

/-- `GMPyContext_set_real_round`. -/
def GMPyContext_set_real_round (self : gmpy_context) (value : PyVal) :
    Option PyErr × gmpy_context :=
  if self.readonly ≠ 0 then (some readonly_error, self)
  else if ¬ PyIntOrLong_Check value then
    (some (PyErr.TypeError "round mode must be Python integer"), self)
  else
    let temp := PyIntOrLong_AsLong value
    if temp.1 = -1 ∧ temp.2 then
      (some (PyErr.ValueError "invalid value for round mode"), self)
    else if temp.1 = GMPY_DEFAULT ∨ temp.1 = MPFR_RNDN ∨ temp.1 = MPFR_RNDZ ∨
        temp.1 = MPFR_RNDU ∨ temp.1 = MPFR_RNDD then
      (none, { self with real_round := temp.1 })
    else (some (PyErr.ValueError "invalid value for round mode"), self)

/-- `GMPyContext_set_imag_round`. -/
def GMPyContext_set_imag_round (self : gmpy_context) (value : PyVal) :
    Option PyErr × gmpy_context :=
  if self.readonly ≠ 0 then (some readonly_error, self)
  else if ¬ PyIntOrLong_Check value then
    (some (PyErr.TypeError "round mode must be Python integer"), self)
  else
    let temp := PyIntOrLong_AsLong value
    if temp.1 = -1 ∧ temp.2 then
      (some (PyErr.ValueError "invalid value for round mode"), self)
    else if temp.1 = GMPY_DEFAULT ∨ temp.1 = MPFR_RNDN ∨ temp.1 = MPFR_RNDZ ∨
        temp.1 = MPFR_RNDU ∨ temp.1 = MPFR_RNDD then
      (none, { self with imag_round := temp.1 })
    else (some (PyErr.ValueError "invalid value for round mode"), self)

/-- `GMPyContext_set_emin`: the exception (if any), the struct afterwards, and the world,
whose `emin` register the call may write. -/
def GMPyContext_set_emin (B : Backend) (self : gmpy_context) (value : PyVal) (w : World) :
    Option PyErr × gmpy_context × World :=
  if self.readonly ≠ 0 then (some readonly_error, self, w)
  else if ¬ PyIntOrLong_Check value then
    (some (PyErr.TypeError "emin must be Python integer"), self, w)
  else
    let exp := PyIntOrLong_AsLong value
    if exp.1 = -1 ∧ exp.2 then
      (some (PyErr.ValueError "requested minimum exponent is invalid"), self, w)
    else
      let r := mpfr_set_emin B exp.1 w
      if r.1 ≠ 0 then
        (some (PyErr.ValueError "requested minimum exponent is invalid"), self, r.2)
      else (none, { self with emin := exp.1 }, (mpfr_set_emin B exp.1 r.2).2)

/-- `GMPyContext_set_emax`: the exception (if any), the struct afterwards, and the world,
whose `emax` register the call may write. -/
def GMPyContext_set_emax (B : Backend) (self : gmpy_context) (value : PyVal) (w : World) :
    Option PyErr × gmpy_context × World :=
  if self.readonly ≠ 0 then (some readonly_error, self, w)
  else if ¬ PyIntOrLong_Check value then
    (some (PyErr.TypeError "emax must be Python integer"), self, w)
  else
    let exp := PyIntOrLong_AsLong value
    if exp.1 = -1 ∧ exp.2 then
      (some (PyErr.ValueError "requested maximum exponent is invalid"), self, w)
    else
      let r := mpfr_set_emax B exp.1 w
      if r.1 ≠ 0 then
        (some (PyErr.ValueError "requested maximum exponent is invalid"), self, r.2)
      else (none, { self with emax := exp.1 }, (mpfr_set_emax B exp.1 r.2).2)

/-- The attribute names of the table `GMPyContext_getseters`, in its order. -/
inductive Attr where
  | precision | real_prec | imag_prec | round | real_round | imag_round | emax | emin
  | subnormalize | underflow | overflow | inexact | invalid | erange | divzero
  | trap_underflow | trap_overflow | trap_inexact | trap_invalid | trap_erange | trap_divzero
  | trap_expbound | allow_complex | readonly
deriving DecidableEq, Repr

/-- The setter that `GMPyContext_getseters` registers for each attribute name, run on the
struct of the object and the world. -/
def setter (B : Backend) (a : Attr) (self : gmpy_context) (value : PyVal) (w : World) :
    Option PyErr × gmpy_context × World :=
  let keep (r : Option PyErr × gmpy_context) : Option PyErr × gmpy_context × World :=
    (r.1, r.2, w)
  match a with
  | Attr.precision => keep (GMPyContext_set_precision B self value)
  | Attr.real_prec => keep (GMPyContext_set_real_prec B self value)
  | Attr.imag_prec => keep (GMPyContext_set_imag_prec B self value)
  | Attr.round => keep (GMPyContext_set_round self value)
  | Attr.real_round => keep (GMPyContext_set_real_round self value)
  | Attr.imag_round => keep (GMPyContext_set_imag_round self value)
  | Attr.emax => GMPyContext_set_emax B self value w
  | Attr.emin => GMPyContext_set_emin B self value w
  | Attr.subnormalize =>
    keep (GETSET_BOOLEAN "subnormalize" (fun c v => { c with subnormalize := v }) self value)
  | Attr.underflow =>
    keep (GETSET_BOOLEAN "underflow" (fun c v => { c with underflow := v }) self value)
  | Attr.overflow =>
    keep (GETSET_BOOLEAN "overflow" (fun c v => { c with overflow := v }) self value)
  | Attr.inexact =>
    keep (GETSET_BOOLEAN "inexact" (fun c v => { c with inexact := v }) self value)
  | Attr.invalid =>
    keep (GETSET_BOOLEAN "invalid" (fun c v => { c with invalid := v }) self value)
  | Attr.erange =>
    keep (GETSET_BOOLEAN "erange" (fun c v => { c with erange := v }) self value)
  | Attr.divzero =>
    keep (GETSET_BOOLEAN "divzero" (fun c v => { c with divzero := v }) self value)
  | Attr.trap_underflow =>
    keep (GETSET_BOOLEAN "trap_underflow" (fun c v => { c with trap_underflow := v }) self value)
  | Attr.trap_overflow =>
    keep (GETSET_BOOLEAN "trap_overflow" (fun c v => { c with trap_overflow := v }) self value)
  | Attr.trap_inexact =>
    keep (GETSET_BOOLEAN "trap_inexact" (fun c v => { c with trap_inexact := v }) self value)
  | Attr.trap_invalid =>
    keep (GETSET_BOOLEAN "trap_invalid" (fun c v => { c with trap_invalid := v }) self value)
  | Attr.trap_erange =>
    keep (GETSET_BOOLEAN "trap_erange" (fun c v => { c with trap_erange := v }) self value)
  | Attr.trap_divzero =>
    keep (GETSET_BOOLEAN "trap_divzero" (fun c v => { c with trap_divzero := v }) self value)
  | Attr.trap_expbound =>
    keep (GETSET_BOOLEAN "trap_expbound" (fun c v => { c with trap_expbound := v }) self value)
  | Attr.allow_complex =>
    keep (GETSET_BOOLEAN "allow_complex" (fun c v => { c with allow_complex := v }) self value)
  | Attr.readonly =>
    keep (GETSET_BOOLEAN_EX "readonly" (fun c v => { c with readonly := v }) self value)

/-- The assignment `self.a = value` on the context object at address `self`. -/
def GMPyContext_setattr (B : Backend) (a : Attr) (self : Nat) (value : PyVal) (w : World) :
    Except PyErr Unit × World :=
  match w.obj self with
  | none => (Except.error (PyErr.TypeError "not a context"), w)
  | some o =>
    match setter B a o.ctx value w with
    | (some e, c1, w1) => (Except.error e, w1.store self { o with ctx := c1 })
    | (none, c1, w1) => (Except.ok (), w1.store self { o with ctx := c1 })

/-! ## Sequences of calls -/

/-- The end of the thread whose `PyThreadState` is at address `t`.  The interpreter
clears and frees the thread state, and with it the thread's state dictionary, so the
entry `tls_context_key` of that thread is gone.  No code of `gmpy_context.c` runs at that
point (`GMPyContext_dealloc` is `PyObject_Del(self)` and nothing else), so
`cached_context` and the `tstate` field of the cached object keep their values.  A
thread created afterwards can be given a `PyThreadState` at the same address `t`.  The
context objects stay in the heap, as when another reference holds them. -/
def thread_end (t : Nat) (w : World) : World :=
  { w with tls := w.tls.filter (fun p => p.1 != t) }

/-- The events of a run: the calls a program can make into this file, with their
arguments, `t` being the calling thread; and the end of a thread. -/
inductive Op where
  | new
  | context (kw : Kwargs)
  | ieee (bitwidth : PyVal)
  | copy (self : Nat)
  | get_context (t : Nat)
  | set_context (t : Nat) (other : Nat)
  | local_context (t : Nat) (base : Option Nat) (kw : Kwargs)
  | manager_enter (t : Nat) (m : GMPyContextManagerObject)
  | manager_exit (t : Nat) (m : GMPyContextManagerObject)
  | enter (t : Nat) (self : Nat)
  | exit (t : Nat) (self : Nat)
  | clear_flags (self : Nat)
  | setattr (a : Attr) (self : Nat) (value : PyVal)
  | thread_end (t : Nat)
deriving DecidableEq

/-- Whether a call returned with an exception set. -/
def raised {α : Type} : Except PyErr α → Bool
  | Except.error _ => true
  | Except.ok _ => false

/-- Run one call: whether it raised, and the world it leaves. -/
def Op.exec (B : Backend) (op : Op) (w : World) : Bool × World :=
  match op with
  | Op.new => (false, (GMPyContext_new B w).2)
  | Op.context kw => (raised (GMPyContext_context B kw w).1, (GMPyContext_context B kw w).2)
  | Op.ieee bitwidth =>
    (raised (GMPyContext_ieee B bitwidth w).1, (GMPyContext_ieee B bitwidth w).2)
  | Op.copy self =>
    (raised (GMPyContext_context_copy B self w).1, (GMPyContext_context_copy B self w).2)
  | Op.get_context t => (false, (GMPyContext_current B t w).2)
  | Op.set_context t other =>
    (raised (GMPyContext_set_context B t other w).1, (GMPyContext_set_context B t other w).2)
  | Op.local_context t base kw =>
    (raised (GMPyContext_local_context B t base kw w).1,
      (GMPyContext_local_context B t base kw w).2)
  | Op.manager_enter t m =>
    (raised (GMPyContextManager_enter B t m w).1, (GMPyContextManager_enter B t m w).2)
  | Op.manager_exit t m =>
    (raised (GMPyContextManager_exit B t m w).1, (GMPyContextManager_exit B t m w).2)
  | Op.enter t self => (raised (GMPyContext_enter B t self w).1, (GMPyContext_enter B t self w).2)
  | Op.exit t self => (raised (GMPyContext_exit B t self w).1, (GMPyContext_exit B t self w).2)
  | Op.clear_flags self =>
    (raised (GMPyContext_clear_flags self w).1, (GMPyContext_clear_flags self w).2)
  | Op.setattr a self value =>
    (raised (GMPyContext_setattr B a self value w).1, (GMPyContext_setattr B a self value w).2)
  | Op.thread_end t => (false, Gmpy.thread_end t w)

/-- Whether an event is the end of a thread. -/
def Op.ends_thread : Op → Bool
  | Op.thread_end _ => true
  | _ => false

/-- The world after a sequence of calls. -/
def run (B : Backend) : List Op → World → World
  | [], w => w
  | op :: ops, w => run B ops (op.exec B w).2

/-- Whether every call of a sequence satisfies the condition `ok` in the world in which
it is made. -/
def admissible (B : Backend) (ok : Op → World → Bool) : List Op → World → Bool
  | [], _ => true
  | op :: ops, w => ok op w && admissible B ok ops (op.exec B w).2

/-- The rounding rule of a struct: `round == MPFR_RNDA` implies that both MPC rounding
modes are `MPFR_RNDN`. -/
def rounding_rule (c : gmpy_context) : Prop :=
  c.mpfr_round = MPFR_RNDA → c.real_round = MPFR_RNDN ∧ c.imag_round = MPFR_RNDN

/-- The calls after which the rounding rule is established: every call except a
`local_context` call that raises, and except an assignment to `real_round` or
`imag_round` of a context whose `round` is `MPFR_RNDA`. -/
def keeps_rounding_rule (B : Backend) (op : Op) (w : World) : Bool :=
  match op with
  | Op.local_context _ _ _ => ! (op.exec B w).1
  | Op.setattr Attr.real_round self _ =>
    match w.ctx self with
    | some c => decide (c.mpfr_round ≠ MPFR_RNDA)
    | none => true
  | Op.setattr Attr.imag_round self _ =>
    match w.ctx self with
    | some c => decide (c.mpfr_round ≠ MPFR_RNDA)
    | none => true
  | _ => true

/-- Every context object of the heap has a struct satisfying `P`. -/
def HeapAll (P : gmpy_context → Prop) (w : World) : Prop := ∀ o ∈ w.heap, P o.ctx

/-! ## Reference data for examples -/

/-- MPFR 3.1 on an LP64 platform: precisions from 2 to `LONG_MAX`, default exponent
bounds `±(2^30 - 1)`, and exponents accepted between `1 - 2^62` and `2^62 - 1`. -/
def mpfr3 : Backend :=
  { MPFR_PREC_MIN := 2
    MPFR_PREC_MAX := LONG_MAX
    MPFR_EMAX_DEFAULT := 2 ^ 30 - 1
    MPFR_EMIN_DEFAULT := -(2 ^ 30 - 1)
    emin_ok := fun e => decide (1 - 2 ^ 62 ≤ e ∧ e ≤ 2 ^ 62 - 1)
    emax_ok := fun e => decide (1 - 2 ^ 62 ≤ e ∧ e ≤ 2 ^ 62 - 1) }

/-- The world at start-up: no context object, no thread bound, MPFR's registers at their
defaults. -/
def World.init (B : Backend) : World :=
  { heap := [], tls := [], cached_context := none,
    emin := B.MPFR_EMIN_DEFAULT, emax := B.MPFR_EMAX_DEFAULT }

/-- The address that `GMPyContext_set_context` binds when asked to install the object
`o` found at address `c` in world `w`: `c` itself, or the fresh copy of a readonly `o`. -/
def installed (w : World) (c : Nat) (o : GMPyContextObject) : Nat :=
  if o.ctx.readonly ≠ 0 then w.heap.length else c

/-- The struct of the context that `current()` returns to thread `t` in world `w`
(read in the world that `current()` leaves): the fields of the active context. -/
def active (B : Backend) (t : Nat) (w : World) : Option gmpy_context :=
  (GMPyContext_current B t w).2.ctx (GMPyContext_current B t w).1

/-- `local_context(precision=100)`: the keyword set with only `precision` supplied. -/
def kw_precision_100 : Kwargs := { precision := some (PyVal.int 100) }

/-- A world in which thread 0 has looked up its (default) context, at address 0, and
`ieee(32)` has then been called, giving a second context at address 1. -/
def world_with_preset : World :=
  (GMPyContext_ieee mpfr3 (PyVal.int 32) (GMPyContext_current mpfr3 0 (World.init mpfr3)).2).2

/-- `local_context(precision=0)`: a precision below `MPFR_PREC_MIN`. -/
def kw_precision_0 : Kwargs := { precision := some (PyVal.int 0) }

/-- The world after thread 0 has looked up its (default) context, at address 0. -/
def world_thread0 : World := (GMPyContext_current mpfr3 0 (World.init mpfr3)).2

/-- The world after thread 0 has looked up its context and then executed
`get_context().readonly = True`: the active context of thread 0 is readonly. -/
def world_active_readonly : World :=
  (GMPyContext_setattr mpfr3 Attr.readonly 0 (PyVal.bool true) world_thread0).2

/-- `context(emin=-5, emax=2**62)`: MPFR 3.1 accepts the `emin` and rejects the `emax`. -/
def kw_emin_ok_emax_bad : Kwargs :=
  { emax := some (PyVal.int (2 ^ 62)), emin := some (PyVal.int (-5)) }

/-- The context object at address 0 of `world_active_readonly`: the default fields with
`readonly` set, cached by thread 0. -/
def readonly_default_object : GMPyContextObject :=
  { ctx := { new_ctx mpfr3 with readonly := 1 }, tstate := some 0 }

/-- The context object at address 1 of `world_with_preset`: what `ieee(32)` built. -/
def ieee32_object : GMPyContextObject :=
  { ctx := { new_ctx mpfr3 with subnormalize := 1, mpfr_prec := 24, emax := 128, emin := -148 },
    tstate := none }

/-- `local_context(round=MPFR_RNDA, real_round=MPFR_RNDU)`. -/
def kw_round_away : Kwargs :=
  { round := some (PyVal.int MPFR_RNDA), real_round := some (PyVal.int MPFR_RNDU) }

/-- Create a context, set `round = MPFR_RNDA`, then set `real_round = MPFR_RNDU`. -/
def ops_round_then_real_round : List Op :=
  [Op.new, Op.setattr Attr.round 0 (PyVal.int MPFR_RNDA),
    Op.setattr Attr.real_round 0 (PyVal.int MPFR_RNDU)]

/-- Create a context, set `real_round = MPFR_RNDU`, then set `round = MPFR_RNDA`. -/
def ops_real_round_then_round : List Op :=
  [Op.new, Op.setattr Attr.real_round 0 (PyVal.int MPFR_RNDU),
    Op.setattr Attr.round 0 (PyVal.int MPFR_RNDA)]

/-! ## Option sets, getters and the thread cache -/

/-- The backend's own types are C types of the platform: `mpfr_prec_t` and `mpfr_exp_t`
are `long`, so the precision bounds and every exponent MPFR accepts fit a C `long`. -/
def Backend.c_typed (B : Backend) : Prop :=
  LONG_MIN ≤ B.MPFR_PREC_MIN ∧ B.MPFR_PREC_MAX ≤ LONG_MAX ∧
  (∀ e, B.emin_ok e = true → LONG_MIN ≤ e ∧ e ≤ LONG_MAX) ∧
  (∀ e, B.emax_ok e = true → LONG_MIN ≤ e ∧ e ≤ LONG_MAX)

/-- Create a context at address 0, then assign `emin = 5` to it. -/
def ops_set_emin_positive : List Op := [Op.new, Op.setattr Attr.emin 0 (PyVal.int 5)]

/-- The value a keyword option has after parsing: the converted argument when one is
supplied and converts, the pre-filled value otherwise. -/
def option_value (conv : PyVal → Option Int) (arg : Option PyVal) (dflt : Int) : Int :=
  match arg with
  | none => dflt
  | some v => (conv v).getD dflt

/-- Whether an optional argument, when supplied, converts under its format unit. -/
def converts (conv : PyVal → Option Int) (arg : Option PyVal) : Bool :=
  match arg with
  | none => true
  | some v => (conv v).isSome

/-- Every supplied option converts under its unit of the format `"|llliiilliiiiiiiii"`:
it is a Python integer (or bool) that fits the C `long` or `int` it is stored in. -/
def Kwargs.well_typed (kw : Kwargs) : Bool :=
  converts convert_l kw.precision && converts convert_l kw.real_prec &&
  converts convert_l kw.imag_prec && converts convert_i kw.round &&
  converts convert_i kw.real_round && converts convert_i kw.imag_round &&
  converts convert_l kw.emax && converts convert_l kw.emin &&
  converts convert_i kw.subnormalize && converts convert_i kw.trap_underflow &&
  converts convert_i kw.trap_overflow && converts convert_i kw.trap_inexact &&
  converts convert_i kw.trap_invalid && converts convert_i kw.trap_erange &&
  converts convert_i kw.trap_divzero && converts convert_i kw.trap_expbound &&
  converts convert_i kw.allow_complex

/-- The option set that a keyword call stands for: each of the seventeen options takes
its supplied value, and the value of `d` when it is not supplied. -/
def options_over (kw : Kwargs) (d : gmpy_context) : gmpy_context :=
  { d with
    mpfr_prec := option_value convert_l kw.precision d.mpfr_prec
    real_prec := option_value convert_l kw.real_prec d.real_prec
    imag_prec := option_value convert_l kw.imag_prec d.imag_prec
    mpfr_round := option_value convert_i kw.round d.mpfr_round
    real_round := option_value convert_i kw.real_round d.real_round
    imag_round := option_value convert_i kw.imag_round d.imag_round
    emax := option_value convert_l kw.emax d.emax
    emin := option_value convert_l kw.emin d.emin
    subnormalize := option_value convert_i kw.subnormalize d.subnormalize
    trap_underflow := option_value convert_i kw.trap_underflow d.trap_underflow
    trap_overflow := option_value convert_i kw.trap_overflow d.trap_overflow
    trap_inexact := option_value convert_i kw.trap_inexact d.trap_inexact
    trap_invalid := option_value convert_i kw.trap_invalid d.trap_invalid
    trap_erange := option_value convert_i kw.trap_erange d.trap_erange
    trap_divzero := option_value convert_i kw.trap_divzero d.trap_divzero
    trap_expbound := option_value convert_i kw.trap_expbound d.trap_expbound
    allow_complex := option_value convert_i kw.allow_complex d.allow_complex }

/-- The values the specification allows for `real_round` and `imag_round`: NEAREST,
TOWARD_ZERO, UP, DOWN or DEFAULT. -/
def is_mpc_rounding (v : Int) : Prop :=
  v = MPFR_RNDN ∨ v = MPFR_RNDZ ∨ v = MPFR_RNDU ∨ v = MPFR_RNDD ∨ v = GMPY_DEFAULT

/-- The validation rules as the specification words them, for an option set `c`:
precision in range; `real_prec` and `imag_prec` DEFAULT or in range; `round` one of the
five modes; `real_round` and `imag_round`, taken as NEAREST when `round` is
AWAY_FROM_ZERO, among the four MPC modes or DEFAULT; `emin < 0 < emax`; and the backend
accepts both bounds. -/
def spec_options_valid (B : Backend) (c : gmpy_context) : Prop :=
  (B.MPFR_PREC_MIN ≤ c.mpfr_prec ∧ c.mpfr_prec ≤ B.MPFR_PREC_MAX) ∧
  (c.real_prec = GMPY_DEFAULT ∨
    (B.MPFR_PREC_MIN ≤ c.real_prec ∧ c.real_prec ≤ B.MPFR_PREC_MAX)) ∧
  (c.imag_prec = GMPY_DEFAULT ∨
    (B.MPFR_PREC_MIN ≤ c.imag_prec ∧ c.imag_prec ≤ B.MPFR_PREC_MAX)) ∧
  (c.mpfr_round = MPFR_RNDN ∨ c.mpfr_round = MPFR_RNDZ ∨ c.mpfr_round = MPFR_RNDU ∨
    c.mpfr_round = MPFR_RNDD ∨ c.mpfr_round = MPFR_RNDA) ∧
  is_mpc_rounding (if c.mpfr_round = MPFR_RNDA then MPFR_RNDN else c.real_round) ∧
  is_mpc_rounding (if c.mpfr_round = MPFR_RNDA then MPFR_RNDN else c.imag_round) ∧
  (c.emin < 0 ∧ 0 < c.emax) ∧
  (B.emin_ok c.emin = true ∧ B.emax_ok c.emax = true)

/-- `GMPyContext_get_precision`: the field `mpfr_prec` as a Python integer. -/
def GMPyContext_get_precision (self : gmpy_context) : Int := self.mpfr_prec

/-- `GMPyContext_get_round`: the field `mpfr_round` as a Python integer. -/
def GMPyContext_get_round (self : gmpy_context) : Int := self.mpfr_round

/-- `GMPyContext_get_emin`: the field `emin` as a Python integer. -/
def GMPyContext_get_emin (self : gmpy_context) : Int := self.emin

/-- `GMPyContext_get_emax`: the field `emax` as a Python integer. -/
def GMPyContext_get_emax (self : gmpy_context) : Int := self.emax

/-- The getter generated by `GETSET_BOOLEAN(NAME)`: `PyBool_FromLong` of the field. -/
def GETSET_BOOLEAN_get (field : Int) : Bool := decide (field ≠ 0)

/-- `context(precision=p, round=r, emin=en, emax=ex)`: exactly these four options. -/
def kw_four (p r en ex : Int) : Kwargs :=
  { precision := some (PyVal.int p), round := some (PyVal.int r),
    emax := some (PyVal.int ex), emin := some (PyVal.int en) }

/-- Consistency of the one-slot cache with the thread dictionaries: the cached address
holds a context object, and if that object records thread state `t` then it is the
context bound to `t`. -/
def World.cache_ok (w : World) : Prop :=
  ∀ r, w.cached_context = some r →
    ∃ o, w.obj r = some o ∧ ∀ t, o.tstate = some t → w.binding t = some r

/-- The world `w1` differs from `w` only in ways that neither the thread dictionaries nor
the cache can see: same bindings, same cache slot, and every object of `w` is still
there with the thread state it had (its struct may have changed, objects may have been
added, MPFR's registers may have moved). -/
def World.frames (w w1 : World) : Prop :=
  w1.cached_context = w.cached_context ∧ w1.tls = w.tls ∧
  ∀ r o, w.obj r = some o → ∃ o1, w1.obj r = some o1 ∧ o1.tstate = o.tstate

/-- Whether an event changes the binding of thread `t`: `set_context` and the `__enter__`
and `__exit__` methods, made by `t`, and the end of `t`. -/
def Op.sets_thread (t : Nat) : Op → Bool
  | Op.thread_end t1 => decide (t1 = t)
  | Op.set_context t1 _ => decide (t1 = t)
  | Op.manager_enter t1 _ => decide (t1 = t)
  | Op.manager_exit t1 _ => decide (t1 = t)
  | Op.enter t1 _ => decide (t1 = t)
  | Op.exit t1 _ => decide (t1 = t)
  | _ => false

/-- The context object at address 0 of `world_thread0`: the default fields, cached by
thread 0. -/
def thread0_default_object : GMPyContextObject :=
  { ctx := new_ctx mpfr3, tstate := some 0 }

/-! ## The cache slot, scope handles -/

/-- The cached object records a thread: whenever the cache slot is filled, it holds the
address of a context object whose `tstate` is set. -/
def World.cache_owned (w : World) : Prop :=
  ∀ r, w.cached_context = some r → ∃ o t, w.obj r = some o ∧ o.tstate = some t

/-- No keyword option supplied. -/
def kw_none : Kwargs := { }

/-! ## The operation templates of `gmpy2_macros.h` -/

/-- MPFR's sticky exception flags, one set for the whole process: what
`mpfr_underflow_p`, `mpfr_overflow_p`, `mpfr_nanflag_p`, `mpfr_inexflag_p`,
`mpfr_erangeflag_p` and `mpfr_divby0_p` read. -/
structure mpfr_flags where
  underflow : Bool
  overflow : Bool
  nanflag : Bool
  inexflag : Bool
  erangeflag : Bool
  divby0 : Bool
deriving DecidableEq

/-- All six flags down, the state that `mpfr_clear_flags()` leaves. -/
def mpfr_flags.clear : mpfr_flags :=
  { underflow := false, overflow := false, nanflag := false, inexflag := false,
    erangeflag := false, divby0 := false }

/-- MPFR functions only raise flags: the flags after a call are the flags before it
together with those the call raised. -/
def mpfr_flags.raise (old new : mpfr_flags) : mpfr_flags :=
  { underflow := old.underflow || new.underflow
    overflow := old.overflow || new.overflow
    nanflag := old.nanflag || new.nanflag
    inexflag := old.inexflag || new.inexflag
    erangeflag := old.erangeflag || new.erangeflag
    divby0 := old.divby0 || new.divby0 }

/-- The calls that the expansion of a template makes to code outside the template, as
they are recorded in the order they are made.  A call of a backend primitive is recorded
with the name of the primitive and the sticky flags standing when it is invoked; a
cleanup is recorded with the sticky flags it finds. -/
inductive Call where
  | GMPy_MPFR_New
  | GMPy_MPFR_From_Real
  | GMPy_MPC_New
  | GMPy_MPC_From_Complex
  | mpfr_clear_flags
  | mpfr (FUNC : String) (standing : mpfr_flags)
  | mpc (FUNC : String) (standing : mpfr_flags)
  | GMPY_MPFR_CLEANUP (found : mpfr_flags)
  | GMPY_MPC_CLEANUP (found : mpfr_flags)
deriving DecidableEq

/-- The state the templates run in: the contexts and threads of `gmpy_context.c`, MPFR's
sticky flags, and the record of calls made so far. -/
structure Machine where
  world : World
  flags : mpfr_flags
  calls : List Call
deriving DecidableEq

/-- Append one call to the record. -/
def Machine.log (m : Machine) (c : Call) : Machine := { m with calls := m.calls ++ [c] }

/-- The exceptions an operation can end with: those of `PyErr`, raised by the templates
themselves, and the typed conditions of the cleanup. -/
inductive OpErr where
  | py (e : PyErr)
  | UnderflowError
  | OverflowError
  | InexactError
  | InvalidOperationError
  | RangeError
  | DivisionByZeroError
  | ExponentOutOfBounds
deriving DecidableEq

/-- `TYPE_ERROR(msg)`. -/
def TYPE_ERROR (msg : String) : OpErr := OpErr.py (PyErr.TypeError msg)

/-- The object a dispatched operation returns: an `MPFR_Object` (`f`, `rc`) or an
`MPC_Object` (`c`, `rc`). -/
inductive PyNumber (R C : Type) where
  | mpfr (f : R) (rc : Int)
  | mpc (c : C) (rc : Int)

/-- The `self` argument of a `GMPy_Context_NAME` function: `NULL`, a context object at
an address, or any other object. -/
inductive Self where
  | NULL
  | CTXT (r : Nat)
  | other
deriving DecidableEq

/-- What the templates use and the two source files do not define: the classification
macros, the allocators and converters (each may fail with an exception, and may change
the state), the backend primitives by name (destination, operands, rounding mode and
the two exponent registers in; value, ternary value and raised flags out), the range
test (value, `emin`, `emax`) and the range coercion (value, ternary value, `emin`, `emax`,
rounding mode) used by the cleanup, and the cleanup of complex results. -/
structure Externals (Obj R C : Type) where
  IS_REAL : Obj → Bool
  IS_COMPLEX : Obj → Bool
  GMPy_MPFR_New : Int → Nat → Machine → Except OpErr R × Machine
  GMPy_MPFR_From_Real : Obj → Int → Nat → Machine → Except OpErr R × Machine
  GMPy_MPC_New : Int → Int → Nat → Machine → Except OpErr C × Machine
  GMPy_MPC_From_Complex : Obj → Int → Int → Nat → Machine → Except OpErr C × Machine
  mpfr : String → R → List R → Int → Int → Int → R × Int × mpfr_flags
  mpc : String → C → List C → Int → Int → Int → C × Int × mpfr_flags
  GET_MPC_ROUND : gmpy_context → Int
  exponent_out_of_bounds : R → Int → Int → Bool
  mpfr_check_range : R → Int → Int → Int → Int → R × Int × mpfr_flags
  GMPY_MPC_CLEANUP : C → Int → Nat → String → Machine →
    Except OpErr (PyNumber R C) × Machine

/-- Modelled from the spec: the macro `CHECK_CONTEXT(context)`, used by every template
and defined in neither source file.  "When an operation is invoked as a method of a
specific Context instance ... that Context is used in place of `current()`; otherwise
`current()` supplies the context": a `NULL` context is replaced by the active context of
the calling thread `t`, any other is kept. -/
def CHECK_CONTEXT (B : Backend) (t : Nat) (context : Option Nat) (m : Machine) :
    Nat × Machine :=
  match context with
  | some r => (r, m)
  | none =>
    ((GMPyContext_current B t m.world).1,
      { m with world := (GMPyContext_current B t m.world).2 })

/-- Modelled from the spec: the macro `GET_MPFR_ROUND(context)`, defined in neither
source file.  The real primitive is invoked "with `context.rounding_mode`": the field
`mpfr_round`. -/
def GET_MPFR_ROUND (c : gmpy_context) : Int := c.mpfr_round

/-- The statement `mpfr_clear_flags();`. -/
def mpfr_clear_flags (m : Machine) : Machine :=
  { m with flags := mpfr_flags.clear, calls := m.calls ++ [Call.mpfr_clear_flags] }

/-- The statement `result->rc = mpfr_##FUNC(result->f, ..., rnd);`: the primitive runs on
the current exponent registers and raises sticky flags. -/
def call_mpfr {Obj R C : Type} (E : Externals Obj R C) (FUNC : String) (result : R)
    (args : List R) (rnd : Int) (m : Machine) : (R × Int) × Machine :=
  let r := E.mpfr FUNC result args rnd m.world.emin m.world.emax
  ((r.1, r.2.1),
    { m with flags := m.flags.raise r.2.2, calls := m.calls ++ [Call.mpfr FUNC m.flags] })

/-- The statement `result->rc = mpc_##FUNC(result->c, ..., rnd);`. -/
def call_mpc {Obj R C : Type} (E : Externals Obj R C) (FUNC : String) (result : C)
    (args : List C) (rnd : Int) (m : Machine) : (C × Int) × Machine :=
  let r := E.mpc FUNC result args rnd m.world.emin m.world.emax
  ((r.1, r.2.1),
    { m with flags := m.flags.raise r.2.2, calls := m.calls ++ [Call.mpc FUNC m.flags] })

/-- The six exception kinds of the cleanup protocol. -/
inductive Kind where
  | underflow | overflow | inexact | invalid | erange | divzero
deriving DecidableEq

/-- Whether the backend signaled a kind: its sticky flag. -/
def Kind.signaled : Kind → mpfr_flags → Bool
  | Kind.underflow, s => s.underflow
  | Kind.overflow, s => s.overflow
  | Kind.inexact, s => s.inexflag
  | Kind.invalid, s => s.nanflag
  | Kind.erange, s => s.erangeflag
  | Kind.divzero, s => s.divby0

/-- The sticky flag of a kind in a context. -/
def Kind.flag : Kind → gmpy_context → Int
  | Kind.underflow, c => c.underflow
  | Kind.overflow, c => c.overflow
  | Kind.inexact, c => c.inexact
  | Kind.invalid, c => c.invalid
  | Kind.erange, c => c.erange
  | Kind.divzero, c => c.divzero

/-- The trap-enable of a kind in a context. -/
def Kind.trap : Kind → gmpy_context → Int
  | Kind.underflow, c => c.trap_underflow
  | Kind.overflow, c => c.trap_overflow
  | Kind.inexact, c => c.trap_inexact
  | Kind.invalid, c => c.trap_invalid
  | Kind.erange, c => c.trap_erange
  | Kind.divzero, c => c.trap_divzero

/-- The typed condition of a kind. -/
def Kind.error : Kind → OpErr
  | Kind.underflow => OpErr.UnderflowError
  | Kind.overflow => OpErr.OverflowError
  | Kind.inexact => OpErr.InexactError
  | Kind.invalid => OpErr.InvalidOperationError
  | Kind.erange => OpErr.RangeError
  | Kind.divzero => OpErr.DivisionByZeroError

/-- Modelled from the spec: the order in which the traps are examined, "recommended:
invalid, divzero, overflow, underflow, erange, inexact". -/
def Kind.order : List Kind :=
  [Kind.invalid, Kind.divzero, Kind.overflow, Kind.underflow, Kind.erange, Kind.inexact]

/-- The kinds examined before a kind. -/
def Kind.earlier (k : Kind) : List Kind := Kind.order.takeWhile (fun j => decide (j ≠ k))

/-- A kind fires: the backend signaled it and its trap-enable is on. -/
def Kind.fires (k : Kind) (s : mpfr_flags) (c : gmpy_context) : Bool :=
  k.signaled s && decide (k.trap c ≠ 0)

/-- Modelled from the spec: the merge of the cleanup protocol, "for each of the six
exception kinds, if the backend signaled it, the corresponding bit is merged (logical
OR) into `context.flags`". -/
def merge_flags (s : mpfr_flags) (c : gmpy_context) : gmpy_context :=
  { c with
    underflow := if s.underflow then 1 else c.underflow
    overflow := if s.overflow then 1 else c.overflow
    invalid := if s.nanflag then 1 else c.invalid
    inexact := if s.inexflag then 1 else c.inexact
    erange := if s.erangeflag then 1 else c.erange
    divzero := if s.divby0 then 1 else c.divzero }

/-- Modelled from the spec: the trap step of the cleanup protocol, "for each of the six
kinds, if its flag is newly set by this call AND its trap-enable is on, fail with the
corresponding typed condition", the first kind in the order of examination being the
reported cause; a flag counts as set by this call when the backend signaled it. -/
def check_traps (s : mpfr_flags) (c : gmpy_context) : Option OpErr :=
  (Kind.order.find? (fun k => k.fires s c)).map Kind.error

/-- Modelled from the spec: the macro `GMPY_MPFR_CLEANUP(result, context, name)`, which
ends every real path and is defined in neither source file; this is the "cleanup
protocol" of the specification.  The flags the backend signaled are merged into the
context.  With `trap_expbound` on and the raw exponent out of bounds the call fails with
`ExponentOutOfBounds`; with it off an out-of-bounds result is coerced, and what the
coercion signals is merged as well.  Then the first kind that was signaled and has its
trap on fails the call; otherwise the result is returned.  The `name` argument only
labels the message of the exception and is left out. -/
def GMPY_MPFR_CLEANUP {Obj R C : Type} (E : Externals Obj R C) (result : R × Int)
    (context : Nat) (m : Machine) : Except OpErr (PyNumber R C) × Machine :=
  let m0 := m.log (Call.GMPY_MPFR_CLEANUP m.flags)
  match m0.world.obj context with
  | none => (Except.error (OpErr.py (PyErr.TypeError "not a context")), m0)
  | some o =>
    let c1 := merge_flags m0.flags o.ctx
    if c1.trap_expbound ≠ 0 ∧ E.exponent_out_of_bounds result.1 c1.emin c1.emax = true then
      (Except.error OpErr.ExponentOutOfBounds,
        { m0 with world := m0.world.store context { o with ctx := c1 } })
    else
      let coerced : R × Int × mpfr_flags :=
        if E.exponent_out_of_bounds result.1 c1.emin c1.emax = true then
          E.mpfr_check_range result.1 result.2 c1.emin c1.emax c1.mpfr_round
        else (result.1, result.2, mpfr_flags.clear)
      let signals := m0.flags.raise coerced.2.2
      let c2 := merge_flags signals o.ctx
      let m1 : Machine :=
        { m0 with world := m0.world.store context { o with ctx := c2 }, flags := signals }
      match check_traps signals c2 with
      | some e => (Except.error e, m1)
      | none => (Except.ok (PyNumber.mpfr coerced.1 coerced.2.1), m1)

/-- The exception of a call that returned `NULL`, if it did. -/
def failure {α : Type} : Except OpErr α → Option OpErr
  | Except.error e => some e
  | Except.ok _ => none

/-- The exception left pending when some of the calls made in the order listed
returned `NULL`: the one raised last. -/
def pending (results : List (Option OpErr)) : OpErr :=
  ((results.reverse.filterMap id).head?).getD (OpErr.py (PyErr.TypeError ""))

/-- `GMPy_Real_##NAME(x, context)` of `GMPY_MPFR_MPC_UNIOP(NAME, FUNC)`, called by
thread `t`; `GMPY_MPFR_UNIOP(NAME, FUNC)` expands to the same text. -/
def GMPY_MPFR_MPC_UNIOP.GMPy_Real_NAME {Obj R C : Type} (B : Backend)
    (E : Externals Obj R C) (FUNC : String) (t : Nat) (x : Obj) (context : Option Nat)
    (m : Machine) : Except OpErr (PyNumber R C) × Machine :=
  let cc := CHECK_CONTEXT B t context m
  let result := E.GMPy_MPFR_New 0 cc.1 (cc.2.log Call.GMPy_MPFR_New)
  let tempx := E.GMPy_MPFR_From_Real x 1 cc.1 (result.2.log Call.GMPy_MPFR_From_Real)
  match result.1, tempx.1 with
  | Except.ok res, Except.ok tx =>
    let m1 := mpfr_clear_flags tempx.2
    match m1.world.ctx cc.1 with
    | none => (Except.error (OpErr.py (PyErr.TypeError "not a context")), m1)
    | some c =>
      let r := call_mpfr E FUNC res [tx] (GET_MPFR_ROUND c) m1
      GMPY_MPFR_CLEANUP E r.1 cc.1 r.2
  | r1, r2 => (Except.error (pending [failure r1, failure r2]), tempx.2)

/-- `GMPy_Complex_##NAME(x, context)` of `GMPY_MPFR_MPC_UNIOP(NAME, FUNC)`, called by
thread `t`. -/
def GMPY_MPFR_MPC_UNIOP.GMPy_Complex_NAME {Obj R C : Type} (B : Backend)
    (E : Externals Obj R C) (FUNC : String) (t : Nat) (x : Obj) (context : Option Nat)
    (m : Machine) : Except OpErr (PyNumber R C) × Machine :=
  let cc := CHECK_CONTEXT B t context m
  let result := E.GMPy_MPC_New 0 0 cc.1 (cc.2.log Call.GMPy_MPC_New)
  let tempx := E.GMPy_MPC_From_Complex x 1 1 cc.1 (result.2.log Call.GMPy_MPC_From_Complex)
  match result.1, tempx.1 with
  | Except.ok res, Except.ok tx =>
    match tempx.2.world.ctx cc.1 with
    | none => (Except.error (OpErr.py (PyErr.TypeError "not a context")), tempx.2)
    | some c =>
      let r := call_mpc E FUNC res [tx] (E.GET_MPC_ROUND c) tempx.2
      E.GMPY_MPC_CLEANUP r.1.1 r.1.2 cc.1 (FUNC ++ "()")
        (r.2.log (Call.GMPY_MPC_CLEANUP r.2.flags))
  | r1, r2 => (Except.error (pending [failure r1, failure r2]), tempx.2)

/-- The type of `GMPy_Real_NAME` and `GMPy_Complex_NAME` of a unary operation. -/
abbrev Impl1 (Obj R C : Type) : Type :=
  Obj → Option Nat → Machine → Except OpErr (PyNumber R C) × Machine

/-- The type of `GMPy_Real_NAME` and `GMPy_Complex_NAME` of a binary operation. -/
abbrev Impl2 (Obj R C : Type) : Type :=
  Obj → Obj → Option Nat → Machine → Except OpErr (PyNumber R C) × Machine

/-- The type of `GMPy_Real_NAME` and `GMPy_Complex_NAME` of a ternary operation. -/
abbrev Impl3 (Obj R C : Type) : Type :=
  Obj → Obj → Obj → Option Nat → Machine → Except OpErr (PyNumber R C) × Machine

/-- The context a `GMPy_Context_NAME` function settles on, by
`if (self && CTXT_Check(self)) context = self; else CHECK_CONTEXT(context);`. -/
def receiver_context (B : Backend) (t : Nat) (self : Self) (m : Machine) : Nat × Machine :=
  match self with
  | Self.CTXT r => (r, m)
  | _ => CHECK_CONTEXT B t none m

/-- `GMPy_Number_##NAME(x, context)` of `GMPY_MPFR_MPC_UNIOP_TEMPLATE(NAME, FUNC)`, which
assumes that `GMPy_Real_NAME` and `GMPy_Complex_NAME` exist. -/
def GMPY_MPFR_MPC_UNIOP_TEMPLATE.GMPy_Number_NAME {Obj R C : Type} (E : Externals Obj R C)
    (FUNC : String) (GMPy_Real_NAME GMPy_Complex_NAME : Impl1 Obj R C) (x : Obj)
    (context : Option Nat) (m : Machine) : Except OpErr (PyNumber R C) × Machine :=
  if E.IS_REAL x then GMPy_Real_NAME x context m
  else if E.IS_COMPLEX x then GMPy_Complex_NAME x context m
  else (Except.error (TYPE_ERROR (FUNC ++ "() argument type not supported")), m)

/-- `GMPy_Context_##NAME(self, other)` of `GMPY_MPFR_MPC_UNIOP_TEMPLATE(NAME, FUNC)`,
called with `METH_O` by thread `t`. -/
def GMPY_MPFR_MPC_UNIOP_TEMPLATE.GMPy_Context_NAME {Obj R C : Type} (B : Backend)
    (E : Externals Obj R C) (FUNC : String) (GMPy_Real_NAME GMPy_Complex_NAME : Impl1 Obj R C)
    (t : Nat) (self : Self) (other : Obj) (m : Machine) :
    Except OpErr (PyNumber R C) × Machine :=
  let rc := receiver_context B t self m
  GMPY_MPFR_MPC_UNIOP_TEMPLATE.GMPy_Number_NAME E FUNC GMPy_Real_NAME GMPy_Complex_NAME
    other (some rc.1) rc.2

/-- `GMPy_Number_##NAME(x, context)` of `GMPY_MPFR_MPC_UNIOP(NAME, FUNC)`: the text of the
template, over the two functions the macro defines itself. -/
def GMPY_MPFR_MPC_UNIOP.GMPy_Number_NAME {Obj R C : Type} (B : Backend)
    (E : Externals Obj R C) (FUNC : String) (t : Nat) (x : Obj) (context : Option Nat)
    (m : Machine) : Except OpErr (PyNumber R C) × Machine :=
  if E.IS_REAL x then GMPY_MPFR_MPC_UNIOP.GMPy_Real_NAME B E FUNC t x context m
  else if E.IS_COMPLEX x then GMPY_MPFR_MPC_UNIOP.GMPy_Complex_NAME B E FUNC t x context m
  else (Except.error (TYPE_ERROR (FUNC ++ "() argument type not supported")), m)

/-- `GMPy_Context_##NAME(self, other)` of `GMPY_MPFR_MPC_UNIOP(NAME, FUNC)`, called with
`METH_O` by thread `t`. -/
def GMPY_MPFR_MPC_UNIOP.GMPy_Context_NAME {Obj R C : Type} (B : Backend)
    (E : Externals Obj R C) (FUNC : String) (t : Nat) (self : Self) (other : Obj)
    (m : Machine) : Except OpErr (PyNumber R C) × Machine :=
  let rc := receiver_context B t self m
  GMPY_MPFR_MPC_UNIOP.GMPy_Number_NAME B E FUNC t other (some rc.1) rc.2

/-- `GMPy_Number_##NAME(x, y, context)` of `GMPY_MPFR_MPC_BIOP_TEMPLATE(NAME, FUNC)`. -/
def GMPY_MPFR_MPC_BIOP_TEMPLATE.GMPy_Number_NAME {Obj R C : Type} (E : Externals Obj R C)
    (FUNC : String) (GMPy_Real_NAME GMPy_Complex_NAME : Impl2 Obj R C) (x y : Obj)
    (context : Option Nat) (m : Machine) : Except OpErr (PyNumber R C) × Machine :=
  if E.IS_REAL x && E.IS_REAL y then GMPy_Real_NAME x y context m
  else if E.IS_COMPLEX x && E.IS_COMPLEX y then GMPy_Complex_NAME x y context m
  else (Except.error (TYPE_ERROR (FUNC ++ "() argument type not supported")), m)

/-- `GMPy_Context_##NAME(self, args)` of `GMPY_MPFR_MPC_BIOP_TEMPLATE(NAME, FUNC)`, called
with `METH_VARARGS` by thread `t`. -/
def GMPY_MPFR_MPC_BIOP_TEMPLATE.GMPy_Context_NAME {Obj R C : Type} (B : Backend)
    (E : Externals Obj R C) (FUNC : String) (GMPy_Real_NAME GMPy_Complex_NAME : Impl2 Obj R C)
    (t : Nat) (self : Self) (args : List Obj) (m : Machine) :
    Except OpErr (PyNumber R C) × Machine :=
  if h : args.length ≠ 2 then
    (Except.error (TYPE_ERROR (FUNC ++ "() requires 2 arguments")), m)
  else
    let rc := receiver_context B t self m
    GMPY_MPFR_MPC_BIOP_TEMPLATE.GMPy_Number_NAME E FUNC GMPy_Real_NAME GMPy_Complex_NAME
      (args.get ⟨0, by omega⟩) (args.get ⟨1, by omega⟩) (some rc.1) rc.2

/-- `GMPy_Real_##NAME(x, y, z, context)` of `GMPY_MPFR_MPC_TRIOP(NAME, FUNC)`, called by
thread `t`. -/
def GMPY_MPFR_MPC_TRIOP.GMPy_Real_NAME {Obj R C : Type} (B : Backend)
    (E : Externals Obj R C) (FUNC : String) (t : Nat) (x y z : Obj) (context : Option Nat)
    (m : Machine) : Except OpErr (PyNumber R C) × Machine :=
  let cc := CHECK_CONTEXT B t context m
  let result := E.GMPy_MPFR_New 0 cc.1 (cc.2.log Call.GMPy_MPFR_New)
  let tempx := E.GMPy_MPFR_From_Real x 1 cc.1 (result.2.log Call.GMPy_MPFR_From_Real)
  let tempy := E.GMPy_MPFR_From_Real y 1 cc.1 (tempx.2.log Call.GMPy_MPFR_From_Real)
  let tempz := E.GMPy_MPFR_From_Real z 1 cc.1 (tempy.2.log Call.GMPy_MPFR_From_Real)
  match result.1, tempx.1, tempy.1, tempz.1 with
  | Except.ok res, Except.ok tx, Except.ok ty, Except.ok tz =>
    let m1 := mpfr_clear_flags tempz.2
    match m1.world.ctx cc.1 with
    | none => (Except.error (OpErr.py (PyErr.TypeError "not a context")), m1)
    | some c =>
      let r := call_mpfr E FUNC res [tx, ty, tz] (GET_MPFR_ROUND c) m1
      GMPY_MPFR_CLEANUP E r.1 cc.1 r.2
  | r1, r2, r3, r4 =>
    (Except.error (pending [failure r1, failure r2, failure r3, failure r4]), tempz.2)

/-- `GMPy_Complex_##NAME(x, y, z, context)` of `GMPY_MPFR_MPC_TRIOP(NAME, FUNC)`, called
by thread `t`.  The primitive in the text of the macro is `mpc_fma`, whatever `FUNC` is. -/
def GMPY_MPFR_MPC_TRIOP.GMPy_Complex_NAME {Obj R C : Type} (B : Backend)
    (E : Externals Obj R C) (FUNC : String) (t : Nat) (x y z : Obj) (context : Option Nat)
    (m : Machine) : Except OpErr (PyNumber R C) × Machine :=
  let cc := CHECK_CONTEXT B t context m
  let result := E.GMPy_MPC_New 0 0 cc.1 (cc.2.log Call.GMPy_MPC_New)
  let tempx := E.GMPy_MPC_From_Complex x 1 1 cc.1 (result.2.log Call.GMPy_MPC_From_Complex)
  let tempy := E.GMPy_MPC_From_Complex y 1 1 cc.1 (tempx.2.log Call.GMPy_MPC_From_Complex)
  let tempz := E.GMPy_MPC_From_Complex z 1 1 cc.1 (tempy.2.log Call.GMPy_MPC_From_Complex)
  match result.1, tempx.1, tempy.1, tempz.1 with
  | Except.ok res, Except.ok tx, Except.ok ty, Except.ok tz =>
    match tempz.2.world.ctx cc.1 with
    | none => (Except.error (OpErr.py (PyErr.TypeError "not a context")), tempz.2)
    | some c =>
      let r := call_mpc E "fma" res [tx, ty, tz] (E.GET_MPC_ROUND c) tempz.2
      E.GMPY_MPC_CLEANUP r.1.1 r.1.2 cc.1 (FUNC ++ "()")
        (r.2.log (Call.GMPY_MPC_CLEANUP r.2.flags))
  | r1, r2, r3, r4 =>
    (Except.error (pending [failure r1, failure r2, failure r3, failure r4]), tempz.2)

/-- `GMPy_Number_##NAME(x, y, z, context)` of `GMPY_MPFR_MPC_TRIOP(NAME, FUNC)`. -/
def GMPY_MPFR_MPC_TRIOP.GMPy_Number_NAME {Obj R C : Type} (B : Backend)
    (E : Externals Obj R C) (FUNC : String) (t : Nat) (x y z : Obj) (context : Option Nat)
    (m : Machine) : Except OpErr (PyNumber R C) × Machine :=
  if E.IS_REAL x && E.IS_REAL y && E.IS_REAL z then
    GMPY_MPFR_MPC_TRIOP.GMPy_Real_NAME B E FUNC t x y z context m
  else if E.IS_COMPLEX x && E.IS_COMPLEX y && E.IS_COMPLEX z then
    GMPY_MPFR_MPC_TRIOP.GMPy_Complex_NAME B E FUNC t x y z context m
  else (Except.error (TYPE_ERROR (FUNC ++ "() argument type not supported")), m)

/-- `GMPy_Context_##NAME(self, args)` of `GMPY_MPFR_MPC_TRIOP(NAME, FUNC)`, called with
`METH_VARARGS` by thread `t`. -/
def GMPY_MPFR_MPC_TRIOP.GMPy_Context_NAME {Obj R C : Type} (B : Backend)
    (E : Externals Obj R C) (FUNC : String) (t : Nat) (self : Self) (args : List Obj)
    (m : Machine) : Except OpErr (PyNumber R C) × Machine :=
  if h : args.length ≠ 3 then
    (Except.error (TYPE_ERROR (FUNC ++ "() requires 3 arguments")), m)
  else
    let rc := receiver_context B t self m
    GMPY_MPFR_MPC_TRIOP.GMPy_Number_NAME B E FUNC t (args.get ⟨0, by omega⟩)
      (args.get ⟨1, by omega⟩) (args.get ⟨2, by omega⟩) (some rc.1) rc.2

/-- `GMPy_Real_##NAME(x, context)` of `GMPY_MPFR_UNIOP(NAME, FUNC)`: the text is that of
the real function of `GMPY_MPFR_MPC_UNIOP`. -/
def GMPY_MPFR_UNIOP.GMPy_Real_NAME {Obj R C : Type} (B : Backend)
    (E : Externals Obj R C) (FUNC : String) (t : Nat) (x : Obj) (context : Option Nat)
    (m : Machine) : Except OpErr (PyNumber R C) × Machine :=
  GMPY_MPFR_MPC_UNIOP.GMPy_Real_NAME B E FUNC t x context m

/-- `GMPy_Number_##NAME(x, context)` of `GMPY_MPFR_UNIOP(NAME, FUNC)`: a real-only
operation has no complex branch. -/
def GMPY_MPFR_UNIOP.GMPy_Number_NAME {Obj R C : Type} (B : Backend)
    (E : Externals Obj R C) (FUNC : String) (t : Nat) (x : Obj) (context : Option Nat)
    (m : Machine) : Except OpErr (PyNumber R C) × Machine :=
  if E.IS_REAL x then GMPY_MPFR_UNIOP.GMPy_Real_NAME B E FUNC t x context m
  else (Except.error (TYPE_ERROR (FUNC ++ "() argument type not supported")), m)

/-- `GMPy_Context_##NAME(self, other)` of `GMPY_MPFR_UNIOP(NAME, FUNC)`, called with
`METH_O` by thread `t`. -/
def GMPY_MPFR_UNIOP.GMPy_Context_NAME {Obj R C : Type} (B : Backend)
    (E : Externals Obj R C) (FUNC : String) (t : Nat) (self : Self) (other : Obj)
    (m : Machine) : Except OpErr (PyNumber R C) × Machine :=
  let rc := receiver_context B t self m
  GMPY_MPFR_UNIOP.GMPy_Number_NAME B E FUNC t other (some rc.1) rc.2

/-- `GMPy_Number_##NAME(x, context)` of `GMPY_MPFR_UNIOP_TEMPLATE(NAME, FUNC)`, which
assumes that `GMPy_Real_NAME` exists; `GMPY_MPFR_UNIOP` expands to the same text. -/
def GMPY_MPFR_UNIOP_TEMPLATE.GMPy_Number_NAME {Obj R C : Type} (E : Externals Obj R C)
    (FUNC : String) (GMPy_Real_NAME : Impl1 Obj R C) (x : Obj)
    (context : Option Nat) (m : Machine) : Except OpErr (PyNumber R C) × Machine :=
  if E.IS_REAL x then GMPy_Real_NAME x context m
  else (Except.error (TYPE_ERROR (FUNC ++ "() argument type not supported")), m)

/-- `GMPy_Context_##NAME(self, other)` of `GMPY_MPFR_UNIOP_TEMPLATE(NAME, FUNC)` and of
`GMPY_MPFR_UNIOP(NAME, FUNC)`, called with `METH_O` by thread `t`. -/
def GMPY_MPFR_UNIOP_TEMPLATE.GMPy_Context_NAME {Obj R C : Type} (B : Backend)
    (E : Externals Obj R C) (FUNC : String) (GMPy_Real_NAME : Impl1 Obj R C)
    (t : Nat) (self : Self) (other : Obj) (m : Machine) :
    Except OpErr (PyNumber R C) × Machine :=
  let rc := receiver_context B t self m
  GMPY_MPFR_UNIOP_TEMPLATE.GMPy_Number_NAME E FUNC GMPy_Real_NAME other (some rc.1) rc.2

/-- `GMPy_Real_##NAME(x, y, context)` of `GMPY_MPFR_BINOP(NAME, FUNC)`, called by thread
`t`: the operands are converted before the result is allocated. -/
def GMPY_MPFR_BINOP.GMPy_Real_NAME {Obj R C : Type} (B : Backend)
    (E : Externals Obj R C) (FUNC : String) (t : Nat) (x y : Obj) (context : Option Nat)
    (m : Machine) : Except OpErr (PyNumber R C) × Machine :=
  let cc := CHECK_CONTEXT B t context m
  let tempx := E.GMPy_MPFR_From_Real x 1 cc.1 (cc.2.log Call.GMPy_MPFR_From_Real)
  let tempy := E.GMPy_MPFR_From_Real y 1 cc.1 (tempx.2.log Call.GMPy_MPFR_From_Real)
  let result := E.GMPy_MPFR_New 0 cc.1 (tempy.2.log Call.GMPy_MPFR_New)
  match tempx.1, tempy.1, result.1 with
  | Except.ok tx, Except.ok ty, Except.ok res =>
    let m1 := mpfr_clear_flags result.2
    match m1.world.ctx cc.1 with
    | none => (Except.error (OpErr.py (PyErr.TypeError "not a context")), m1)
    | some c =>
      let r := call_mpfr E FUNC res [tx, ty] (GET_MPFR_ROUND c) m1
      GMPY_MPFR_CLEANUP E r.1 cc.1 r.2
  | r1, r2, r3 => (Except.error (pending [failure r1, failure r2, failure r3]), result.2)

/-- `GMPy_Number_##NAME(x, y, context)` of `GMPY_MPFR_BINOP(NAME, FUNC)`. -/
def GMPY_MPFR_BINOP.GMPy_Number_NAME {Obj R C : Type} (B : Backend)
    (E : Externals Obj R C) (FUNC : String) (t : Nat) (x y : Obj) (context : Option Nat)
    (m : Machine) : Except OpErr (PyNumber R C) × Machine :=
  if E.IS_REAL x && E.IS_REAL y then GMPY_MPFR_BINOP.GMPy_Real_NAME B E FUNC t x y context m
  else (Except.error (TYPE_ERROR (FUNC ++ "() argument type not supported")), m)

/-- `GMPy_Context_##NAME(self, args)` of `GMPY_MPFR_BINOP(NAME, FUNC)`, called with
`METH_VARARGS` by thread `t`. -/
def GMPY_MPFR_BINOP.GMPy_Context_NAME {Obj R C : Type} (B : Backend)
    (E : Externals Obj R C) (FUNC : String) (t : Nat) (self : Self) (args : List Obj)
    (m : Machine) : Except OpErr (PyNumber R C) × Machine :=
  if h : args.length ≠ 2 then
    (Except.error (TYPE_ERROR (FUNC ++ "() requires 2 arguments")), m)
  else
    let rc := receiver_context B t self m
    GMPY_MPFR_BINOP.GMPy_Number_NAME B E FUNC t (args.get ⟨0, by omega⟩)
      (args.get ⟨1, by omega⟩) (some rc.1) rc.2

/-- `GMPy_Real_##NAME(context)` of `GMPY_MPFR_NOOP(NAME, FUNC)`, called by thread `t`. -/
def GMPY_MPFR_NOOP.GMPy_Real_NAME {Obj R C : Type} (B : Backend)
    (E : Externals Obj R C) (FUNC : String) (t : Nat) (context : Option Nat)
    (m : Machine) : Except OpErr (PyNumber R C) × Machine :=
  let cc := CHECK_CONTEXT B t context m
  let result := E.GMPy_MPFR_New 0 cc.1 (cc.2.log Call.GMPy_MPFR_New)
  match result.1 with
  | Except.error e => (Except.error e, result.2)
  | Except.ok res =>
    let m1 := mpfr_clear_flags result.2
    match m1.world.ctx cc.1 with
    | none => (Except.error (OpErr.py (PyErr.TypeError "not a context")), m1)
    | some c =>
      let r := call_mpfr E FUNC res [] (GET_MPFR_ROUND c) m1
      GMPY_MPFR_CLEANUP E r.1 cc.1 r.2

/-- `GMPy_Number_##NAME(context)` of `GMPY_MPFR_NOOP(NAME, FUNC)`. -/
def GMPY_MPFR_NOOP.GMPy_Number_NAME {Obj R C : Type} (B : Backend)
    (E : Externals Obj R C) (FUNC : String) (t : Nat) (context : Option Nat)
    (m : Machine) : Except OpErr (PyNumber R C) × Machine :=
  GMPY_MPFR_NOOP.GMPy_Real_NAME B E FUNC t context m

/-- `GMPy_Context_##NAME(self, args)` of `GMPY_MPFR_NOOP(NAME, FUNC)`, called with
`METH_VARARGS` by thread `t`. -/
def GMPY_MPFR_NOOP.GMPy_Context_NAME {Obj R C : Type} (B : Backend)
    (E : Externals Obj R C) (FUNC : String) (t : Nat) (self : Self) (args : List Obj)
    (m : Machine) : Except OpErr (PyNumber R C) × Machine :=
  if args.length ≠ 0 then
    (Except.error (TYPE_ERROR (FUNC ++ "() requires 0 arguments")), m)
  else
    let rc := receiver_context B t self m
    GMPY_MPFR_NOOP.GMPy_Number_NAME B E FUNC t (some rc.1) rc.2

/-- `GMPy_Function_##NAME(self, args, keywds)` of `GMPY_MPFR_CONST(NAME, FUNC)`, called by
thread `t`; `bits` is the outcome of `PyArg_ParseTupleAndKeywords` with format `"|l"`:
the precision (0 when not supplied), or the exception the parser raised. -/
def GMPY_MPFR_CONST.GMPy_Function_NAME {Obj R C : Type} (B : Backend)
    (E : Externals Obj R C) (FUNC : String) (t : Nat) (bits : Except OpErr Int)
    (m : Machine) : Except OpErr (PyNumber R C) × Machine :=
  let cc := CHECK_CONTEXT B t none m
  match bits with
  | Except.error e => (Except.error e, cc.2)
  | Except.ok b =>
    let result := E.GMPy_MPFR_New b cc.1 (cc.2.log Call.GMPy_MPFR_New)
    match result.1 with
    | Except.error e => (Except.error e, result.2)
    | Except.ok res =>
      let m1 := mpfr_clear_flags result.2
      match m1.world.ctx cc.1 with
      | none => (Except.error (OpErr.py (PyErr.TypeError "not a context")), m1)
      | some c =>
        let r := call_mpfr E FUNC res [] (GET_MPFR_ROUND c) m1
        GMPY_MPFR_CLEANUP E r.1 cc.1 r.2

/-! ## The legacy macro `MPFR_MONOP` -/

/-- Modelled from the spec: the macro `CHECK_CONTEXT_SET_EXPONENT(context)`, used by the
legacy macros and defined in neither source file.  A `NULL` context is replaced as by
`CHECK_CONTEXT`; "the source treats these registers as implicitly synchronized with
whichever context is current": the exponent bounds of the context are then written to
MPFR's registers. -/
def CHECK_CONTEXT_SET_EXPONENT (B : Backend) (t : Nat) (context : Option Nat) (m : Machine) :
    Nat × Machine :=
  let cc := CHECK_CONTEXT B t context m
  match cc.2.world.ctx cc.1 with
  | none => cc
  | some c => (cc.1, { cc.2 with world := push_bounds B c cc.2.world })

/-- Modelled from the spec: the macro `MERGE_FLAGS`, defined in neither source file: the
merge step of the cleanup protocol, run on the variable `context` of the function it is
expanded in. -/
def MERGE_FLAGS (context : Nat) (m : Machine) : Machine :=
  match m.world.obj context with
  | none => m
  | some o =>
    { m with world := m.world.store context { o with ctx := merge_flags m.flags o.ctx } }

/-- Modelled from the spec: the macro `CHECK_FLAGS(name)`, defined in neither source
file: the trap step of the cleanup protocol, which raises the typed condition of the
first kind that fires and jumps to the label `done`.  The value is the exception raised,
if any. -/
def CHECK_FLAGS (context : Nat) (m : Machine) : Option OpErr :=
  match m.world.ctx context with
  | none => none
  | some c => check_traps m.flags c

/-- The fields of an `MPFR_Object` that `MPFR_MONOP` reads. -/
structure MPFR_Object (R : Type) where
  f : R
  rc : Int
  round_mode : Int

/-- What a function ending in `done: return (PyObject *) r;` hands back: the pointer
returned (`NULL`, or `r` with its `f` and `rc`) and the exception pending on return. -/
structure Returned (R : Type) where
  result : Option (R × Int)
  exception : Option OpErr
deriving DecidableEq

/-- `Py##NAME(x)` of `MPFR_MONOP(NAME)`, called by thread `t`; the primitive `NAME` is
`mpfr_##FUNC`, and `MPFR_Check_x` is the outcome of `MPFR_Check(x)`.  When the test holds
the primitive is applied to `x->f` and nothing else is done.  Otherwise `x->f` is copied
with `mpfr_set`, the flags are cleared, the copy is brought into range with the rounding
mode and ternary value of `x`, the primitive is applied to the copy in place, and
`MERGE_FLAGS` and `CHECK_FLAGS` are run.  In both branches `r` is returned. -/
def MPFR_MONOP.PyNAME {Obj R C : Type} (B : Backend) (E : Externals Obj R C)
    (FUNC : String) (t : Nat) (MPFR_Check_x : Bool) (x : MPFR_Object R) (m : Machine) :
    Returned R × Machine :=
  let cc := CHECK_CONTEXT_SET_EXPONENT B t none m
  let r := E.GMPy_MPFR_New 0 cc.1 (cc.2.log Call.GMPy_MPFR_New)
  match r.1 with
  | Except.error e => ({ result := none, exception := some e }, r.2)
  | Except.ok res =>
    match r.2.world.ctx cc.1 with
    | none =>
      ({ result := none, exception := some (OpErr.py (PyErr.TypeError "not a context")) }, r.2)
    | some c =>
      if MPFR_Check_x then
        let v := call_mpfr E FUNC res [x.f] c.mpfr_round r.2
        ({ result := some v.1, exception := none }, v.2)
      else
        let s := call_mpfr E "set" res [x.f] c.mpfr_round r.2
        let m1 := mpfr_clear_flags s.2
        let cr := E.mpfr_check_range s.1.1 x.rc m1.world.emin m1.world.emax x.round_mode
        let m2 : Machine := { m1 with flags := m1.flags.raise cr.2.2 }
        let v := call_mpfr E FUNC cr.1 [cr.1] c.mpfr_round m2
        let m3 := MERGE_FLAGS cc.1 v.2
        ({ result := some v.1, exception := CHECK_FLAGS cc.1 m3 }, m3)

/-- The trap policy, said of the outcome `out` of a real operation run on the context at
address `context`, whose object was `o` when the primitive returned the value, ternary
value and signals `p`, a kind `k` being among the signals: the context has the sticky
flag of `k` set afterwards; with the trap of `k` on the call fails; with the value in
bounds, the error is the typed condition of `k` when the trap of `k` is on and no kind
examined before `k` fires, and the value and ternary value are returned when no kind
fires. -/
def follows_trap_policy {Obj R C : Type} (E : Externals Obj R C)
    (out : Except OpErr (PyNumber R C) × Machine) (context : Nat) (o : GMPyContextObject)
    (k : Kind) (p : R × Int × mpfr_flags) : Prop :=
  (∃ c1, out.2.world.ctx context = some c1 ∧ k.flag c1 = 1) ∧
  (k.trap o.ctx ≠ 0 → ∃ e, out.1 = Except.error e) ∧
  (E.exponent_out_of_bounds p.1 o.ctx.emin o.ctx.emax = false →
    (k.trap o.ctx ≠ 0 → (∀ j ∈ k.earlier, j.fires p.2.2 o.ctx = false) →
      out.1 = Except.error k.error) ∧
    ((∀ j ∈ Kind.order, j.fires p.2.2 o.ctx = false) →
      out.1 = Except.ok (PyNumber.mpfr p.1 p.2.1)))

/-- The three statements that end every real path, run on the state `m` that the
allocation and the conversions left:
`mpfr_clear_flags(); result->rc = mpfr_##FUNC(...); GMPY_MPFR_CLEANUP(result, context, ...)`. -/
def real_tail {Obj R C : Type} (E : Externals Obj R C) (FUNC : String) (result : R)
    (args : List R) (rnd : Int) (context : Nat) (m : Machine) :
    Except OpErr (PyNumber R C) × Machine :=
  GMPY_MPFR_CLEANUP E (call_mpfr E FUNC result args rnd (mpfr_clear_flags m)).1 context
    (call_mpfr E FUNC result args rnd (mpfr_clear_flags m)).2

/-! ## A small backend for the examples -/

/-- Operands of the examples: a Python integer, a Gaussian integer standing for a complex
number, and a string. -/
inductive Operand where
  | int (n : Int)
  | gaussian (re im : Int)
  | str
deriving DecidableEq

/-- Real values of the example backend: an integer, a signed infinity, or NaN. -/
inductive ToyReal where
  | fin (q : Int)
  | inf (negative : Bool)
  | nan
deriving DecidableEq

/-- The example primitives.  `div` divides integers: a nonzero value by zero gives the
signed infinity and raises `divby0`, zero by zero gives NaN and raises `nanflag`, an
inexact quotient raises `inexflag`.  `pow` overflows to infinity when the exponent
operand is above the `emax` register, raising `overflow` and `inexflag`.  `neg` changes
the sign and `set` copies; both raise `nanflag` on NaN.  Any other name returns its
destination. -/
def toy_mpfr (FUNC : String) (dest : ToyReal) (args : List ToyReal) (_rnd _emin emax : Int) :
    ToyReal × Int × mpfr_flags :=
  if FUNC = "div" then
    match args with
    | [ToyReal.fin a, ToyReal.fin b] =>
      if b = 0 then
        if a = 0 then (ToyReal.nan, 0, { mpfr_flags.clear with nanflag := true })
        else (ToyReal.inf (decide (a < 0)), 0, { mpfr_flags.clear with divby0 := true })
      else if a % b = 0 then (ToyReal.fin (a / b), 0, mpfr_flags.clear)
      else (ToyReal.fin (a / b), -1, { mpfr_flags.clear with inexflag := true })
    | _ => (ToyReal.nan, 0, { mpfr_flags.clear with nanflag := true })
  else if FUNC = "pow" then
    match args with
    | [ToyReal.fin a, ToyReal.fin b] =>
      if b > emax then
        (ToyReal.inf false, 1, { mpfr_flags.clear with overflow := true, inexflag := true })
      else (ToyReal.fin (a ^ b.toNat), 0, mpfr_flags.clear)
    | _ => (ToyReal.nan, 0, { mpfr_flags.clear with nanflag := true })
  else if FUNC = "neg" then
    match args with
    | [ToyReal.fin a] => (ToyReal.fin (-a), 0, mpfr_flags.clear)
    | [ToyReal.inf negative] => (ToyReal.inf (!negative), 0, mpfr_flags.clear)
    | _ => (ToyReal.nan, 0, { mpfr_flags.clear with nanflag := true })
  else if FUNC = "set" then
    match args with
    | [ToyReal.nan] => (ToyReal.nan, 0, { mpfr_flags.clear with nanflag := true })
    | [v] => (v, 0, mpfr_flags.clear)
    | _ => (dest, 0, mpfr_flags.clear)
  else (dest, 0, mpfr_flags.clear)

/-- The example externals: integers are Real, integers and Gaussian integers are
Complex, strings are neither; allocation and conversion never touch the state; no
exponent is out of bounds; the complex primitives return their first operand. -/
def toy : Externals Operand ToyReal (Int × Int) :=
  { IS_REAL := fun x => match x with
      | Operand.int _ => true
      | _ => false
    IS_COMPLEX := fun x => match x with
      | Operand.str => false
      | _ => true
    GMPy_MPFR_New := fun _ _ m => (Except.ok (ToyReal.fin 0), m)
    GMPy_MPFR_From_Real := fun x _ _ m => match x with
      | Operand.int n => (Except.ok (ToyReal.fin n), m)
      | _ => (Except.error (TYPE_ERROR "object could not be converted to 'mpfr'"), m)
    GMPy_MPC_New := fun _ _ _ m => (Except.ok (0, 0), m)
    GMPy_MPC_From_Complex := fun x _ _ _ m => match x with
      | Operand.int n => (Except.ok (n, 0), m)
      | Operand.gaussian a b => (Except.ok (a, b), m)
      | Operand.str => (Except.error (TYPE_ERROR "object could not be converted to 'mpc'"), m)
    mpfr := toy_mpfr
    mpc := fun _ dest args _ _ _ => (args.headD dest, 0, mpfr_flags.clear)
    GET_MPC_ROUND := fun _ => 0
    exponent_out_of_bounds := fun _ _ _ => false
    mpfr_check_range := fun v rc _ _ _ => (v, rc, mpfr_flags.clear)
    GMPY_MPC_CLEANUP := fun c rc _ _ m => (Except.ok (PyNumber.mpc c rc), m) }

/-- The state in which thread 0 has looked up its default context (address 0), with
MPFR's flags down and nothing recorded. -/
def machine_thread0 : Machine :=
  { world := world_thread0, flags := mpfr_flags.clear, calls := [] }

/-- The state of `machine_thread0` with `inexflag` left standing by an earlier call. -/
def machine_stale_inexact : Machine :=
  { world := world_thread0, flags := { mpfr_flags.clear with inexflag := true }, calls := [] }

/-- The state of `machine_thread0` after `get_context().trap_divzero = True`. -/
def machine_trap_divzero : Machine :=
  { world := (GMPyContext_setattr mpfr3 Attr.trap_divzero 0 (PyVal.bool true) world_thread0).2,
    flags := mpfr_flags.clear, calls := [] }

/-- The state of `machine_thread0` after `get_context().trap_inexact = True`. -/
def machine_trap_inexact : Machine :=
  { world := (GMPyContext_setattr mpfr3 Attr.trap_inexact 0 (PyVal.bool true) world_thread0).2,
    flags := mpfr_flags.clear, calls := [] }

/-- The state of `machine_thread0` after `get_context().trap_invalid = True`. -/
def machine_trap_invalid : Machine :=
  { world := (GMPyContext_setattr mpfr3 Attr.trap_invalid 0 (PyVal.bool true) world_thread0).2,
    flags := mpfr_flags.clear, calls := [] }

/-- The `mpfr` NaN of the examples, with ternary value 0 and rounding mode `MPFR_RNDN`. -/
def mpfr_nan : MPFR_Object ToyReal := { f := ToyReal.nan, rc := 0, round_mode := MPFR_RNDN }

/-! ## Setter domains and option sets of the later examples -/

/-- The values `GMPyContext_set_round` accepts: the five MPFR rounding modes. -/
def is_mpfr_rounding (v : Int) : Prop :=
  v = MPFR_RNDN ∨ v = MPFR_RNDZ ∨ v = MPFR_RNDU ∨ v = MPFR_RNDD ∨ v = MPFR_RNDA

/-- The precisions and exponent bounds of an option set are valid: `precision` in range,
`real_prec` and `imag_prec` `GMPY_DEFAULT` or in range, `emin < 0 < emax`, and both bounds
accepted by the backend. -/
def precisions_and_bounds_valid (B : Backend) (c : gmpy_context) : Prop :=
  (B.MPFR_PREC_MIN ≤ c.mpfr_prec ∧ c.mpfr_prec ≤ B.MPFR_PREC_MAX) ∧
  (c.real_prec = GMPY_DEFAULT ∨
    (B.MPFR_PREC_MIN ≤ c.real_prec ∧ c.real_prec ≤ B.MPFR_PREC_MAX)) ∧
  (c.imag_prec = GMPY_DEFAULT ∨
    (B.MPFR_PREC_MIN ≤ c.imag_prec ∧ c.imag_prec ≤ B.MPFR_PREC_MAX)) ∧
  (c.emin < 0 ∧ 0 < c.emax) ∧
  (B.emin_ok c.emin = true ∧ B.emax_ok c.emax = true)

/-- `context(round=MPFR_RNDA, real_round=99, imag_round=MPFR_RNDA)`. -/
def kw_away_with_bad_mpc_rounds : Kwargs :=
  { round := some (PyVal.int MPFR_RNDA), real_round := some (PyVal.int 99),
    imag_round := some (PyVal.int MPFR_RNDA) }

/-- `context(round=MPFR_RNDA, real_round=2**40)`: the value of `real_round` does not fit
the C `int` of its format unit. -/
def kw_away_with_huge_real_round : Kwargs :=
  { round := some (PyVal.int MPFR_RNDA), real_round := some (PyVal.int (2 ^ 40)) }

/-! ## The textual rendering -/

/-- The Python objects that `GMPyContext_repr` stores in its tuple: an int, a bool or a
string. -/
inductive PyItem where
  | int (n : Int)
  | bool (b : Bool)
  | str (s : String)
deriving DecidableEq

/-- `PyObject_Str`: the text that the conversion `%s` inserts for an item. -/
def PyObject_Str : PyItem → String
  | PyItem.int n => toString n
  | PyItem.bool b => if b then "True" else "False"
  | PyItem.str s => s

/-- `PyIntOrLong_FromLong`. -/
def PyIntOrLong_FromLong (v : Int) : Option PyItem := some (PyItem.int v)

/-- `PyBool_FromLong`: `True` for every value but 0. -/
def PyBool_FromLong (v : Int) : Option PyItem := some (PyItem.bool (decide (v ≠ 0)))

/-- `Py2or3String_FromString`. -/
def Py2or3String_FromString (s : String) : Option PyItem := some (PyItem.str s)

/-- `_round_to_name(val)`: the name of a rounding value, `none` standing for the `NULL`
of the last line. -/
def _round_to_name (val : Int) : Option PyItem :=
  if val = MPFR_RNDN then Py2or3String_FromString "RoundToNearest"
  else if val = MPFR_RNDZ then Py2or3String_FromString "RoundToZero"
  else if val = MPFR_RNDU then Py2or3String_FromString "RoundUp"
  else if val = MPFR_RNDD then Py2or3String_FromString "RoundDown"
  else if val = MPFR_RNDA then Py2or3String_FromString "RoundAwayZero"
  else if val = GMPY_DEFAULT then Py2or3String_FromString "Default"
  else none

/-- The Python operation `format % tuple` on the characters of a format whose only
conversion is `%s`: every `%s` takes the next item of the tuple, the other characters are
copied.  There is no result when an item is `NULL`, when the items run out, when another
conversion follows `%`, or when items are left over at the end. -/
def format_chars : List Char → List (Option PyItem) → Option (List Char)
  | [], [] => some []
  | [], _ :: _ => none
  | '%' :: 's' :: rest, some v :: args =>
    (format_chars rest args).map (fun out => (PyObject_Str v).toList ++ out)
  | '%' :: _, _ => none
  | ch :: rest, args => (format_chars rest args).map (fun out => ch :: out)

/-- `Py2or3String_Format(format, tuple)`. -/
def Py2or3String_Format (format : String) (tuple : List (Option PyItem)) : Option String :=
  (format_chars format.toList tuple).map String.mk

/-- The format string of `GMPyContext_repr`. -/
def GMPyContext_repr.format : String :=
  "context(precision=%s, real_prec=%s, imag_prec=%s,\n" ++
  "        round=%s, real_round=%s, imag_round=%s,\n" ++
  "        emax=%s, emin=%s,\n" ++
  "        subnormalize=%s,\n" ++
  "        trap_underflow=%s, underflow=%s,\n" ++
  "        trap_overflow=%s, overflow=%s,\n" ++
  "        trap_inexact=%s, inexact=%s,\n" ++
  "        trap_invalid=%s, invalid=%s,\n" ++
  "        trap_erange=%s, erange=%s,\n" ++
  "        trap_divzero=%s, divzero=%s,\n" ++
  "        trap_expbound=%s,\n" ++
  "        allow_complex=%s)"

/-- The tuple of `GMPyContext_repr`, items in the order of the `PyTuple_SET_ITEM(tuple,
i++, ...)` statements. -/
def GMPyContext_repr.tuple (c : gmpy_context) : List (Option PyItem) :=
  [ PyIntOrLong_FromLong c.mpfr_prec,
    if c.real_prec = GMPY_DEFAULT then Py2or3String_FromString "Default"
    else PyIntOrLong_FromLong c.real_prec,
    if c.imag_prec = GMPY_DEFAULT then Py2or3String_FromString "Default"
    else PyIntOrLong_FromLong c.imag_prec,
    _round_to_name c.mpfr_round,
    _round_to_name c.real_round,
    _round_to_name c.imag_round,
    PyIntOrLong_FromLong c.emax,
    PyIntOrLong_FromLong c.emin,
    PyBool_FromLong c.subnormalize,
    PyBool_FromLong c.trap_underflow,
    PyBool_FromLong c.underflow,
    PyBool_FromLong c.trap_overflow,
    PyBool_FromLong c.overflow,
    PyBool_FromLong c.trap_inexact,
    PyBool_FromLong c.inexact,
    PyBool_FromLong c.trap_invalid,
    PyBool_FromLong c.invalid,
    PyBool_FromLong c.trap_erange,
    PyBool_FromLong c.erange,
    PyBool_FromLong c.trap_divzero,
    PyBool_FromLong c.divzero,
    PyBool_FromLong c.trap_expbound,
    PyBool_FromLong c.allow_complex ]

/-- `GMPyContext_repr(self)` on the struct of `self`, allocation succeeding: no exception
is pending after the tuple is filled, so the result is that of `Py2or3String_Format`. -/
def GMPyContext_repr (c : gmpy_context) : Option String :=
  Py2or3String_Format GMPyContext_repr.format (GMPyContext_repr.tuple c)

/-- The text between the placeholders of the format of `GMPyContext_repr`: what follows
each `%s`. -/
def GMPyContext_repr.separators : List String :=
  [ ", ", ", ", ",\n        ",
    ", ", ", ", ",\n        ",
    ", ", ",\n        ",
    ",\n        ",
    ", ", ",\n        ",
    ", ", ",\n        ",
    ", ", ",\n        ",
    ", ", ",\n        ",
    ", ", ",\n        ",
    ", ", ",\n        ",
    ",\n        ",
    ")" ]

/-- How a field of the struct is shown: a number; a precision that may be the sentinel
`GMPY_DEFAULT`; a rounding value; a flag. -/
inductive FieldKind where
  | number | precision | rounding | flag
deriving DecidableEq

/-- The object shown for a value of a field of each kind. -/
def FieldKind.shown : FieldKind → Int → Option PyItem
  | FieldKind.number, v => PyIntOrLong_FromLong v
  | FieldKind.precision, v =>
    if v = GMPY_DEFAULT then Py2or3String_FromString "Default" else PyIntOrLong_FromLong v
  | FieldKind.rounding, v => _round_to_name v
  | FieldKind.flag, v => PyBool_FromLong v

/-- The fields of a context as the specification lists them for the textual rendering:
the name, the field of the struct it names (`precision` is `mpfr_prec`, `round` is
`mpfr_round`), and its kind. -/
def spec_fields : List (String × (gmpy_context → Int) × FieldKind) :=
  [ ("precision", gmpy_context.mpfr_prec, FieldKind.number),
    ("real_prec", gmpy_context.real_prec, FieldKind.precision),
    ("imag_prec", gmpy_context.imag_prec, FieldKind.precision),
    ("round", gmpy_context.mpfr_round, FieldKind.rounding),
    ("real_round", gmpy_context.real_round, FieldKind.rounding),
    ("imag_round", gmpy_context.imag_round, FieldKind.rounding),
    ("emax", gmpy_context.emax, FieldKind.number),
    ("emin", gmpy_context.emin, FieldKind.number),
    ("subnormalize", gmpy_context.subnormalize, FieldKind.flag),
    ("trap_underflow", gmpy_context.trap_underflow, FieldKind.flag),
    ("underflow", gmpy_context.underflow, FieldKind.flag),
    ("trap_overflow", gmpy_context.trap_overflow, FieldKind.flag),
    ("overflow", gmpy_context.overflow, FieldKind.flag),
    ("trap_inexact", gmpy_context.trap_inexact, FieldKind.flag),
    ("inexact", gmpy_context.inexact, FieldKind.flag),
    ("trap_invalid", gmpy_context.trap_invalid, FieldKind.flag),
    ("invalid", gmpy_context.invalid, FieldKind.flag),
    ("trap_erange", gmpy_context.trap_erange, FieldKind.flag),
    ("erange", gmpy_context.erange, FieldKind.flag),
    ("trap_divzero", gmpy_context.trap_divzero, FieldKind.flag),
    ("divzero", gmpy_context.divzero, FieldKind.flag),
    ("trap_expbound", gmpy_context.trap_expbound, FieldKind.flag),
    ("allow_complex", gmpy_context.allow_complex, FieldKind.flag) ]

/-- The names of `spec_fields`, in order. -/
def spec_field_names : List String := spec_fields.map (fun f => f.1)

/-- A template that labels one `%s` with each name: `name=%s` and the text that follows
it, for every pair in turn. -/
def labelled_format : List (String × String) → String
  | [] => ""
  | (n, s) :: rest => n ++ "=%s" ++ s ++ labelled_format rest

/-- A text that labels one value with each name: `name=value` and the text that follows
it, for every triple in turn. -/
def labelled_text : List (String × PyItem × String) → String
  | [] => ""
  | (n, v, s) :: rest => n ++ "=" ++ PyObject_Str v ++ s ++ labelled_text rest

/-- The values that have a name in `_round_to_name`: the five MPFR rounding modes and
`GMPY_DEFAULT`. -/
def is_named_rounding (v : Int) : Prop :=
  v = MPFR_RNDN ∨ v = MPFR_RNDZ ∨ v = MPFR_RNDU ∨ v = MPFR_RNDD ∨ v = MPFR_RNDA ∨
    v = GMPY_DEFAULT


/-! ## The exponent registers and the active context -/

/-- MPFR's exponent registers hold the bounds of the active context of thread `t`. -/
def registers_reflect_active (B : Backend) (t : Nat) (w : World) : Prop :=
  ∃ c, active B t w = some c ∧ w.emin = c.emin ∧ w.emax = c.emax

/-- Whether the backend accepts both exponent bounds of the context object at address
`r` (true when the address holds no context). -/
def bounds_accepted (B : Backend) (w : World) (r : Nat) : Bool :=
  match w.ctx r with
  | some c => B.emin_ok c.emin && B.emax_ok c.emax
  | none => true

/-- The calls of thread `t` after which the registers still hold the bounds of the active
context of `t`: every call except the keyword constructor; a `local_context` call that
is given a base other than the writable active context, or that raises; an assignment to
`emin` or `emax` that succeeds on a context other than the active one; and except the
installation (`set_context`, `__enter__`, `__exit__`) of a context whose bounds the
backend does not accept.  Calls that name a thread are made by `t`, and no thread
ends. -/
def keeps_registers (B : Backend) (t : Nat) (op : Op) (w : World) : Bool :=
  match op with
  | Op.new => true
  | Op.context _ => false
  | Op.ieee _ => true
  | Op.copy _ => true
  | Op.get_context t1 => decide (t1 = t)
  | Op.set_context t1 c => decide (t1 = t) && bounds_accepted B w c
  | Op.local_context t1 base kw =>
    decide (t1 = t) && ! (raised (GMPyContext_local_context B t base kw w).1) &&
      (match base with
        | none => true
        | some b =>
          decide (b = (GMPyContext_current B t w).1) &&
            (match (GMPyContext_current B t w).2.ctx b with
              | some bc => decide (bc.readonly = 0)
              | none => false))
  | Op.manager_enter t1 m => decide (t1 = t) && bounds_accepted B w m.new_context
  | Op.manager_exit t1 m => decide (t1 = t) && bounds_accepted B w m.old_context
  | Op.enter t1 self => decide (t1 = t) && bounds_accepted B w self
  | Op.exit t1 self => decide (t1 = t) && bounds_accepted B w self
  | Op.clear_flags _ => true
  | Op.setattr a self value =>
    decide (a ≠ Attr.emin ∧ a ≠ Attr.emax) ||
      decide ((GMPyContext_current B t w).1 = self) ||
      raised (GMPyContext_setattr B a self value w).1
  | Op.thread_end _ => false

/-- The world `w1` has the thread dictionaries and the registers of `w`, and every
context object of `w` is still there with the exponent bounds it had. -/
def World.keeps_bounds (w w1 : World) : Prop :=
  w1.tls = w.tls ∧ w1.emin = w.emin ∧ w1.emax = w.emax ∧
  ∀ r c, w.ctx r = some c → ∃ c1, w1.ctx r = some c1 ∧ c1.emin = c.emin ∧ c1.emax = c.emax

/-- Thread 0 looks its context up (address 0), builds the `ieee(32)` preset (address 1),
assigns `emin = -2000` to its active context, opens and enters the scope
`local_context(precision=100)` (snapshot at address 2), installs the preset, and leaves
the scope. -/
def ops_scope_after_lookup : List Op :=
  [Op.get_context 0, Op.ieee (PyVal.int 32), Op.setattr Attr.emin 0 (PyVal.int (-2000)),
    Op.local_context 0 none kw_precision_100,
    Op.manager_enter 0 (GMPyContextManagerObject.mk 0 2),
    Op.set_context 0 1,
    Op.manager_exit 0 (GMPyContextManagerObject.mk 0 2)]

/-! ## Worlds in which a thread has ended -/

/-- Thread 0 looks its context up (address 0), assigns `precision = 100` to it, and ends;
the object stays in the heap and in the cache slot. -/
def ops_thread0_ends : List Op :=
  [Op.get_context 0, Op.setattr Attr.precision 0 (PyVal.int 100), Op.thread_end 0]

/-- Thread 1 looks its context up (address 0) and ends; then a context is created
(address 1). -/
def ops_thread1_ends_then_new : List Op :=
  [Op.get_context 1, Op.thread_end 1, Op.new]

/-- Thread 0 looks its context up (address 0), thread 1 looks its context up (address 1),
thread 0 installs its own context again, and thread 0 ends. -/
def ops_two_threads_one_ends : List Op :=
  [Op.get_context 0, Op.get_context 1, Op.set_context 0 0, Op.thread_end 0]

/-! ## Option sets as the caller supplies them -/

/-- `local_context(round=7)`: a value that is no rounding mode. -/
def kw_round_7 : Kwargs := { round := some (PyVal.int 7) }

/-! ## Heap lemmas -/

theorem obj_store_same (w : World) (r : Nat) (o : GMPyContextObject)
    (h : r < w.heap.length) : (w.store r o).obj r = some o := by
  simp [World.store, World.obj, h]

theorem obj_store_other (w : World) (r r1 : Nat) (o : GMPyContextObject) (h : r ≠ r1) :
    (w.store r o).obj r1 = w.obj r1 := by
  simp [World.store, World.obj, List.getElem?_set, h]

theorem store_self (w : World) (r : Nat) (o : GMPyContextObject) (h : w.obj r = some o) :
    w.store r o = w := by
  cases w with
  | mk heap tls cc emin emax =>
    simp only [World.store, World.obj] at *
    congr 1
    apply List.ext_getElem?
    intro n
    rw [List.getElem?_set]
    split
    · next hn =>
      subst hn
      have hlt := (List.getElem?_eq_some_iff.1 h).1
      simp [hlt, h]
    · rfl

theorem obj_alloc_new (w : World) (o : GMPyContextObject) :
    (w.alloc o).2.obj (w.alloc o).1 = some o := by
  simp [World.alloc, World.obj]

theorem obj_alloc_old (w : World) (o : GMPyContextObject) (r : Nat) (h : r < w.heap.length) :
    (w.alloc o).2.obj r = w.obj r := by
  simp [World.alloc, World.obj, List.getElem?_append_left h]

theorem obj_lt_length (w : World) (r : Nat) (o : GMPyContextObject) (h : w.obj r = some o) :
    r < w.heap.length := by
  simp only [World.obj] at h
  exact (List.getElem?_eq_some_iff.1 h).1

theorem obj_length_none (w : World) : w.obj w.heap.length = none := by
  simp [World.obj]

/-! ## Readonly contexts and their setters -/

theorem setter_readonly (B : Backend) (a : Attr) (c : gmpy_context) (value : PyVal) (w : World)
    (ha : a ≠ Attr.readonly) (hro : c.readonly ≠ 0) :
    setter B a c value w = (some readonly_error, c, w) := by
  cases a <;>
    simp [setter, GETSET_BOOLEAN, GMPyContext_set_precision, GMPyContext_set_real_prec,
      GMPyContext_set_imag_prec, GMPyContext_set_round, GMPyContext_set_real_round,
      GMPyContext_set_imag_round, GMPyContext_set_emax, GMPyContext_set_emin, hro] at ha ⊢

/-- C1: on a context object whose `readonly` field is set, every setter of the
attribute table other than the one of `readonly`, given any value, raises the error
"can not modify a readonly context" and leaves the whole world, hence every field of
the context, as it was; the setter of `readonly` itself succeeds for both booleans and
the only field of the object it writes is `readonly`. -/
theorem readonly_blocks_setters (B : Backend) (w : World) (self : Nat)
    (o : GMPyContextObject) (h : w.obj self = some o) (hro : o.ctx.readonly ≠ 0) :
    (∀ (a : Attr) (value : PyVal), a ≠ Attr.readonly →
      GMPyContext_setattr B a self value w = (Except.error readonly_error, w)) ∧
    (∀ b : Bool,
      GMPyContext_setattr B Attr.readonly self (PyVal.bool b) w =
        (Except.ok (),
          w.store self { o with ctx := { o.ctx with readonly := if b then 1 else 0 } })) := by
  refine ⟨?_, ?_⟩
  · intro a value ha
    simp only [GMPyContext_setattr, h, setter_readonly B a o.ctx value w ha hro]
    rw [store_self w self o h]
  · intro b
    cases b <;> simp [GMPyContext_setattr, h, setter, GETSET_BOOLEAN_EX, PyBool_Check]

/-! ## Copies -/

@[simp] theorem copy_ctx_emin (c : gmpy_context) : (copy_ctx c).emin = c.emin := rfl

@[simp] theorem copy_ctx_emax (c : gmpy_context) : (copy_ctx c).emax = c.emax := rfl

@[simp] theorem copy_ctx_readonly (c : gmpy_context) : (copy_ctx c).readonly = 0 := rfl

theorem copy_ctx_writable (c : gmpy_context) (h : c.readonly = 0) : copy_ctx c = c := by
  rcases c with ⟨⟩
  simp only at h
  subst h
  rfl


theorem context_copy_eq (B : Backend) (self : Nat) (w : World) (o : GMPyContextObject)
    (h : w.obj self = some o) :
    GMPyContext_context_copy B self w =
      (Except.ok w.heap.length,
        { w with heap := w.heap ++ [{ ctx := copy_ctx o.ctx, tstate := none }] }) := by
  simp [GMPyContext_context_copy, h, GMPyContext_new, World.alloc, World.store]

/-- C3: `copy` of the context at any address, readonly or not, returns the address of a
new object (one that held no context before) whose struct has `readonly = 0` and
every other field equal to the source's; the source object, like every object that
existed before, is unchanged. -/
theorem copy_clears_readonly (B : Backend) (w : World) (self : Nat) (o : GMPyContextObject)
    (h : w.obj self = some o) :
    (GMPyContext_context_copy B self w).1 = Except.ok w.heap.length ∧
    w.obj w.heap.length = none ∧
    (GMPyContext_context_copy B self w).2.ctx w.heap.length
      = some { o.ctx with readonly := 0 } ∧
    (GMPyContext_context_copy B self w).2.obj self = some o ∧
    (∀ r p, w.obj r = some p → (GMPyContext_context_copy B self w).2.obj r = some p) := by
  rw [context_copy_eq B self w o h]
  refine ⟨rfl, obj_length_none w, ?_, ?_, ?_⟩
  · simp [World.ctx, World.obj, copy_ctx]
  · have hlt := obj_lt_length w self o h
    simpa [World.obj, List.getElem?_append_left hlt] using h
  · intro r p hr
    have hlt := obj_lt_length w r p hr
    simpa [World.obj, List.getElem?_append_left hlt] using hr

/-! ## Installing a context -/

theorem set_context_writable_eq (B : Backend) (t c : Nat) (w : World) (o : GMPyContextObject)
    (h : w.obj c = some o) (hro : o.ctx.readonly = 0) :
    GMPyContext_set_context B t c w =
      (Except.ok (),
        { heap := w.heap.set c { o with tstate := some t }
          tls := (t, c) :: w.tls
          cached_context := some c
          emin := if B.emin_ok o.ctx.emin then o.ctx.emin else w.emin
          emax := if B.emax_ok o.ctx.emax then o.ctx.emax else w.emax }) := by
  have h1 : w.heap[c]? = some o := h
  cases hmin : B.emin_ok o.ctx.emin <;> cases hmax : B.emax_ok o.ctx.emax <;>
    simp [GMPyContext_set_context, h, hro, World.ctx, World.obj, h1, push_bounds, mpfr_set_emin,
      mpfr_set_emax, cache_context, World.store, hmin, hmax]

theorem set_context_readonly_eq (B : Backend) (t c : Nat) (w : World) (o : GMPyContextObject)
    (h : w.obj c = some o) (hro : o.ctx.readonly ≠ 0) :
    GMPyContext_set_context B t c w =
      (Except.ok (),
        { heap := w.heap ++ [{ ctx := copy_ctx o.ctx, tstate := some t }]
          tls := (t, w.heap.length) :: w.tls
          cached_context := some w.heap.length
          emin := if B.emin_ok o.ctx.emin then o.ctx.emin else w.emin
          emax := if B.emax_ok o.ctx.emax then o.ctx.emax else w.emax }) := by
  have h1 : w.heap[c]? = some o := h
  cases hmin : B.emin_ok o.ctx.emin <;> cases hmax : B.emax_ok o.ctx.emax <;>
    simp [GMPyContext_set_context, h, hro, context_copy_eq B c w o h, World.ctx, World.obj,
      h1, push_bounds, mpfr_set_emin, mpfr_set_emax, cache_context, World.store, hmin, hmax]

theorem current_of_cached (B : Backend) (t r : Nat) (w : World) (o : GMPyContextObject)
    (hc : w.cached_context = some r) (ho : w.obj r = some o) (ht : o.tstate = some t) :
    GMPyContext_current B t w = (r, w) := by
  simp [GMPyContext_current, hc, ho, ht]

theorem set_context_spec (B : Backend) (t c : Nat) (w : World) (o : GMPyContextObject)
    (h : w.obj c = some o) :
    (GMPyContext_set_context B t c w).1 = Except.ok () ∧
    (GMPyContext_set_context B t c w).2.cached_context = some (installed w c o) ∧
    (GMPyContext_set_context B t c w).2.obj (installed w c o)
      = some { ctx := copy_ctx o.ctx, tstate := some t } ∧
    (GMPyContext_set_context B t c w).2.tls = (t, installed w c o) :: w.tls ∧
    (∀ r, r ≠ installed w c o → (GMPyContext_set_context B t c w).2.obj r = w.obj r) ∧
    (GMPyContext_set_context B t c w).2.emin
      = (if B.emin_ok o.ctx.emin then o.ctx.emin else w.emin) ∧
    (GMPyContext_set_context B t c w).2.emax
      = (if B.emax_ok o.ctx.emax then o.ctx.emax else w.emax) := by
  have hlt := obj_lt_length w c o h
  by_cases hro : o.ctx.readonly = 0
  · have hc := copy_ctx_writable o.ctx hro
    have hi : installed w c o = c := by simp [installed, hro]
    rw [set_context_writable_eq B t c w o h hro, hc, hi]
    refine ⟨rfl, rfl, ?_, rfl, ?_, rfl, rfl⟩
    · simp [World.obj, hlt]
    · intro r hr
      simp [World.obj, List.getElem?_set, Ne.symm hr]
  · have hi : installed w c o = w.heap.length := by simp [installed, hro]
    rw [set_context_readonly_eq B t c w o h hro, hi]
    refine ⟨rfl, rfl, ?_, rfl, ?_, rfl, rfl⟩
    · simp [World.obj]
    · intro r hr
      simp only [World.obj]
      rcases Nat.lt_or_gt_of_ne hr with hlt1 | hgt
      · rw [List.getElem?_append_left hlt1]
      · rw [List.getElem?_eq_none (by simp; omega), List.getElem?_eq_none (by omega)]

/-! ## The exponent registers do not touch the heap -/

@[simp] theorem mpfr_set_emin_heap (B : Backend) (e : Int) (w : World) :
    (mpfr_set_emin B e w).2.heap = w.heap := by
  unfold mpfr_set_emin; split <;> rfl

@[simp] theorem mpfr_set_emax_heap (B : Backend) (e : Int) (w : World) :
    (mpfr_set_emax B e w).2.heap = w.heap := by
  unfold mpfr_set_emax; split <;> rfl

@[simp] theorem mpfr_set_emin_tls (B : Backend) (e : Int) (w : World) :
    (mpfr_set_emin B e w).2.tls = w.tls := by
  unfold mpfr_set_emin; split <;> rfl

@[simp] theorem mpfr_set_emax_tls (B : Backend) (e : Int) (w : World) :
    (mpfr_set_emax B e w).2.tls = w.tls := by
  unfold mpfr_set_emax; split <;> rfl

@[simp] theorem mpfr_set_emin_cached (B : Backend) (e : Int) (w : World) :
    (mpfr_set_emin B e w).2.cached_context = w.cached_context := by
  unfold mpfr_set_emin; split <;> rfl

@[simp] theorem mpfr_set_emax_cached (B : Backend) (e : Int) (w : World) :
    (mpfr_set_emax B e w).2.cached_context = w.cached_context := by
  unfold mpfr_set_emax; split <;> rfl

@[simp] theorem mpfr_set_emin_obj (B : Backend) (e : Int) (w : World) (r : Nat) :
    (mpfr_set_emin B e w).2.obj r = w.obj r := by
  simp [World.obj]

@[simp] theorem mpfr_set_emax_obj (B : Backend) (e : Int) (w : World) (r : Nat) :
    (mpfr_set_emax B e w).2.obj r = w.obj r := by
  simp [World.obj]

@[simp] theorem push_bounds_heap (B : Backend) (c : gmpy_context) (w : World) :
    (push_bounds B c w).heap = w.heap := by
  simp [push_bounds]

@[simp] theorem push_bounds_tls (B : Backend) (c : gmpy_context) (w : World) :
    (push_bounds B c w).tls = w.tls := by
  simp [push_bounds]

@[simp] theorem push_bounds_cached (B : Backend) (c : gmpy_context) (w : World) :
    (push_bounds B c w).cached_context = w.cached_context := by
  simp [push_bounds]

@[simp] theorem push_bounds_obj (B : Backend) (c : gmpy_context) (w : World) (r : Nat) :
    (push_bounds B c w).obj r = w.obj r := by
  simp [World.obj]

@[simp] theorem push_bounds_ctx (B : Backend) (c : gmpy_context) (w : World) (r : Nat) :
    (push_bounds B c w).ctx r = w.ctx r := by
  simp [World.ctx]

theorem current_push_bounds (B : Backend) (t : Nat) (c : gmpy_context) (w : World) (r : Nat)
    (o : GMPyContextObject) (hc : w.cached_context = some r) (ho : w.obj r = some o)
    (ht : o.tstate = some t) :
    GMPyContext_current B t (push_bounds B c w) = (r, push_bounds B c w) :=
  current_of_cached B t r _ o (by simp [hc]) (by simp [ho]) ht

theorem set_context_no_threads_spec (B : Backend) (c : Nat) (s : WorldNoThreads)
    (o : GMPyContextObject) (h : s.world.obj c = some o) :
    (GMPyContext_set_context_WITHOUT_THREADS B c s).1 = Except.ok () ∧
    (o.ctx.readonly = 0 →
      GMPyContext_current_WITHOUT_THREADS (GMPyContext_set_context_WITHOUT_THREADS B c s).2
        = c) ∧
    (o.ctx.readonly ≠ 0 →
      GMPyContext_current_WITHOUT_THREADS (GMPyContext_set_context_WITHOUT_THREADS B c s).2
        ≠ c ∧
      s.world.obj (GMPyContext_current_WITHOUT_THREADS
        (GMPyContext_set_context_WITHOUT_THREADS B c s).2) = none ∧
      (GMPyContext_set_context_WITHOUT_THREADS B c s).2.world.ctx
          (GMPyContext_current_WITHOUT_THREADS
            (GMPyContext_set_context_WITHOUT_THREADS B c s).2)
        = some { o.ctx with readonly := 0 }) ∧
    (GMPyContext_set_context_WITHOUT_THREADS B c s).2.world.ctx c = some o.ctx := by
  have hlt := obj_lt_length s.world c o h
  have h1 : s.world.heap[c]? = some o := h
  by_cases hro : o.ctx.readonly = 0
  · simp [GMPyContext_set_context_WITHOUT_THREADS, GMPyContext_current_WITHOUT_THREADS, h, hro,
      World.ctx, World.obj, h1]
  · simp [GMPyContext_set_context_WITHOUT_THREADS, GMPyContext_current_WITHOUT_THREADS, h, hro,
      context_copy_eq B c s.world o h, World.ctx, World.obj, h1,
      List.getElem?_append_left hlt, copy_ctx]
    exact Nat.ne_of_gt hlt

/-- C4: for the context object `o` at address `c` and a calling thread `t`,
`set_context(c)` succeeds, and the next `current()` on `t` returns `c` itself when
`c` is not readonly; when `c` is readonly it returns an address different from `c`
that held no object before, whose struct equals `c`'s except that `readonly` is 0.
In both cases the struct of `c` itself, `readonly` included, is as before.  The same
holds in the build without thread support, where `current()` is `module_context`. -/
theorem set_context_then_current (B : Backend) (t c : Nat) (w : World)
    (o : GMPyContextObject) (h : w.obj c = some o) :
    ((GMPyContext_set_context B t c w).1 = Except.ok () ∧
    (o.ctx.readonly = 0 →
      (GMPyContext_current B t (GMPyContext_set_context B t c w).2).1 = c) ∧
    (o.ctx.readonly ≠ 0 →
      (GMPyContext_current B t (GMPyContext_set_context B t c w).2).1 ≠ c ∧
      w.obj (GMPyContext_current B t (GMPyContext_set_context B t c w).2).1 = none ∧
      (GMPyContext_current B t (GMPyContext_set_context B t c w).2).2.ctx
          (GMPyContext_current B t (GMPyContext_set_context B t c w).2).1
        = some { o.ctx with readonly := 0 }) ∧
    (GMPyContext_current B t (GMPyContext_set_context B t c w).2).2.ctx c = some o.ctx) ∧
    (∀ mc : Nat,
      (GMPyContext_set_context_WITHOUT_THREADS B c (WorldNoThreads.mk w mc)).1 = Except.ok () ∧
      (o.ctx.readonly = 0 →
        GMPyContext_current_WITHOUT_THREADS
          (GMPyContext_set_context_WITHOUT_THREADS B c (WorldNoThreads.mk w mc)).2 = c) ∧
      (o.ctx.readonly ≠ 0 →
        GMPyContext_current_WITHOUT_THREADS
          (GMPyContext_set_context_WITHOUT_THREADS B c (WorldNoThreads.mk w mc)).2 ≠ c ∧
        w.obj (GMPyContext_current_WITHOUT_THREADS
          (GMPyContext_set_context_WITHOUT_THREADS B c (WorldNoThreads.mk w mc)).2) = none ∧
        (GMPyContext_set_context_WITHOUT_THREADS B c (WorldNoThreads.mk w mc)).2.world.ctx
            (GMPyContext_current_WITHOUT_THREADS
              (GMPyContext_set_context_WITHOUT_THREADS B c (WorldNoThreads.mk w mc)).2)
          = some { o.ctx with readonly := 0 }) ∧
      (GMPyContext_set_context_WITHOUT_THREADS B c (WorldNoThreads.mk w mc)).2.world.ctx c
        = some o.ctx) := by
  refine ⟨?_, fun mc => set_context_no_threads_spec B c (WorldNoThreads.mk w mc) o h⟩
  obtain ⟨h1, h2, h3, _, h5, _, _⟩ := set_context_spec B t c w o h
  have hcur := current_of_cached B t _ _ _ h2 h3 rfl
  have hlt := obj_lt_length w c o h
  rw [hcur]
  refine ⟨h1, ?_, ?_, ?_⟩
  · intro hro
    simp [installed, hro]
  · intro hro
    have hi : installed w c o = w.heap.length := by simp [installed, hro]
    refine ⟨?_, ?_, ?_⟩
    · simp only [hi]; omega
    · simp only [hi]; exact obj_length_none w
    · simp [World.ctx, h3, copy_ctx]
  · by_cases hro : o.ctx.readonly = 0
    · have hi : installed w c o = c := by simp [installed, hro]
      rw [hi] at h3
      have hc := copy_ctx_writable o.ctx hro
      simp [World.ctx, h3, hc]
    · have hi : installed w c o = w.heap.length := by simp [installed, hro]
      have hne : c ≠ installed w c o := by rw [hi]; omega
      simp [World.ctx, h5 c hne, h]

theorem sanity_check_mpc_exp_frame (B : Backend) (c : gmpy_context) (w : World) :
    (sanity_check_mpc_exp B c w).2.1 = c ∧
    ∃ e1 e2, (sanity_check_mpc_exp B c w).2.2 = { w with emin := e1, emax := e2 } := by
  unfold sanity_check_mpc_exp mpfr_set_emax mpfr_set_emin
  split_ifs <;> exact ⟨rfl, _, _, rfl⟩

theorem sanity_check_frame (B : Backend) (c : gmpy_context) (w : World) :
    ∃ e1 e2, (sanity_check B c w).2.2 = { w with emin := e1, emax := e2 } := by
  unfold sanity_check
  split_ifs <;>
    first
      | exact (sanity_check_mpc_exp_frame B _ w).2
      | exact ⟨_, _, rfl⟩

theorem sanity_check_heap (B : Backend) (c : gmpy_context) (w : World) :
    (sanity_check B c w).2.2.heap = w.heap := by
  obtain ⟨e1, e2, h⟩ := sanity_check_frame B c w
  rw [h]

theorem sanity_check_tls (B : Backend) (c : gmpy_context) (w : World) :
    (sanity_check B c w).2.2.tls = w.tls := by
  obtain ⟨e1, e2, h⟩ := sanity_check_frame B c w
  rw [h]

theorem sanity_check_cached (B : Backend) (c : gmpy_context) (w : World) :
    (sanity_check B c w).2.2.cached_context = w.cached_context := by
  obtain ⟨e1, e2, h⟩ := sanity_check_frame B c w
  rw [h]

theorem sanity_check_ok_struct (B : Backend) (c : gmpy_context) (w : World)
    (h : (sanity_check B c w).1 = none) :
    (sanity_check B c w).2.1 = force_mpc_rounding c := by
  unfold sanity_check at h ⊢
  split_ifs at h ⊢
  exact (sanity_check_mpc_exp_frame B _ w).1

theorem sanity_check_eq (B : Backend) (c c1 : gmpy_context) (w w1 : World) (e : Option PyErr)
    (h : sanity_check B c w = (e, c1, w1)) :
    w1.heap = w.heap ∧ w1.tls = w.tls ∧ w1.cached_context = w.cached_context ∧
    (e = none → c1 = force_mpc_rounding c) := by
  have h1 := sanity_check_heap B c w
  have h2 := sanity_check_tls B c w
  have h3 := sanity_check_cached B c w
  have h4 := sanity_check_ok_struct B c w
  rw [h] at h1 h2 h3 h4
  exact ⟨h1, h2, h3, fun he => (h4 he)⟩

/-! ## What a successful `local_context()` without a base leaves behind -/

theorem local_context_none_ok (B : Backend) (t : Nat) (kw : Kwargs) (w : World)
    (m : GMPyContextManagerObject) (w1 : World)
    (hb : GMPyContext_local_context B t none kw w = (Except.ok m, w1)) :
    ∃ o0 : GMPyContextObject,
      (GMPyContext_current B t w).2.obj (GMPyContext_current B t w).1 = some o0 ∧
      m.new_context = (GMPyContext_current B t w).1 ∧
      m.old_context = (GMPyContext_current B t w).2.heap.length ∧
      w1.heap = ((GMPyContext_current B t w).2.heap ++
          [GMPyContextObject.mk (copy_ctx o0.ctx) none]).set
            (GMPyContext_current B t w).1
            (GMPyContextObject.mk
              (force_mpc_rounding (PyArg_ParseTupleAndKeywords kw o0.ctx).2) o0.tstate) ∧
      w1.tls = (GMPyContext_current B t w).2.tls ∧
      w1.cached_context = (GMPyContext_current B t w).2.cached_context := by
  unfold GMPyContext_local_context local_context_fill at hb
  simp only at hb
  generalize GMPyContext_current B t w = cur at hb ⊢
  obtain ⟨context, w0⟩ := cur
  simp only at hb ⊢
  cases ho : w0.obj context with
  | none =>
    simp [GMPyContext_context_copy, ho] at hb
  | some o0 =>
    have hlt := obj_lt_length w0 context o0 ho
    have h2 : World.obj { w0 with heap := w0.heap ++
        [{ ctx := copy_ctx o0.ctx, tstate := none }] } context = some o0 := by
      simpa [World.obj, List.getElem?_append_left hlt] using ho
    rw [context_copy_eq B context w0 o0 ho] at hb
    simp only [h2] at hb
    split at hb
    · split at hb
      · simp at hb
      · rename_i c1 w4 hs
        obtain ⟨hh, ht, hcc, hc⟩ := sanity_check_eq B _ _ _ _ _ hs
        simp only [Prod.mk.injEq, Except.ok.injEq] at hb
        obtain ⟨hm, hw⟩ := hb
        subst hm hw
        refine ⟨o0, rfl, rfl, rfl, ?_, ?_, ?_⟩
        · simp only [World.store, hh, hc rfl, List.set_set]
        · simp only [World.store, ht]
        · simp only [World.store, hcc]
    · simp at hb

/-! ## Entering and leaving -/

theorem set_context_ctx_self (B : Backend) (t c : Nat) (w : World) (o : GMPyContextObject)
    (h : w.obj c = some o) : (GMPyContext_set_context B t c w).2.ctx c = some o.ctx := by
  obtain ⟨_, _, h3, _, h5, _, _⟩ := set_context_spec B t c w o h
  have hlt := obj_lt_length w c o h
  by_cases hro : o.ctx.readonly = 0
  · have hi : installed w c o = c := by simp [installed, hro]
    rw [hi] at h3
    simp [World.ctx, h3, copy_ctx_writable o.ctx hro]
  · have hi : installed w c o = w.heap.length := by simp [installed, hro]
    have hne : c ≠ installed w c o := by rw [hi]; omega
    simp [World.ctx, h5 c hne, h]

theorem set_push_spec (B : Backend) (t c : Nat) (w : World) (o : GMPyContextObject)
    (cc : gmpy_context) (h : w.obj c = some o) :
    GMPyContext_current B t (push_bounds B cc (GMPyContext_set_context B t c w).2)
      = (installed w c o, push_bounds B cc (GMPyContext_set_context B t c w).2) ∧
    (push_bounds B cc (GMPyContext_set_context B t c w).2).obj (installed w c o)
      = some (GMPyContextObject.mk (copy_ctx o.ctx) (some t)) ∧
    (∀ r, r ≠ installed w c o →
      (push_bounds B cc (GMPyContext_set_context B t c w).2).obj r = w.obj r) ∧
    active B t (push_bounds B cc (GMPyContext_set_context B t c w).2)
      = some (copy_ctx o.ctx) := by
  obtain ⟨_, h2, h3, _, h5, _, _⟩ := set_context_spec B t c w o h
  have hcur := current_push_bounds B t cc _ _ _ h2 h3 rfl
  refine ⟨hcur, by simp [h3], fun r hr => by simp [h5 r hr], ?_⟩
  simp [active, hcur, World.ctx, h3]

theorem manager_enter_eq (B : Backend) (t : Nat) (m : GMPyContextManagerObject) (w : World)
    (o : GMPyContextObject) (h : w.obj m.new_context = some o) :
    GMPyContextManager_enter B t m w =
      (Except.ok m.new_context,
        push_bounds B o.ctx (GMPyContext_set_context B t m.new_context w).2) := by
  have h1 := (set_context_spec B t m.new_context w o h).1
  have h2 := set_context_ctx_self B t m.new_context w o h
  unfold GMPyContextManager_enter
  rcases hs : GMPyContext_set_context B t m.new_context w with ⟨r, w1⟩
  rw [hs] at h1 h2
  simp only at h1 h2
  subst h1
  simp [h2]

theorem manager_exit_eq (B : Backend) (t : Nat) (m : GMPyContextManagerObject) (w : World)
    (o : GMPyContextObject) (h : w.obj m.old_context = some o) :
    GMPyContextManager_exit B t m w =
      (Except.ok (), push_bounds B o.ctx (GMPyContext_set_context B t m.old_context w).2) := by
  have h1 := (set_context_spec B t m.old_context w o h).1
  have h2 := set_context_ctx_self B t m.old_context w o h
  unfold GMPyContextManager_exit
  rcases hs : GMPyContext_set_context B t m.old_context w with ⟨r, w1⟩
  rw [hs] at h1 h2
  simp only at h1 h2
  subst h1
  simp [h2]

theorem context_exit_eq (B : Backend) (t self : Nat) (w : World)
    (o : GMPyContextObject) (h : w.obj self = some o) :
    GMPyContext_exit B t self w =
      (Except.ok (), push_bounds B o.ctx (GMPyContext_set_context B t self w).2) := by
  have h1 := (set_context_spec B t self w o h).1
  have h2 := set_context_ctx_self B t self w o h
  unfold GMPyContext_exit
  rcases hs : GMPyContext_set_context B t self w with ⟨r, w1⟩
  rw [hs] at h1 h2
  simp only at h1 h2
  subst h1
  simp [h2]

/-! ## Fields that the keyword parser and the sanity checks never write -/

theorem parse_arg_inv (P : gmpy_context → Prop) (conv : PyVal → Option Int)
    (arg : Option PyVal) (dest : gmpy_context → Int → gmpy_context) (st : Bool × gmpy_context)
    (hd : ∀ c v, P c → P (dest c v)) (h : P st.2) : P (parse_arg conv arg dest st).2 := by
  unfold parse_arg
  split
  · split
    · exact h
    · split
      · exact hd _ _ h
      · exact h
  · exact h

theorem parse_readonly (kw : Kwargs) (c : gmpy_context) :
    (PyArg_ParseTupleAndKeywords kw c).2.readonly = c.readonly := by
  unfold PyArg_ParseTupleAndKeywords
  iterate 17
    refine parse_arg_inv (fun x => x.readonly = c.readonly) _ _ _ _ ?_ ?_
    · intro _ _ hc
      exact hc
  rfl

theorem force_mpc_rounding_readonly (c : gmpy_context) :
    (force_mpc_rounding c).readonly = c.readonly := by
  unfold force_mpc_rounding
  split <;> rfl

theorem copy_ctx_idem (c : gmpy_context) : copy_ctx (copy_ctx c) = copy_ctx c := rfl

theorem installed_cases (w : World) (c : Nat) (o : GMPyContextObject) :
    installed w c o = c ∨ installed w c o = w.heap.length := by
  unfold installed
  split
  · exact Or.inr rfl
  · exact Or.inl rfl

theorem local_context_none_objs (B : Backend) (t : Nat) (kw : Kwargs) (w : World)
    (m : GMPyContextManagerObject) (w1 : World)
    (hb : GMPyContext_local_context B t none kw w = (Except.ok m, w1)) :
    ∃ o0 : GMPyContextObject,
      (GMPyContext_current B t w).2.obj (GMPyContext_current B t w).1 = some o0 ∧
      m.new_context = (GMPyContext_current B t w).1 ∧
      m.old_context = (GMPyContext_current B t w).2.heap.length ∧
      w1.obj m.new_context = some (GMPyContextObject.mk
        (force_mpc_rounding (PyArg_ParseTupleAndKeywords kw o0.ctx).2) o0.tstate) ∧
      w1.obj m.old_context = some (GMPyContextObject.mk (copy_ctx o0.ctx) none) ∧
      (∀ r, r ≠ m.new_context → r ≠ m.old_context →
        w1.obj r = (GMPyContext_current B t w).2.obj r) ∧
      w1.heap.length = m.old_context + 1 ∧ m.new_context < m.old_context := by
  obtain ⟨o0, h1, h2, h3, h4, _, _⟩ := local_context_none_ok B t kw w m w1 hb
  have hlt := obj_lt_length _ _ _ h1
  refine ⟨o0, h1, h2, h3, ?_, ?_, ?_, ?_, ?_⟩
  · rw [h2]
    simp only [World.obj, h4]
    rw [List.getElem?_set_self (by simp; omega)]
  · rw [h3]
    simp only [World.obj, h4]
    rw [List.getElem?_set_ne (by omega)]
    simp
  · intro r hr1 hr2
    rw [h2] at hr1
    rw [h3] at hr2
    simp only [World.obj, h4]
    rw [List.getElem?_set_ne (Ne.symm hr1)]
    rcases Nat.lt_or_gt_of_ne hr2 with hlt1 | hgt
    · rw [List.getElem?_append_left hlt1]
    · rw [List.getElem?_eq_none (by simp; omega), List.getElem?_eq_none (by omega)]
  · rw [h4, h3]
    simp
  · rw [h2, h3]
    exact hlt

theorem manager_enter_spec (B : Backend) (t : Nat) (m : GMPyContextManagerObject) (w : World)
    (o : GMPyContextObject) (h : w.obj m.new_context = some o) :
    (GMPyContextManager_enter B t m w).1 = Except.ok m.new_context ∧
    GMPyContext_current B t (GMPyContextManager_enter B t m w).2
      = (installed w m.new_context o, (GMPyContextManager_enter B t m w).2) ∧
    (GMPyContextManager_enter B t m w).2.obj (installed w m.new_context o)
      = some (GMPyContextObject.mk (copy_ctx o.ctx) (some t)) ∧
    (∀ r, r ≠ installed w m.new_context o →
      (GMPyContextManager_enter B t m w).2.obj r = w.obj r) ∧
    active B t (GMPyContextManager_enter B t m w).2 = some (copy_ctx o.ctx) := by
  rw [manager_enter_eq B t m w o h]
  exact ⟨rfl, set_push_spec B t m.new_context w o o.ctx h⟩

theorem manager_exit_spec (B : Backend) (t : Nat) (m : GMPyContextManagerObject) (w : World)
    (o : GMPyContextObject) (h : w.obj m.old_context = some o) :
    (GMPyContextManager_exit B t m w).1 = Except.ok () ∧
    GMPyContext_current B t (GMPyContextManager_exit B t m w).2
      = (installed w m.old_context o, (GMPyContextManager_exit B t m w).2) ∧
    (GMPyContextManager_exit B t m w).2.obj (installed w m.old_context o)
      = some (GMPyContextObject.mk (copy_ctx o.ctx) (some t)) ∧
    (∀ r, r ≠ installed w m.old_context o →
      (GMPyContextManager_exit B t m w).2.obj r = w.obj r) ∧
    active B t (GMPyContextManager_exit B t m w).2 = some (copy_ctx o.ctx) := by
  rw [manager_exit_eq B t m w o h]
  exact ⟨rfl, set_push_spec B t m.old_context w o o.ctx h⟩

/-! ## Scopes restore the snapshot taken by `local_context()` -/

/-- C5 (as amended): when `local_context(**kw)` without a base succeeds and returns the
manager `m`, then `m.__enter__()` followed by `m.__exit__()` both succeed and leave
thread `t` with an active context whose fields, the six flags included, are those the
active context had immediately before the `local_context` call, with `readonly`
cleared; for a writable active context that is every field. -/
theorem scope_restores_fields_before_begin (B : Backend) (t : Nat) (kw : Kwargs) (w : World)
    (m : GMPyContextManagerObject) (w1 : World)
    (hb : GMPyContext_local_context B t none kw w = (Except.ok m, w1)) :
    ∃ c0 : gmpy_context,
      active B t w = some c0 ∧
      (GMPyContextManager_enter B t m w1).1 = Except.ok m.new_context ∧
      (GMPyContextManager_exit B t m (GMPyContextManager_enter B t m w1).2).1
        = Except.ok () ∧
      active B t (GMPyContextManager_exit B t m (GMPyContextManager_enter B t m w1).2).2
        = some { c0 with readonly := 0 } ∧
      (c0.readonly = 0 →
        active B t (GMPyContextManager_exit B t m (GMPyContextManager_enter B t m w1).2).2
          = some c0) := by
  obtain ⟨o0, h1, h2, h3, h4, h5, _, h7, h8⟩ := local_context_none_objs B t kw w m w1 hb
  obtain ⟨e1, _, _, e4, _⟩ := manager_enter_spec B t m w1 _ h4
  have hne : m.old_context ≠ installed w1 m.new_context
      (GMPyContextObject.mk (force_mpc_rounding (PyArg_ParseTupleAndKeywords kw o0.ctx).2)
        o0.tstate) := by
    rcases installed_cases w1 m.new_context
      (GMPyContextObject.mk (force_mpc_rounding (PyArg_ParseTupleAndKeywords kw o0.ctx).2)
        o0.tstate) with hi | hi <;> rw [hi] <;> omega
  have hold := (e4 _ hne).trans h5
  obtain ⟨x1, _, _, _, x5⟩ := manager_exit_spec B t m _ _ hold
  have hact : active B t (GMPyContextManager_exit B t m (GMPyContextManager_enter B t m w1).2).2
      = some (copy_ctx o0.ctx) := x5
  refine ⟨o0.ctx, by simp [active, World.ctx, h1], e1, x1, hact, ?_⟩
  intro hro
  rw [hact, copy_ctx_writable o0.ctx hro]

/-- C6: nested scopes restore in LIFO order.  Thread `t` starts with a writable active
context of fields `c0`; `A = local_context(**kwA)` succeeds and is entered,
`B = local_context(**kwB)` succeeds and is entered.  Then every `__enter__` and
`__exit__` succeeds, after `B.__exit__()` the active context has exactly the fields
(configuration and flags) of the context that was active before `local_context(**kwB)`,
and after `A.__exit__()` it has exactly the fields `c0`. -/
theorem nested_scopes_restore_lifo (B : Backend) (t : Nat) (kwA kwB : Kwargs) (w : World)
    (mA mB : GMPyContextManagerObject) (wA wB : World) (c0 : gmpy_context)
    (h0 : active B t w = some c0) (hw : c0.readonly = 0)
    (hA : GMPyContext_local_context B t none kwA w = (Except.ok mA, wA))
    (hB : GMPyContext_local_context B t none kwB (GMPyContextManager_enter B t mA wA).2
      = (Except.ok mB, wB)) :
    (GMPyContextManager_enter B t mA wA).1 = Except.ok mA.new_context ∧
    (GMPyContextManager_enter B t mB wB).1 = Except.ok mB.new_context ∧
    (GMPyContextManager_exit B t mB (GMPyContextManager_enter B t mB wB).2).1 = Except.ok () ∧
    (GMPyContextManager_exit B t mA
      (GMPyContextManager_exit B t mB (GMPyContextManager_enter B t mB wB).2).2).1
        = Except.ok () ∧
    (∃ c1 : gmpy_context,
      active B t (GMPyContextManager_enter B t mA wA).2 = some c1 ∧
      active B t (GMPyContextManager_exit B t mB (GMPyContextManager_enter B t mB wB).2).2
        = some c1) ∧
    active B t (GMPyContextManager_exit B t mA
      (GMPyContextManager_exit B t mB (GMPyContextManager_enter B t mB wB).2).2).2
        = some c0 := by
  obtain ⟨o0, a1, a2, a3, a4, a5, a6, a7, a8⟩ := local_context_none_objs B t kwA w mA wA hA
  have hc0 : o0.ctx = c0 := by
    simpa [active, World.ctx, a1] using h0
  have hXA : (force_mpc_rounding (PyArg_ParseTupleAndKeywords kwA o0.ctx).2).readonly = 0 := by
    rw [force_mpc_rounding_readonly, parse_readonly, hc0, hw]
  obtain ⟨e1, e2, e3, e4, e5⟩ := manager_enter_spec B t mA wA _ a4
  have hiA : installed wA mA.new_context (GMPyContextObject.mk
      (force_mpc_rounding (PyArg_ParseTupleAndKeywords kwA o0.ctx).2) o0.tstate)
      = mA.new_context := by
    simp [installed, hXA]
  rw [hiA] at e2 e3 e4
  obtain ⟨o1, b1, b2, b3, b4, b5, b6, b7, b8⟩ := local_context_none_objs B t kwB _ mB wB hB
  rw [e2] at b1 b2 b3 b6
  simp only at b1 b2 b3 b6
  have ho1 : o1 = GMPyContextObject.mk
      (copy_ctx (force_mpc_rounding (PyArg_ParseTupleAndKeywords kwA o0.ctx).2)) (some t) := by
    rw [e3] at b1
    exact (Option.some.inj b1).symm
  have hAold2 : (GMPyContextManager_enter B t mA wA).2.obj mA.old_context
      = some (GMPyContextObject.mk (copy_ctx o0.ctx) none) := by
    rw [e4 _ (by omega)]
    exact a5
  have hlt2 := obj_lt_length _ _ _ hAold2
  have hAoldB : wB.obj mA.old_context = some (GMPyContextObject.mk (copy_ctx o0.ctx) none) := by
    rw [b6 _ (by omega) (by omega)]
    exact hAold2
  obtain ⟨f1, _, _, f4, _⟩ := manager_enter_spec B t mB wB _ b4
  have hiB := installed_cases wB mB.new_context (GMPyContextObject.mk
      (force_mpc_rounding (PyArg_ParseTupleAndKeywords kwB o1.ctx).2) o1.tstate)
  have hBold4 : (GMPyContextManager_enter B t mB wB).2.obj mB.old_context
      = some (GMPyContextObject.mk (copy_ctx o1.ctx) none) := by
    rw [f4 _ (by rcases hiB with hi | hi <;> rw [hi] <;> omega)]
    exact b5
  have hAold4 : (GMPyContextManager_enter B t mB wB).2.obj mA.old_context
      = some (GMPyContextObject.mk (copy_ctx o0.ctx) none) := by
    rw [f4 _ (by rcases hiB with hi | hi <;> rw [hi] <;> omega)]
    exact hAoldB
  obtain ⟨g1, _, _, g4, g5⟩ := manager_exit_spec B t mB _ _ hBold4
  have hiBo : installed (GMPyContextManager_enter B t mB wB).2 mB.old_context
      (GMPyContextObject.mk (copy_ctx o1.ctx) none) = mB.old_context := by
    simp [installed]
  rw [hiBo] at g4
  have hAold5 : (GMPyContextManager_exit B t mB (GMPyContextManager_enter B t mB wB).2).2.obj
      mA.old_context = some (GMPyContextObject.mk (copy_ctx o0.ctx) none) := by
    rw [g4 _ (by omega)]
    exact hAold4
  obtain ⟨k1, _, _, _, k5⟩ := manager_exit_spec B t mA _ _ hAold5
  refine ⟨e1, f1, g1, k1, ⟨_, e5, ?_⟩, ?_⟩
  · rw [g5, ho1]
    exact congrArg some (copy_ctx_idem _)
  · rw [k5]
    exact congrArg some ((copy_ctx_idem o0.ctx).trans (hc0 ▸ copy_ctx_writable o0.ctx (hc0 ▸ hw)))

/-- C5, counterexample to the claim as stated: on MPFR 3.1, starting from the initial
world, `h = local_context(precision=100)` succeeds on thread 0; immediately before
`h.__enter__()` the active context has precision 100, and after `h.__enter__()` and
`h.__exit__()` the active context has precision 53, so its fields are not the ones it
had immediately before `__enter__`. -/
theorem scope_exit_differs_from_fields_before_enter :
    (GMPyContext_local_context mpfr3 0 none kw_precision_100 (World.init mpfr3)).1
      = Except.ok (GMPyContextManagerObject.mk 0 1) ∧
    (active mpfr3 0
      (GMPyContext_local_context mpfr3 0 none kw_precision_100 (World.init mpfr3)).2).map
        (fun c => c.mpfr_prec) = some 100 ∧
    (active mpfr3 0 (GMPyContextManager_exit mpfr3 0 (GMPyContextManagerObject.mk 0 1)
      (GMPyContextManager_enter mpfr3 0 (GMPyContextManagerObject.mk 0 1)
        (GMPyContext_local_context mpfr3 0 none kw_precision_100 (World.init mpfr3)).2).2).2).map
        (fun c => c.mpfr_prec) = some 53 ∧
    active mpfr3 0 (GMPyContextManager_exit mpfr3 0 (GMPyContextManagerObject.mk 0 1)
      (GMPyContextManager_enter mpfr3 0 (GMPyContextManagerObject.mk 0 1)
        (GMPyContext_local_context mpfr3 0 none kw_precision_100 (World.init mpfr3)).2).2).2
      ≠ active mpfr3 0
        (GMPyContext_local_context mpfr3 0 none kw_precision_100 (World.init mpfr3)).2 := by
  refine ⟨by rfl, by decide, by decide, by decide⟩

/-! ## A context used directly as a scope -/

theorem context_enter_eq (B : Backend) (t self : Nat) (w : World) (o : GMPyContextObject)
    (h : w.obj self = some o) :
    GMPyContext_enter B t self w =
      (Except.ok w.heap.length,
        push_bounds B (copy_ctx o.ctx)
          (GMPyContext_set_context B t w.heap.length
            { w with heap := w.heap ++ [GMPyContextObject.mk (copy_ctx o.ctx) none] }).2) := by
  have hnew : World.obj { w with heap := w.heap ++ [GMPyContextObject.mk (copy_ctx o.ctx) none] }
      w.heap.length = some (GMPyContextObject.mk (copy_ctx o.ctx) none) := by
    simp [World.obj]
  have h1 := (set_context_spec B t w.heap.length _ _ hnew).1
  have h2 := set_context_ctx_self B t w.heap.length _ _ hnew
  unfold GMPyContext_enter
  rw [context_copy_eq B self w o h]
  simp only
  rcases hs : GMPyContext_set_context B t w.heap.length
    { w with heap := w.heap ++ [GMPyContextObject.mk (copy_ctx o.ctx) none] } with ⟨r, w1⟩
  rw [hs] at h1 h2
  simp only at h1 h2
  subst h1
  simp [h2]

/-- C7 (as amended): for the context object `o` at address `self` and any thread `t`,
whatever context was active on `t` before, `self.__enter__()` followed by
`self.__exit__()` both succeed and leave `t` with an active context whose fields are
those of `self` with `readonly` cleared: `current()` is then `self` itself when `self`
is writable, and a fresh copy of `self` (an address holding no object before
`__exit__`) when `self` is readonly. -/
theorem context_scope_leaves_self_active (B : Backend) (t self : Nat) (w : World)
    (o : GMPyContextObject) (h : w.obj self = some o) :
    (GMPyContext_enter B t self w).1 = Except.ok w.heap.length ∧
    (GMPyContext_exit B t self (GMPyContext_enter B t self w).2).1 = Except.ok () ∧
    active B t (GMPyContext_exit B t self (GMPyContext_enter B t self w).2).2
      = some { o.ctx with readonly := 0 } ∧
    (o.ctx.readonly = 0 →
      (GMPyContext_current B t
        (GMPyContext_exit B t self (GMPyContext_enter B t self w).2).2).1 = self) ∧
    (o.ctx.readonly ≠ 0 →
      (GMPyContext_enter B t self w).2.obj (GMPyContext_current B t
        (GMPyContext_exit B t self (GMPyContext_enter B t self w).2).2).1 = none) := by
  have hlt := obj_lt_length w self o h
  have hnew : World.obj { w with heap := w.heap ++ [GMPyContextObject.mk (copy_ctx o.ctx) none] }
      w.heap.length = some (GMPyContextObject.mk (copy_ctx o.ctx) none) := by
    simp [World.obj]
  have hself : World.obj { w with heap := w.heap ++ [GMPyContextObject.mk (copy_ctx o.ctx) none] }
      self = some o := by
    simpa [World.obj, List.getElem?_append_left hlt] using h
  obtain ⟨_, _, s3, _⟩ := set_push_spec B t w.heap.length _ _ (copy_ctx o.ctx) hnew
  have hi : installed { w with heap := w.heap ++ [GMPyContextObject.mk (copy_ctx o.ctx) none] }
      w.heap.length (GMPyContextObject.mk (copy_ctx o.ctx) none) = w.heap.length := by
    simp [installed]
  rw [hi] at s3
  have hself1 : (GMPyContext_enter B t self w).2.obj self = some o := by
    rw [context_enter_eq B t self w o h]
    simp only
    rw [s3 self (by omega)]
    exact hself
  rw [context_exit_eq B t self _ o hself1]
  obtain ⟨x1, _, _, x4⟩ := set_push_spec B t self _ _ o.ctx hself1
  refine ⟨by rw [context_enter_eq B t self w o h], rfl, x4, ?_, ?_⟩
  · intro hro
    simp only at x1 ⊢
    rw [x1]
    simp [installed, hro]
  · intro hro
    simp only at x1 ⊢
    rw [x1]
    simp only [installed, hro, ne_eq, not_false_eq_true, if_true]
    exact obj_length_none _

/-- C7, counterexample to the claim as stated: thread 0 has the default context (address
0) active and the preset `ieee(32)` lives at address 1; after `ieee32.__enter__()`
followed by `ieee32.__exit__()` the active context of thread 0 is the object at
address 1, not the one at address 0 that was active before `__enter__`. -/
theorem context_exit_does_not_restore_previous :
    (GMPyContext_current mpfr3 0 world_with_preset).1 = 0 ∧
    (GMPyContext_enter mpfr3 0 1 world_with_preset).1 = Except.ok 2 ∧
    (GMPyContext_exit mpfr3 0 1 (GMPyContext_enter mpfr3 0 1 world_with_preset).2).1
      = Except.ok () ∧
    (GMPyContext_current mpfr3 0
      (GMPyContext_exit mpfr3 0 1 (GMPyContext_enter mpfr3 0 1 world_with_preset).2).2).1 = 1 := by
  refine ⟨by rfl, by rfl, by rfl, by rfl⟩

/-! ## What a failed `local_context()` leaves in a live context -/

/-- C8, the code at the failing input: thread 0 has the default context (precision 53)
active.  `local_context(precision=0)` raises "invalid value for precision", yet the
active context now has precision 0; and with the writable context at address 1
(precision 24) passed as base, the same call raises the same error and leaves that
base with precision 0. -/
theorem failed_local_context_keeps_rejected_value :
    (active mpfr3 0 world_thread0).map (fun c => c.mpfr_prec) = some 53 ∧
    (GMPyContext_local_context mpfr3 0 none kw_precision_0 world_thread0).1
      = Except.error (PyErr.ValueError "invalid value for precision") ∧
    (active mpfr3 0
      (GMPyContext_local_context mpfr3 0 none kw_precision_0 world_thread0).2).map
        (fun c => c.mpfr_prec) = some 0 ∧
    (world_with_preset.ctx 1).map (fun c => c.mpfr_prec) = some 24 ∧
    (GMPyContext_local_context mpfr3 0 (some 1) kw_precision_0 world_with_preset).1
      = Except.error (PyErr.ValueError "invalid value for precision") ∧
    ((GMPyContext_local_context mpfr3 0 (some 1) kw_precision_0 world_with_preset).2.ctx 1).map
        (fun c => c.mpfr_prec) = some 0 := by
  refine ⟨by decide, by rfl, by decide, by decide, by rfl, by decide⟩

/-- C2, the code at the failing input: the active context of thread 0 (address 0) has
`readonly` set and precision 53.  `local_context(precision=100)` without a base
succeeds, and afterwards that same object still has `readonly` set but its precision
is 100: the configuration of a readonly context was changed in place. -/
theorem local_context_writes_readonly_active_context :
    (world_active_readonly.ctx 0).map (fun c => (c.readonly, c.mpfr_prec)) = some (1, 53) ∧
    (GMPyContext_local_context mpfr3 0 none kw_precision_100 world_active_readonly).1
      = Except.ok (GMPyContextManagerObject.mk 0 1) ∧
    ((GMPyContext_local_context mpfr3 0 none kw_precision_100 world_active_readonly).2.ctx 0).map
      (fun c => (c.readonly, c.mpfr_prec)) = some (1, 100) := by
  refine ⟨by decide, by rfl, by decide⟩

/-! ## The exponent registers after a failed call -/

theorem force_mpc_rounding_emin (c : gmpy_context) : (force_mpc_rounding c).emin = c.emin := by
  unfold force_mpc_rounding
  split <;> rfl

theorem force_mpc_rounding_emax (c : gmpy_context) : (force_mpc_rounding c).emax = c.emax := by
  unfold force_mpc_rounding
  split <;> rfl

theorem sanity_check_mpc_exp_fail_regs (B : Backend) (c c1 : gmpy_context) (w w1 : World)
    (e : PyErr) (h : sanity_check_mpc_exp B c w = (some e, c1, w1)) :
    w1.emax = w.emax ∧
    (e ≠ PyErr.ValueError "invalid value for emax" → w1.emin = w.emin) ∧
    (e = PyErr.ValueError "invalid value for emax" →
      B.emin_ok c.emin = true ∧ B.emax_ok c.emax = false ∧ w1.emin = c.emin) := by
  unfold sanity_check_mpc_exp mpfr_set_emax mpfr_set_emin at h
  split_ifs at h <;> simp only [Prod.mk.injEq, Option.some.injEq, reduceCtorEq, false_and] at h <;>
    obtain ⟨he, _, hw⟩ := h <;> subst he <;> subst hw <;> simp_all

theorem sanity_check_fail_regs (B : Backend) (c c1 : gmpy_context) (w w1 : World)
    (e : PyErr) (h : sanity_check B c w = (some e, c1, w1)) :
    w1.emax = w.emax ∧
    (e ≠ PyErr.ValueError "invalid value for emax" → w1.emin = w.emin) ∧
    (e = PyErr.ValueError "invalid value for emax" →
      B.emin_ok c.emin = true ∧ B.emax_ok c.emax = false ∧ w1.emin = c.emin) := by
  unfold sanity_check at h
  split_ifs at h <;>
    first
      | (have h1 := sanity_check_mpc_exp_fail_regs B _ _ _ _ _ h
         rwa [force_mpc_rounding_emin, force_mpc_rounding_emax] at h1)
      | (simp only [Prod.mk.injEq, Option.some.injEq] at h
         obtain ⟨he, _, hw⟩ := h
         subst he hw
         simp)

theorem cache_context_regs (t r : Nat) (w : World) :
    (cache_context t r w).emin = w.emin ∧ (cache_context t r w).emax = w.emax := by
  unfold cache_context
  split <;> exact ⟨rfl, rfl⟩

theorem from_dict_regs (B : Backend) (t : Nat) (w : World) :
    (current_context_from_dict B t w).2.emin = w.emin ∧
    (current_context_from_dict B t w).2.emax = w.emax := by
  unfold current_context_from_dict
  split
  · exact cache_context_regs _ _ _
  · exact cache_context_regs _ _ _

theorem current_regs (B : Backend) (t : Nat) (w : World) :
    (GMPyContext_current B t w).2.emin = w.emin ∧
    (GMPyContext_current B t w).2.emax = w.emax := by
  unfold GMPyContext_current
  split
  · exact from_dict_regs B t w
  · split
    · exact from_dict_regs B t w
    · split
      · exact ⟨rfl, rfl⟩
      · exact from_dict_regs B t w

theorem copy_regs (B : Backend) (self : Nat) (w : World) :
    (GMPyContext_context_copy B self w).2.emin = w.emin ∧
    (GMPyContext_context_copy B self w).2.emax = w.emax := by
  unfold GMPyContext_context_copy GMPyContext_new World.alloc World.store
  refine ⟨?_, ?_⟩ <;> split <;> rfl

theorem context_fail_regs (B : Backend) (kw : Kwargs) (w w1 : World) (e : PyErr)
    (h : GMPyContext_context B kw w = (Except.error e, w1)) :
    w1.emax = w.emax ∧
    (e ≠ PyErr.ValueError "invalid value for emax" → w1.emin = w.emin) ∧
    (e = PyErr.ValueError "invalid value for emax" →
      B.emin_ok (PyArg_ParseTupleAndKeywords kw (new_ctx B)).2.emin = true ∧
      B.emax_ok (PyArg_ParseTupleAndKeywords kw (new_ctx B)).2.emax = false ∧
      w1.emin = (PyArg_ParseTupleAndKeywords kw (new_ctx B)).2.emin) := by
  unfold GMPyContext_context at h
  simp only at h
  split at h
  · split at h
    · rename_i e1 c1 w2 hs
      simp only [Prod.mk.injEq, Except.error.injEq] at h
      obtain ⟨he, hw⟩ := h
      subst he hw
      have h1 := sanity_check_fail_regs B _ _ _ _ _ hs
      exact h1
    · simp at h
  · simp only [Prod.mk.injEq, Except.error.injEq] at h
    obtain ⟨he, hw⟩ := h
    subst he hw
    simp

theorem copy_error (B : Backend) (self : Nat) (w w1 : World) (e : PyErr)
    (h : GMPyContext_context_copy B self w = (Except.error e, w1)) :
    e = PyErr.TypeError "not a context" := by
  unfold GMPyContext_context_copy at h
  split at h
  · simp only [Prod.mk.injEq, Except.error.injEq] at h
    exact h.1.symm
  · simp at h

theorem local_context_fill_fail_regs (B : Backend) (context nc n0 : Nat) (kw : Kwargs)
    (w1 w2 : World) (e : PyErr)
    (h : local_context_fill B context nc n0 kw w1 = (Except.error e, w2)) :
    w2.emax = w1.emax ∧
    (e ≠ PyErr.ValueError "invalid value for emax" → w2.emin = w1.emin) ∧
    (e = PyErr.ValueError "invalid value for emax" → B.emin_ok w2.emin = true) := by
  unfold local_context_fill at h
  obtain ⟨hc1, hc2⟩ := copy_regs B context w1
  rcases hcopy : GMPyContext_context_copy B context w1 with ⟨r, wc⟩
  rw [hcopy] at h hc1 hc2
  simp only at hc1 hc2
  cases r with
  | error e1 =>
    simp only [Prod.mk.injEq, Except.error.injEq] at h
    obtain ⟨he, hw⟩ := h
    subst hw
    have hne : e ≠ PyErr.ValueError "invalid value for emax" := by
      rw [← he, copy_error B context w1 wc e1 hcopy]
      decide
    exact ⟨hc2, fun _ => hc1, fun h1 => absurd h1 hne⟩
  | ok old =>
    simp only at h
    split at h
    · simp only [Prod.mk.injEq, Except.error.injEq] at h
      obtain ⟨he, hw⟩ := h
      subst he hw
      exact ⟨hc2, fun _ => hc1, by simp⟩
    · split at h
      · split at h
        · rename_i e1 c1 w4 hs
          simp only [Prod.mk.injEq, Except.error.injEq] at h
          obtain ⟨he, hw⟩ := h
          subst he hw
          obtain ⟨s1, s2, s3⟩ := sanity_check_fail_regs B _ _ _ _ _ hs
          refine ⟨?_, ?_, ?_⟩
          · simpa [World.store, hc2] using s1
          · intro hne
            simpa [World.store, hc1] using s2 hne
          · intro heq
            obtain ⟨a1, _, a3⟩ := s3 heq
            simp only [World.store]
            rw [a3]
            exact a1
        · simp at h
      · simp only [Prod.mk.injEq, Except.error.injEq] at h
        obtain ⟨he, hw⟩ := h
        subst he hw
        exact ⟨by simpa [World.store] using hc2, fun _ => by simpa [World.store] using hc1,
          by simp⟩

theorem local_context_fail_regs (B : Backend) (t : Nat) (base : Option Nat) (kw : Kwargs)
    (w w1 : World) (e : PyErr)
    (h : GMPyContext_local_context B t base kw w = (Except.error e, w1)) :
    w1.emax = w.emax ∧
    (e ≠ PyErr.ValueError "invalid value for emax" → w1.emin = w.emin) ∧
    (e = PyErr.ValueError "invalid value for emax" → B.emin_ok w1.emin = true) := by
  unfold GMPyContext_local_context at h
  simp only at h
  obtain ⟨hc1, hc2⟩ := current_regs B t w
  generalize GMPyContext_current B t w = cur at h hc1 hc2
  obtain ⟨context, w0⟩ := cur
  simp only at h hc1 hc2
  rw [← hc1, ← hc2]
  split at h
  · split at h
    · simp only [Prod.mk.injEq, Except.error.injEq] at h
      obtain ⟨he, hw⟩ := h
      subst he hw
      exact ⟨rfl, fun _ => rfl, by simp⟩
    · split at h
      · rename_i _ b _ bc hbc hro
        have hob : ∃ ob, w0.obj b = some ob := by
          cases hx : w0.obj b with
          | none => simp [World.ctx, hx] at hbc
          | some ob => exact ⟨ob, rfl⟩
        obtain ⟨ob, hob⟩ := hob
        rw [context_copy_eq B b w0 ob hob] at h
        simp only at h
        exact local_context_fill_fail_regs B _ _ _ _
          { w0 with heap := w0.heap ++ [GMPyContextObject.mk (copy_ctx ob.ctx) none] } _ _ h
      · exact local_context_fill_fail_regs B _ _ _ _ _ _ _ h
  · exact local_context_fill_fail_regs B _ _ _ _ _ _ _ h

/-- C9 (as amended): when the keyword constructor `context(**kw)` or
`local_context([base], **kw)` fails, MPFR's `emax` register is what it was before the
call, and so is the `emin` register unless the failure is MPFR's rejection of the
requested `emax` ("invalid value for emax"): then the `emin` register holds an exponent
that MPFR accepted, which for the constructor is the requested `emin` (while the
requested `emax` was rejected). -/
theorem failed_call_exponent_registers (B : Backend) (kw : Kwargs) (w w1 : World) (e : PyErr) :
    (GMPyContext_context B kw w = (Except.error e, w1) →
      w1.emax = w.emax ∧
      (e ≠ PyErr.ValueError "invalid value for emax" → w1.emin = w.emin) ∧
      (e = PyErr.ValueError "invalid value for emax" →
        B.emin_ok (PyArg_ParseTupleAndKeywords kw (new_ctx B)).2.emin = true ∧
        B.emax_ok (PyArg_ParseTupleAndKeywords kw (new_ctx B)).2.emax = false ∧
        w1.emin = (PyArg_ParseTupleAndKeywords kw (new_ctx B)).2.emin)) ∧
    (∀ (t : Nat) (base : Option Nat),
      GMPyContext_local_context B t base kw w = (Except.error e, w1) →
      w1.emax = w.emax ∧
      (e ≠ PyErr.ValueError "invalid value for emax" → w1.emin = w.emin) ∧
      (e = PyErr.ValueError "invalid value for emax" → B.emin_ok w1.emin = true)) :=
  ⟨context_fail_regs B kw w w1 e, fun t base => local_context_fail_regs B t base kw w w1 e⟩

/-- C9, counterexample to the claim as stated: on MPFR 3.1, from the initial world whose
registers are `(-(2^30-1), 2^30-1)`, `context(emin=-5, emax=2**62)` fails with
"invalid value for emax" and returns no context, and afterwards the `emin` register
is `-5`. -/
theorem failed_constructor_moves_emin_register :
    (World.init mpfr3).emin = -(2 ^ 30 - 1) ∧
    (GMPyContext_context mpfr3 kw_emin_ok_emax_bad (World.init mpfr3)).1
      = Except.error (PyErr.ValueError "invalid value for emax") ∧
    (GMPyContext_context mpfr3 kw_emin_ok_emax_bad (World.init mpfr3)).2.emin = -5 ∧
    (GMPyContext_context mpfr3 kw_emin_ok_emax_bad (World.init mpfr3)).2.emin
      ≠ (World.init mpfr3).emin := by
  refine ⟨by rfl, by rfl, by rfl, by decide⟩

/-! ## Properties of every context in the heap -/

theorem heapAll_of_heap_eq (P : gmpy_context → Prop) (w w1 : World) (h : w1.heap = w.heap)
    (hw : HeapAll P w) : HeapAll P w1 := by
  intro o ho
  rw [h] at ho
  exact hw o ho

theorem heapAll_obj (P : gmpy_context → Prop) (w : World) (r : Nat) (o : GMPyContextObject)
    (hw : HeapAll P w) (h : w.obj r = some o) : P o.ctx :=
  hw o (List.getElem?_mem h)

theorem heapAll_alloc (P : gmpy_context → Prop) (w : World) (o : GMPyContextObject)
    (hw : HeapAll P w) (ho : P o.ctx) : HeapAll P (w.alloc o).2 := by
  intro x hx
  simp only [World.alloc, List.mem_append, List.mem_singleton] at hx
  rcases hx with hx | hx
  · exact hw x hx
  · rw [hx]; exact ho

theorem heapAll_append (P : gmpy_context → Prop) (w : World) (o : GMPyContextObject)
    (hw : HeapAll P w) (ho : P o.ctx) : HeapAll P { w with heap := w.heap ++ [o] } :=
  heapAll_alloc P w o hw ho

theorem heapAll_store (P : gmpy_context → Prop) (w : World) (r : Nat) (o : GMPyContextObject)
    (hw : HeapAll P w) (ho : P o.ctx) : HeapAll P (w.store r o) := by
  intro x hx
  simp only [World.store] at hx
  rcases List.mem_or_eq_of_mem_set hx with hx | hx
  · exact hw x hx
  · rw [hx]; exact ho

theorem heapAll_take (P : gmpy_context → Prop) (w : World) (n : Nat)
    (hw : HeapAll P w) : HeapAll P { w with heap := w.heap.take n } := by
  intro x hx
  exact hw x (List.mem_of_mem_take hx)

theorem heapAll_cache (P : gmpy_context → Prop) (t r : Nat) (w : World)
    (hw : HeapAll P w) : HeapAll P (cache_context t r w) := by
  unfold cache_context
  split
  · exact hw
  · rename_i o ho
    exact heapAll_store P w r _ hw (heapAll_obj P w r o hw ho)

theorem heapAll_new (P : gmpy_context → Prop) (B : Backend) (w : World)
    (hw : HeapAll P w) (hn : P (new_ctx B)) : HeapAll P (GMPyContext_new B w).2 :=
  heapAll_alloc P w _ hw hn

theorem heapAll_from_dict (P : gmpy_context → Prop) (B : Backend) (t : Nat) (w : World)
    (hw : HeapAll P w) (hn : P (new_ctx B)) : HeapAll P (current_context_from_dict B t w).2 := by
  unfold current_context_from_dict
  split
  · exact heapAll_cache P _ _ _ hw
  · exact heapAll_cache P _ _ _ (heapAll_new P B w hw hn)

theorem heapAll_current (P : gmpy_context → Prop) (B : Backend) (t : Nat) (w : World)
    (hw : HeapAll P w) (hn : P (new_ctx B)) : HeapAll P (GMPyContext_current B t w).2 := by
  unfold GMPyContext_current
  split
  · exact heapAll_from_dict P B t w hw hn
  · split
    · exact heapAll_from_dict P B t w hw hn
    · split
      · exact hw
      · exact heapAll_from_dict P B t w hw hn

theorem heapAll_copy (P : gmpy_context → Prop) (B : Backend) (self : Nat) (w : World)
    (hw : HeapAll P w) (hc : ∀ c, P c → P (copy_ctx c)) :
    HeapAll P (GMPyContext_context_copy B self w).2 := by
  cases ho : w.obj self with
  | none => simpa [GMPyContext_context_copy, ho] using hw
  | some o =>
    rw [context_copy_eq B self w o ho]
    exact heapAll_append P w _ hw (hc _ (heapAll_obj P w self o hw ho))

theorem heapAll_push (P : gmpy_context → Prop) (B : Backend) (c : gmpy_context) (w : World)
    (hw : HeapAll P w) : HeapAll P (push_bounds B c w) :=
  heapAll_of_heap_eq P w _ (push_bounds_heap B c w) hw

theorem heapAll_set_context (P : gmpy_context → Prop) (B : Backend) (t other : Nat)
    (w : World) (hw : HeapAll P w) (hc : ∀ c, P c → P (copy_ctx c)) :
    HeapAll P (GMPyContext_set_context B t other w).2 := by
  cases ho : w.obj other with
  | none => simpa [GMPyContext_set_context, ho] using hw
  | some o =>
    have hP := heapAll_obj P w other o hw ho
    by_cases hro : o.ctx.readonly = 0
    · rw [set_context_writable_eq B t other w o ho hro]
      exact heapAll_store P w other _ hw hP
    · rw [set_context_readonly_eq B t other w o ho hro]
      exact heapAll_append P w _ hw (hc _ hP)

theorem heapAll_manager_enter (P : gmpy_context → Prop) (B : Backend) (t : Nat)
    (m : GMPyContextManagerObject) (w : World) (hw : HeapAll P w)
    (hc : ∀ c, P c → P (copy_ctx c)) : HeapAll P (GMPyContextManager_enter B t m w).2 := by
  have h1 := heapAll_set_context P B t m.new_context w hw hc
  unfold GMPyContextManager_enter
  generalize GMPyContext_set_context B t m.new_context w = res at h1 ⊢
  obtain ⟨r, w1⟩ := res
  cases r with
  | error e => exact h1
  | ok u =>
    simp only
    split
    · exact h1
    · exact heapAll_push P B _ _ h1

theorem heapAll_manager_exit (P : gmpy_context → Prop) (B : Backend) (t : Nat)
    (m : GMPyContextManagerObject) (w : World) (hw : HeapAll P w)
    (hc : ∀ c, P c → P (copy_ctx c)) : HeapAll P (GMPyContextManager_exit B t m w).2 := by
  have h1 := heapAll_set_context P B t m.old_context w hw hc
  unfold GMPyContextManager_exit
  generalize GMPyContext_set_context B t m.old_context w = res at h1 ⊢
  obtain ⟨r, w1⟩ := res
  cases r with
  | error e => exact h1
  | ok u =>
    simp only
    split
    · exact h1
    · exact heapAll_push P B _ _ h1

theorem heapAll_exit (P : gmpy_context → Prop) (B : Backend) (t self : Nat)
    (w : World) (hw : HeapAll P w)
    (hc : ∀ c, P c → P (copy_ctx c)) : HeapAll P (GMPyContext_exit B t self w).2 := by
  have h1 := heapAll_set_context P B t self w hw hc
  unfold GMPyContext_exit
  generalize GMPyContext_set_context B t self w = res at h1 ⊢
  obtain ⟨r, w1⟩ := res
  cases r with
  | error e => exact h1
  | ok u =>
    simp only
    split
    · exact h1
    · exact heapAll_push P B _ _ h1

theorem heapAll_enter (P : gmpy_context → Prop) (B : Backend) (t self : Nat)
    (w : World) (hw : HeapAll P w)
    (hc : ∀ c, P c → P (copy_ctx c)) : HeapAll P (GMPyContext_enter B t self w).2 := by
  have h0 := heapAll_copy P B self w hw hc
  unfold GMPyContext_enter
  generalize GMPyContext_context_copy B self w = res0 at h0 ⊢
  obtain ⟨r0, w0⟩ := res0
  cases r0 with
  | error e => exact h0
  | ok result =>
    simp only
    have h1 := heapAll_set_context P B t result w0 h0 hc
    generalize GMPyContext_set_context B t result w0 = res at h1 ⊢
    obtain ⟨r, w1⟩ := res
    cases r with
    | error e => exact h1
    | ok u =>
      simp only
      split
      · exact h1
      · exact heapAll_push P B _ _ h1

theorem heapAll_clear_flags (P : gmpy_context → Prop) (self : Nat) (w : World)
    (hw : HeapAll P w) (hc : ∀ c, P c → P (clear_flags_ctx c)) :
    HeapAll P (GMPyContext_clear_flags self w).2 := by
  unfold GMPyContext_clear_flags
  split
  · exact hw
  · rename_i o ho
    exact heapAll_store P w self _ hw (hc _ (heapAll_obj P w self o hw ho))

/-! ## The rounding rule -/

theorem rounding_rule_new (B : Backend) : rounding_rule (new_ctx B) := by
  intro h
  simp [new_ctx, MPFR_RNDN, MPFR_RNDA] at h

theorem rounding_rule_copy (c : gmpy_context) (h : rounding_rule c) :
    rounding_rule (copy_ctx c) := h

theorem rounding_rule_clear (c : gmpy_context) (h : rounding_rule c) :
    rounding_rule (clear_flags_ctx c) := h

theorem rounding_rule_force (c : gmpy_context) : rounding_rule (force_mpc_rounding c) := by
  unfold force_mpc_rounding
  split
  · intro _
    exact ⟨rfl, rfl⟩
  · rename_i hne
    intro h
    exact absurd h hne

theorem heapAll_ieee (B : Backend) (bitwidth : PyVal) (w : World)
    (hw : HeapAll rounding_rule w) : HeapAll rounding_rule (GMPyContext_ieee B bitwidth w).2 := by
  have hr : ∀ a b c d : Int, rounding_rule
      { new_ctx B with subnormalize := a, mpfr_prec := b, emax := c, emin := d } := by
    intro a b c d h
    simp [new_ctx, MPFR_RNDN, MPFR_RNDA] at h
  unfold GMPyContext_ieee
  simp only
  split_ifs
  · exact hw
  · exact heapAll_store _ _ _ _ (heapAll_new _ B w hw (rounding_rule_new B)) (hr _ _ _ _)
  · exact heapAll_store _ _ _ _ (heapAll_new _ B w hw (rounding_rule_new B)) (hr _ _ _ _)
  · exact heapAll_store _ _ _ _ (heapAll_new _ B w hw (rounding_rule_new B)) (hr _ _ _ _)
  · exact hw

theorem heapAll_context (B : Backend) (kw : Kwargs) (w : World)
    (hw : HeapAll rounding_rule w) : HeapAll rounding_rule (GMPyContext_context B kw w).2 := by
  unfold GMPyContext_context
  simp only
  split
  · split
    · exact hw
    · rename_i c1 w1 hs
      obtain ⟨hh, _, _, hc⟩ := sanity_check_eq B _ _ _ _ _ hs
      refine heapAll_store _ _ _ _ ?_ ?_
      · exact heapAll_of_heap_eq _ _ _ hh (heapAll_new _ B w hw (rounding_rule_new B))
      · rw [hc rfl]
        exact rounding_rule_force _
  · exact hw

theorem heapAll_fill_ok (B : Backend) (context nc n0 : Nat) (kw : Kwargs) (w1 w2 : World)
    (m : GMPyContextManagerObject)
    (h : local_context_fill B context nc n0 kw w1 = (Except.ok m, w2))
    (hw : HeapAll rounding_rule w1) : HeapAll rounding_rule w2 := by
  have h0 := heapAll_copy rounding_rule B context w1 hw rounding_rule_copy
  unfold local_context_fill at h
  generalize GMPyContext_context_copy B context w1 = res0 at h0 h
  obtain ⟨r0, wc⟩ := res0
  cases r0 with
  | error e => simp at h
  | ok old =>
    simp only at h h0
    split at h
    · simp at h
    · rename_i o ho
      split at h
      · split at h
        · simp at h
        · rename_i c1 w4 hs
          obtain ⟨hh, _, _, hc⟩ := sanity_check_eq B _ _ _ _ _ hs
          simp only [Prod.mk.injEq, Except.ok.injEq] at h
          obtain ⟨_, hw2⟩ := h
          subst hw2
          have hheap : (w4.store nc (GMPyContextObject.mk c1 o.tstate)).heap
              = (wc.store nc (GMPyContextObject.mk c1 o.tstate)).heap := by
            simp only [World.store, hh, List.set_set]
          refine heapAll_of_heap_eq _ _ _ hheap (heapAll_store _ _ _ _ h0 ?_)
          rw [hc rfl]
          exact rounding_rule_force _
      · simp at h

theorem heapAll_local_context_ok (B : Backend) (t : Nat) (base : Option Nat) (kw : Kwargs)
    (w w1 : World) (m : GMPyContextManagerObject)
    (h : GMPyContext_local_context B t base kw w = (Except.ok m, w1))
    (hw : HeapAll rounding_rule w) : HeapAll rounding_rule w1 := by
  have h0 := heapAll_current rounding_rule B t w hw (rounding_rule_new B)
  unfold GMPyContext_local_context at h
  simp only at h
  generalize GMPyContext_current B t w = cur at h h0
  obtain ⟨context, w0⟩ := cur
  simp only at h h0
  split at h
  · split at h
    · simp at h
    · rename_i _ b _ bc hbc
      split at h
      · have hcp := heapAll_copy rounding_rule B b w0 h0 rounding_rule_copy
        split at h
        · simp at h
        · rename_i heq
          rw [heq] at hcp
          exact heapAll_fill_ok B _ _ _ _ _ _ _ h hcp
      · exact heapAll_fill_ok B _ _ _ _ _ _ _ h h0
  · exact heapAll_fill_ok B _ _ _ _ _ _ _ h h0

theorem setter_heap (B : Backend) (a : Attr) (c : gmpy_context) (v : PyVal) (w : World) :
    (setter B a c v w).2.2.heap = w.heap := by
  cases a <;> simp only [setter]
  · unfold GMPyContext_set_emax
    simp only []
    split_ifs <;> simp
  · unfold GMPyContext_set_emin
    simp only []
    split_ifs <;> simp

theorem setter_round_other (B : Backend) (a : Attr) (c : gmpy_context) (v : PyVal) (w : World)
    (h1 : a ≠ Attr.round) (h2 : a ≠ Attr.real_round) (h3 : a ≠ Attr.imag_round) :
    (setter B a c v w).2.1.mpfr_round = c.mpfr_round ∧
    (setter B a c v w).2.1.real_round = c.real_round ∧
    (setter B a c v w).2.1.imag_round = c.imag_round := by
  cases a <;> simp only [setter, ne_eq, not_true_eq_false] at h1 h2 h3 ⊢
  · unfold GMPyContext_set_precision; simp only []; split_ifs <;> exact ⟨rfl, rfl, rfl⟩
  · unfold GMPyContext_set_real_prec; simp only []; split_ifs <;> exact ⟨rfl, rfl, rfl⟩
  · unfold GMPyContext_set_imag_prec; simp only []; split_ifs <;> exact ⟨rfl, rfl, rfl⟩
  · unfold GMPyContext_set_emax; simp only []; split_ifs <;> exact ⟨rfl, rfl, rfl⟩
  · unfold GMPyContext_set_emin; simp only []; split_ifs <;> exact ⟨rfl, rfl, rfl⟩
  all_goals first
    | (unfold GETSET_BOOLEAN; split_ifs <;> exact ⟨rfl, rfl, rfl⟩)
    | (unfold GETSET_BOOLEAN_EX; split_ifs <;> exact ⟨rfl, rfl, rfl⟩)

theorem set_round_rule (c : gmpy_context) (v : PyVal) (h : rounding_rule c) :
    rounding_rule (GMPyContext_set_round c v).2 := by
  unfold GMPyContext_set_round
  simp only []
  split_ifs
  all_goals first
    | exact h
    | (intro _; exact ⟨rfl, rfl⟩)
    | (intro hr; simp [MPFR_RNDN, MPFR_RNDZ, MPFR_RNDU, MPFR_RNDD, MPFR_RNDA] at hr)

theorem set_real_round_keeps_round (c : gmpy_context) (v : PyVal) :
    (GMPyContext_set_real_round c v).2.mpfr_round = c.mpfr_round := by
  unfold GMPyContext_set_real_round
  simp only []
  split_ifs <;> rfl

theorem set_imag_round_keeps_round (c : gmpy_context) (v : PyVal) :
    (GMPyContext_set_imag_round c v).2.mpfr_round = c.mpfr_round := by
  unfold GMPyContext_set_imag_round
  simp only []
  split_ifs <;> rfl

theorem setter_rounding_rule (B : Backend) (a : Attr) (c : gmpy_context) (v : PyVal)
    (w : World) (h : rounding_rule c)
    (ha : (a ≠ Attr.real_round ∧ a ≠ Attr.imag_round) ∨ c.mpfr_round ≠ MPFR_RNDA) :
    rounding_rule (setter B a c v w).2.1 := by
  by_cases h1 : a = Attr.round
  · subst h1
    exact set_round_rule c v h
  by_cases h2 : a = Attr.real_round
  · subst h2
    rcases ha with ha | ha
    · exact absurd rfl ha.1
    · intro hr
      exact absurd ((set_real_round_keeps_round c v).symm.trans hr) ha
  by_cases h3 : a = Attr.imag_round
  · subst h3
    rcases ha with ha | ha
    · exact absurd rfl ha.2
    · intro hr
      exact absurd ((set_imag_round_keeps_round c v).symm.trans hr) ha
  obtain ⟨e1, e2, e3⟩ := setter_round_other B a c v w h1 h2 h3
  intro hr
  rw [e1] at hr
  rw [e2, e3]
  exact h hr

theorem heapAll_setattr (B : Backend) (a : Attr) (self : Nat) (v : PyVal) (w : World)
    (hw : HeapAll rounding_rule w)
    (hk : keeps_rounding_rule B (Op.setattr a self v) w = true) :
    HeapAll rounding_rule (GMPyContext_setattr B a self v w).2 := by
  unfold GMPyContext_setattr
  cases ho : w.obj self with
  | none => exact hw
  | some o =>
    have hP := heapAll_obj _ w self o hw ho
    have hctx : w.ctx self = some o.ctx := by simp [World.ctx, ho]
    have ha : (a ≠ Attr.real_round ∧ a ≠ Attr.imag_round) ∨ o.ctx.mpfr_round ≠ MPFR_RNDA := by
      by_cases h2 : a = Attr.real_round
      · subst h2
        simp only [keeps_rounding_rule, hctx, decide_eq_true_eq] at hk
        exact Or.inr hk
      · by_cases h3 : a = Attr.imag_round
        · subst h3
          simp only [keeps_rounding_rule, hctx, decide_eq_true_eq] at hk
          exact Or.inr hk
        · exact Or.inl ⟨h2, h3⟩
    have hr := setter_rounding_rule B a o.ctx v w hP ha
    have hh := setter_heap B a o.ctx v w
    rcases hs : setter B a o.ctx v w with ⟨e, c1, w1⟩
    rw [hs] at hr hh
    simp only [hs] at hr hh ⊢
    have hw1 : HeapAll rounding_rule w1 := heapAll_of_heap_eq _ _ _ hh hw
    cases e with
    | none => exact heapAll_store _ _ self (GMPyContextObject.mk c1 o.tstate) hw1 hr
    | some e1 => exact heapAll_store _ _ self (GMPyContextObject.mk c1 o.tstate) hw1 hr

theorem raised_false {α : Type} (r : Except PyErr α) (h : raised r = false) :
    ∃ a, r = Except.ok a := by
  cases r with
  | error e => simp [raised] at h
  | ok a => exact ⟨a, rfl⟩

theorem exec_keeps_rounding_rule (B : Backend) (op : Op) (w : World)
    (hw : HeapAll rounding_rule w) (hk : keeps_rounding_rule B op w = true) :
    HeapAll rounding_rule (op.exec B w).2 := by
  cases op with
  | new => exact heapAll_new _ B w hw (rounding_rule_new B)
  | context kw => exact heapAll_context B kw w hw
  | ieee bitwidth => exact heapAll_ieee B bitwidth w hw
  | copy self => exact heapAll_copy _ B self w hw rounding_rule_copy
  | get_context t => exact heapAll_current _ B t w hw (rounding_rule_new B)
  | set_context t other => exact heapAll_set_context _ B t other w hw rounding_rule_copy
  | local_context t base kw =>
    simp only [keeps_rounding_rule, Op.exec, Bool.not_eq_true'] at hk
    obtain ⟨m, hm⟩ := raised_false _ hk
    exact heapAll_local_context_ok B t base kw w _ m (Prod.ext hm rfl) hw
  | manager_enter t m => exact heapAll_manager_enter _ B t m w hw rounding_rule_copy
  | manager_exit t m => exact heapAll_manager_exit _ B t m w hw rounding_rule_copy
  | enter t self => exact heapAll_enter _ B t self w hw rounding_rule_copy
  | exit t self => exact heapAll_exit _ B t self w hw rounding_rule_copy
  | clear_flags self => exact heapAll_clear_flags _ self w hw rounding_rule_clear
  | setattr a self value => exact heapAll_setattr B a self value w hw hk
  | thread_end t => exact heapAll_of_heap_eq _ w _ rfl hw

theorem run_keeps_rounding_rule (B : Backend) (ops : List Op) (w : World)
    (hw : HeapAll rounding_rule w)
    (h : admissible B (keeps_rounding_rule B) ops w = true) :
    HeapAll rounding_rule (run B ops w) := by
  induction ops generalizing w with
  | nil => exact hw
  | cons op ops ih =>
    simp only [admissible, Bool.and_eq_true] at h
    exact ih _ (exec_keeps_rounding_rule B op w hw h.1) h.2

/-- C10 (as amended): start from the empty world and make any sequence of calls
(creating contexts with `GMPyContext_new`, the constructor, `ieee`, `copy`,
`local_context`; reading and setting the active context; entering and leaving scopes;
clearing flags; assigning attributes, successfully or not) in which no `local_context`
call raises and no assignment to `real_round` or `imag_round` is made on a context
whose `round` is `MPFR_RNDA`.  Then every context in the heap whose `round` is
`MPFR_RNDA` has `real_round = imag_round = MPFR_RNDN`. -/
theorem rounding_rule_of_reachable (B : Backend) (ops : List Op)
    (h : admissible B (keeps_rounding_rule B) ops (World.init B) = true)
    (r : Nat) (c : gmpy_context) (hc : (run B ops (World.init B)).ctx r = some c)
    (hr : c.mpfr_round = MPFR_RNDA) :
    c.real_round = MPFR_RNDN ∧ c.imag_round = MPFR_RNDN := by
  have hinit : HeapAll rounding_rule (World.init B) := by
    intro o ho
    simp [World.init] at ho
  have hall := run_keeps_rounding_rule B ops (World.init B) hinit h
  cases ho : (run B ops (World.init B)).obj r with
  | none => simp [World.ctx, ho] at hc
  | some o =>
    have hoc : o.ctx = c := by simpa [World.ctx, ho] using hc
    have hrule := heapAll_obj _ _ r o hall ho
    rw [hoc] at hrule
    exact hrule hr

/-- C10, counterexample to the claim as stated: on MPFR 3.1, create a context, assign
`round = MPFR_RNDA` and then `real_round = MPFR_RNDU`; both assignments succeed, and
the context ends with `round = MPFR_RNDA` and `real_round = MPFR_RNDU`, which is not
`MPFR_RNDN`. -/
theorem real_round_setter_ignores_round :
    (GMPyContext_setattr mpfr3 Attr.round 0 (PyVal.int MPFR_RNDA)
      (GMPyContext_new mpfr3 (World.init mpfr3)).2).1 = Except.ok () ∧
    (GMPyContext_setattr mpfr3 Attr.real_round 0 (PyVal.int MPFR_RNDU)
      (GMPyContext_setattr mpfr3 Attr.round 0 (PyVal.int MPFR_RNDA)
        (GMPyContext_new mpfr3 (World.init mpfr3)).2).2).1 = Except.ok () ∧
    ((run mpfr3 ops_round_then_real_round (World.init mpfr3)).ctx 0).map
      (fun c => (c.mpfr_round, c.real_round)) = some (MPFR_RNDA, MPFR_RNDU) ∧
    MPFR_RNDU ≠ MPFR_RNDN := by
  refine ⟨by rfl, by rfl, by decide, by decide⟩

/-! ## Setters, constructor, presets and defaults -/

theorem mpfr3_c_typed : mpfr3.c_typed := by
  refine ⟨by decide, by decide, ?_, ?_⟩ <;>
  · intro e he
    simp only [mpfr3, decide_eq_true_eq] at he
    simp only [LONG_MIN, LONG_MAX]
    omega

/-- C18: `GMPyContext_new` returns a fresh context whose precision is `DBL_MANT_DIG`
(53), rounding `MPFR_RNDN`, exponent bounds the backend's defaults, `subnormalize` off,
the six flags and the seven traps off, `real_prec`, `imag_prec`, `real_round` and
`imag_round` all `GMPY_DEFAULT`, `allow_complex` off and `readonly` off. -/
theorem create_default_fields (B : Backend) (w : World) :
    (GMPyContext_new B w).1 = w.heap.length ∧
    w.obj w.heap.length = none ∧
    (GMPyContext_new B w).2.ctx (GMPyContext_new B w).1 = some
      { mpfr_prec := 53, mpfr_round := MPFR_RNDN,
        emax := B.MPFR_EMAX_DEFAULT, emin := B.MPFR_EMIN_DEFAULT,
        subnormalize := 0,
        underflow := 0, overflow := 0, inexact := 0, invalid := 0, erange := 0, divzero := 0,
        trap_underflow := 0, trap_overflow := 0, trap_inexact := 0, trap_invalid := 0,
        trap_erange := 0, trap_divzero := 0, trap_expbound := 0,
        real_prec := GMPY_DEFAULT, imag_prec := GMPY_DEFAULT,
        real_round := GMPY_DEFAULT, imag_round := GMPY_DEFAULT,
        allow_complex := 0, readonly := 0 } ∧
    DBL_MANT_DIG = 53 := by
  refine ⟨rfl, obj_length_none w, ?_, rfl⟩
  simp [GMPyContext_new, World.alloc, World.ctx, World.obj, new_ctx, DBL_MANT_DIG, GMPY_DEFAULT]

/-- C17: on every context object, readonly or not and whatever its flags,
`clear_flags()` succeeds; afterwards the six flags are 0 and the seven traps, the
precisions, rounding modes, exponent bounds, `subnormalize`, `allow_complex` and
`readonly` are what they were; nothing else in the world changes. -/
theorem clear_flags_frame (self : Nat) (w : World) (o : GMPyContextObject)
    (h : w.obj self = some o) :
    ∃ c : gmpy_context,
      GMPyContext_clear_flags self w = (Except.ok (), w.store self { o with ctx := c }) ∧
      (c.underflow = 0 ∧ c.overflow = 0 ∧ c.inexact = 0 ∧ c.invalid = 0 ∧ c.erange = 0 ∧
        c.divzero = 0) ∧
      (c.trap_underflow = o.ctx.trap_underflow ∧ c.trap_overflow = o.ctx.trap_overflow ∧
        c.trap_inexact = o.ctx.trap_inexact ∧ c.trap_invalid = o.ctx.trap_invalid ∧
        c.trap_erange = o.ctx.trap_erange ∧ c.trap_divzero = o.ctx.trap_divzero ∧
        c.trap_expbound = o.ctx.trap_expbound) ∧
      (c.mpfr_prec = o.ctx.mpfr_prec ∧ c.real_prec = o.ctx.real_prec ∧
        c.imag_prec = o.ctx.imag_prec ∧ c.mpfr_round = o.ctx.mpfr_round ∧
        c.real_round = o.ctx.real_round ∧ c.imag_round = o.ctx.imag_round ∧
        c.emax = o.ctx.emax ∧ c.emin = o.ctx.emin ∧ c.subnormalize = o.ctx.subnormalize ∧
        c.allow_complex = o.ctx.allow_complex ∧ c.readonly = o.ctx.readonly) := by
  refine ⟨clear_flags_ctx o.ctx, ?_, ?_, ?_, ?_⟩
  · simp [GMPyContext_clear_flags, h]
  · simp [clear_flags_ctx]
  · simp [clear_flags_ctx]
  · simp [clear_flags_ctx]

/-- C11: on MPFR 3.1 the assignment `emin = 5` to a freshly created context succeeds and
the context then has `emin = 5`, which is not negative: a context reached from
`GMPyContext_new` by one setter call on which `emin < 0 < emax` fails. -/
theorem set_emin_accepts_positive :
    (GMPyContext_setattr mpfr3 Attr.emin 0 (PyVal.int 5)
      (GMPyContext_new mpfr3 (World.init mpfr3)).2).1 = Except.ok () ∧
    ((run mpfr3 ops_set_emin_positive (World.init mpfr3)).ctx 0).map (fun c => c.emin) = some 5 ∧
    ¬ ((5 : Int) < 0) := by
  refine ⟨by rfl, by decide, by decide⟩

/-- C14: on a writable context and for every integer `v`, assigning `precision = v`
succeeds exactly when `MPFR_PREC_MIN ≤ v ≤ MPFR_PREC_MAX`; on success the world is the
old one with `mpfr_prec` of that object set to `v` and nothing else changed; on failure
the error is a `ValueError` and the world is unchanged. -/
theorem set_precision_iff_in_range (B : Backend) (hB : B.c_typed) (w : World) (self : Nat)
    (o : GMPyContextObject) (v : Int) (h : w.obj self = some o) (hro : o.ctx.readonly = 0) :
    ((GMPyContext_setattr B Attr.precision self (PyVal.int v) w).1 = Except.ok () ↔
      B.MPFR_PREC_MIN ≤ v ∧ v ≤ B.MPFR_PREC_MAX) ∧
    (B.MPFR_PREC_MIN ≤ v ∧ v ≤ B.MPFR_PREC_MAX →
      GMPyContext_setattr B Attr.precision self (PyVal.int v) w =
        (Except.ok (), w.store self { o with ctx := { o.ctx with mpfr_prec := v } })) ∧
    (¬ (B.MPFR_PREC_MIN ≤ v ∧ v ≤ B.MPFR_PREC_MAX) →
      GMPyContext_setattr B Attr.precision self (PyVal.int v) w =
        (Except.error (PyErr.ValueError "invalid value for precision"), w)) := by
  obtain ⟨hB1, hB2, _, _⟩ := hB
  have hok : B.MPFR_PREC_MIN ≤ v ∧ v ≤ B.MPFR_PREC_MAX →
      GMPyContext_setattr B Attr.precision self (PyVal.int v) w =
        (Except.ok (), w.store self { o with ctx := { o.ctx with mpfr_prec := v } }) := by
    intro hv
    have hfit : LONG_MIN ≤ v ∧ v ≤ LONG_MAX := ⟨le_trans hB1 hv.1, le_trans hv.2 hB2⟩
    have h1 : ¬ (v < B.MPFR_PREC_MIN) := not_lt.mpr hv.1
    have h2 : ¬ (v > B.MPFR_PREC_MAX) := not_lt.mpr hv.2
    simp [GMPyContext_setattr, h, setter, GMPyContext_set_precision, hro, PyIntOrLong_Check,
      PyIntOrLong_AsLong, hfit, h1, h2]
  have hbad : ¬ (B.MPFR_PREC_MIN ≤ v ∧ v ≤ B.MPFR_PREC_MAX) →
      GMPyContext_setattr B Attr.precision self (PyVal.int v) w =
        (Except.error (PyErr.ValueError "invalid value for precision"), w) := by
    intro hv
    have hcond : (PyIntOrLong_AsLong (PyVal.int v)).1 < B.MPFR_PREC_MIN ∨
        (PyIntOrLong_AsLong (PyVal.int v)).1 > B.MPFR_PREC_MAX ∨
        (PyIntOrLong_AsLong (PyVal.int v)).2 = true := by
      by_cases hfit : LONG_MIN ≤ v ∧ v ≤ LONG_MAX
      · simp only [PyIntOrLong_AsLong, hfit, and_self, if_true]
        by_cases h1 : v < B.MPFR_PREC_MIN
        · exact Or.inl h1
        · right; left
          by_contra h2
          exact hv ⟨not_lt.mp h1, not_lt.mp h2⟩
      · simp [PyIntOrLong_AsLong, hfit]
    simp only [GMPyContext_setattr, h, setter, GMPyContext_set_precision, hro, PyIntOrLong_Check]
    simp only [ne_eq, not_true_eq_false, if_false, hcond, if_true, Bool.true_eq_false]
    simp [store_self w self o h]
  refine ⟨⟨?_, ?_⟩, hok, hbad⟩
  · intro hs
    by_contra hv
    rw [hbad hv] at hs
    simp at hs
  · intro hv
    rw [hok hv]

theorem ieee_ok_eq (B : Backend) (w : World) (b prec emax emin : Int)
    (hb : (b = 32 ∧ prec = 24 ∧ emax = 128 ∧ emin = -148) ∨
      (b = 64 ∧ prec = 53 ∧ emax = 1024 ∧ emin = -1073) ∨
      (b = 128 ∧ prec = 113 ∧ emax = 16384 ∧ emin = -16493)) :
    GMPyContext_ieee B (PyVal.int b) w =
      (Except.ok w.heap.length,
        { w with heap := w.heap ++ [GMPyContextObject.mk
          { new_ctx B with subnormalize := 1, mpfr_prec := prec, emax := emax, emin := emin }
          none] }) := by
  rcases hb with ⟨h1, h2, h3, h4⟩ | ⟨h1, h2, h3, h4⟩ | ⟨h1, h2, h3, h4⟩ <;>
    subst h1 h2 h3 h4 <;>
    simp [GMPyContext_ieee, PyIntOrLong_AsLong, LONG_MIN, LONG_MAX, GMPyContext_new,
      World.alloc, World.store]

theorem ieee_other_eq (B : Backend) (w : World) (b : Int)
    (h32 : b ≠ 32) (h64 : b ≠ 64) (h128 : b ≠ 128) :
    GMPyContext_ieee B (PyVal.int b) w =
      (Except.error
        (if LONG_MIN ≤ b ∧ b ≤ LONG_MAX then PyErr.ValueError "bitwidth must be 32, 64, or 128"
         else PyErr.TypeError "ieee() requires 'int' argument"), w) := by
  by_cases hfit : LONG_MIN ≤ b ∧ b ≤ LONG_MAX
  · simp [GMPyContext_ieee, PyIntOrLong_AsLong, hfit, h32, h64, h128]
  · simp [GMPyContext_ieee, PyIntOrLong_AsLong, hfit]

/-- C15: `ieee(b)` succeeds exactly for `b` in 32, 64, 128; the results have precision
24, 53, 113, `emax` 128, 1024, 16384, `emin` -148, -1073, -16493, `subnormalize` on, and
every other field as `GMPyContext_new` sets it; for any other integer the call raises
(`ValueError` when `b` fits a C long, `TypeError` beyond) and leaves the world unchanged. -/
theorem ieee_presets (B : Backend) (w : World) (b : Int) :
    ((∃ r, (GMPyContext_ieee B (PyVal.int b) w).1 = Except.ok r) ↔ b = 32 ∨ b = 64 ∨ b = 128) ∧
    (b = 32 →
      (GMPyContext_ieee B (PyVal.int b) w).1 = Except.ok w.heap.length ∧
      (GMPyContext_ieee B (PyVal.int b) w).2.ctx w.heap.length = some
        { new_ctx B with subnormalize := 1, mpfr_prec := 24, emax := 128, emin := -148 }) ∧
    (b = 64 →
      (GMPyContext_ieee B (PyVal.int b) w).1 = Except.ok w.heap.length ∧
      (GMPyContext_ieee B (PyVal.int b) w).2.ctx w.heap.length = some
        { new_ctx B with subnormalize := 1, mpfr_prec := 53, emax := 1024, emin := -1073 }) ∧
    (b = 128 →
      (GMPyContext_ieee B (PyVal.int b) w).1 = Except.ok w.heap.length ∧
      (GMPyContext_ieee B (PyVal.int b) w).2.ctx w.heap.length = some
        { new_ctx B with subnormalize := 1, mpfr_prec := 113, emax := 16384, emin := -16493 }) ∧
    (b ≠ 32 → b ≠ 64 → b ≠ 128 →
      GMPyContext_ieee B (PyVal.int b) w =
        (Except.error
          (if LONG_MIN ≤ b ∧ b ≤ LONG_MAX then
            PyErr.ValueError "bitwidth must be 32, 64, or 128"
           else PyErr.TypeError "ieee() requires 'int' argument"), w)) := by
  refine ⟨⟨?_, ?_⟩, ?_, ?_, ?_, ieee_other_eq B w b⟩
  · rintro ⟨r, hr⟩
    by_contra hne
    simp only [not_or] at hne
    rw [ieee_other_eq B w b hne.1 hne.2.1 hne.2.2] at hr
    simp at hr
  · rintro (h | h | h)
    · exact ⟨_, by rw [ieee_ok_eq B w b 24 128 (-148) (Or.inl ⟨h, rfl, rfl, rfl⟩)]⟩
    · exact ⟨_, by rw [ieee_ok_eq B w b 53 1024 (-1073) (Or.inr (Or.inl ⟨h, rfl, rfl, rfl⟩))]⟩
    · exact ⟨_, by rw [ieee_ok_eq B w b 113 16384 (-16493) (Or.inr (Or.inr ⟨h, rfl, rfl, rfl⟩))]⟩
  · intro h
    rw [ieee_ok_eq B w b 24 128 (-148) (Or.inl ⟨h, rfl, rfl, rfl⟩)]
    exact ⟨rfl, by simp [World.ctx, World.obj]⟩
  · intro h
    rw [ieee_ok_eq B w b 53 1024 (-1073) (Or.inr (Or.inl ⟨h, rfl, rfl, rfl⟩))]
    exact ⟨rfl, by simp [World.ctx, World.obj]⟩
  · intro h
    rw [ieee_ok_eq B w b 113 16384 (-16493) (Or.inr (Or.inr ⟨h, rfl, rfl, rfl⟩))]
    exact ⟨rfl, by simp [World.ctx, World.obj]⟩

/-- C16 (amended): for `b` in 32, 64, 128 the context returned by `ieee(b)` is a fresh
object with `readonly = 0`, and assigning to it (here `subnormalize`) succeeds without a
copy. -/
theorem ieee_preset_is_writable (B : Backend) (w : World) (b : Int)
    (hb : b = 32 ∨ b = 64 ∨ b = 128) :
    ∃ c : gmpy_context,
      (GMPyContext_ieee B (PyVal.int b) w).1 = Except.ok w.heap.length ∧
      w.obj w.heap.length = none ∧
      (GMPyContext_ieee B (PyVal.int b) w).2.ctx w.heap.length = some c ∧
      c.readonly = 0 ∧
      (∀ v : Bool,
        (GMPyContext_setattr B Attr.subnormalize w.heap.length (PyVal.bool v)
          (GMPyContext_ieee B (PyVal.int b) w).2).1 = Except.ok ()) := by
  have key : ∀ prec emax emin : Int,
      GMPyContext_ieee B (PyVal.int b) w =
      (Except.ok w.heap.length,
        { w with heap := w.heap ++ [GMPyContextObject.mk
          { new_ctx B with subnormalize := 1, mpfr_prec := prec, emax := emax, emin := emin }
          none] }) →
      ∃ c : gmpy_context,
      (GMPyContext_ieee B (PyVal.int b) w).1 = Except.ok w.heap.length ∧
      w.obj w.heap.length = none ∧
      (GMPyContext_ieee B (PyVal.int b) w).2.ctx w.heap.length = some c ∧
      c.readonly = 0 ∧
      (∀ v : Bool,
        (GMPyContext_setattr B Attr.subnormalize w.heap.length (PyVal.bool v)
          (GMPyContext_ieee B (PyVal.int b) w).2).1 = Except.ok ()) := by
    intro prec emax emin he
    rw [he]
    refine ⟨{ new_ctx B with subnormalize := 1, mpfr_prec := prec, emax := emax, emin := emin },
      rfl, obj_length_none w, by simp [World.ctx, World.obj], rfl, ?_⟩
    intro v
    simp [GMPyContext_setattr, World.obj, setter, GETSET_BOOLEAN, new_ctx, PyBool_Check]
  rcases hb with h | h | h
  · exact key _ _ _ (ieee_ok_eq B w b 24 128 (-148) (Or.inl ⟨h, rfl, rfl, rfl⟩))
  · exact key _ _ _ (ieee_ok_eq B w b 53 1024 (-1073) (Or.inr (Or.inl ⟨h, rfl, rfl, rfl⟩)))
  · exact key _ _ _ (ieee_ok_eq B w b 113 16384 (-16493) (Or.inr (Or.inr ⟨h, rfl, rfl, rfl⟩)))

/-- C16 (counterexample): on MPFR 3.1, from the initial world, `ieee(32)`, `ieee(64)` and
`ieee(128)` each succeed with `readonly = 0`, and `precision = 100` on the `ieee(64)`
result succeeds. -/
theorem ieee_preset_not_readonly :
    (GMPyContext_ieee mpfr3 (PyVal.int 32) (World.init mpfr3)).1 = Except.ok 0 ∧
    (GMPyContext_ieee mpfr3 (PyVal.int 64) (World.init mpfr3)).1 = Except.ok 0 ∧
    (GMPyContext_ieee mpfr3 (PyVal.int 128) (World.init mpfr3)).1 = Except.ok 0 ∧
    ((GMPyContext_ieee mpfr3 (PyVal.int 32) (World.init mpfr3)).2.ctx 0).map
      (fun c => c.readonly) = some 0 ∧
    ((GMPyContext_ieee mpfr3 (PyVal.int 64) (World.init mpfr3)).2.ctx 0).map
      (fun c => c.readonly) = some 0 ∧
    ((GMPyContext_ieee mpfr3 (PyVal.int 128) (World.init mpfr3)).2.ctx 0).map
      (fun c => c.readonly) = some 0 ∧
    (GMPyContext_setattr mpfr3 Attr.precision 0 (PyVal.int 100)
      (GMPyContext_ieee mpfr3 (PyVal.int 64) (World.init mpfr3)).2).1 = Except.ok () := by
  refine ⟨by rfl, by rfl, by rfl, by decide, by decide, by decide, by rfl⟩

theorem parse_arg_typed (conv : PyVal → Option Int) (arg : Option PyVal)
    (dest : gmpy_context → Int → gmpy_context) (proj : gmpy_context → Int) (c : gmpy_context)
    (hproj : ∀ c, dest c (proj c) = c) (h : converts conv arg = true) :
    parse_arg conv arg dest (true, c) = (true, dest c (option_value conv arg (proj c))) := by
  cases arg with
  | none => simp [parse_arg, option_value, hproj]
  | some v =>
    cases hv : conv v with
    | none => simp [converts, hv] at h
    | some n => simp [parse_arg, option_value, hv]

theorem parse_well_typed (kw : Kwargs) (d : gmpy_context) (h : kw.well_typed = true) :
    PyArg_ParseTupleAndKeywords kw d = (true, options_over kw d) := by
  simp only [Kwargs.well_typed, Bool.and_eq_true] at h
  obtain ⟨⟨⟨⟨⟨⟨⟨⟨⟨⟨⟨⟨⟨⟨⟨⟨h1, h2⟩, h3⟩, h4⟩, h5⟩, h6⟩, h7⟩, h8⟩, h9⟩, h10⟩, h11⟩, h12⟩, h13⟩, h14⟩,
    h15⟩, h16⟩, h17⟩ := h
  unfold PyArg_ParseTupleAndKeywords
  rw [parse_arg_typed convert_l kw.precision _ (fun c => c.mpfr_prec) _ (fun _ => rfl) h1,
    parse_arg_typed convert_l kw.real_prec _ (fun c => c.real_prec) _ (fun _ => rfl) h2,
    parse_arg_typed convert_l kw.imag_prec _ (fun c => c.imag_prec) _ (fun _ => rfl) h3,
    parse_arg_typed convert_i kw.round _ (fun c => c.mpfr_round) _ (fun _ => rfl) h4,
    parse_arg_typed convert_i kw.real_round _ (fun c => c.real_round) _ (fun _ => rfl) h5,
    parse_arg_typed convert_i kw.imag_round _ (fun c => c.imag_round) _ (fun _ => rfl) h6,
    parse_arg_typed convert_l kw.emax _ (fun c => c.emax) _ (fun _ => rfl) h7,
    parse_arg_typed convert_l kw.emin _ (fun c => c.emin) _ (fun _ => rfl) h8,
    parse_arg_typed convert_i kw.subnormalize _ (fun c => c.subnormalize) _ (fun _ => rfl) h9,
    parse_arg_typed convert_i kw.trap_underflow _ (fun c => c.trap_underflow) _ (fun _ => rfl) h10,
    parse_arg_typed convert_i kw.trap_overflow _ (fun c => c.trap_overflow) _ (fun _ => rfl) h11,
    parse_arg_typed convert_i kw.trap_inexact _ (fun c => c.trap_inexact) _ (fun _ => rfl) h12,
    parse_arg_typed convert_i kw.trap_invalid _ (fun c => c.trap_invalid) _ (fun _ => rfl) h13,
    parse_arg_typed convert_i kw.trap_erange _ (fun c => c.trap_erange) _ (fun _ => rfl) h14,
    parse_arg_typed convert_i kw.trap_divzero _ (fun c => c.trap_divzero) _ (fun _ => rfl) h15,
    parse_arg_typed convert_i kw.trap_expbound _ (fun c => c.trap_expbound) _ (fun _ => rfl) h16,
    parse_arg_typed convert_i kw.allow_complex _ (fun c => c.allow_complex) _ (fun _ => rfl) h17]
  rfl

theorem parse_arg_fst (conv : PyVal → Option Int) (arg : Option PyVal)
    (dest : gmpy_context → Int → gmpy_context) (st : Bool × gmpy_context) :
    (parse_arg conv arg dest st).1 = (st.1 && converts conv arg) := by
  obtain ⟨b, c⟩ := st
  cases b with
  | false => simp [parse_arg]
  | true =>
    cases arg with
    | none => simp [parse_arg, converts]
    | some v =>
      cases hv : conv v with
      | none => simp [parse_arg, converts, hv]
      | some n => simp [parse_arg, converts, hv]

theorem parse_fst (kw : Kwargs) (d : gmpy_context) :
    (PyArg_ParseTupleAndKeywords kw d).1 = kw.well_typed := by
  unfold PyArg_ParseTupleAndKeywords Kwargs.well_typed
  simp only [parse_arg_fst, Bool.true_and]

theorem force_real_round (c : gmpy_context) :
    (force_mpc_rounding c).real_round
      = (if c.mpfr_round = MPFR_RNDA then MPFR_RNDN else c.real_round) := by
  unfold force_mpc_rounding
  split <;> rfl

theorem force_imag_round (c : gmpy_context) :
    (force_mpc_rounding c).imag_round
      = (if c.mpfr_round = MPFR_RNDA then MPFR_RNDN else c.imag_round) := by
  unfold force_mpc_rounding
  split <;> rfl

theorem mpfr_set_emin_ret (B : Backend) (e : Int) (w : World) :
    (mpfr_set_emin B e w).1 = 0 ↔ B.emin_ok e = true := by
  unfold mpfr_set_emin
  split <;> simp_all

theorem mpfr_set_emax_ret (B : Backend) (e : Int) (w : World) :
    (mpfr_set_emax B e w).1 = 0 ↔ B.emax_ok e = true := by
  unfold mpfr_set_emax
  split <;> simp_all

theorem sanity_check_mpc_exp_none_iff (B : Backend) (c : gmpy_context) (w : World) :
    ((sanity_check_mpc_exp B c w).1 = none ↔
      is_mpc_rounding c.real_round ∧ is_mpc_rounding c.imag_round ∧
      (c.emin < 0 ∧ 0 < c.emax) ∧ (B.emin_ok c.emin = true ∧ B.emax_ok c.emax = true)) ∧
    (∀ e, (sanity_check_mpc_exp B c w).1 = some e → ∃ msg, e = PyErr.ValueError msg) := by
  unfold sanity_check_mpc_exp is_mpc_rounding
  split
  · rename_i a1
    exact ⟨⟨by simp, fun hv => absurd hv.1 a1⟩, by simp⟩
  rename_i a1
  split
  · rename_i a2
    exact ⟨⟨by simp, fun hv => absurd hv.2.1 a2⟩, by simp⟩
  rename_i a2
  split
  · rename_i a3
    exact ⟨⟨by simp, fun hv => absurd hv.2.2.1 a3⟩, by simp⟩
  rename_i a3
  split
  · rename_i a4
    exact ⟨⟨by simp, fun hv => absurd ((mpfr_set_emin_ret B c.emin w).2 hv.2.2.2.1) a4⟩,
      by simp⟩
  rename_i a4
  split
  · rename_i a5
    exact ⟨⟨by simp, fun hv => absurd ((mpfr_set_emax_ret B c.emax _).2 hv.2.2.2.2) a5⟩,
      by simp⟩
  rename_i a5
  simp only [not_not] at a1 a2 a3 a4 a5
  exact ⟨⟨fun _ => ⟨a1, a2, a3, (mpfr_set_emin_ret B c.emin w).1 a4,
    (mpfr_set_emax_ret B c.emax _).1 a5⟩, fun _ => rfl⟩, by simp⟩

theorem sanity_check_none_iff (B : Backend) (c : gmpy_context) (w : World) :
    ((sanity_check B c w).1 = none ↔ spec_options_valid B c) ∧
    (∀ e, (sanity_check B c w).1 = some e → ∃ msg, e = PyErr.ValueError msg) := by
  obtain ⟨h1, h2⟩ := sanity_check_mpc_exp_none_iff B (force_mpc_rounding c) w
  rw [force_real_round, force_imag_round, force_mpc_rounding_emin,
    force_mpc_rounding_emax] at h1
  unfold sanity_check spec_options_valid
  split
  · rename_i a1
    refine ⟨⟨by simp, fun hv => ?_⟩, by simp⟩
    rcases a1 with a | a
    · exact absurd hv.1.1 (not_le.mpr a)
    · exact absurd hv.1.2 (not_le.mpr a)
  rename_i a1
  split
  · rename_i a2
    exact ⟨⟨by simp, fun hv => absurd hv.2.1 a2⟩, by simp⟩
  rename_i a2
  split
  · rename_i a3
    exact ⟨⟨by simp, fun hv => absurd hv.2.2.1 a3⟩, by simp⟩
  rename_i a3
  split
  · rename_i a4
    exact ⟨⟨by simp, fun hv => absurd hv.2.2.2.1 a4⟩, by simp⟩
  rename_i a4
  refine ⟨?_, h2⟩
  rw [h1]
  simp only [not_or, not_lt] at a1
  simp only [not_not] at a2 a3 a4
  constructor
  · rintro ⟨b1, b2, b3, b4⟩
    exact ⟨a1, a2, a3, a4, b1, b2, b3, b4⟩
  · rintro ⟨_, _, _, _, b1, b2, b3, b4⟩
    exact ⟨b1, b2, b3, b4⟩

theorem context_typed_eq (B : Backend) (kw : Kwargs) (w : World) (ht : kw.well_typed = true) :
    GMPyContext_context B kw w =
      (match sanity_check B (options_over kw (new_ctx B)) (GMPyContext_new B w).2 with
        | (some e, _, w1) => (Except.error e, { w1 with heap := w.heap })
        | (none, c1, w1) =>
          (Except.ok w.heap.length, w1.store w.heap.length
            { ctx := clear_flags_ctx c1, tstate := none })) := by
  unfold GMPyContext_context
  simp only [parse_well_typed kw (new_ctx B) ht, if_true]
  rfl

theorem kw_four_well_typed (B : Backend) (hB : B.c_typed) (p r en ex : Int)
    (hp : B.MPFR_PREC_MIN ≤ p ∧ p ≤ B.MPFR_PREC_MAX)
    (hr : r = MPFR_RNDN ∨ r = MPFR_RNDZ ∨ r = MPFR_RNDU ∨ r = MPFR_RNDD ∨ r = MPFR_RNDA)
    (hmin : B.emin_ok en = true) (hmax : B.emax_ok ex = true) :
    (kw_four p r en ex).well_typed = true ∧
    options_over (kw_four p r en ex) (new_ctx B)
      = { new_ctx B with mpfr_prec := p, mpfr_round := r, emax := ex, emin := en } := by
  obtain ⟨b1, b2, b3, b4⟩ := hB
  have fp : LONG_MIN ≤ p ∧ p ≤ LONG_MAX := ⟨le_trans b1 hp.1, le_trans hp.2 b2⟩
  have fen := b3 en hmin
  have fex := b4 ex hmax
  have fr : INT_MIN ≤ r ∧ r ≤ INT_MAX := by
    simp only [MPFR_RNDN, MPFR_RNDZ, MPFR_RNDU, MPFR_RNDD, MPFR_RNDA] at hr
    simp only [INT_MIN, INT_MAX]
    omega
  constructor
  · simp [Kwargs.well_typed, kw_four, converts, convert_l, convert_i, fp, fen, fex, fr]
  · simp [options_over, kw_four, option_value, convert_l, convert_i, fp, fen, fex, fr]

/-- C13: for valid `precision`, `round`, `emin`, `emax` accepted by the backend, the
context built from exactly those four options reads them back through the getters; its
`real_round` and `imag_round` are `MPFR_RNDN` when `round` is `MPFR_RNDA` and
`GMPY_DEFAULT` otherwise; and its six flags read false. -/
theorem constructor_round_trip (B : Backend) (hB : B.c_typed) (w : World) (p r en ex : Int)
    (hp : B.MPFR_PREC_MIN ≤ p ∧ p ≤ B.MPFR_PREC_MAX)
    (hr : r = MPFR_RNDN ∨ r = MPFR_RNDZ ∨ r = MPFR_RNDU ∨ r = MPFR_RNDD ∨ r = MPFR_RNDA)
    (he : en < 0 ∧ 0 < ex) (hmin : B.emin_ok en = true) (hmax : B.emax_ok ex = true) :
    ∃ c : gmpy_context,
      (GMPyContext_context B (kw_four p r en ex) w).1 = Except.ok w.heap.length ∧
      (GMPyContext_context B (kw_four p r en ex) w).2.ctx w.heap.length = some c ∧
      GMPyContext_get_precision c = p ∧ GMPyContext_get_round c = r ∧
      GMPyContext_get_emin c = en ∧ GMPyContext_get_emax c = ex ∧
      (r = MPFR_RNDA → c.real_round = MPFR_RNDN ∧ c.imag_round = MPFR_RNDN) ∧
      (r ≠ MPFR_RNDA → c.real_round = GMPY_DEFAULT ∧ c.imag_round = GMPY_DEFAULT) ∧
      (GETSET_BOOLEAN_get c.underflow = false ∧ GETSET_BOOLEAN_get c.overflow = false ∧
        GETSET_BOOLEAN_get c.inexact = false ∧ GETSET_BOOLEAN_get c.invalid = false ∧
        GETSET_BOOLEAN_get c.erange = false ∧ GETSET_BOOLEAN_get c.divzero = false) := by
  obtain ⟨ht, hopt⟩ := kw_four_well_typed B hB p r en ex hp hr hmin hmax
  have hvalid : spec_options_valid B (options_over (kw_four p r en ex) (new_ctx B)) := by
    rw [hopt]
    refine ⟨hp, Or.inl rfl, Or.inl rfl, hr, ?_, ?_, he, hmin, hmax⟩
    · show is_mpc_rounding (if r = MPFR_RNDA then MPFR_RNDN else GMPY_DEFAULT)
      unfold is_mpc_rounding
      split
      · exact Or.inl rfl
      · exact Or.inr (Or.inr (Or.inr (Or.inr rfl)))
    · show is_mpc_rounding (if r = MPFR_RNDA then MPFR_RNDN else GMPY_DEFAULT)
      unfold is_mpc_rounding
      split
      · exact Or.inl rfl
      · exact Or.inr (Or.inr (Or.inr (Or.inr rfl)))
  have hnone := (sanity_check_none_iff B (options_over (kw_four p r en ex) (new_ctx B))
    (GMPyContext_new B w).2).1.2 hvalid
  rw [context_typed_eq B (kw_four p r en ex) w ht]
  rcases hs : sanity_check B (options_over (kw_four p r en ex) (new_ctx B))
    (GMPyContext_new B w).2 with ⟨e, c1, w1⟩
  rw [hs] at hnone
  simp only at hnone
  subst hnone
  obtain ⟨hh, _, _, hc⟩ := sanity_check_eq B _ _ _ _ _ hs
  have hc1 := hc rfl
  rw [hopt] at hc1
  refine ⟨clear_flags_ctx c1, rfl, ?_, ?_⟩
  · simp only [World.ctx, World.obj, World.store, hh, GMPyContext_new, World.alloc]
    rw [List.getElem?_set_self (by simp)]
    rfl
  · subst hc1
    by_cases hra : r = MPFR_RNDA
    · subst hra
      simp [clear_flags_ctx, force_mpc_rounding, GMPyContext_get_precision,
        GMPyContext_get_round, GMPyContext_get_emin, GMPyContext_get_emax, GETSET_BOOLEAN_get]
    · simp [clear_flags_ctx, force_mpc_rounding, GMPyContext_get_precision,
        GMPyContext_get_round, GMPyContext_get_emin, GMPyContext_get_emax, GETSET_BOOLEAN_get,
        hra, new_ctx, GMPY_DEFAULT]

/-! ## The thread cache and the thread dictionaries -/

theorem binding_cons_self (w : World) (t r : Nat) :
    World.binding { w with tls := (t, r) :: w.tls } t = some r := by
  simp [World.binding, List.lookup]

theorem binding_cons_ne (w : World) (t t1 r : Nat) (h : t1 ≠ t) :
    World.binding { w with tls := (t, r) :: w.tls } t1 = w.binding t1 := by
  have hb : (t1 == t) = false := by simpa using h
  simp [World.binding, List.lookup, hb]

theorem lookup_filter_ne (l : List (Nat × Nat)) (t t1 : Nat) (h : t1 ≠ t) :
    (l.filter (fun p => p.1 != t)).lookup t1 = l.lookup t1 := by
  induction l with
  | nil => rfl
  | cons p l ih =>
    obtain ⟨a, b⟩ := p
    by_cases ha : a = t
    · subst ha
      have h1 : (t1 == a) = false := by simpa using h
      simp [List.filter, List.lookup, h1, ih]
    · have h2 : (a != t) = true := by simpa using ha
      by_cases h3 : t1 = a
      · subst h3
        simp [List.filter, List.lookup, h2]
      · have h4 : (t1 == a) = false := by simpa using h3
        simp [List.filter, List.lookup, h2, h4, ih]

theorem lookup_filter_self (l : List (Nat × Nat)) (t : Nat) :
    (l.filter (fun p => p.1 != t)).lookup t = none := by
  induction l with
  | nil => rfl
  | cons p l ih =>
    obtain ⟨a, b⟩ := p
    by_cases ha : a = t
    · subst ha
      simp [List.filter, ih]
    · have h2 : (a != t) = true := by simpa using ha
      have h4 : (t == a) = false := by simpa using Ne.symm ha
      simp [List.filter, List.lookup, h2, h4, ih]

theorem binding_thread_end_ne (w : World) (t t1 : Nat) (h : t1 ≠ t) :
    (thread_end t w).binding t1 = w.binding t1 :=
  lookup_filter_ne w.tls t t1 h

theorem binding_thread_end_self (w : World) (t : Nat) : (thread_end t w).binding t = none :=
  lookup_filter_self w.tls t

theorem frames_refl (w : World) : w.frames w :=
  ⟨rfl, rfl, fun _ o h => ⟨o, h, rfl⟩⟩

theorem frames_trans (w w1 w2 : World) (h1 : w.frames w1) (h2 : w1.frames w2) :
    w.frames w2 := by
  obtain ⟨a1, a2, a3⟩ := h1
  obtain ⟨b1, b2, b3⟩ := h2
  refine ⟨b1.trans a1, b2.trans a2, ?_⟩
  intro r o ho
  obtain ⟨o1, ho1, ht1⟩ := a3 r o ho
  obtain ⟨o2, ho2, ht2⟩ := b3 r o1 ho1
  exact ⟨o2, ho2, ht2.trans ht1⟩

theorem frames_of_eq (w w1 : World) (hh : w1.heap = w.heap) (ht : w1.tls = w.tls)
    (hc : w1.cached_context = w.cached_context) : w.frames w1 := by
  refine ⟨hc, ht, ?_⟩
  intro r o ho
  exact ⟨o, by simpa [World.obj, hh] using ho, rfl⟩

theorem frames_append (w : World) (o : GMPyContextObject) :
    w.frames { w with heap := w.heap ++ [o] } := by
  refine ⟨rfl, rfl, ?_⟩
  intro r p hp
  have hlt := obj_lt_length w r p hp
  exact ⟨p, by simpa [World.obj, List.getElem?_append_left hlt] using hp, rfl⟩

theorem frames_store (w : World) (r : Nat) (o : GMPyContextObject)
    (h : ∀ o0, w.obj r = some o0 → o.tstate = o0.tstate) : w.frames (w.store r o) := by
  refine ⟨rfl, rfl, ?_⟩
  intro r1 p hp
  by_cases hr : r = r1
  · subst hr
    exact ⟨o, obj_store_same w r o (obj_lt_length w r p hp), h p hp⟩
  · exact ⟨p, by rw [obj_store_other w r r1 o hr]; exact hp, rfl⟩

theorem frames_take (w w1 : World) (n : Nat) (h : w.frames w1) (hn : w.heap.length ≤ n) :
    w.frames { w1 with heap := w1.heap.take n } := by
  obtain ⟨a1, a2, a3⟩ := h
  refine ⟨a1, a2, ?_⟩
  intro r o ho
  obtain ⟨o1, ho1, ht1⟩ := a3 r o ho
  have hlt := obj_lt_length w r o ho
  refine ⟨o1, ?_, ht1⟩
  simp only [World.obj] at ho1 ⊢
  rw [List.getElem?_take, if_pos (by omega)]
  exact ho1

theorem cache_ok_of_frames (w w1 : World) (h : w.frames w1) (hw : w.cache_ok) :
    w1.cache_ok := by
  obtain ⟨a1, a2, a3⟩ := h
  intro r hr
  rw [a1] at hr
  obtain ⟨o, ho, hb⟩ := hw r hr
  obtain ⟨o1, ho1, ht1⟩ := a3 r o ho
  refine ⟨o1, ho1, ?_⟩
  intro t ht
  rw [ht1] at ht
  simpa [World.binding, a2] using hb t ht

theorem binding_of_frames (w w1 : World) (h : w.frames w1) (t : Nat) :
    w1.binding t = w.binding t := by
  simp [World.binding, h.2.1]

theorem cache_context_tls (t r : Nat) (w : World) : (cache_context t r w).tls = w.tls := by
  unfold cache_context
  split <;> rfl

theorem cache_context_binding (t r t1 : Nat) (w : World) :
    (cache_context t r w).binding t1 = w.binding t1 := by
  simp [World.binding, cache_context_tls]

theorem cache_ok_cache_context_obj (t r : Nat) (w : World) (o : GMPyContextObject)
    (ho : w.obj r = some o) (hb : w.binding t = some r) : (cache_context t r w).cache_ok := by
  have hlt := obj_lt_length w r o ho
  intro r1 hr1
  simp only [cache_context, ho] at hr1 ⊢
  simp only [Option.some.injEq] at hr1
  subst hr1
  refine ⟨{ o with tstate := some t }, ?_, ?_⟩
  · simp [World.obj, World.store, hlt]
  · intro t1 ht1
    simp only [Option.some.injEq] at ht1
    subst ht1
    simpa [World.binding, World.store] using hb

theorem cache_ok_cache_context (t r : Nat) (w : World) (hw : w.cache_ok)
    (hb : w.binding t = some r) : (cache_context t r w).cache_ok := by
  cases ho : w.obj r with
  | none => simpa [cache_context, ho] using hw
  | some o => exact cache_ok_cache_context_obj t r w o ho hb

theorem from_dict_bound (B : Backend) (t r : Nat) (w : World) (hb : w.binding t = some r) :
    current_context_from_dict B t w = (r, cache_context t r w) := by
  simp [current_context_from_dict, hb]

theorem from_dict_unbound (B : Backend) (t : Nat) (w : World) (hb : w.binding t = none) :
    current_context_from_dict B t w =
      (w.heap.length,
        { heap := w.heap ++ [GMPyContextObject.mk (new_ctx B) (some t)]
          tls := (t, w.heap.length) :: w.tls
          cached_context := some w.heap.length
          emin := w.emin
          emax := w.emax }) := by
  simp [current_context_from_dict, hb, GMPyContext_new, World.alloc, cache_context, World.obj,
    World.store]

theorem cache_ok_from_dict (B : Backend) (t : Nat) (w : World) (hw : w.cache_ok) :
    (current_context_from_dict B t w).2.cache_ok := by
  cases hb : w.binding t with
  | some r =>
    rw [from_dict_bound B t r w hb]
    exact cache_ok_cache_context t r w hw hb
  | none =>
    rw [from_dict_unbound B t w hb]
    intro r1 hr1
    simp only [Option.some.injEq] at hr1
    subst hr1
    refine ⟨GMPyContextObject.mk (new_ctx B) (some t), by simp [World.obj], ?_⟩
    intro t1 ht1
    simp only [Option.some.injEq] at ht1
    subst ht1
    simp [World.binding, List.lookup]

theorem binding_from_dict (B : Backend) (t t1 r : Nat) (w : World)
    (hb : w.binding t1 = some r) :
    (current_context_from_dict B t w).2.binding t1 = some r := by
  cases hbt : w.binding t with
  | some r0 =>
    rw [from_dict_bound B t r0 w hbt, cache_context_binding]
    exact hb
  | none =>
    rw [from_dict_unbound B t w hbt]
    have hne : t1 ≠ t := by
      intro he
      subst he
      rw [hb] at hbt
      exact Option.noConfusion hbt
    have hbeq : (t1 == t) = false := by simpa using hne
    simpa [World.binding, List.lookup, hbeq] using hb

theorem cache_ok_current (B : Backend) (t : Nat) (w : World) (hw : w.cache_ok) :
    (GMPyContext_current B t w).2.cache_ok := by
  unfold GMPyContext_current
  split
  · exact cache_ok_from_dict B t w hw
  · split
    · exact cache_ok_from_dict B t w hw
    · split
      · exact hw
      · exact cache_ok_from_dict B t w hw

theorem binding_current (B : Backend) (t t1 r : Nat) (w : World)
    (hb : w.binding t1 = some r) : (GMPyContext_current B t w).2.binding t1 = some r := by
  unfold GMPyContext_current
  split
  · exact binding_from_dict B t t1 r w hb
  · split
    · exact binding_from_dict B t t1 r w hb
    · split
      · exact hb
      · exact binding_from_dict B t t1 r w hb

theorem current_of_binding (B : Backend) (t r : Nat) (w : World) (hw : w.cache_ok)
    (hb : w.binding t = some r) : (GMPyContext_current B t w).1 = r := by
  unfold GMPyContext_current
  split
  · rw [from_dict_bound B t r w hb]
  · rename_i rc hrc
    obtain ⟨o, ho, hbt⟩ := hw rc hrc
    simp only [ho]
    split
    · rename_i ht
      have := hbt t ht
      rw [hb] at this
      exact (Option.some.inj this).symm
    · rw [from_dict_bound B t r w hb]

theorem current_unbound (B : Backend) (t : Nat) (w : World) (hw : w.cache_ok)
    (hb : w.binding t = none) :
    GMPyContext_current B t w = current_context_from_dict B t w := by
  unfold GMPyContext_current
  split
  · rfl
  · rename_i rc hrc
    obtain ⟨o, ho, hbt⟩ := hw rc hrc
    simp only [ho]
    split
    · rename_i ht
      have := hbt t ht
      rw [hb] at this
      exact Option.noConfusion this
    · rfl

theorem frames_push (B : Backend) (c : gmpy_context) (w : World) :
    w.frames (push_bounds B c w) :=
  frames_of_eq w _ (push_bounds_heap B c w) (push_bounds_tls B c w) (push_bounds_cached B c w)

theorem frames_copy (B : Backend) (self : Nat) (w : World) :
    w.frames (GMPyContext_context_copy B self w).2 := by
  cases ho : w.obj self with
  | none => simpa [GMPyContext_context_copy, ho] using frames_refl w
  | some o =>
    rw [context_copy_eq B self w o ho]
    exact frames_append w _

theorem set_context_invalid (B : Backend) (t c : Nat) (w : World) (h : w.obj c = none) :
    (GMPyContext_set_context B t c w).2 = w := by
  simp [GMPyContext_set_context, h]

theorem cache_ok_set_context (B : Backend) (t c : Nat) (w : World) (hw : w.cache_ok) :
    (GMPyContext_set_context B t c w).2.cache_ok := by
  cases ho : w.obj c with
  | none =>
    rw [set_context_invalid B t c w ho]
    exact hw
  | some o =>
    obtain ⟨_, h2, h3, h4, _, _, _⟩ := set_context_spec B t c w o ho
    intro r hr
    rw [h2] at hr
    simp only [Option.some.injEq] at hr
    subst hr
    refine ⟨_, h3, ?_⟩
    intro t1 ht1
    simp only [Option.some.injEq] at ht1
    subst ht1
    simp [World.binding, h4, List.lookup]

theorem binding_set_context (B : Backend) (t t1 c : Nat) (w : World) (hne : t1 ≠ t) :
    (GMPyContext_set_context B t c w).2.binding t1 = w.binding t1 := by
  cases ho : w.obj c with
  | none => rw [set_context_invalid B t c w ho]
  | some o =>
    obtain ⟨_, _, _, h4, _, _, _⟩ := set_context_spec B t c w o ho
    have hbeq : (t1 == t) = false := by simpa using hne
    simp [World.binding, h4, List.lookup, hbeq]

theorem manager_enter_preserves (P : World → Prop) (B : Backend) (t : Nat)
    (m : GMPyContextManagerObject) (w : World)
    (hfr : ∀ y y1 : World, y.frames y1 → P y → P y1)
    (hset : ∀ c y, P y → P (GMPyContext_set_context B t c y).2) (hw : P w) :
    P (GMPyContextManager_enter B t m w).2 := by
  have h1 := hset m.new_context w hw
  unfold GMPyContextManager_enter
  generalize GMPyContext_set_context B t m.new_context w = res at h1 ⊢
  obtain ⟨r, w1⟩ := res
  cases r with
  | error e => exact h1
  | ok u =>
    simp only
    split
    · exact h1
    · exact hfr _ _ (frames_push B _ _) h1

theorem manager_exit_preserves (P : World → Prop) (B : Backend) (t : Nat)
    (m : GMPyContextManagerObject) (w : World)
    (hfr : ∀ y y1 : World, y.frames y1 → P y → P y1)
    (hset : ∀ c y, P y → P (GMPyContext_set_context B t c y).2) (hw : P w) :
    P (GMPyContextManager_exit B t m w).2 := by
  have h1 := hset m.old_context w hw
  unfold GMPyContextManager_exit
  generalize GMPyContext_set_context B t m.old_context w = res at h1 ⊢
  obtain ⟨r, w1⟩ := res
  cases r with
  | error e => exact h1
  | ok u =>
    simp only
    split
    · exact h1
    · exact hfr _ _ (frames_push B _ _) h1

theorem context_exit_preserves (P : World → Prop) (B : Backend) (t self : Nat) (w : World)
    (hfr : ∀ y y1 : World, y.frames y1 → P y → P y1)
    (hset : ∀ c y, P y → P (GMPyContext_set_context B t c y).2) (hw : P w) :
    P (GMPyContext_exit B t self w).2 := by
  have h1 := hset self w hw
  unfold GMPyContext_exit
  generalize GMPyContext_set_context B t self w = res at h1 ⊢
  obtain ⟨r, w1⟩ := res
  cases r with
  | error e => exact h1
  | ok u =>
    simp only
    split
    · exact h1
    · exact hfr _ _ (frames_push B _ _) h1

theorem context_enter_preserves (P : World → Prop) (B : Backend) (t self : Nat) (w : World)
    (hfr : ∀ y y1 : World, y.frames y1 → P y → P y1)
    (hset : ∀ c y, P y → P (GMPyContext_set_context B t c y).2) (hw : P w) :
    P (GMPyContext_enter B t self w).2 := by
  have h0 := hfr _ _ (frames_copy B self w) hw
  unfold GMPyContext_enter
  generalize GMPyContext_context_copy B self w = res0 at h0 ⊢
  obtain ⟨r0, w0⟩ := res0
  cases r0 with
  | error e => exact h0
  | ok result =>
    simp only
    have h1 := hset result w0 h0
    generalize GMPyContext_set_context B t result w0 = res at h1 ⊢
    obtain ⟨r, w1⟩ := res
    cases r with
    | error e => exact h1
    | ok u =>
      simp only
      split
      · exact h1
      · exact hfr _ _ (frames_push B _ _) h1

theorem frames_new_store (B : Backend) (w w1 : World) (c : gmpy_context)
    (hh : w1.heap = (GMPyContext_new B w).2.heap) (ht : w1.tls = w.tls)
    (hc : w1.cached_context = w.cached_context) :
    w.frames (w1.store w.heap.length (GMPyContextObject.mk c none)) := by
  have h1 : w.frames w1 := by
    refine frames_trans w _ w1 (frames_append w (GMPyContextObject.mk (new_ctx B) none)) ?_
    exact frames_of_eq _ _ hh ht hc
  refine frames_trans w w1 _ h1 (frames_store w1 _ _ ?_)
  intro o0 ho0
  simp only [World.obj, hh, GMPyContext_new, World.alloc, List.getElem?_concat_length,
    Option.some.injEq] at ho0
  rw [← ho0]

theorem frames_context (B : Backend) (kw : Kwargs) (w : World) :
    w.frames (GMPyContext_context B kw w).2 := by
  unfold GMPyContext_context
  simp only
  split
  · split
    · rename_i e c1 w1 hs
      obtain ⟨hh, ht, hc, _⟩ := sanity_check_eq B _ _ _ _ _ hs
      exact frames_of_eq _ _ rfl ht hc
    · rename_i c1 w1 hs
      obtain ⟨hh, ht, hc, _⟩ := sanity_check_eq B _ _ _ _ _ hs
      exact frames_new_store B w w1 _ hh ht hc
  · exact frames_refl w

theorem frames_ieee (B : Backend) (bitwidth : PyVal) (w : World) :
    w.frames (GMPyContext_ieee B bitwidth w).2 := by
  unfold GMPyContext_ieee
  simp only
  split_ifs
  · exact frames_refl w
  · exact frames_new_store B w _ _ rfl rfl rfl
  · exact frames_new_store B w _ _ rfl rfl rfl
  · exact frames_new_store B w _ _ rfl rfl rfl
  · exact frames_refl w

theorem frames_clear_flags (self : Nat) (w : World) :
    w.frames (GMPyContext_clear_flags self w).2 := by
  unfold GMPyContext_clear_flags
  split
  · exact frames_refl w
  · rename_i o ho
    refine frames_store w self _ ?_
    intro o0 ho0
    rw [ho] at ho0
    rw [← Option.some.inj ho0]

theorem setter_world (B : Backend) (a : Attr) (c : gmpy_context) (v : PyVal) (w : World) :
    (setter B a c v w).2.2.tls = w.tls ∧
    (setter B a c v w).2.2.cached_context = w.cached_context := by
  cases a <;> simp only [setter, and_self]
  · unfold GMPyContext_set_emax
    simp only []
    split_ifs <;> simp
  · unfold GMPyContext_set_emin
    simp only []
    split_ifs <;> simp

theorem frames_setattr (B : Backend) (a : Attr) (self : Nat) (v : PyVal) (w : World) :
    w.frames (GMPyContext_setattr B a self v w).2 := by
  unfold GMPyContext_setattr
  cases ho : w.obj self with
  | none => exact frames_refl w
  | some o =>
    have hh := setter_heap B a o.ctx v w
    obtain ⟨ht, hc⟩ := setter_world B a o.ctx v w
    rcases hs : setter B a o.ctx v w with ⟨e, c1, w1⟩
    rw [hs] at hh ht hc
    simp only [hs] at hh ht hc ⊢
    have h1 : w.frames w1 := frames_of_eq _ _ hh ht hc
    have h2 : w1.frames (w1.store self (GMPyContextObject.mk c1 o.tstate)) := by
      refine frames_store w1 self _ ?_
      intro o0 ho0
      have : w1.obj self = some o := by simpa [World.obj, hh] using ho
      rw [this] at ho0
      rw [← Option.some.inj ho0]
    cases e with
    | none => exact frames_trans _ _ _ h1 h2
    | some e1 => exact frames_trans _ _ _ h1 h2

theorem frames_fill (B : Backend) (context nc n0 : Nat) (kw : Kwargs) (w0 w1 : World)
    (h01 : w0.frames w1) (hn : w0.heap.length ≤ n0) :
    w0.frames (local_context_fill B context nc n0 kw w1).2 := by
  have h0 := frames_trans _ _ _ h01 (frames_copy B context w1)
  unfold local_context_fill
  generalize GMPyContext_context_copy B context w1 = res0 at h0 ⊢
  obtain ⟨r0, w2⟩ := res0
  cases r0 with
  | error e => exact frames_take _ _ _ h0 hn
  | ok old =>
    simp only at h0 ⊢
    split
    · exact h0
    · rename_i o ho
      have h3 : w0.frames (w2.store nc { o with ctx := (PyArg_ParseTupleAndKeywords kw o.ctx).2 }) := by
        refine frames_trans _ _ _ h0 (frames_store w2 nc _ ?_)
        intro o0 ho0
        rw [ho] at ho0
        rw [← Option.some.inj ho0]
      have hlt := obj_lt_length w2 nc o ho
      split
      · split
        · rename_i e c1 w4 hs
          obtain ⟨hh, ht, hc, _⟩ := sanity_check_eq B _ _ _ _ _ hs
          have h4 : w0.frames w4 := frames_trans _ _ _ h3 (frames_of_eq _ _ hh ht hc)
          refine frames_take _ _ _ (frames_trans _ _ _ h4 (frames_store w4 nc _ ?_)) hn
          intro o0 ho0
          simp only [World.obj, hh, World.store] at ho0
          rw [List.getElem?_set_self hlt] at ho0
          rw [← Option.some.inj ho0]
        · rename_i c1 w4 hs
          obtain ⟨hh, ht, hc, _⟩ := sanity_check_eq B _ _ _ _ _ hs
          have h4 : w0.frames w4 := frames_trans _ _ _ h3 (frames_of_eq _ _ hh ht hc)
          refine frames_trans _ _ _ h4 (frames_store w4 nc _ ?_)
          intro o0 ho0
          simp only [World.obj, hh, World.store] at ho0
          rw [List.getElem?_set_self hlt] at ho0
          rw [← Option.some.inj ho0]
      · exact frames_take _ _ _ h3 hn

theorem frames_local_context (B : Backend) (t : Nat) (base : Option Nat) (kw : Kwargs)
    (w : World) :
    (GMPyContext_current B t w).2.frames (GMPyContext_local_context B t base kw w).2 := by
  unfold GMPyContext_local_context
  simp only
  generalize GMPyContext_current B t w = cur
  obtain ⟨context, w0⟩ := cur
  simp only
  split
  · rename_i b
    split
    · exact frames_refl w0
    · split
      · have hcp := frames_copy B b w0
        generalize GMPyContext_context_copy B b w0 = cp at hcp ⊢
        obtain ⟨rc, wc⟩ := cp
        cases rc with
        | error e => exact hcp
        | ok nc => exact frames_fill B _ _ _ _ _ _ hcp (le_refl _)
      · exact frames_fill B _ _ _ _ _ _ (frames_refl w0) (le_refl _)
  · exact frames_fill B _ _ _ _ _ _ (frames_refl w0) (le_refl _)

theorem cache_ok_init (B : Backend) : (World.init B).cache_ok := by
  intro r hr
  simp [World.init] at hr

theorem exec_cache_ok (B : Backend) (op : Op) (w : World) (hw : w.cache_ok)
    (he : op.ends_thread = false) : (op.exec B w).2.cache_ok := by
  have hfr : ∀ y y1 : World, y.frames y1 → y.cache_ok → y1.cache_ok :=
    fun y y1 h hy => cache_ok_of_frames y y1 h hy
  cases op with
  | new => exact hfr _ _ (frames_append w _) hw
  | context kw => exact hfr _ _ (frames_context B kw w) hw
  | ieee bitwidth => exact hfr _ _ (frames_ieee B bitwidth w) hw
  | copy self => exact hfr _ _ (frames_copy B self w) hw
  | get_context t => exact cache_ok_current B t w hw
  | set_context t other => exact cache_ok_set_context B t other w hw
  | local_context t base kw =>
    exact hfr _ _ (frames_local_context B t base kw w) (cache_ok_current B t w hw)
  | manager_enter t m =>
    exact manager_enter_preserves _ B t m w hfr (fun c y => cache_ok_set_context B t c y) hw
  | manager_exit t m =>
    exact manager_exit_preserves _ B t m w hfr (fun c y => cache_ok_set_context B t c y) hw
  | enter t self =>
    exact context_enter_preserves _ B t self w hfr (fun c y => cache_ok_set_context B t c y) hw
  | exit t self =>
    exact context_exit_preserves _ B t self w hfr (fun c y => cache_ok_set_context B t c y) hw
  | clear_flags self => exact hfr _ _ (frames_clear_flags self w) hw
  | setattr a self value => exact hfr _ _ (frames_setattr B a self value w) hw
  | thread_end t => simp [Op.ends_thread] at he

theorem exec_binding (B : Backend) (t r : Nat) (op : Op) (w : World)
    (hs : Op.sets_thread t op = false) (hb : w.binding t = some r) :
    (op.exec B w).2.binding t = some r := by
  have hfr : ∀ y y1 : World, y.frames y1 → y.binding t = some r → y1.binding t = some r :=
    fun y y1 h hy => (binding_of_frames y y1 h t).trans hy
  have hset : ∀ t1, t1 ≠ t → ∀ c y, World.binding y t = some r →
      (GMPyContext_set_context B t1 c y).2.binding t = some r :=
    fun t1 hne c y hy => (binding_set_context B t1 t c y (Ne.symm hne)).trans hy
  cases op with
  | new => exact hfr _ _ (frames_append w _) hb
  | context kw => exact hfr _ _ (frames_context B kw w) hb
  | ieee bitwidth => exact hfr _ _ (frames_ieee B bitwidth w) hb
  | copy self => exact hfr _ _ (frames_copy B self w) hb
  | get_context t1 => exact binding_current B t1 t r w hb
  | set_context t1 other =>
    have hne : t1 ≠ t := by simpa [Op.sets_thread] using hs
    exact hset t1 hne other w hb
  | local_context t1 base kw =>
    exact hfr _ _ (frames_local_context B t1 base kw w) (binding_current B t1 t r w hb)
  | manager_enter t1 m =>
    have hne : t1 ≠ t := by simpa [Op.sets_thread] using hs
    exact manager_enter_preserves _ B t1 m w hfr (hset t1 hne) hb
  | manager_exit t1 m =>
    have hne : t1 ≠ t := by simpa [Op.sets_thread] using hs
    exact manager_exit_preserves _ B t1 m w hfr (hset t1 hne) hb
  | enter t1 self =>
    have hne : t1 ≠ t := by simpa [Op.sets_thread] using hs
    exact context_enter_preserves _ B t1 self w hfr (hset t1 hne) hb
  | exit t1 self =>
    have hne : t1 ≠ t := by simpa [Op.sets_thread] using hs
    exact context_exit_preserves _ B t1 self w hfr (hset t1 hne) hb
  | clear_flags self => exact hfr _ _ (frames_clear_flags self w) hb
  | setattr a self value => exact hfr _ _ (frames_setattr B a self value w) hb
  | thread_end t1 =>
    have hne : t1 ≠ t := by simpa [Op.sets_thread] using hs
    exact (binding_thread_end_ne w t1 t (Ne.symm hne)).trans hb

theorem run_cache_ok (B : Backend) (ops : List Op) (w : World) (hw : w.cache_ok)
    (he : ∀ op ∈ ops, op.ends_thread = false) : (run B ops w).cache_ok := by
  induction ops generalizing w with
  | nil => exact hw
  | cons op ops ih =>
    exact ih _ (exec_cache_ok B op w hw (he op (List.mem_cons_self _ _)))
      (fun x hx => he x (List.mem_cons_of_mem _ hx))

theorem run_binding (B : Backend) (t r : Nat) (ops : List Op) (w : World)
    (hs : ∀ op ∈ ops, Op.sets_thread t op = false) (hb : w.binding t = some r) :
    (run B ops w).binding t = some r := by
  induction ops generalizing w with
  | nil => exact hb
  | cons op ops ih =>
    exact ih _ (fun x hx => hs x (List.mem_cons_of_mem _ hx))
      (exec_binding B t r op w (hs op (List.mem_cons_self _ _)) hb)

theorem current_unbound_spec (B : Backend) (t : Nat) (w : World) (hw : w.cache_ok)
    (hb : w.binding t = none) :
    (GMPyContext_current B t w).1 = w.heap.length ∧
    (GMPyContext_current B t w).2.ctx w.heap.length = some (new_ctx B) ∧
    (GMPyContext_current B t w).2.binding t = some w.heap.length := by
  rw [current_unbound B t w hw hb, from_dict_unbound B t w hb]
  refine ⟨rfl, by simp [World.ctx, World.obj], by simp [World.binding, List.lookup]⟩

/-- In a state whose cache slot agrees with the thread dictionaries: when thread `t` has
no context bound (whatever other threads have bound), its first `current()` returns a
fresh object with the fields of `GMPyContext_new` and binds it to `t`; and after any calls
among which none rebinds `t` and during which no thread ends, `current()` on `t` returns
that same object. -/
theorem first_current_binds_default (B : Backend) (t : Nat) (w : World) (hw : w.cache_ok)
    (hb : w.binding t = none) :
    (GMPyContext_current B t w).1 = w.heap.length ∧
    w.obj w.heap.length = none ∧
    (GMPyContext_current B t w).2.ctx (GMPyContext_current B t w).1 = some (new_ctx B) ∧
    (GMPyContext_current B t w).2.binding t = some (GMPyContext_current B t w).1 ∧
    (∀ ops : List Op,
      (∀ op ∈ ops, Op.sets_thread t op = false ∧ op.ends_thread = false) →
      (GMPyContext_current B t (run B ops (GMPyContext_current B t w).2)).1
        = (GMPyContext_current B t w).1) := by
  obtain ⟨h1, h2, h3⟩ := current_unbound_spec B t w hw hb
  rw [h1]
  refine ⟨rfl, obj_length_none w, h2, h3, ?_⟩
  intro ops hops
  exact current_of_binding B t _ _
    (run_cache_ok B ops _ (cache_ok_current B t w hw) (fun op hop => (hops op hop).2))
    (run_binding B t _ ops _ (fun op hop => (hops op hop).1) h3)

/-- In a state whose cache slot agrees with the thread dictionaries: for distinct threads
`ta` and `tb` and any `c`, `set_context(c)` by `ta` leaves the binding of `tb` as it was:
if `tb` was bound to `r`, `current()` on `tb` returns `r` before and after; if `tb` was
unbound, `current()` on `tb` creates a fresh default context in both cases. -/
theorem set_context_keeps_other_threads (B : Backend) (ta tb c : Nat) (w : World)
    (hne : ta ≠ tb) (hw : w.cache_ok) :
    (GMPyContext_set_context B ta c w).2.binding tb = w.binding tb ∧
    (∀ r, w.binding tb = some r →
      (GMPyContext_current B tb w).1 = r ∧
      (GMPyContext_current B tb (GMPyContext_set_context B ta c w).2).1 = r) ∧
    (w.binding tb = none →
      (GMPyContext_current B tb w).2.ctx (GMPyContext_current B tb w).1 = some (new_ctx B) ∧
      w.obj (GMPyContext_current B tb w).1 = none ∧
      (GMPyContext_current B tb (GMPyContext_set_context B ta c w).2).2.ctx
        (GMPyContext_current B tb (GMPyContext_set_context B ta c w).2).1 = some (new_ctx B) ∧
      (GMPyContext_set_context B ta c w).2.obj
        (GMPyContext_current B tb (GMPyContext_set_context B ta c w).2).1 = none) := by
  have hbind := binding_set_context B ta tb c w (Ne.symm hne)
  have hw1 := cache_ok_set_context B ta c w hw
  refine ⟨hbind, ?_, ?_⟩
  · intro r hr
    exact ⟨current_of_binding B tb r w hw hr,
      current_of_binding B tb r _ hw1 (hbind.trans hr)⟩
  · intro hb
    obtain ⟨a1, a2, _⟩ := current_unbound_spec B tb w hw hb
    obtain ⟨b1, b2, _⟩ := current_unbound_spec B tb _ hw1 (hbind.trans hb)
    rw [a1, b1]
    exact ⟨a2, obj_length_none w, b2, obj_length_none _⟩

/-! ## The cache is transparent -/

theorem cache_owned_of_frames (w w1 : World) (h : w.frames w1) (hw : w.cache_owned) :
    w1.cache_owned := by
  obtain ⟨a1, _, a3⟩ := h
  intro r hr
  rw [a1] at hr
  obtain ⟨o, t, ho, ht⟩ := hw r hr
  obtain ⟨o1, ho1, ht1⟩ := a3 r o ho
  exact ⟨o1, t, ho1, ht1.trans ht⟩

theorem cache_owned_cache_context (t r : Nat) (w : World) (hw : w.cache_owned) :
    (cache_context t r w).cache_owned := by
  cases ho : w.obj r with
  | none => simpa [cache_context, ho] using hw
  | some o =>
    have hlt := obj_lt_length w r o ho
    intro r1 hr1
    simp only [cache_context, ho] at hr1 ⊢
    simp only [Option.some.injEq] at hr1
    subst hr1
    exact ⟨{ o with tstate := some t }, t, by simp [World.obj, World.store, hlt], rfl⟩

theorem cache_owned_from_dict (B : Backend) (t : Nat) (w : World) (hw : w.cache_owned) :
    (current_context_from_dict B t w).2.cache_owned := by
  cases hb : w.binding t with
  | some r =>
    rw [from_dict_bound B t r w hb]
    exact cache_owned_cache_context t r w hw
  | none =>
    rw [from_dict_unbound B t w hb]
    intro r1 hr1
    simp only [Option.some.injEq] at hr1
    subst hr1
    exact ⟨GMPyContextObject.mk (new_ctx B) (some t), t, by simp [World.obj], rfl⟩

theorem cache_owned_current (B : Backend) (t : Nat) (w : World) (hw : w.cache_owned) :
    (GMPyContext_current B t w).2.cache_owned := by
  unfold GMPyContext_current
  split
  · exact cache_owned_from_dict B t w hw
  · split
    · exact cache_owned_from_dict B t w hw
    · split
      · exact hw
      · exact cache_owned_from_dict B t w hw

theorem cache_owned_set_context (B : Backend) (t c : Nat) (w : World) (hw : w.cache_owned) :
    (GMPyContext_set_context B t c w).2.cache_owned := by
  cases ho : w.obj c with
  | none =>
    rw [set_context_invalid B t c w ho]
    exact hw
  | some o =>
    obtain ⟨_, h2, h3, _, _, _, _⟩ := set_context_spec B t c w o ho
    intro r hr
    rw [h2] at hr
    simp only [Option.some.injEq] at hr
    subst hr
    exact ⟨_, t, h3, rfl⟩

theorem exec_cache_owned (B : Backend) (op : Op) (w : World) (hw : w.cache_owned) :
    (op.exec B w).2.cache_owned := by
  have hfr : ∀ y y1 : World, y.frames y1 → y.cache_owned → y1.cache_owned :=
    fun y y1 h hy => cache_owned_of_frames y y1 h hy
  cases op with
  | new => exact hfr _ _ (frames_append w _) hw
  | context kw => exact hfr _ _ (frames_context B kw w) hw
  | ieee bitwidth => exact hfr _ _ (frames_ieee B bitwidth w) hw
  | copy self => exact hfr _ _ (frames_copy B self w) hw
  | get_context t => exact cache_owned_current B t w hw
  | set_context t other => exact cache_owned_set_context B t other w hw
  | local_context t base kw =>
    exact hfr _ _ (frames_local_context B t base kw w) (cache_owned_current B t w hw)
  | manager_enter t m =>
    exact manager_enter_preserves _ B t m w hfr (fun c y => cache_owned_set_context B t c y) hw
  | manager_exit t m =>
    exact manager_exit_preserves _ B t m w hfr (fun c y => cache_owned_set_context B t c y) hw
  | enter t self =>
    exact context_enter_preserves _ B t self w hfr
      (fun c y => cache_owned_set_context B t c y) hw
  | exit t self =>
    exact context_exit_preserves _ B t self w hfr
      (fun c y => cache_owned_set_context B t c y) hw
  | clear_flags self => exact hfr _ _ (frames_clear_flags self w) hw
  | setattr a self value => exact hfr _ _ (frames_setattr B a self value w) hw
  | thread_end t => exact hw

theorem run_cache_owned (B : Backend) (ops : List Op) (w : World) (hw : w.cache_owned) :
    (run B ops w).cache_owned := by
  induction ops generalizing w with
  | nil => exact hw
  | cons op ops ih => exact ih _ (exec_cache_owned B op w hw)

theorem current_fst_eq_from_dict (B : Backend) (t : Nat) (w : World) (hw : w.cache_ok) :
    (GMPyContext_current B t w).1 = (current_context_from_dict B t w).1 := by
  cases hb : w.binding t with
  | some r => rw [current_of_binding B t r w hw hb, from_dict_bound B t r w hb]
  | none => rw [current_unbound B t w hw hb]

/-- After any finite sequence of calls made by any threads from start-up during which no
thread ends, a `get_context()` by any thread `t` returns the address that
`current_context_from_dict` returns for `t`; and whenever the cache slot is filled, the
cached object records a thread in `tstate` and is the context bound in the dictionary of
that thread. -/
theorem cache_is_transparent (B : Backend) (ops : List Op) (t : Nat)
    (he : ∀ op ∈ ops, op.ends_thread = false) :
    (GMPyContext_current B t (run B ops (World.init B))).1
      = (current_context_from_dict B t (run B ops (World.init B))).1 ∧
    (∀ r, (run B ops (World.init B)).cached_context = some r →
      ∃ o t1, (run B ops (World.init B)).obj r = some o ∧ o.tstate = some t1 ∧
        (run B ops (World.init B)).binding t1 = some r) := by
  have h1 := run_cache_ok B ops (World.init B) (cache_ok_init B) he
  have h2 : (run B ops (World.init B)).cache_owned :=
    run_cache_owned B ops (World.init B) (by intro r hr; simp [World.init] at hr)
  refine ⟨current_fst_eq_from_dict B t _ h1, ?_⟩
  intro r hr
  obtain ⟨o, t1, ho, ht⟩ := h2 r hr
  obtain ⟨o1, ho1, hb⟩ := h1 r hr
  rw [ho] at ho1
  cases ho1
  exact ⟨o, t1, ho, ht, hb t1 ht⟩

/-! ## The two contexts of a scope handle -/

theorem fill_ok (B : Backend) (context nc n0 : Nat) (kw : Kwargs) (w1 w2 : World)
    (m : GMPyContextManagerObject) (oc onc : GMPyContextObject)
    (hoc : w1.obj context = some oc) (hn : w1.obj nc = some onc)
    (h : local_context_fill B context nc n0 kw w1 = (Except.ok m, w2)) :
    m.new_context = nc ∧ m.old_context = w1.heap.length ∧
    w2.heap = (w1.heap ++ [GMPyContextObject.mk (copy_ctx oc.ctx) none]).set nc
      (GMPyContextObject.mk
        (force_mpc_rounding (PyArg_ParseTupleAndKeywords kw onc.ctx).2) onc.tstate) := by
  unfold local_context_fill at h
  have hlt := obj_lt_length w1 nc onc hn
  have h2 : World.obj { w1 with heap := w1.heap ++
      [{ ctx := copy_ctx oc.ctx, tstate := none }] } nc = some onc := by
    simpa [World.obj, List.getElem?_append_left hlt] using hn
  rw [context_copy_eq B context w1 oc hoc] at h
  simp only [h2] at h
  split at h
  · split at h
    · simp at h
    · rename_i c1 w4 hs
      obtain ⟨hh, _, _, hc⟩ := sanity_check_eq B _ _ _ _ _ hs
      simp only [Prod.mk.injEq, Except.ok.injEq] at h
      obtain ⟨hm, hw⟩ := h
      subst hm hw
      refine ⟨rfl, rfl, ?_⟩
      simp only [World.store, hh, hc rfl, List.set_set]
  · simp at h

theorem cache_context_length (t r : Nat) (w : World) :
    (cache_context t r w).heap.length = w.heap.length := by
  unfold cache_context
  split
  · rfl
  · simp [World.store]

theorem from_dict_length (B : Backend) (t : Nat) (w : World) :
    w.heap.length ≤ (current_context_from_dict B t w).2.heap.length := by
  cases hb : w.binding t with
  | some r =>
    rw [from_dict_bound B t r w hb, cache_context_length]
  | none =>
    rw [from_dict_unbound B t w hb]
    simp

theorem current_length (B : Backend) (t : Nat) (w : World) :
    w.heap.length ≤ (GMPyContext_current B t w).2.heap.length := by
  unfold GMPyContext_current
  split
  · exact from_dict_length B t w
  · split
    · exact from_dict_length B t w
    · split
      · exact le_refl _
      · exact from_dict_length B t w

theorem obj_none_of_le (w : World) (n : Nat) (h : w.heap.length ≤ n) : w.obj n = none := by
  simp only [World.obj]
  exact List.getElem?_eq_none h

/-- C22: after a successful `local_context` by a thread whose active context is a live
object, `new_context` is the address `current()` returned when no base is given, the base
itself when the base is writable, and for a readonly base a fresh object holding the copy
of the base (readonly cleared) with the overrides applied; `old_context` is in every case
a fresh object, different from the active context and from `new_context`, whose struct
is the struct the active context had on entry with `readonly = 0`. -/
theorem begin_contexts (B : Backend) (t : Nat) (base : Option Nat) (kw : Kwargs) (w w1 : World)
    (m : GMPyContextManagerObject) (o0 : GMPyContextObject)
    (hcur : (GMPyContext_current B t w).2.obj (GMPyContext_current B t w).1 = some o0)
    (hb : GMPyContext_local_context B t base kw w = (Except.ok m, w1)) :
    (base = none → m.new_context = (GMPyContext_current B t w).1) ∧
    (∀ b bc, base = some b → (GMPyContext_current B t w).2.ctx b = some bc →
      bc.readonly = 0 → m.new_context = b) ∧
    (∀ b bc, base = some b → (GMPyContext_current B t w).2.ctx b = some bc →
      bc.readonly ≠ 0 →
        m.new_context ≠ b ∧ m.new_context ≠ (GMPyContext_current B t w).1 ∧
        w.obj m.new_context = none ∧
        (GMPyContext_current B t w).2.obj m.new_context = none ∧
        w1.ctx m.new_context
          = some (force_mpc_rounding (PyArg_ParseTupleAndKeywords kw (copy_ctx bc)).2) ∧
        (force_mpc_rounding (PyArg_ParseTupleAndKeywords kw (copy_ctx bc)).2).readonly = 0) ∧
    w.obj m.old_context = none ∧
    (GMPyContext_current B t w).2.obj m.old_context = none ∧
    m.old_context ≠ (GMPyContext_current B t w).1 ∧
    m.old_context ≠ m.new_context ∧
    w1.ctx m.old_context = some (copy_ctx o0.ctx) := by
  have hlen := current_length B t w
  unfold GMPyContext_local_context at hb
  simp only at hb
  generalize GMPyContext_current B t w = cur at hb hlen hcur ⊢
  obtain ⟨context, w0⟩ := cur
  simp only at hb hlen hcur ⊢
  have hlt := obj_lt_length w0 context o0 hcur
  have hro : ∀ c : gmpy_context,
      (force_mpc_rounding (PyArg_ParseTupleAndKeywords kw (copy_ctx c)).2).readonly = 0 := by
    intro c
    rw [force_mpc_rounding_readonly, parse_readonly, copy_ctx_readonly]
  cases base with
  | none =>
    simp only at hb
    obtain ⟨h1, h2, h3⟩ := fill_ok B _ _ _ _ _ _ _ o0 o0 hcur hcur hb
    refine ⟨fun _ => h1, ?_, ?_, ?_, ?_, ?_, ?_, ?_⟩
    · intro b bc hbase
      exact Option.noConfusion hbase
    · intro b bc hbase
      exact Option.noConfusion hbase
    · exact obj_none_of_le w _ (by omega)
    · rw [h2]; exact obj_length_none w0
    · omega
    · omega
    · rw [h2]
      simp only [World.ctx, World.obj, h3]
      rw [List.getElem?_set_ne (by omega)]
      simp
  | some b =>
    simp only at hb
    cases hbc : w0.ctx b with
    | none => simp [hbc] at hb
    | some bc =>
      simp only [hbc] at hb
      obtain ⟨ob, hob, hobc⟩ : ∃ ob, w0.obj b = some ob ∧ ob.ctx = bc := by
        simp only [World.ctx, Option.map_eq_some'] at hbc
        exact hbc
      have hltb := obj_lt_length w0 b ob hob
      by_cases hr : bc.readonly = 0
      · simp only [hr, ne_eq, not_true_eq_false, if_false] at hb
        obtain ⟨h1, h2, h3⟩ := fill_ok B _ _ _ _ _ _ _ o0 ob hcur hob hb
        refine ⟨?_, ?_, ?_, ?_, ?_, ?_, ?_, ?_⟩
        · intro hbase
          exact Option.noConfusion hbase
        · intro b1 bc1 hbase _ _
          cases hbase
          exact h1
        · intro b1 bc1 hbase hbc1 hr1
          cases hbase
          rw [hbc] at hbc1
          cases hbc1
          exact absurd hr hr1
        · exact obj_none_of_le w _ (by omega)
        · rw [h2]; exact obj_length_none w0
        · omega
        · omega
        · rw [h2]
          simp only [World.ctx, World.obj, h3]
          rw [List.getElem?_set_ne (by omega)]
          simp
      · simp only [ne_eq, hr, not_false_eq_true, if_true] at hb
        rw [context_copy_eq B b w0 ob hob] at hb
        simp only at hb
        have hcur1 : World.obj { w0 with heap := w0.heap ++
            [{ ctx := copy_ctx ob.ctx, tstate := none }] } context = some o0 := by
          simpa [World.obj, List.getElem?_append_left hlt] using hcur
        have hnew : World.obj { w0 with heap := w0.heap ++
            [{ ctx := copy_ctx ob.ctx, tstate := none }] } w0.heap.length
            = some { ctx := copy_ctx ob.ctx, tstate := none } := by
          simp [World.obj]
        obtain ⟨h1, h2, h3⟩ := fill_ok B _ _ _ _ _ _ _ o0 _ hcur1 hnew hb
        simp only [List.length_append, List.length_singleton] at h2
        refine ⟨?_, ?_, ?_, ?_, ?_, ?_, ?_, ?_⟩
        · intro hbase
          exact Option.noConfusion hbase
        · intro b1 bc1 hbase hbc1 hr1
          cases hbase
          rw [hbc] at hbc1
          cases hbc1
          exact absurd hr1 hr
        · intro b1 bc1 hbase hbc1 _
          cases hbase
          rw [hbc] at hbc1
          cases hbc1
          refine ⟨by omega, by omega, obj_none_of_le w _ (by omega), ?_, ?_, hro _⟩
          · rw [h1]; exact obj_length_none w0
          · rw [h1]
            simp only [World.ctx, World.obj, h3]
            rw [List.getElem?_set_self (by simp)]
            simp [hobc]
        · exact obj_none_of_le w _ (by omega)
        · rw [h2]; exact obj_none_of_le w0 _ (by omega)
        · omega
        · omega
        · rw [h2]
          simp only [World.ctx, World.obj, h3]
          rw [List.getElem?_set_ne (by omega), List.getElem?_append_right (by simp)]
          simp

/-! ## Entering a scope -/

/-- C23 (amended): `__enter__` of a scope handle whose `new_context` is a live object
returns `new_context`; when that context is writable, `current()` on the calling thread is
then that same object; when it is readonly, `current()` is a fresh object, not
`new_context`, holding its copy with `readonly = 0`. -/
theorem scope_enter_returns_new_context (B : Backend) (t : Nat) (m : GMPyContextManagerObject)
    (w : World) (o : GMPyContextObject) (h : w.obj m.new_context = some o) :
    (GMPyContextManager_enter B t m w).1 = Except.ok m.new_context ∧
    (o.ctx.readonly = 0 →
      (GMPyContext_current B t (GMPyContextManager_enter B t m w).2).1 = m.new_context) ∧
    (o.ctx.readonly ≠ 0 →
      (GMPyContext_current B t (GMPyContextManager_enter B t m w).2).1 = w.heap.length ∧
      w.heap.length ≠ m.new_context ∧
      w.obj w.heap.length = none ∧
      (GMPyContextManager_enter B t m w).2.ctx w.heap.length = some (copy_ctx o.ctx) ∧
      (GMPyContextManager_enter B t m w).2.ctx m.new_context = some o.ctx) := by
  obtain ⟨h1, h2, h3, h4, _⟩ := manager_enter_spec B t m w o h
  have hlt := obj_lt_length w m.new_context o h
  refine ⟨h1, ?_, ?_⟩
  · intro hro
    rw [h2]
    simp [installed, hro]
  · intro hro
    have hi : installed w m.new_context o = w.heap.length := by simp [installed, hro]
    rw [hi] at h2 h3 h4
    rw [h2]
    refine ⟨rfl, by omega, obj_length_none w, by simp [World.ctx, h3], ?_⟩
    simp [World.ctx, h4 m.new_context (by omega), h]

/-- C23 (counterexample): thread 0, whose active context (address 0) is readonly, calls
`local_context()` and gets the handle with `new_context` 0 and `old_context` 1;
`__enter__` of the handle returns address 0, and `current()` is then address 2. -/
theorem scope_enter_of_readonly_installs_copy :
    (GMPyContext_local_context mpfr3 0 none kw_none world_active_readonly).1
      = Except.ok (GMPyContextManagerObject.mk 0 1) ∧
    (GMPyContextManager_enter mpfr3 0 (GMPyContextManagerObject.mk 0 1)
      (GMPyContext_local_context mpfr3 0 none kw_none world_active_readonly).2).1
      = Except.ok 0 ∧
    (GMPyContext_current mpfr3 0
      (GMPyContextManager_enter mpfr3 0 (GMPyContextManagerObject.mk 0 1)
        (GMPyContext_local_context mpfr3 0 none kw_none world_active_readonly).2).2).1 = 2 ∧
    (2 : Nat) ≠ 0 := by
  refine ⟨by rfl, by rfl, by decide, by decide⟩

/-! ## The exponent registers after an installation -/

theorem push_bounds_regs (B : Backend) (c : gmpy_context) (w : World)
    (hmin : B.emin_ok c.emin = true) (hmax : B.emax_ok c.emax = true) :
    (push_bounds B c w).emin = c.emin ∧ (push_bounds B c w).emax = c.emax := by
  simp [push_bounds, mpfr_set_emin, mpfr_set_emax, hmin, hmax]

/-- C24: when the backend accepts the exponent bounds of the context object at `c`,
MPFR's registers hold exactly those bounds after `set_context(c)`, after `__enter__` of a
handle whose `new_context` is `c`, and after `__exit__` of a handle whose `old_context`
is `c`; each of the three calls succeeds. -/
theorem installation_pushes_bounds (B : Backend) (t c : Nat) (w : World)
    (o : GMPyContextObject) (h : w.obj c = some o)
    (hmin : B.emin_ok o.ctx.emin = true) (hmax : B.emax_ok o.ctx.emax = true) :
    ((GMPyContext_set_context B t c w).1 = Except.ok () ∧
      (GMPyContext_set_context B t c w).2.emin = o.ctx.emin ∧
      (GMPyContext_set_context B t c w).2.emax = o.ctx.emax) ∧
    (∀ m : GMPyContextManagerObject, m.new_context = c →
      (GMPyContextManager_enter B t m w).1 = Except.ok c ∧
      (GMPyContextManager_enter B t m w).2.emin = o.ctx.emin ∧
      (GMPyContextManager_enter B t m w).2.emax = o.ctx.emax) ∧
    (∀ m : GMPyContextManagerObject, m.old_context = c →
      (GMPyContextManager_exit B t m w).1 = Except.ok () ∧
      (GMPyContextManager_exit B t m w).2.emin = o.ctx.emin ∧
      (GMPyContextManager_exit B t m w).2.emax = o.ctx.emax) := by
  obtain ⟨h1, _, _, _, _, h6, h7⟩ := set_context_spec B t c w o h
  refine ⟨⟨h1, by rw [h6, if_pos hmin], by rw [h7, if_pos hmax]⟩, ?_, ?_⟩
  · intro m hm
    subst hm
    rw [manager_enter_eq B t m w o h]
    exact ⟨rfl, push_bounds_regs B o.ctx _ hmin hmax⟩
  · intro m hm
    subst hm
    rw [manager_exit_eq B t m w o h]
    exact ⟨rfl, push_bounds_regs B o.ctx _ hmin hmax⟩

/-! ## The operation templates: arity, operand kinds, choice of the context -/

/-- C25: each `GMPy_Context_NAME` function generated with an arity (2 for
`GMPY_MPFR_MPC_BIOP_TEMPLATE` and `GMPY_MPFR_BINOP`, 3 for `GMPY_MPFR_MPC_TRIOP`, 0 for
`GMPY_MPFR_NOOP`), called with an argument tuple of any other length, returns the
`TypeError` naming the arity and leaves the state as it was: no context, no sticky flag
and no recorded call changes, whatever the classification macros, the implementations
and the receiver are. -/
theorem wrong_arity_fails_first {Obj R C : Type} (B : Backend) (E : Externals Obj R C)
    (FUNC : String) (t : Nat) (self : Self) (args : List Obj) (m : Machine) :
    (args.length ≠ 2 → ∀ GMPy_Real_NAME GMPy_Complex_NAME : Impl2 Obj R C,
      GMPY_MPFR_MPC_BIOP_TEMPLATE.GMPy_Context_NAME B E FUNC GMPy_Real_NAME GMPy_Complex_NAME
        t self args m
        = (Except.error (OpErr.py (PyErr.TypeError (FUNC ++ "() requires 2 arguments"))), m)) ∧
    (args.length ≠ 2 →
      GMPY_MPFR_BINOP.GMPy_Context_NAME B E FUNC t self args m
        = (Except.error (OpErr.py (PyErr.TypeError (FUNC ++ "() requires 2 arguments"))), m)) ∧
    (args.length ≠ 3 →
      GMPY_MPFR_MPC_TRIOP.GMPy_Context_NAME B E FUNC t self args m
        = (Except.error (OpErr.py (PyErr.TypeError (FUNC ++ "() requires 3 arguments"))), m)) ∧
    (args.length ≠ 0 →
      GMPY_MPFR_NOOP.GMPy_Context_NAME B E FUNC t self args m
        = (Except.error (OpErr.py (PyErr.TypeError (FUNC ++ "() requires 0 arguments"))), m)) := by
  refine ⟨?_, ?_, ?_, ?_⟩
  · intro h f g
    simp [GMPY_MPFR_MPC_BIOP_TEMPLATE.GMPy_Context_NAME, h, TYPE_ERROR]
  · intro h
    simp [GMPY_MPFR_BINOP.GMPy_Context_NAME, h, TYPE_ERROR]
  · intro h
    simp [GMPY_MPFR_MPC_TRIOP.GMPy_Context_NAME, h, TYPE_ERROR]
  · intro h
    simp [GMPY_MPFR_NOOP.GMPy_Context_NAME, h, TYPE_ERROR]

/-- C26: a `GMPy_Number_NAME` function returns the `TypeError` "argument type not
supported" and leaves the state as it was (no call recorded, no context and no sticky
flag changed) when the operands are not all Real and not all Complex (in particular
when one of them is neither), and, for the real-only templates `GMPY_MPFR_UNIOP` and
`GMPY_MPFR_BINOP`, when some operand is not Real. -/
theorem unsupported_operands_fail {Obj R C : Type} (B : Backend) (E : Externals Obj R C)
    (FUNC : String) (t : Nat) (x y z : Obj) (context : Option Nat) (m : Machine) :
    (E.IS_REAL x = false → E.IS_COMPLEX x = false →
      GMPY_MPFR_MPC_UNIOP.GMPy_Number_NAME B E FUNC t x context m
        = (Except.error (OpErr.py (PyErr.TypeError (FUNC ++ "() argument type not supported"))),
            m)) ∧
    (E.IS_REAL x = false → E.IS_COMPLEX x = false →
      ∀ GMPy_Real_NAME GMPy_Complex_NAME : Impl1 Obj R C,
      GMPY_MPFR_MPC_UNIOP_TEMPLATE.GMPy_Number_NAME E FUNC GMPy_Real_NAME GMPy_Complex_NAME
        x context m
        = (Except.error (OpErr.py (PyErr.TypeError (FUNC ++ "() argument type not supported"))),
            m)) ∧
    (¬ (E.IS_REAL x = true ∧ E.IS_REAL y = true) →
      ¬ (E.IS_COMPLEX x = true ∧ E.IS_COMPLEX y = true) →
      ∀ GMPy_Real_NAME GMPy_Complex_NAME : Impl2 Obj R C,
      GMPY_MPFR_MPC_BIOP_TEMPLATE.GMPy_Number_NAME E FUNC GMPy_Real_NAME GMPy_Complex_NAME
        x y context m
        = (Except.error (OpErr.py (PyErr.TypeError (FUNC ++ "() argument type not supported"))),
            m)) ∧
    (¬ (E.IS_REAL x = true ∧ E.IS_REAL y = true ∧ E.IS_REAL z = true) →
      ¬ (E.IS_COMPLEX x = true ∧ E.IS_COMPLEX y = true ∧ E.IS_COMPLEX z = true) →
      GMPY_MPFR_MPC_TRIOP.GMPy_Number_NAME B E FUNC t x y z context m
        = (Except.error (OpErr.py (PyErr.TypeError (FUNC ++ "() argument type not supported"))),
            m)) ∧
    (E.IS_REAL x = false → ∀ GMPy_Real_NAME : Impl1 Obj R C,
      GMPY_MPFR_UNIOP_TEMPLATE.GMPy_Number_NAME E FUNC GMPy_Real_NAME x context m
        = (Except.error (OpErr.py (PyErr.TypeError (FUNC ++ "() argument type not supported"))),
            m)) ∧
    (¬ (E.IS_REAL x = true ∧ E.IS_REAL y = true) →
      GMPY_MPFR_BINOP.GMPy_Number_NAME B E FUNC t x y context m
        = (Except.error (OpErr.py (PyErr.TypeError (FUNC ++ "() argument type not supported"))),
            m)) := by
  refine ⟨?_, ?_, ?_, ?_, ?_, ?_⟩
  · intro h1 h2
    simp [GMPY_MPFR_MPC_UNIOP.GMPy_Number_NAME, h1, h2, TYPE_ERROR]
  · intro h1 h2 f g
    simp [GMPY_MPFR_MPC_UNIOP_TEMPLATE.GMPy_Number_NAME, h1, h2, TYPE_ERROR]
  · intro h1 h2 f g
    simp only [GMPY_MPFR_MPC_BIOP_TEMPLATE.GMPy_Number_NAME, Bool.and_eq_true, h1, h2,
      if_false, TYPE_ERROR]
  · intro h1 h2
    simp only [GMPY_MPFR_MPC_TRIOP.GMPy_Number_NAME, Bool.and_eq_true, and_assoc, h1, h2,
      if_false, TYPE_ERROR]
  · intro h1 f
    simp [GMPY_MPFR_UNIOP_TEMPLATE.GMPy_Number_NAME, h1, TYPE_ERROR]
  · intro h1
    simp only [GMPY_MPFR_BINOP.GMPy_Number_NAME, Bool.and_eq_true, h1, if_false, TYPE_ERROR]

/-- C27: for the templates supporting both kinds, `GMPy_Number_NAME` returns exactly what
`GMPy_Real_NAME` returns when every operand is Real, whatever `IS_COMPLEX` says and
whatever the complex implementation is; and exactly what `GMPy_Complex_NAME` returns
when not every operand is Real and every operand is Complex. -/
theorem dispatch_by_kind {Obj R C : Type} (B : Backend) (E : Externals Obj R C)
    (FUNC : String) (t : Nat) (x y z : Obj) (context : Option Nat) (m : Machine) :
    ((E.IS_REAL x = true →
        GMPY_MPFR_MPC_UNIOP.GMPy_Number_NAME B E FUNC t x context m
          = GMPY_MPFR_MPC_UNIOP.GMPy_Real_NAME B E FUNC t x context m) ∧
      (E.IS_REAL x = false → E.IS_COMPLEX x = true →
        GMPY_MPFR_MPC_UNIOP.GMPy_Number_NAME B E FUNC t x context m
          = GMPY_MPFR_MPC_UNIOP.GMPy_Complex_NAME B E FUNC t x context m)) ∧
    (∀ GMPy_Real_NAME GMPy_Complex_NAME : Impl1 Obj R C,
      (E.IS_REAL x = true →
        GMPY_MPFR_MPC_UNIOP_TEMPLATE.GMPy_Number_NAME E FUNC GMPy_Real_NAME GMPy_Complex_NAME
          x context m = GMPy_Real_NAME x context m) ∧
      (E.IS_REAL x = false → E.IS_COMPLEX x = true →
        GMPY_MPFR_MPC_UNIOP_TEMPLATE.GMPy_Number_NAME E FUNC GMPy_Real_NAME GMPy_Complex_NAME
          x context m = GMPy_Complex_NAME x context m)) ∧
    (∀ GMPy_Real_NAME GMPy_Complex_NAME : Impl2 Obj R C,
      (E.IS_REAL x = true ∧ E.IS_REAL y = true →
        GMPY_MPFR_MPC_BIOP_TEMPLATE.GMPy_Number_NAME E FUNC GMPy_Real_NAME GMPy_Complex_NAME
          x y context m = GMPy_Real_NAME x y context m) ∧
      (¬ (E.IS_REAL x = true ∧ E.IS_REAL y = true) →
        E.IS_COMPLEX x = true ∧ E.IS_COMPLEX y = true →
        GMPY_MPFR_MPC_BIOP_TEMPLATE.GMPy_Number_NAME E FUNC GMPy_Real_NAME GMPy_Complex_NAME
          x y context m = GMPy_Complex_NAME x y context m)) ∧
    ((E.IS_REAL x = true ∧ E.IS_REAL y = true ∧ E.IS_REAL z = true →
        GMPY_MPFR_MPC_TRIOP.GMPy_Number_NAME B E FUNC t x y z context m
          = GMPY_MPFR_MPC_TRIOP.GMPy_Real_NAME B E FUNC t x y z context m) ∧
      (¬ (E.IS_REAL x = true ∧ E.IS_REAL y = true ∧ E.IS_REAL z = true) →
        E.IS_COMPLEX x = true ∧ E.IS_COMPLEX y = true ∧ E.IS_COMPLEX z = true →
        GMPY_MPFR_MPC_TRIOP.GMPy_Number_NAME B E FUNC t x y z context m
          = GMPY_MPFR_MPC_TRIOP.GMPy_Complex_NAME B E FUNC t x y z context m)) := by
  refine ⟨⟨?_, ?_⟩, ?_, ?_, ?_, ?_⟩
  · intro h
    simp [GMPY_MPFR_MPC_UNIOP.GMPy_Number_NAME, h]
  · intro h1 h2
    simp [GMPY_MPFR_MPC_UNIOP.GMPy_Number_NAME, h1, h2]
  · intro f g
    constructor
    · intro h
      simp [GMPY_MPFR_MPC_UNIOP_TEMPLATE.GMPy_Number_NAME, h]
    · intro h1 h2
      simp [GMPY_MPFR_MPC_UNIOP_TEMPLATE.GMPy_Number_NAME, h1, h2]
  · intro f g
    constructor
    · intro h
      simp only [GMPY_MPFR_MPC_BIOP_TEMPLATE.GMPy_Number_NAME, Bool.and_eq_true, h, and_self,
        if_true]
    · intro h1 h2
      simp only [GMPY_MPFR_MPC_BIOP_TEMPLATE.GMPy_Number_NAME, Bool.and_eq_true, h1, h2,
        and_self, if_true, if_false]
  · intro h
    simp only [GMPY_MPFR_MPC_TRIOP.GMPy_Number_NAME, Bool.and_eq_true, and_assoc, h, and_self,
      if_true]
  · intro h1 h2
    simp only [GMPY_MPFR_MPC_TRIOP.GMPy_Number_NAME, Bool.and_eq_true, and_assoc, h1, h2,
      and_self, if_true, if_false]

theorem receiver_context_ctxt (B : Backend) (t r : Nat) (m : Machine) :
    receiver_context B t (Self.CTXT r) m = (r, m) := rfl

theorem receiver_context_other (B : Backend) (t : Nat) (self : Self) (m : Machine)
    (h : ∀ r, self ≠ Self.CTXT r) :
    receiver_context B t self m
      = ((GMPyContext_current B t m.world).1,
          { m with world := (GMPyContext_current B t m.world).2 }) := by
  cases self with
  | NULL => rfl
  | CTXT r => exact absurd rfl (h r)
  | other => rfl

theorem uniop_real_eq {Obj R C : Type} (B : Backend) (E : Externals Obj R C)
    (FUNC : String) (t : Nat) (x : Obj) (context : Option Nat) (m m1 m2 : Machine)
    (res tx : R) (c : gmpy_context)
    (h1 : E.GMPy_MPFR_New 0 (CHECK_CONTEXT B t context m).1
      ((CHECK_CONTEXT B t context m).2.log Call.GMPy_MPFR_New) = (Except.ok res, m1))
    (h2 : E.GMPy_MPFR_From_Real x 1 (CHECK_CONTEXT B t context m).1
      (m1.log Call.GMPy_MPFR_From_Real) = (Except.ok tx, m2))
    (hc : m2.world.ctx (CHECK_CONTEXT B t context m).1 = some c) :
    GMPY_MPFR_MPC_UNIOP.GMPy_Real_NAME B E FUNC t x context m
      = GMPY_MPFR_CLEANUP E
          (call_mpfr E FUNC res [tx] c.mpfr_round (mpfr_clear_flags m2)).1
          (CHECK_CONTEXT B t context m).1
          (call_mpfr E FUNC res [tx] c.mpfr_round (mpfr_clear_flags m2)).2 := by
  have hc1 : (mpfr_clear_flags m2).world.ctx (CHECK_CONTEXT B t context m).1 = some c := hc
  simp only [GMPY_MPFR_MPC_UNIOP.GMPy_Real_NAME, h1, h2, hc1, GET_MPFR_ROUND]

/-! ## The sticky flags around a backend call -/

theorem raise_clear (s : mpfr_flags) : mpfr_flags.clear.raise s = s := by
  cases s
  simp [mpfr_flags.raise, mpfr_flags.clear]

theorem cleanup_calls {Obj R C : Type} (E : Externals Obj R C) (result : R × Int)
    (context : Nat) (m : Machine) :
    (GMPY_MPFR_CLEANUP E result context m).2.calls
      = m.calls ++ [Call.GMPY_MPFR_CLEANUP m.flags] := by
  unfold GMPY_MPFR_CLEANUP
  simp only []
  split
  · rfl
  · split
    · rfl
    · split <;> rfl

theorem real_tail_calls {Obj R C : Type} (E : Externals Obj R C) (FUNC : String) (res : R)
    (args : List R) (rnd : Int) (context : Nat) (m : Machine) :
    (real_tail E FUNC res args rnd context m).2.calls
      = m.calls ++ [Call.mpfr_clear_flags, Call.mpfr FUNC mpfr_flags.clear,
          Call.GMPY_MPFR_CLEANUP (E.mpfr FUNC res args rnd m.world.emin m.world.emax).2.2] := by
  unfold real_tail
  rw [cleanup_calls]
  simp [call_mpfr, mpfr_clear_flags, raise_clear]

theorem triop_real_eq {Obj R C : Type} (B : Backend) (E : Externals Obj R C)
    (FUNC : String) (t : Nat) (x y z : Obj) (context : Option Nat) (m m1 m2 m3 m4 : Machine)
    (res tx ty tz : R) (c : gmpy_context)
    (h1 : E.GMPy_MPFR_New 0 (CHECK_CONTEXT B t context m).1
      ((CHECK_CONTEXT B t context m).2.log Call.GMPy_MPFR_New) = (Except.ok res, m1))
    (h2 : E.GMPy_MPFR_From_Real x 1 (CHECK_CONTEXT B t context m).1
      (m1.log Call.GMPy_MPFR_From_Real) = (Except.ok tx, m2))
    (h3 : E.GMPy_MPFR_From_Real y 1 (CHECK_CONTEXT B t context m).1
      (m2.log Call.GMPy_MPFR_From_Real) = (Except.ok ty, m3))
    (h4 : E.GMPy_MPFR_From_Real z 1 (CHECK_CONTEXT B t context m).1
      (m3.log Call.GMPy_MPFR_From_Real) = (Except.ok tz, m4))
    (hc : m4.world.ctx (CHECK_CONTEXT B t context m).1 = some c) :
    GMPY_MPFR_MPC_TRIOP.GMPy_Real_NAME B E FUNC t x y z context m
      = real_tail E FUNC res [tx, ty, tz] c.mpfr_round (CHECK_CONTEXT B t context m).1 m4 := by
  have hc1 : (mpfr_clear_flags m4).world.ctx (CHECK_CONTEXT B t context m).1 = some c := hc
  simp only [GMPY_MPFR_MPC_TRIOP.GMPy_Real_NAME, h1, h2, h3, h4, hc1, GET_MPFR_ROUND, real_tail]

theorem binop_real_eq {Obj R C : Type} (B : Backend) (E : Externals Obj R C)
    (FUNC : String) (t : Nat) (x y : Obj) (context : Option Nat) (m m1 m2 m3 : Machine)
    (res tx ty : R) (c : gmpy_context)
    (h1 : E.GMPy_MPFR_From_Real x 1 (CHECK_CONTEXT B t context m).1
      ((CHECK_CONTEXT B t context m).2.log Call.GMPy_MPFR_From_Real) = (Except.ok tx, m1))
    (h2 : E.GMPy_MPFR_From_Real y 1 (CHECK_CONTEXT B t context m).1
      (m1.log Call.GMPy_MPFR_From_Real) = (Except.ok ty, m2))
    (h3 : E.GMPy_MPFR_New 0 (CHECK_CONTEXT B t context m).1
      (m2.log Call.GMPy_MPFR_New) = (Except.ok res, m3))
    (hc : m3.world.ctx (CHECK_CONTEXT B t context m).1 = some c) :
    GMPY_MPFR_BINOP.GMPy_Real_NAME B E FUNC t x y context m
      = real_tail E FUNC res [tx, ty] c.mpfr_round (CHECK_CONTEXT B t context m).1 m3 := by
  have hc1 : (mpfr_clear_flags m3).world.ctx (CHECK_CONTEXT B t context m).1 = some c := hc
  simp only [GMPY_MPFR_BINOP.GMPy_Real_NAME, h1, h2, h3, hc1, GET_MPFR_ROUND, real_tail]

theorem noop_real_eq {Obj R C : Type} (B : Backend) (E : Externals Obj R C)
    (FUNC : String) (t : Nat) (context : Option Nat) (m m1 : Machine)
    (res : R) (c : gmpy_context)
    (h1 : E.GMPy_MPFR_New 0 (CHECK_CONTEXT B t context m).1
      ((CHECK_CONTEXT B t context m).2.log Call.GMPy_MPFR_New) = (Except.ok res, m1))
    (hc : m1.world.ctx (CHECK_CONTEXT B t context m).1 = some c) :
    GMPY_MPFR_NOOP.GMPy_Real_NAME B E FUNC t context m
      = real_tail E FUNC res [] c.mpfr_round (CHECK_CONTEXT B t context m).1 m1 := by
  have hc1 : (mpfr_clear_flags m1).world.ctx (CHECK_CONTEXT B t context m).1 = some c := hc
  simp only [GMPY_MPFR_NOOP.GMPy_Real_NAME, h1, hc1, GET_MPFR_ROUND, real_tail]

theorem const_eq {Obj R C : Type} (B : Backend) (E : Externals Obj R C)
    (FUNC : String) (t : Nat) (bits : Int) (m m1 : Machine)
    (res : R) (c : gmpy_context)
    (h1 : E.GMPy_MPFR_New bits (CHECK_CONTEXT B t none m).1
      ((CHECK_CONTEXT B t none m).2.log Call.GMPy_MPFR_New) = (Except.ok res, m1))
    (hc : m1.world.ctx (CHECK_CONTEXT B t none m).1 = some c) :
    GMPY_MPFR_CONST.GMPy_Function_NAME B E FUNC t (Except.ok bits) m
      = real_tail E FUNC res [] c.mpfr_round (CHECK_CONTEXT B t none m).1 m1 := by
  have hc1 : (mpfr_clear_flags m1).world.ctx (CHECK_CONTEXT B t none m).1 = some c := hc
  simp only [GMPY_MPFR_CONST.GMPy_Function_NAME, h1, hc1, GET_MPFR_ROUND, real_tail]

theorem uniop_complex_eq {Obj R C : Type} (B : Backend) (E : Externals Obj R C)
    (FUNC : String) (t : Nat) (x : Obj) (context : Option Nat) (m m1 m2 : Machine)
    (res tx : C) (c : gmpy_context)
    (h1 : E.GMPy_MPC_New 0 0 (CHECK_CONTEXT B t context m).1
      ((CHECK_CONTEXT B t context m).2.log Call.GMPy_MPC_New) = (Except.ok res, m1))
    (h2 : E.GMPy_MPC_From_Complex x 1 1 (CHECK_CONTEXT B t context m).1
      (m1.log Call.GMPy_MPC_From_Complex) = (Except.ok tx, m2))
    (hc : m2.world.ctx (CHECK_CONTEXT B t context m).1 = some c) :
    GMPY_MPFR_MPC_UNIOP.GMPy_Complex_NAME B E FUNC t x context m
      = E.GMPY_MPC_CLEANUP (call_mpc E FUNC res [tx] (E.GET_MPC_ROUND c) m2).1.1
          (call_mpc E FUNC res [tx] (E.GET_MPC_ROUND c) m2).1.2
          (CHECK_CONTEXT B t context m).1 (FUNC ++ "()")
          ((call_mpc E FUNC res [tx] (E.GET_MPC_ROUND c) m2).2.log
            (Call.GMPY_MPC_CLEANUP (call_mpc E FUNC res [tx] (E.GET_MPC_ROUND c) m2).2.flags)) := by
  simp only [GMPY_MPFR_MPC_UNIOP.GMPy_Complex_NAME, h1, h2, hc]

theorem uniop_only_real_eq {Obj R C : Type} (B : Backend) (E : Externals Obj R C)
    (FUNC : String) (t : Nat) (x : Obj) (context : Option Nat) (m m1 m2 : Machine)
    (res tx : R) (c : gmpy_context)
    (h1 : E.GMPy_MPFR_New 0 (CHECK_CONTEXT B t context m).1
      ((CHECK_CONTEXT B t context m).2.log Call.GMPy_MPFR_New) = (Except.ok res, m1))
    (h2 : E.GMPy_MPFR_From_Real x 1 (CHECK_CONTEXT B t context m).1
      (m1.log Call.GMPy_MPFR_From_Real) = (Except.ok tx, m2))
    (hc : m2.world.ctx (CHECK_CONTEXT B t context m).1 = some c) :
    GMPY_MPFR_UNIOP.GMPy_Real_NAME B E FUNC t x context m
      = real_tail E FUNC res [tx] c.mpfr_round (CHECK_CONTEXT B t context m).1 m2 :=
  uniop_real_eq B E FUNC t x context m m1 m2 res tx c h1 h2 hc

/-- C28: called with the right number of arguments, a `GMPy_Context_NAME` function whose
receiver is a context object runs `GMPy_Number_NAME` with that object as the context, in
an unchanged state and whichever thread calls; with any other receiver, or none, it
runs `GMPy_Number_NAME` with the object `current()` returns to the calling thread, in the
state `current()` leaves.  This holds of each of the eight macros that define a
`GMPy_Context_NAME`; for the three `_TEMPLATE` macros it holds whatever functions
`GMPy_Real_NAME` and `GMPy_Complex_NAME` are.  On the real path of a receiver `r` the
result is allocated and the operands converted for `r`, the primitive is invoked with the
rounding mode of `r`, and the cleanup is run on `r`. -/
theorem bound_form_uses_receiver {Obj R C : Type} (B : Backend) (E : Externals Obj R C)
    (FUNC : String) (t : Nat) (x y z : Obj) (m : Machine) :
    (∀ r t1,
      GMPY_MPFR_MPC_UNIOP.GMPy_Context_NAME B E FUNC t (Self.CTXT r) x m
        = GMPY_MPFR_MPC_UNIOP.GMPy_Number_NAME B E FUNC t1 x (some r) m ∧
      GMPY_MPFR_BINOP.GMPy_Context_NAME B E FUNC t (Self.CTXT r) [x, y] m
        = GMPY_MPFR_BINOP.GMPy_Number_NAME B E FUNC t1 x y (some r) m ∧
      GMPY_MPFR_MPC_TRIOP.GMPy_Context_NAME B E FUNC t (Self.CTXT r) [x, y, z] m
        = GMPY_MPFR_MPC_TRIOP.GMPy_Number_NAME B E FUNC t1 x y z (some r) m ∧
      GMPY_MPFR_NOOP.GMPy_Context_NAME B E FUNC t (Self.CTXT r) ([] : List Obj) m
        = GMPY_MPFR_NOOP.GMPy_Number_NAME B E FUNC t1 (some r) m ∧
      GMPY_MPFR_UNIOP.GMPy_Context_NAME B E FUNC t (Self.CTXT r) x m
        = GMPY_MPFR_UNIOP.GMPy_Number_NAME B E FUNC t1 x (some r) m ∧
      (∀ GMPy_Real_NAME GMPy_Complex_NAME : Impl1 Obj R C,
        GMPY_MPFR_MPC_UNIOP_TEMPLATE.GMPy_Context_NAME B E FUNC GMPy_Real_NAME
            GMPy_Complex_NAME t (Self.CTXT r) x m
          = GMPY_MPFR_MPC_UNIOP_TEMPLATE.GMPy_Number_NAME E FUNC GMPy_Real_NAME
              GMPy_Complex_NAME x (some r) m) ∧
      (∀ GMPy_Real_NAME GMPy_Complex_NAME : Impl2 Obj R C,
        GMPY_MPFR_MPC_BIOP_TEMPLATE.GMPy_Context_NAME B E FUNC GMPy_Real_NAME
            GMPy_Complex_NAME t (Self.CTXT r) [x, y] m
          = GMPY_MPFR_MPC_BIOP_TEMPLATE.GMPy_Number_NAME E FUNC GMPy_Real_NAME
              GMPy_Complex_NAME x y (some r) m) ∧
      (∀ GMPy_Real_NAME : Impl1 Obj R C,
        GMPY_MPFR_UNIOP_TEMPLATE.GMPy_Context_NAME B E FUNC GMPy_Real_NAME t (Self.CTXT r) x m
          = GMPY_MPFR_UNIOP_TEMPLATE.GMPy_Number_NAME E FUNC GMPy_Real_NAME x (some r) m)) ∧
    (∀ self : Self, (∀ r, self ≠ Self.CTXT r) →
      GMPY_MPFR_MPC_UNIOP.GMPy_Context_NAME B E FUNC t self x m
        = GMPY_MPFR_MPC_UNIOP.GMPy_Number_NAME B E FUNC t x
            (some (GMPyContext_current B t m.world).1)
            { m with world := (GMPyContext_current B t m.world).2 } ∧
      GMPY_MPFR_BINOP.GMPy_Context_NAME B E FUNC t self [x, y] m
        = GMPY_MPFR_BINOP.GMPy_Number_NAME B E FUNC t x y
            (some (GMPyContext_current B t m.world).1)
            { m with world := (GMPyContext_current B t m.world).2 } ∧
      GMPY_MPFR_MPC_TRIOP.GMPy_Context_NAME B E FUNC t self [x, y, z] m
        = GMPY_MPFR_MPC_TRIOP.GMPy_Number_NAME B E FUNC t x y z
            (some (GMPyContext_current B t m.world).1)
            { m with world := (GMPyContext_current B t m.world).2 } ∧
      GMPY_MPFR_NOOP.GMPy_Context_NAME B E FUNC t self ([] : List Obj) m
        = GMPY_MPFR_NOOP.GMPy_Number_NAME B E FUNC t
            (some (GMPyContext_current B t m.world).1)
            { m with world := (GMPyContext_current B t m.world).2 } ∧
      GMPY_MPFR_UNIOP.GMPy_Context_NAME B E FUNC t self x m
        = GMPY_MPFR_UNIOP.GMPy_Number_NAME B E FUNC t x
            (some (GMPyContext_current B t m.world).1)
            { m with world := (GMPyContext_current B t m.world).2 } ∧
      (∀ GMPy_Real_NAME GMPy_Complex_NAME : Impl1 Obj R C,
        GMPY_MPFR_MPC_UNIOP_TEMPLATE.GMPy_Context_NAME B E FUNC GMPy_Real_NAME
            GMPy_Complex_NAME t self x m
          = GMPY_MPFR_MPC_UNIOP_TEMPLATE.GMPy_Number_NAME E FUNC GMPy_Real_NAME
              GMPy_Complex_NAME x (some (GMPyContext_current B t m.world).1)
              { m with world := (GMPyContext_current B t m.world).2 }) ∧
      (∀ GMPy_Real_NAME GMPy_Complex_NAME : Impl2 Obj R C,
        GMPY_MPFR_MPC_BIOP_TEMPLATE.GMPy_Context_NAME B E FUNC GMPy_Real_NAME
            GMPy_Complex_NAME t self [x, y] m
          = GMPY_MPFR_MPC_BIOP_TEMPLATE.GMPy_Number_NAME E FUNC GMPy_Real_NAME
              GMPy_Complex_NAME x y (some (GMPyContext_current B t m.world).1)
              { m with world := (GMPyContext_current B t m.world).2 }) ∧
      (∀ GMPy_Real_NAME : Impl1 Obj R C,
        GMPY_MPFR_UNIOP_TEMPLATE.GMPy_Context_NAME B E FUNC GMPy_Real_NAME t self x m
          = GMPY_MPFR_UNIOP_TEMPLATE.GMPy_Number_NAME E FUNC GMPy_Real_NAME x
              (some (GMPyContext_current B t m.world).1)
              { m with world := (GMPyContext_current B t m.world).2 })) ∧
    (∀ (r : Nat) (m1 m2 : Machine) (res tx : R) (c : gmpy_context),
      E.IS_REAL x = true →
      E.GMPy_MPFR_New 0 r (m.log Call.GMPy_MPFR_New) = (Except.ok res, m1) →
      E.GMPy_MPFR_From_Real x 1 r (m1.log Call.GMPy_MPFR_From_Real) = (Except.ok tx, m2) →
      m2.world.ctx r = some c →
      GMPY_MPFR_MPC_UNIOP.GMPy_Context_NAME B E FUNC t (Self.CTXT r) x m
        = GMPY_MPFR_CLEANUP E
            (call_mpfr E FUNC res [tx] c.mpfr_round (mpfr_clear_flags m2)).1 r
            (call_mpfr E FUNC res [tx] c.mpfr_round (mpfr_clear_flags m2)).2) ∧
    (∀ (r : Nat) (m1 m2 : Machine) (res tx : R) (c : gmpy_context),
      E.IS_REAL x = true →
      E.GMPy_MPFR_New 0 r (m.log Call.GMPy_MPFR_New) = (Except.ok res, m1) →
      E.GMPy_MPFR_From_Real x 1 r (m1.log Call.GMPy_MPFR_From_Real) = (Except.ok tx, m2) →
      m2.world.ctx r = some c →
      GMPY_MPFR_UNIOP.GMPy_Context_NAME B E FUNC t (Self.CTXT r) x m
        = GMPY_MPFR_CLEANUP E
            (call_mpfr E FUNC res [tx] c.mpfr_round (mpfr_clear_flags m2)).1 r
            (call_mpfr E FUNC res [tx] c.mpfr_round (mpfr_clear_flags m2)).2) ∧
    (∀ (r : Nat) (m1 m2 m3 : Machine) (res tx ty : R) (c : gmpy_context),
      E.IS_REAL x = true → E.IS_REAL y = true →
      E.GMPy_MPFR_From_Real x 1 r (m.log Call.GMPy_MPFR_From_Real) = (Except.ok tx, m1) →
      E.GMPy_MPFR_From_Real y 1 r (m1.log Call.GMPy_MPFR_From_Real) = (Except.ok ty, m2) →
      E.GMPy_MPFR_New 0 r (m2.log Call.GMPy_MPFR_New) = (Except.ok res, m3) →
      m3.world.ctx r = some c →
      GMPY_MPFR_BINOP.GMPy_Context_NAME B E FUNC t (Self.CTXT r) [x, y] m
        = GMPY_MPFR_CLEANUP E
            (call_mpfr E FUNC res [tx, ty] c.mpfr_round (mpfr_clear_flags m3)).1 r
            (call_mpfr E FUNC res [tx, ty] c.mpfr_round (mpfr_clear_flags m3)).2) ∧
    (∀ (r : Nat) (m1 m2 m3 m4 : Machine) (res tx ty tz : R) (c : gmpy_context),
      E.IS_REAL x = true → E.IS_REAL y = true → E.IS_REAL z = true →
      E.GMPy_MPFR_New 0 r (m.log Call.GMPy_MPFR_New) = (Except.ok res, m1) →
      E.GMPy_MPFR_From_Real x 1 r (m1.log Call.GMPy_MPFR_From_Real) = (Except.ok tx, m2) →
      E.GMPy_MPFR_From_Real y 1 r (m2.log Call.GMPy_MPFR_From_Real) = (Except.ok ty, m3) →
      E.GMPy_MPFR_From_Real z 1 r (m3.log Call.GMPy_MPFR_From_Real) = (Except.ok tz, m4) →
      m4.world.ctx r = some c →
      GMPY_MPFR_MPC_TRIOP.GMPy_Context_NAME B E FUNC t (Self.CTXT r) [x, y, z] m
        = GMPY_MPFR_CLEANUP E
            (call_mpfr E FUNC res [tx, ty, tz] c.mpfr_round (mpfr_clear_flags m4)).1 r
            (call_mpfr E FUNC res [tx, ty, tz] c.mpfr_round (mpfr_clear_flags m4)).2) ∧
    (∀ (r : Nat) (m1 : Machine) (res : R) (c : gmpy_context),
      E.GMPy_MPFR_New 0 r (m.log Call.GMPy_MPFR_New) = (Except.ok res, m1) →
      m1.world.ctx r = some c →
      GMPY_MPFR_NOOP.GMPy_Context_NAME B E FUNC t (Self.CTXT r) ([] : List Obj) m
        = GMPY_MPFR_CLEANUP E
            (call_mpfr E FUNC res [] c.mpfr_round (mpfr_clear_flags m1)).1 r
            (call_mpfr E FUNC res [] c.mpfr_round (mpfr_clear_flags m1)).2) := by
  refine ⟨?_, ?_, ?_, ?_, ?_, ?_, ?_⟩
  · intro r t1
    exact ⟨rfl, rfl, rfl, rfl, rfl, fun _ _ => rfl, fun _ _ => rfl, fun _ => rfl⟩
  · intro self hs
    have hr := receiver_context_other B t self m hs
    refine ⟨?_, ?_, ?_, ?_, ?_, ?_, ?_, ?_⟩
    · simp only [GMPY_MPFR_MPC_UNIOP.GMPy_Context_NAME, hr]
    · simp [GMPY_MPFR_BINOP.GMPy_Context_NAME, hr]
    · simp [GMPY_MPFR_MPC_TRIOP.GMPy_Context_NAME, hr]
    · simp [GMPY_MPFR_NOOP.GMPy_Context_NAME, hr]
    · simp only [GMPY_MPFR_UNIOP.GMPy_Context_NAME, hr]
    · intro f g
      simp only [GMPY_MPFR_MPC_UNIOP_TEMPLATE.GMPy_Context_NAME, hr]
    · intro f g
      simp [GMPY_MPFR_MPC_BIOP_TEMPLATE.GMPy_Context_NAME, hr]
    · intro f
      simp only [GMPY_MPFR_UNIOP_TEMPLATE.GMPy_Context_NAME, hr]
  · intro r m1 m2 res tx c hx h1 h2 hc
    have := uniop_real_eq B E FUNC t x (some r) m m1 m2 res tx c h1 h2 hc
    simp only [GMPY_MPFR_MPC_UNIOP.GMPy_Context_NAME, receiver_context_ctxt,
      GMPY_MPFR_MPC_UNIOP.GMPy_Number_NAME, hx, if_true]
    exact this
  · intro r m1 m2 res tx c hx h1 h2 hc
    have := uniop_only_real_eq B E FUNC t x (some r) m m1 m2 res tx c h1 h2 hc
    simp only [GMPY_MPFR_UNIOP.GMPy_Context_NAME, receiver_context_ctxt,
      GMPY_MPFR_UNIOP.GMPy_Number_NAME, hx, if_true]
    exact this
  · intro r m1 m2 m3 res tx ty c hx hy h1 h2 h3 hc
    have := binop_real_eq B E FUNC t x y (some r) m m1 m2 m3 res tx ty c h1 h2 h3 hc
    have e : GMPY_MPFR_BINOP.GMPy_Context_NAME B E FUNC t (Self.CTXT r) [x, y] m
        = GMPY_MPFR_BINOP.GMPy_Number_NAME B E FUNC t x y (some r) m := rfl
    rw [e]
    simp only [GMPY_MPFR_BINOP.GMPy_Number_NAME, hx, hy, Bool.and_self, if_true]
    exact this
  · intro r m1 m2 m3 m4 res tx ty tz c hx hy hz h1 h2 h3 h4 hc
    have := triop_real_eq B E FUNC t x y z (some r) m m1 m2 m3 m4 res tx ty tz c h1 h2 h3 h4 hc
    have e : GMPY_MPFR_MPC_TRIOP.GMPy_Context_NAME B E FUNC t (Self.CTXT r) [x, y, z] m
        = GMPY_MPFR_MPC_TRIOP.GMPy_Number_NAME B E FUNC t x y z (some r) m := rfl
    rw [e]
    simp only [GMPY_MPFR_MPC_TRIOP.GMPy_Number_NAME, hx, hy, hz, Bool.and_self, if_true]
    exact this
  · intro r m1 res c h1 hc
    have := noop_real_eq B E FUNC t (some r) m m1 res c h1 hc
    have e : GMPY_MPFR_NOOP.GMPy_Context_NAME B E FUNC t (Self.CTXT r) ([] : List Obj) m
        = GMPY_MPFR_NOOP.GMPy_Real_NAME B E FUNC t (some r) m := rfl
    rw [e]
    exact this

/-! ## The cleanup protocol -/

theorem raise_clear_right (s : mpfr_flags) : s.raise mpfr_flags.clear = s := by
  cases s
  simp [mpfr_flags.raise, mpfr_flags.clear]

theorem flag_merge (k : Kind) (s : mpfr_flags) (c : gmpy_context)
    (h : k.signaled s = true) : k.flag (merge_flags s c) = 1 := by
  cases k <;> simp_all [Kind.signaled, Kind.flag, merge_flags]

theorem trap_merge (k : Kind) (s : mpfr_flags) (c : gmpy_context) :
    k.trap (merge_flags s c) = k.trap c := by
  cases k <;> rfl

theorem fires_merge (k : Kind) (s s1 : mpfr_flags) (c : gmpy_context) :
    k.fires s (merge_flags s1 c) = k.fires s c := by
  simp [Kind.fires, trap_merge]

theorem signaled_raise (k : Kind) (a b : mpfr_flags) (h : k.signaled a = true) :
    k.signaled (a.raise b) = true := by
  cases k <;> simp_all [Kind.signaled, mpfr_flags.raise]

theorem mem_order (k : Kind) : k ∈ Kind.order := by
  cases k <;> simp [Kind.order]

theorem check_traps_of_fires (k : Kind) (s : mpfr_flags) (c : gmpy_context)
    (h : k.fires s c = true) : ∃ e, check_traps s c = some e := by
  unfold check_traps
  cases hf : Kind.order.find? (fun j => j.fires s c) with
  | some j => exact ⟨j.error, rfl⟩
  | none =>
    rw [List.find?_eq_none] at hf
    exact absurd h (hf k (mem_order k))

theorem check_traps_first (k : Kind) (s : mpfr_flags) (c : gmpy_context)
    (h : k.fires s c = true) (he : ∀ j ∈ k.earlier, j.fires s c = false) :
    check_traps s c = some k.error := by
  cases k <;>
    simp_all [check_traps, Kind.order, Kind.earlier, List.find?, List.takeWhile]

theorem check_traps_none (s : mpfr_flags) (c : gmpy_context)
    (h : ∀ j ∈ Kind.order, j.fires s c = false) : check_traps s c = none := by
  unfold check_traps
  rw [Option.map_eq_none', List.find?_eq_none]
  intro j hj
  simp [h j hj]

theorem cleanup_policy {Obj R C : Type} (E : Externals Obj R C) (result : R × Int)
    (context : Nat) (m : Machine) (o : GMPyContextObject) (k : Kind)
    (ho : m.world.obj context = some o) (hk : k.signaled m.flags = true) :
    (∃ c1, (GMPY_MPFR_CLEANUP E result context m).2.world.ctx context = some c1 ∧
      k.flag c1 = 1) ∧
    (k.trap o.ctx ≠ 0 → ∃ e, (GMPY_MPFR_CLEANUP E result context m).1 = Except.error e) ∧
    (E.exponent_out_of_bounds result.1 o.ctx.emin o.ctx.emax = false →
      (k.trap o.ctx ≠ 0 → (∀ j ∈ k.earlier, j.fires m.flags o.ctx = false) →
        (GMPY_MPFR_CLEANUP E result context m).1 = Except.error k.error) ∧
      ((∀ j ∈ Kind.order, j.fires m.flags o.ctx = false) →
        (GMPY_MPFR_CLEANUP E result context m).1
          = Except.ok (PyNumber.mpfr result.1 result.2))) := by
  have hlt := obj_lt_length m.world context o ho
  have ho0 : (m.log (Call.GMPY_MPFR_CLEANUP m.flags)).world.obj context = some o := ho
  have hem : ∀ s, (merge_flags s o.ctx).emin = o.ctx.emin := fun _ => rfl
  have hex : ∀ s, (merge_flags s o.ctx).emax = o.ctx.emax := fun _ => rfl
  have hrd : ∀ s, (merge_flags s o.ctx).mpfr_round = o.ctx.mpfr_round := fun _ => rfl
  have hte : ∀ s, (merge_flags s o.ctx).trap_expbound = o.ctx.trap_expbound := fun _ => rfl
  unfold GMPY_MPFR_CLEANUP
  simp only [ho0, hem, hex, hrd, hte]
  have hlog : (m.log (Call.GMPY_MPFR_CLEANUP m.flags)).flags = m.flags := rfl
  have hwld : (m.log (Call.GMPY_MPFR_CLEANUP m.flags)).world = m.world := rfl
  simp only [hlog, hwld]
  by_cases hA : o.ctx.trap_expbound ≠ 0 ∧
      E.exponent_out_of_bounds result.1 o.ctx.emin o.ctx.emax = true
  · rw [if_pos hA]
    refine ⟨⟨merge_flags m.flags o.ctx, ?_, flag_merge k _ _ hk⟩, fun _ => ⟨_, rfl⟩, ?_⟩
    · simp [World.ctx, obj_store_same m.world context _ hlt]
    · intro hin
      rw [hin] at hA
      exact absurd hA.2 (by simp)
  · rw [if_neg hA]
    generalize hco : (if E.exponent_out_of_bounds result.1 o.ctx.emin o.ctx.emax = true then
        E.mpfr_check_range result.1 result.2 o.ctx.emin o.ctx.emax o.ctx.mpfr_round
      else (result.1, result.2, mpfr_flags.clear)) = coerced
    have hsig := signaled_raise k m.flags coerced.2.2 hk
    refine ⟨?_, ?_, ?_⟩
    · refine ⟨merge_flags (m.flags.raise coerced.2.2) o.ctx, ?_, flag_merge k _ _ hsig⟩
      split <;> simp [World.ctx, obj_store_same m.world context _ hlt]
    · intro ht
      have hf : k.fires (m.flags.raise coerced.2.2)
          (merge_flags (m.flags.raise coerced.2.2) o.ctx) = true := by
        rw [fires_merge]
        simp [Kind.fires, hsig, ht]
      obtain ⟨e, he⟩ := check_traps_of_fires k _ _ hf
      exact ⟨e, by rw [he]⟩
    · intro hin
      rw [hin] at hco
      simp only [Bool.false_eq_true, if_false] at hco
      subst hco
      simp only [raise_clear_right]
      constructor
      · intro ht he
        have hf : k.fires m.flags (merge_flags m.flags o.ctx) = true := by
          rw [fires_merge]
          simp [Kind.fires, hk, ht]
        have he1 : ∀ j ∈ k.earlier, j.fires m.flags (merge_flags m.flags o.ctx) = false := by
          intro j hj
          rw [fires_merge]
          exact he j hj
        rw [check_traps_first k _ _ hf he1]
      · intro hno
        have hno1 : ∀ j ∈ Kind.order,
            j.fires m.flags (merge_flags m.flags o.ctx) = false := by
          intro j hj
          rw [fires_merge]
          exact hno j hj
        rw [check_traps_none _ _ hno1]

/-- C29 (amended): on every real path of the templates (`GMPy_Real_NAME` of the unary,
ternary and binary templates and of `GMPY_MPFR_NOOP`, and `GMPY_MPFR_CONST`), once the
allocation and the conversions have succeeded, the calls recorded after theirs are
exactly `mpfr_clear_flags`, the primitive `mpfr_FUNC` invoked with every sticky flag
down, and the cleanup, which finds exactly the flags that this primitive raised.  The
complex path `GMPy_Complex_NAME` makes no such call: `mpc_FUNC` is invoked with the
sticky flags that the conversions left standing, and the cleanup of the complex result
starts with those flags and the ones the primitive raised. -/
theorem real_paths_clear_sticky_flags {Obj R C : Type} (B : Backend) (E : Externals Obj R C)
    (FUNC : String) (t : Nat) (x y z : Obj) (context : Option Nat) (m : Machine) :
    (∀ (m1 m2 : Machine) (res tx : R) (c : gmpy_context),
      E.GMPy_MPFR_New 0 (CHECK_CONTEXT B t context m).1
        ((CHECK_CONTEXT B t context m).2.log Call.GMPy_MPFR_New) = (Except.ok res, m1) →
      E.GMPy_MPFR_From_Real x 1 (CHECK_CONTEXT B t context m).1
        (m1.log Call.GMPy_MPFR_From_Real) = (Except.ok tx, m2) →
      m2.world.ctx (CHECK_CONTEXT B t context m).1 = some c →
      (GMPY_MPFR_MPC_UNIOP.GMPy_Real_NAME B E FUNC t x context m).2.calls
        = m2.calls ++ [Call.mpfr_clear_flags, Call.mpfr FUNC mpfr_flags.clear,
            Call.GMPY_MPFR_CLEANUP
              (E.mpfr FUNC res [tx] c.mpfr_round m2.world.emin m2.world.emax).2.2]) ∧
    (∀ (m1 m2 m3 m4 : Machine) (res tx ty tz : R) (c : gmpy_context),
      E.GMPy_MPFR_New 0 (CHECK_CONTEXT B t context m).1
        ((CHECK_CONTEXT B t context m).2.log Call.GMPy_MPFR_New) = (Except.ok res, m1) →
      E.GMPy_MPFR_From_Real x 1 (CHECK_CONTEXT B t context m).1
        (m1.log Call.GMPy_MPFR_From_Real) = (Except.ok tx, m2) →
      E.GMPy_MPFR_From_Real y 1 (CHECK_CONTEXT B t context m).1
        (m2.log Call.GMPy_MPFR_From_Real) = (Except.ok ty, m3) →
      E.GMPy_MPFR_From_Real z 1 (CHECK_CONTEXT B t context m).1
        (m3.log Call.GMPy_MPFR_From_Real) = (Except.ok tz, m4) →
      m4.world.ctx (CHECK_CONTEXT B t context m).1 = some c →
      (GMPY_MPFR_MPC_TRIOP.GMPy_Real_NAME B E FUNC t x y z context m).2.calls
        = m4.calls ++ [Call.mpfr_clear_flags, Call.mpfr FUNC mpfr_flags.clear,
            Call.GMPY_MPFR_CLEANUP
              (E.mpfr FUNC res [tx, ty, tz] c.mpfr_round m4.world.emin m4.world.emax).2.2]) ∧
    (∀ (m1 m2 m3 : Machine) (res tx ty : R) (c : gmpy_context),
      E.GMPy_MPFR_From_Real x 1 (CHECK_CONTEXT B t context m).1
        ((CHECK_CONTEXT B t context m).2.log Call.GMPy_MPFR_From_Real) = (Except.ok tx, m1) →
      E.GMPy_MPFR_From_Real y 1 (CHECK_CONTEXT B t context m).1
        (m1.log Call.GMPy_MPFR_From_Real) = (Except.ok ty, m2) →
      E.GMPy_MPFR_New 0 (CHECK_CONTEXT B t context m).1
        (m2.log Call.GMPy_MPFR_New) = (Except.ok res, m3) →
      m3.world.ctx (CHECK_CONTEXT B t context m).1 = some c →
      (GMPY_MPFR_BINOP.GMPy_Real_NAME B E FUNC t x y context m).2.calls
        = m3.calls ++ [Call.mpfr_clear_flags, Call.mpfr FUNC mpfr_flags.clear,
            Call.GMPY_MPFR_CLEANUP
              (E.mpfr FUNC res [tx, ty] c.mpfr_round m3.world.emin m3.world.emax).2.2]) ∧
    (∀ (m1 : Machine) (res : R) (c : gmpy_context),
      E.GMPy_MPFR_New 0 (CHECK_CONTEXT B t context m).1
        ((CHECK_CONTEXT B t context m).2.log Call.GMPy_MPFR_New) = (Except.ok res, m1) →
      m1.world.ctx (CHECK_CONTEXT B t context m).1 = some c →
      (GMPY_MPFR_NOOP.GMPy_Real_NAME B E FUNC t context m).2.calls
        = m1.calls ++ [Call.mpfr_clear_flags, Call.mpfr FUNC mpfr_flags.clear,
            Call.GMPY_MPFR_CLEANUP
              (E.mpfr FUNC res [] c.mpfr_round m1.world.emin m1.world.emax).2.2]) ∧
    (∀ (bits : Int) (m1 : Machine) (res : R) (c : gmpy_context),
      E.GMPy_MPFR_New bits (CHECK_CONTEXT B t none m).1
        ((CHECK_CONTEXT B t none m).2.log Call.GMPy_MPFR_New) = (Except.ok res, m1) →
      m1.world.ctx (CHECK_CONTEXT B t none m).1 = some c →
      (GMPY_MPFR_CONST.GMPy_Function_NAME B E FUNC t (Except.ok bits) m).2.calls
        = m1.calls ++ [Call.mpfr_clear_flags, Call.mpfr FUNC mpfr_flags.clear,
            Call.GMPY_MPFR_CLEANUP
              (E.mpfr FUNC res [] c.mpfr_round m1.world.emin m1.world.emax).2.2]) ∧
    (∀ (m1 m2 : Machine) (res tx : C) (c : gmpy_context),
      E.GMPy_MPC_New 0 0 (CHECK_CONTEXT B t context m).1
        ((CHECK_CONTEXT B t context m).2.log Call.GMPy_MPC_New) = (Except.ok res, m1) →
      E.GMPy_MPC_From_Complex x 1 1 (CHECK_CONTEXT B t context m).1
        (m1.log Call.GMPy_MPC_From_Complex) = (Except.ok tx, m2) →
      m2.world.ctx (CHECK_CONTEXT B t context m).1 = some c →
      ∃ (v : C) (rc : Int) (m3 : Machine),
        GMPY_MPFR_MPC_UNIOP.GMPy_Complex_NAME B E FUNC t x context m
          = E.GMPY_MPC_CLEANUP v rc (CHECK_CONTEXT B t context m).1 (FUNC ++ "()") m3 ∧
        m3.calls = m2.calls ++ [Call.mpc FUNC m2.flags,
          Call.GMPY_MPC_CLEANUP (m2.flags.raise
            (E.mpc FUNC res [tx] (E.GET_MPC_ROUND c) m2.world.emin m2.world.emax).2.2)] ∧
        m3.flags = m2.flags.raise
          (E.mpc FUNC res [tx] (E.GET_MPC_ROUND c) m2.world.emin m2.world.emax).2.2) := by
  refine ⟨?_, ?_, ?_, ?_, ?_, ?_⟩
  · intro m1 m2 res tx c h1 h2 hc
    have h := uniop_real_eq B E FUNC t x context m m1 m2 res tx c h1 h2 hc
    rw [h]
    exact real_tail_calls E FUNC res [tx] c.mpfr_round _ m2
  · intro m1 m2 m3 m4 res tx ty tz c h1 h2 h3 h4 hc
    rw [triop_real_eq B E FUNC t x y z context m m1 m2 m3 m4 res tx ty tz c h1 h2 h3 h4 hc]
    exact real_tail_calls E FUNC res [tx, ty, tz] c.mpfr_round _ m4
  · intro m1 m2 m3 res tx ty c h1 h2 h3 hc
    rw [binop_real_eq B E FUNC t x y context m m1 m2 m3 res tx ty c h1 h2 h3 hc]
    exact real_tail_calls E FUNC res [tx, ty] c.mpfr_round _ m3
  · intro m1 res c h1 hc
    rw [noop_real_eq B E FUNC t context m m1 res c h1 hc]
    exact real_tail_calls E FUNC res [] c.mpfr_round _ m1
  · intro bits m1 res c h1 hc
    rw [const_eq B E FUNC t bits m m1 res c h1 hc]
    exact real_tail_calls E FUNC res [] c.mpfr_round _ m1
  · intro m1 m2 res tx c h1 h2 hc
    refine ⟨_, _, _, uniop_complex_eq B E FUNC t x context m m1 m2 res tx c h1 h2 hc, ?_, ?_⟩
    · simp [Machine.log, call_mpc]
    · simp [Machine.log, call_mpc]

/-- C29 (counterexample): with `inexflag` left standing by an earlier call, the complex
path of a unary operation records an allocation, a conversion, the primitive and the
cleanup, and no `mpfr_clear_flags`: the primitive is invoked, and the cleanup is
started, with `inexflag` still standing. -/
theorem complex_path_keeps_stale_flags :
    (GMPY_MPFR_MPC_UNIOP.GMPy_Complex_NAME mpfr3 toy "sqrt" 0 (Operand.gaussian 3 4) none
      machine_stale_inexact).2.calls
      = [Call.GMPy_MPC_New, Call.GMPy_MPC_From_Complex,
          Call.mpc "sqrt" { mpfr_flags.clear with inexflag := true },
          Call.GMPY_MPC_CLEANUP { mpfr_flags.clear with inexflag := true }] ∧
    (GMPY_MPFR_MPC_TRIOP.GMPy_Complex_NAME mpfr3 toy "fma" 0 (Operand.gaussian 3 4)
      (Operand.int 2) (Operand.int 1) none machine_stale_inexact).2.calls
      = [Call.GMPy_MPC_New, Call.GMPy_MPC_From_Complex, Call.GMPy_MPC_From_Complex,
          Call.GMPy_MPC_From_Complex,
          Call.mpc "fma" { mpfr_flags.clear with inexflag := true },
          Call.GMPY_MPC_CLEANUP { mpfr_flags.clear with inexflag := true }] ∧
    ({ mpfr_flags.clear with inexflag := true } : mpfr_flags) ≠ mpfr_flags.clear := by
  refine ⟨by decide, by decide, by decide⟩

theorem signaled_raise_right (k : Kind) (a b : mpfr_flags) (h : k.signaled b = true) :
    k.signaled (a.raise b) = true := by
  cases k <;> simp_all [Kind.signaled, mpfr_flags.raise]

theorem real_tail_policy {Obj R C : Type} (E : Externals Obj R C) (FUNC : String) (res : R)
    (args : List R) (context : Nat) (m : Machine) (o : GMPyContextObject) (k : Kind)
    (ho : m.world.obj context = some o)
    (hk : k.signaled
      (E.mpfr FUNC res args o.ctx.mpfr_round m.world.emin m.world.emax).2.2 = true) :
    follows_trap_policy E (real_tail E FUNC res args o.ctx.mpfr_round context m) context o k
      (E.mpfr FUNC res args o.ctx.mpfr_round m.world.emin m.world.emax) := by
  unfold real_tail follows_trap_policy
  have hfl : (call_mpfr E FUNC res args o.ctx.mpfr_round (mpfr_clear_flags m)).2.flags
      = (E.mpfr FUNC res args o.ctx.mpfr_round m.world.emin m.world.emax).2.2 := by
    simp [call_mpfr, mpfr_clear_flags, raise_clear]
  have hk1 : k.signaled
      (call_mpfr E FUNC res args o.ctx.mpfr_round (mpfr_clear_flags m)).2.flags = true := by
    rw [hfl]
    exact hk
  have key := cleanup_policy E
    (call_mpfr E FUNC res args o.ctx.mpfr_round (mpfr_clear_flags m)).1 context
    (call_mpfr E FUNC res args o.ctx.mpfr_round (mpfr_clear_flags m)).2 o k ho hk1
  rw [hfl] at key
  exact key

theorem ctx_of_obj (w : World) (r : Nat) (o : GMPyContextObject) (h : w.obj r = some o) :
    w.ctx r = some o.ctx := by
  simp [World.ctx, h]

theorem monop_direct_eq {Obj R C : Type} (B : Backend) (E : Externals Obj R C)
    (FUNC : String) (t : Nat) (x : MPFR_Object R) (m m1 : Machine) (res : R)
    (o : GMPyContextObject)
    (h1 : E.GMPy_MPFR_New 0 (CHECK_CONTEXT_SET_EXPONENT B t none m).1
      ((CHECK_CONTEXT_SET_EXPONENT B t none m).2.log Call.GMPy_MPFR_New) = (Except.ok res, m1))
    (ho : m1.world.obj (CHECK_CONTEXT_SET_EXPONENT B t none m).1 = some o) :
    MPFR_MONOP.PyNAME B E FUNC t true x m
      = ({ result := some (call_mpfr E FUNC res [x.f] o.ctx.mpfr_round m1).1,
           exception := none },
          (call_mpfr E FUNC res [x.f] o.ctx.mpfr_round m1).2) := by
  have hc := ctx_of_obj _ _ _ ho
  simp only [MPFR_MONOP.PyNAME, h1, hc, if_true]

theorem monop_converting_eq {Obj R C : Type} (B : Backend) (E : Externals Obj R C)
    (FUNC : String) (t : Nat) (x : MPFR_Object R) (m m1 : Machine) (res : R)
    (o : GMPyContextObject)
    (h1 : E.GMPy_MPFR_New 0 (CHECK_CONTEXT_SET_EXPONENT B t none m).1
      ((CHECK_CONTEXT_SET_EXPONENT B t none m).2.log Call.GMPy_MPFR_New) = (Except.ok res, m1))
    (ho : m1.world.obj (CHECK_CONTEXT_SET_EXPONENT B t none m).1 = some o)
    (copy ranged p : R × Int × mpfr_flags)
    (hs : E.mpfr "set" res [x.f] o.ctx.mpfr_round m1.world.emin m1.world.emax = copy)
    (hr : E.mpfr_check_range copy.1 x.rc m1.world.emin m1.world.emax x.round_mode = ranged)
    (hp : E.mpfr FUNC ranged.1 [ranged.1] o.ctx.mpfr_round m1.world.emin m1.world.emax = p) :
    (MPFR_MONOP.PyNAME B E FUNC t false x m).1
      = { result := some (p.1, p.2.1),
          exception := check_traps (ranged.2.2.raise p.2.2)
            (merge_flags (ranged.2.2.raise p.2.2) o.ctx) } ∧
    (MPFR_MONOP.PyNAME B E FUNC t false x m).2.world
      = m1.world.store (CHECK_CONTEXT_SET_EXPONENT B t none m).1
          { o with ctx := merge_flags (ranged.2.2.raise p.2.2) o.ctx } := by
  have hc := ctx_of_obj _ _ _ ho
  have hlt := obj_lt_length _ _ _ ho
  subst hs hr hp
  simp only [MPFR_MONOP.PyNAME, h1, hc, Bool.false_eq_true, if_false]
  simp only [call_mpfr, mpfr_clear_flags, raise_clear, MERGE_FLAGS, CHECK_FLAGS, ho,
    World.ctx, obj_store_same _ _ _ hlt, Option.map_some', and_self]

/-- C30 (amended): for every kind `k` and every real path of the templates (the real
function of `GMPY_MPFR_MPC_UNIOP`, `GMPY_MPFR_UNIOP`, `GMPY_MPFR_MPC_TRIOP`,
`GMPY_MPFR_BINOP` and `GMPY_MPFR_NOOP`, and `GMPY_MPFR_CONST`) whose primitive signals
`k`, the outcome follows the trap policy: the context has the sticky flag of `k` set
after the call, whatever the traps are and however the call ends; with the trap of `k`
on the call fails and returns no result, the error being the typed condition of `k` when
the result is in bounds and no kind examined before `k` fires; with the result in bounds
and no kind firing the call returns the computed value and ternary value.  The branch
of `MPFR_MONOP` taken when `MPFR_Check(x)` fails sets the flag in the same way, leaves the
typed condition raised under the same conditions, and returns the computed value with no
exception when no kind fires.  The branch taken when `MPFR_Check(x)` holds returns the
value of the primitive with no exception and leaves every context as it was. -/
theorem trap_policy {Obj R C : Type} (B : Backend) (E : Externals Obj R C)
    (FUNC : String) (t : Nat) (k : Kind) (x y z : Obj) (context : Option Nat) (m : Machine) :
    (∀ (m1 m2 : Machine) (res tx : R) (o : GMPyContextObject),
      E.GMPy_MPFR_New 0 (CHECK_CONTEXT B t context m).1
        ((CHECK_CONTEXT B t context m).2.log Call.GMPy_MPFR_New) = (Except.ok res, m1) →
      E.GMPy_MPFR_From_Real x 1 (CHECK_CONTEXT B t context m).1
        (m1.log Call.GMPy_MPFR_From_Real) = (Except.ok tx, m2) →
      m2.world.obj (CHECK_CONTEXT B t context m).1 = some o →
      k.signaled
        (E.mpfr FUNC res [tx] o.ctx.mpfr_round m2.world.emin m2.world.emax).2.2 = true →
      follows_trap_policy E (GMPY_MPFR_MPC_UNIOP.GMPy_Real_NAME B E FUNC t x context m)
          (CHECK_CONTEXT B t context m).1 o k
          (E.mpfr FUNC res [tx] o.ctx.mpfr_round m2.world.emin m2.world.emax) ∧
        follows_trap_policy E (GMPY_MPFR_UNIOP.GMPy_Real_NAME B E FUNC t x context m)
          (CHECK_CONTEXT B t context m).1 o k
          (E.mpfr FUNC res [tx] o.ctx.mpfr_round m2.world.emin m2.world.emax)) ∧
    (∀ (m1 m2 m3 m4 : Machine) (res tx ty tz : R) (o : GMPyContextObject),
      E.GMPy_MPFR_New 0 (CHECK_CONTEXT B t context m).1
        ((CHECK_CONTEXT B t context m).2.log Call.GMPy_MPFR_New) = (Except.ok res, m1) →
      E.GMPy_MPFR_From_Real x 1 (CHECK_CONTEXT B t context m).1
        (m1.log Call.GMPy_MPFR_From_Real) = (Except.ok tx, m2) →
      E.GMPy_MPFR_From_Real y 1 (CHECK_CONTEXT B t context m).1
        (m2.log Call.GMPy_MPFR_From_Real) = (Except.ok ty, m3) →
      E.GMPy_MPFR_From_Real z 1 (CHECK_CONTEXT B t context m).1
        (m3.log Call.GMPy_MPFR_From_Real) = (Except.ok tz, m4) →
      m4.world.obj (CHECK_CONTEXT B t context m).1 = some o →
      k.signaled
        (E.mpfr FUNC res [tx, ty, tz] o.ctx.mpfr_round m4.world.emin m4.world.emax).2.2
          = true →
      follows_trap_policy E (GMPY_MPFR_MPC_TRIOP.GMPy_Real_NAME B E FUNC t x y z context m)
        (CHECK_CONTEXT B t context m).1 o k
        (E.mpfr FUNC res [tx, ty, tz] o.ctx.mpfr_round m4.world.emin m4.world.emax)) ∧
    (∀ (m1 m2 m3 : Machine) (res tx ty : R) (o : GMPyContextObject),
      E.GMPy_MPFR_From_Real x 1 (CHECK_CONTEXT B t context m).1
        ((CHECK_CONTEXT B t context m).2.log Call.GMPy_MPFR_From_Real) = (Except.ok tx, m1) →
      E.GMPy_MPFR_From_Real y 1 (CHECK_CONTEXT B t context m).1
        (m1.log Call.GMPy_MPFR_From_Real) = (Except.ok ty, m2) →
      E.GMPy_MPFR_New 0 (CHECK_CONTEXT B t context m).1
        (m2.log Call.GMPy_MPFR_New) = (Except.ok res, m3) →
      m3.world.obj (CHECK_CONTEXT B t context m).1 = some o →
      k.signaled
        (E.mpfr FUNC res [tx, ty] o.ctx.mpfr_round m3.world.emin m3.world.emax).2.2 = true →
      follows_trap_policy E (GMPY_MPFR_BINOP.GMPy_Real_NAME B E FUNC t x y context m)
        (CHECK_CONTEXT B t context m).1 o k
        (E.mpfr FUNC res [tx, ty] o.ctx.mpfr_round m3.world.emin m3.world.emax)) ∧
    (∀ (m1 : Machine) (res : R) (o : GMPyContextObject),
      E.GMPy_MPFR_New 0 (CHECK_CONTEXT B t context m).1
        ((CHECK_CONTEXT B t context m).2.log Call.GMPy_MPFR_New) = (Except.ok res, m1) →
      m1.world.obj (CHECK_CONTEXT B t context m).1 = some o →
      k.signaled
        (E.mpfr FUNC res [] o.ctx.mpfr_round m1.world.emin m1.world.emax).2.2 = true →
      follows_trap_policy E (GMPY_MPFR_NOOP.GMPy_Real_NAME B E FUNC t context m)
        (CHECK_CONTEXT B t context m).1 o k
        (E.mpfr FUNC res [] o.ctx.mpfr_round m1.world.emin m1.world.emax)) ∧
    (∀ (bits : Int) (m1 : Machine) (res : R) (o : GMPyContextObject),
      E.GMPy_MPFR_New bits (CHECK_CONTEXT B t none m).1
        ((CHECK_CONTEXT B t none m).2.log Call.GMPy_MPFR_New) = (Except.ok res, m1) →
      m1.world.obj (CHECK_CONTEXT B t none m).1 = some o →
      k.signaled
        (E.mpfr FUNC res [] o.ctx.mpfr_round m1.world.emin m1.world.emax).2.2 = true →
      follows_trap_policy E (GMPY_MPFR_CONST.GMPy_Function_NAME B E FUNC t (Except.ok bits) m)
        (CHECK_CONTEXT B t none m).1 o k
        (E.mpfr FUNC res [] o.ctx.mpfr_round m1.world.emin m1.world.emax)) ∧
    (∀ (v : MPFR_Object R) (m1 : Machine) (res : R) (o : GMPyContextObject)
        (copy ranged p : R × Int × mpfr_flags),
      E.GMPy_MPFR_New 0 (CHECK_CONTEXT_SET_EXPONENT B t none m).1
        ((CHECK_CONTEXT_SET_EXPONENT B t none m).2.log Call.GMPy_MPFR_New)
          = (Except.ok res, m1) →
      m1.world.obj (CHECK_CONTEXT_SET_EXPONENT B t none m).1 = some o →
      E.mpfr "set" res [v.f] o.ctx.mpfr_round m1.world.emin m1.world.emax = copy →
      E.mpfr_check_range copy.1 v.rc m1.world.emin m1.world.emax v.round_mode = ranged →
      E.mpfr FUNC ranged.1 [ranged.1] o.ctx.mpfr_round m1.world.emin m1.world.emax = p →
      k.signaled p.2.2 = true →
      (∃ c1, (MPFR_MONOP.PyNAME B E FUNC t false v m).2.world.ctx
          (CHECK_CONTEXT_SET_EXPONENT B t none m).1 = some c1 ∧ k.flag c1 = 1) ∧
      (k.trap o.ctx ≠ 0 →
        ∃ e, (MPFR_MONOP.PyNAME B E FUNC t false v m).1.exception = some e) ∧
      (k.trap o.ctx ≠ 0 →
        (∀ j ∈ k.earlier, j.fires (ranged.2.2.raise p.2.2) o.ctx = false) →
        (MPFR_MONOP.PyNAME B E FUNC t false v m).1.exception = some k.error) ∧
      ((∀ j ∈ Kind.order, j.fires (ranged.2.2.raise p.2.2) o.ctx = false) →
        (MPFR_MONOP.PyNAME B E FUNC t false v m).1
          = { result := some (p.1, p.2.1), exception := none })) ∧
    (∀ (v : MPFR_Object R) (m1 : Machine) (res : R) (o : GMPyContextObject)
        (p : R × Int × mpfr_flags),
      E.GMPy_MPFR_New 0 (CHECK_CONTEXT_SET_EXPONENT B t none m).1
        ((CHECK_CONTEXT_SET_EXPONENT B t none m).2.log Call.GMPy_MPFR_New)
          = (Except.ok res, m1) →
      m1.world.obj (CHECK_CONTEXT_SET_EXPONENT B t none m).1 = some o →
      E.mpfr FUNC res [v.f] o.ctx.mpfr_round m1.world.emin m1.world.emax = p →
      (MPFR_MONOP.PyNAME B E FUNC t true v m).1
        = { result := some (p.1, p.2.1), exception := none } ∧
      (MPFR_MONOP.PyNAME B E FUNC t true v m).2.world = m1.world ∧
      (MPFR_MONOP.PyNAME B E FUNC t true v m).2.flags = m1.flags.raise p.2.2) := by
  refine ⟨?_, ?_, ?_, ?_, ?_, ?_, ?_⟩
  · intro m1 m2 res tx o h1 h2 ho hk
    have e := uniop_only_real_eq B E FUNC t x context m m1 m2 res tx o.ctx h1 h2
      (ctx_of_obj _ _ _ ho)
    have e1 : GMPY_MPFR_MPC_UNIOP.GMPy_Real_NAME B E FUNC t x context m
        = real_tail E FUNC res [tx] o.ctx.mpfr_round (CHECK_CONTEXT B t context m).1 m2 := e
    rw [e, e1]
    exact ⟨real_tail_policy E FUNC res [tx] _ m2 o k ho hk,
      real_tail_policy E FUNC res [tx] _ m2 o k ho hk⟩
  · intro m1 m2 m3 m4 res tx ty tz o h1 h2 h3 h4 ho hk
    rw [triop_real_eq B E FUNC t x y z context m m1 m2 m3 m4 res tx ty tz o.ctx h1 h2 h3 h4
      (ctx_of_obj _ _ _ ho)]
    exact real_tail_policy E FUNC res [tx, ty, tz] _ m4 o k ho hk
  · intro m1 m2 m3 res tx ty o h1 h2 h3 ho hk
    rw [binop_real_eq B E FUNC t x y context m m1 m2 m3 res tx ty o.ctx h1 h2 h3
      (ctx_of_obj _ _ _ ho)]
    exact real_tail_policy E FUNC res [tx, ty] _ m3 o k ho hk
  · intro m1 res o h1 ho hk
    rw [noop_real_eq B E FUNC t context m m1 res o.ctx h1 (ctx_of_obj _ _ _ ho)]
    exact real_tail_policy E FUNC res [] _ m1 o k ho hk
  · intro bits m1 res o h1 ho hk
    rw [const_eq B E FUNC t bits m m1 res o.ctx h1 (ctx_of_obj _ _ _ ho)]
    exact real_tail_policy E FUNC res [] _ m1 o k ho hk
  · intro v m1 res o copy ranged p h1 ho hs hr hp hk
    obtain ⟨e1, e2⟩ := monop_converting_eq B E FUNC t v m m1 res o h1 ho copy ranged p hs hr hp
    have hlt := obj_lt_length _ _ _ ho
    have hsig := signaled_raise_right k ranged.2.2 p.2.2 hk
    rw [e1, e2]
    refine ⟨⟨merge_flags (ranged.2.2.raise p.2.2) o.ctx, ?_, flag_merge k _ _ hsig⟩, ?_, ?_, ?_⟩
    · simp [World.ctx, obj_store_same _ _ _ hlt]
    · intro ht
      have hf : k.fires (ranged.2.2.raise p.2.2)
          (merge_flags (ranged.2.2.raise p.2.2) o.ctx) = true := by
        rw [fires_merge]
        simp [Kind.fires, hsig, ht]
      exact check_traps_of_fires k _ _ hf
    · intro ht he
      have hf : k.fires (ranged.2.2.raise p.2.2)
          (merge_flags (ranged.2.2.raise p.2.2) o.ctx) = true := by
        rw [fires_merge]
        simp [Kind.fires, hsig, ht]
      have he1 : ∀ j ∈ k.earlier, j.fires (ranged.2.2.raise p.2.2)
          (merge_flags (ranged.2.2.raise p.2.2) o.ctx) = false := by
        intro j hj
        rw [fires_merge]
        exact he j hj
      exact check_traps_first k _ _ hf he1
    · intro hno
      have hno1 : ∀ j ∈ Kind.order, j.fires (ranged.2.2.raise p.2.2)
          (merge_flags (ranged.2.2.raise p.2.2) o.ctx) = false := by
        intro j hj
        rw [fires_merge]
        exact hno j hj
      rw [check_traps_none _ _ hno1]
  · intro v m1 res o p h1 ho hp
    rw [monop_direct_eq B E FUNC t v m m1 res o h1 ho]
    subst hp
    exact ⟨rfl, rfl, rfl⟩

/-- C30 (counterexample): two calls whose primitive signals a kind and which do not end
as stated.  Thread 0 has `trap_inexact` on and `trap_overflow` off; the primitive of the
binary operation signals overflow and inexact; the call fails with `InexactError` and
returns no result, although the trap of the signaled kind overflow is off (the context
then has `overflow = 1`).  Thread 0 has `trap_invalid` on; `MPFR_MONOP` is applied to an
`mpfr` NaN; the primitive signals invalid; the call returns NaN with no exception and the
context still has `invalid = 0`. -/
theorem signaled_kind_outside_policy :
    (toy.mpfr "pow" (ToyReal.fin 0) [ToyReal.fin 2, ToyReal.fin (2 ^ 40)] MPFR_RNDN
      machine_trap_inexact.world.emin machine_trap_inexact.world.emax).2.2
      = { mpfr_flags.clear with overflow := true, inexflag := true } ∧
    (machine_trap_inexact.world.ctx 0).map (fun c => (c.trap_overflow, c.trap_inexact))
      = some (0, 1) ∧
    (GMPY_MPFR_BINOP.GMPy_Real_NAME mpfr3 toy "pow" 0 (Operand.int 2) (Operand.int (2 ^ 40))
      none machine_trap_inexact).1 = Except.error OpErr.InexactError ∧
    ((GMPY_MPFR_BINOP.GMPy_Real_NAME mpfr3 toy "pow" 0 (Operand.int 2) (Operand.int (2 ^ 40))
      none machine_trap_inexact).2.world.ctx 0).map (fun c => c.overflow) = some 1 ∧
    (toy.mpfr "neg" (ToyReal.fin 0) [mpfr_nan.f] MPFR_RNDN
      machine_trap_invalid.world.emin machine_trap_invalid.world.emax).2.2
      = { mpfr_flags.clear with nanflag := true } ∧
    (machine_trap_invalid.world.ctx 0).map (fun c => (c.trap_invalid, c.invalid))
      = some (1, 0) ∧
    (MPFR_MONOP.PyNAME mpfr3 toy "neg" 0 true mpfr_nan machine_trap_invalid).1
      = { result := some (ToyReal.nan, 0), exception := none } ∧
    ((MPFR_MONOP.PyNAME mpfr3 toy "neg" 0 true mpfr_nan machine_trap_invalid).2.world.ctx
      0).map (fun c => c.invalid) = some 0 ∧
    (MPFR_MONOP.PyNAME mpfr3 toy "neg" 0 true mpfr_nan machine_trap_invalid).2.flags
      = { mpfr_flags.clear with nanflag := true } := by
  refine ⟨by decide, by decide, by rfl, by decide, by decide, by decide, by decide,
    by decide, by decide⟩

/-! ## The rounding and exponent setters -/

theorem as_long_fits (v : Int) (h : LONG_MIN ≤ v ∧ v ≤ LONG_MAX) :
    PyIntOrLong_AsLong (PyVal.int v) = (v, false) := by
  simp [PyIntOrLong_AsLong, h]

theorem as_long_overflow (v : Int) (h : ¬ (LONG_MIN ≤ v ∧ v ≤ LONG_MAX)) :
    PyIntOrLong_AsLong (PyVal.int v) = (-1, true) := by
  simp [PyIntOrLong_AsLong, h]

theorem mpc_rounding_fits (v : Int) (h : is_mpc_rounding v) : LONG_MIN ≤ v ∧ v ≤ LONG_MAX := by
  simp only [is_mpc_rounding, MPFR_RNDN, MPFR_RNDZ, MPFR_RNDU, MPFR_RNDD, GMPY_DEFAULT] at h
  simp only [LONG_MIN, LONG_MAX]
  omega

theorem set_real_round_ok (c : gmpy_context) (v : Int) (hro : c.readonly = 0)
    (hv : is_mpc_rounding v) :
    GMPyContext_set_real_round c (PyVal.int v) = (none, { c with real_round := v }) := by
  have hfit := mpc_rounding_fits v hv
  have hv1 : v = GMPY_DEFAULT ∨ v = MPFR_RNDN ∨ v = MPFR_RNDZ ∨ v = MPFR_RNDU ∨ v = MPFR_RNDD := by
    unfold is_mpc_rounding at hv
    tauto
  simp [GMPyContext_set_real_round, hro, PyIntOrLong_Check, as_long_fits v hfit, hv1]

theorem set_real_round_bad (c : gmpy_context) (v : Int) (hro : c.readonly = 0)
    (hv : ¬ is_mpc_rounding v) :
    GMPyContext_set_real_round c (PyVal.int v)
      = (some (PyErr.ValueError "invalid value for round mode"), c) := by
  have hv1 : ¬ (v = GMPY_DEFAULT ∨ v = MPFR_RNDN ∨ v = MPFR_RNDZ ∨ v = MPFR_RNDU ∨
      v = MPFR_RNDD) := by
    unfold is_mpc_rounding at hv
    tauto
  by_cases hfit : LONG_MIN ≤ v ∧ v ≤ LONG_MAX
  · simp [GMPyContext_set_real_round, hro, PyIntOrLong_Check, as_long_fits v hfit, hv1]
  · simp [GMPyContext_set_real_round, hro, PyIntOrLong_Check, as_long_overflow v hfit]

theorem set_imag_round_ok (c : gmpy_context) (v : Int) (hro : c.readonly = 0)
    (hv : is_mpc_rounding v) :
    GMPyContext_set_imag_round c (PyVal.int v) = (none, { c with imag_round := v }) := by
  have hfit := mpc_rounding_fits v hv
  have hv1 : v = GMPY_DEFAULT ∨ v = MPFR_RNDN ∨ v = MPFR_RNDZ ∨ v = MPFR_RNDU ∨ v = MPFR_RNDD := by
    unfold is_mpc_rounding at hv
    tauto
  simp [GMPyContext_set_imag_round, hro, PyIntOrLong_Check, as_long_fits v hfit, hv1]

theorem set_imag_round_bad (c : gmpy_context) (v : Int) (hro : c.readonly = 0)
    (hv : ¬ is_mpc_rounding v) :
    GMPyContext_set_imag_round c (PyVal.int v)
      = (some (PyErr.ValueError "invalid value for round mode"), c) := by
  have hv1 : ¬ (v = GMPY_DEFAULT ∨ v = MPFR_RNDN ∨ v = MPFR_RNDZ ∨ v = MPFR_RNDU ∨
      v = MPFR_RNDD) := by
    unfold is_mpc_rounding at hv
    tauto
  by_cases hfit : LONG_MIN ≤ v ∧ v ≤ LONG_MAX
  · simp [GMPyContext_set_imag_round, hro, PyIntOrLong_Check, as_long_fits v hfit, hv1]
  · simp [GMPyContext_set_imag_round, hro, PyIntOrLong_Check, as_long_overflow v hfit]

/-- C32: on a writable context and for every integer `v`, assigning `real_round = v`
(likewise `imag_round = v`) succeeds exactly when `v` is `MPFR_RNDN`, `MPFR_RNDZ`,
`MPFR_RNDU`, `MPFR_RNDD` or `GMPY_DEFAULT`; on success the world is the old one with that
one field of that object set to `v`; `MPFR_RNDA` and every other integer raise the
`ValueError` "invalid value for round mode" and leave the world unchanged. -/
theorem set_mpc_round_iff_in_enum (B : Backend) (w : World) (self : Nat)
    (o : GMPyContextObject) (v : Int) (h : w.obj self = some o) (hro : o.ctx.readonly = 0) :
    ((GMPyContext_setattr B Attr.real_round self (PyVal.int v) w).1 = Except.ok () ↔
      is_mpc_rounding v) ∧
    ((GMPyContext_setattr B Attr.imag_round self (PyVal.int v) w).1 = Except.ok () ↔
      is_mpc_rounding v) ∧
    (is_mpc_rounding v →
      GMPyContext_setattr B Attr.real_round self (PyVal.int v) w =
        (Except.ok (), w.store self { o with ctx := { o.ctx with real_round := v } }) ∧
      GMPyContext_setattr B Attr.imag_round self (PyVal.int v) w =
        (Except.ok (), w.store self { o with ctx := { o.ctx with imag_round := v } })) ∧
    (¬ is_mpc_rounding v →
      GMPyContext_setattr B Attr.real_round self (PyVal.int v) w =
        (Except.error (PyErr.ValueError "invalid value for round mode"), w) ∧
      GMPyContext_setattr B Attr.imag_round self (PyVal.int v) w =
        (Except.error (PyErr.ValueError "invalid value for round mode"), w)) ∧
    ¬ is_mpc_rounding MPFR_RNDA := by
  have hok : is_mpc_rounding v →
      GMPyContext_setattr B Attr.real_round self (PyVal.int v) w =
        (Except.ok (), w.store self { o with ctx := { o.ctx with real_round := v } }) ∧
      GMPyContext_setattr B Attr.imag_round self (PyVal.int v) w =
        (Except.ok (), w.store self { o with ctx := { o.ctx with imag_round := v } }) := by
    intro hv
    constructor
    · simp only [GMPyContext_setattr, h, setter, set_real_round_ok o.ctx v hro hv]
    · simp only [GMPyContext_setattr, h, setter, set_imag_round_ok o.ctx v hro hv]
  have hbad : ¬ is_mpc_rounding v →
      GMPyContext_setattr B Attr.real_round self (PyVal.int v) w =
        (Except.error (PyErr.ValueError "invalid value for round mode"), w) ∧
      GMPyContext_setattr B Attr.imag_round self (PyVal.int v) w =
        (Except.error (PyErr.ValueError "invalid value for round mode"), w) := by
    intro hv
    constructor
    · simp only [GMPyContext_setattr, h, setter, set_real_round_bad o.ctx v hro hv]
      simp [store_self w self o h]
    · simp only [GMPyContext_setattr, h, setter, set_imag_round_bad o.ctx v hro hv]
      simp [store_self w self o h]
  refine ⟨⟨?_, ?_⟩, ⟨?_, ?_⟩, hok, hbad, ?_⟩
  · intro hs
    by_contra hv
    rw [(hbad hv).1] at hs
    simp at hs
  · intro hv
    rw [(hok hv).1]
  · intro hs
    by_contra hv
    rw [(hbad hv).2] at hs
    simp at hs
  · intro hv
    rw [(hok hv).2]
  · simp [is_mpc_rounding, MPFR_RNDA, MPFR_RNDN, MPFR_RNDZ, MPFR_RNDU, MPFR_RNDD, GMPY_DEFAULT]

theorem set_round_ok (c : gmpy_context) (v : Int) (hro : c.readonly = 0)
    (hv : is_mpfr_rounding v) :
    GMPyContext_set_round c (PyVal.int v)
      = (none, if v = MPFR_RNDA then
          { c with mpfr_round := MPFR_RNDA, real_round := MPFR_RNDN, imag_round := MPFR_RNDN }
        else { c with mpfr_round := v }) := by
  have hfit : LONG_MIN ≤ v ∧ v ≤ LONG_MAX := by
    simp only [is_mpfr_rounding, MPFR_RNDN, MPFR_RNDZ, MPFR_RNDU, MPFR_RNDD, MPFR_RNDA] at hv
    simp only [LONG_MIN, LONG_MAX]
    omega
  unfold is_mpfr_rounding at hv
  rcases hv with h | h | h | h | h <;> subst h <;>
    simp [GMPyContext_set_round, hro, PyIntOrLong_Check, PyIntOrLong_AsLong, MPFR_RNDN,
      MPFR_RNDZ, MPFR_RNDU, MPFR_RNDD, MPFR_RNDA, LONG_MIN, LONG_MAX]

theorem set_round_bad (c : gmpy_context) (v : Int) (hro : c.readonly = 0)
    (hv : ¬ is_mpfr_rounding v) :
    GMPyContext_set_round c (PyVal.int v)
      = (some (PyErr.ValueError "invalid value for round mode"), c) := by
  simp only [is_mpfr_rounding, not_or] at hv
  obtain ⟨h0, h1, h2, h3, h4⟩ := hv
  by_cases hfit : LONG_MIN ≤ v ∧ v ≤ LONG_MAX
  · simp [GMPyContext_set_round, hro, PyIntOrLong_Check, as_long_fits v hfit, h0, h1, h2, h3, h4]
  · simp [GMPyContext_set_round, hro, PyIntOrLong_Check, as_long_overflow v hfit]

/-- C37: on a writable context and for every integer `v`, assigning `round = v` succeeds
exactly when `v` is one of the five MPFR rounding modes; on success `mpfr_round` becomes
`v`, `real_round` and `imag_round` become `MPFR_RNDN` when `v` is `MPFR_RNDA` and keep their
values otherwise, and nothing else in the world changes; on failure the `ValueError`
is raised and the world is unchanged. -/
theorem set_round_iff_in_enum (B : Backend) (w : World) (self : Nat)
    (o : GMPyContextObject) (v : Int) (h : w.obj self = some o) (hro : o.ctx.readonly = 0) :
    ((GMPyContext_setattr B Attr.round self (PyVal.int v) w).1 = Except.ok () ↔
      is_mpfr_rounding v) ∧
    (is_mpfr_rounding v → v ≠ MPFR_RNDA →
      GMPyContext_setattr B Attr.round self (PyVal.int v) w =
        (Except.ok (), w.store self { o with ctx := { o.ctx with mpfr_round := v } })) ∧
    (v = MPFR_RNDA →
      GMPyContext_setattr B Attr.round self (PyVal.int v) w =
        (Except.ok (), w.store self { o with ctx :=
          { o.ctx with mpfr_round := MPFR_RNDA, real_round := MPFR_RNDN,
                       imag_round := MPFR_RNDN } })) ∧
    (¬ is_mpfr_rounding v →
      GMPyContext_setattr B Attr.round self (PyVal.int v) w =
        (Except.error (PyErr.ValueError "invalid value for round mode"), w)) := by
  have hok : is_mpfr_rounding v →
      GMPyContext_setattr B Attr.round self (PyVal.int v) w =
        (Except.ok (), w.store self { o with ctx :=
          if v = MPFR_RNDA then
            { o.ctx with mpfr_round := MPFR_RNDA, real_round := MPFR_RNDN,
                         imag_round := MPFR_RNDN }
          else { o.ctx with mpfr_round := v } }) := by
    intro hv
    simp only [GMPyContext_setattr, h, setter, set_round_ok o.ctx v hro hv]
  have hbad : ¬ is_mpfr_rounding v →
      GMPyContext_setattr B Attr.round self (PyVal.int v) w =
        (Except.error (PyErr.ValueError "invalid value for round mode"), w) := by
    intro hv
    simp only [GMPyContext_setattr, h, setter, set_round_bad o.ctx v hro hv]
    simp [store_self w self o h]
  refine ⟨⟨?_, ?_⟩, ?_, ?_, hbad⟩
  · intro hs
    by_contra hv
    rw [hbad hv] at hs
    simp at hs
  · intro hv
    rw [hok hv]
  · intro hv hne
    rw [hok hv, if_neg hne]
  · intro hv
    rw [hok (Or.inr (Or.inr (Or.inr (Or.inr hv)))), if_pos hv]

theorem set_emin_ok (B : Backend) (hB : B.c_typed) (c : gmpy_context) (v : Int) (w : World)
    (hro : c.readonly = 0) (hv : B.emin_ok v = true) :
    GMPyContext_set_emin B c (PyVal.int v) w
      = (none, { c with emin := v }, { w with emin := v }) := by
  have hfit := hB.2.2.1 v hv
  simp [GMPyContext_set_emin, hro, PyIntOrLong_Check, as_long_fits v hfit, mpfr_set_emin, hv]

theorem set_emin_bad (B : Backend) (c : gmpy_context) (v : Int) (w : World)
    (hro : c.readonly = 0) (hv : B.emin_ok v = false) :
    GMPyContext_set_emin B c (PyVal.int v) w
      = (some (PyErr.ValueError "requested minimum exponent is invalid"), c, w) := by
  by_cases hfit : LONG_MIN ≤ v ∧ v ≤ LONG_MAX
  · by_cases hm : v = -1
    · subst hm
      simp [GMPyContext_set_emin, hro, PyIntOrLong_Check, as_long_fits (-1) hfit, mpfr_set_emin,
        hv]
    · simp [GMPyContext_set_emin, hro, PyIntOrLong_Check, as_long_fits v hfit, mpfr_set_emin,
        hv, hm]
  · simp [GMPyContext_set_emin, hro, PyIntOrLong_Check, as_long_overflow v hfit]

theorem set_emax_ok (B : Backend) (hB : B.c_typed) (c : gmpy_context) (v : Int) (w : World)
    (hro : c.readonly = 0) (hv : B.emax_ok v = true) :
    GMPyContext_set_emax B c (PyVal.int v) w
      = (none, { c with emax := v }, { w with emax := v }) := by
  have hfit := hB.2.2.2 v hv
  simp [GMPyContext_set_emax, hro, PyIntOrLong_Check, as_long_fits v hfit, mpfr_set_emax, hv]

theorem set_emax_bad (B : Backend) (c : gmpy_context) (v : Int) (w : World)
    (hro : c.readonly = 0) (hv : B.emax_ok v = false) :
    GMPyContext_set_emax B c (PyVal.int v) w
      = (some (PyErr.ValueError "requested maximum exponent is invalid"), c, w) := by
  by_cases hfit : LONG_MIN ≤ v ∧ v ≤ LONG_MAX
  · by_cases hm : v = -1
    · subst hm
      simp [GMPyContext_set_emax, hro, PyIntOrLong_Check, as_long_fits (-1) hfit, mpfr_set_emax,
        hv]
    · simp [GMPyContext_set_emax, hro, PyIntOrLong_Check, as_long_fits v hfit, mpfr_set_emax,
        hv, hm]
  · simp [GMPyContext_set_emax, hro, PyIntOrLong_Check, as_long_overflow v hfit]

/-- C38: on a writable context object, active or not, and for every integer `v`: when
`mpfr_set_emin` accepts `v`, assigning `emin = v` succeeds, sets the field `emin` of that
object and MPFR's `emin` register to `v`, and changes nothing else; when it rejects `v`
the assignment raises a `ValueError` and the object, the register and the rest of the
world are unchanged.  The same holds for `emax` with `mpfr_set_emax`. -/
theorem set_exponent_bound_frame (B : Backend) (hB : B.c_typed) (w : World) (self : Nat)
    (o : GMPyContextObject) (v : Int) (h : w.obj self = some o) (hro : o.ctx.readonly = 0) :
    (B.emin_ok v = true →
      GMPyContext_setattr B Attr.emin self (PyVal.int v) w =
        (Except.ok (),
          World.store { w with emin := v } self { o with ctx := { o.ctx with emin := v } })) ∧
    (B.emin_ok v = false →
      GMPyContext_setattr B Attr.emin self (PyVal.int v) w =
        (Except.error (PyErr.ValueError "requested minimum exponent is invalid"), w)) ∧
    (B.emax_ok v = true →
      GMPyContext_setattr B Attr.emax self (PyVal.int v) w =
        (Except.ok (),
          World.store { w with emax := v } self { o with ctx := { o.ctx with emax := v } })) ∧
    (B.emax_ok v = false →
      GMPyContext_setattr B Attr.emax self (PyVal.int v) w =
        (Except.error (PyErr.ValueError "requested maximum exponent is invalid"), w)) := by
  refine ⟨?_, ?_, ?_, ?_⟩
  · intro hv
    simp only [GMPyContext_setattr, h, setter, set_emin_ok B hB o.ctx v w hro hv]
  · intro hv
    simp only [GMPyContext_setattr, h, setter, set_emin_bad B o.ctx v w hro hv]
    simp [store_self w self o h]
  · intro hv
    simp only [GMPyContext_setattr, h, setter, set_emax_ok B hB o.ctx v w hro hv]
  · intro hv
    simp only [GMPyContext_setattr, h, setter, set_emax_bad B o.ctx v w hro hv]
    simp [store_self w self o h]

/-! ## A successful sanity check -/

theorem sanity_check_mpc_exp_ok_world (B : Backend) (c : gmpy_context) (w : World)
    (h : (sanity_check_mpc_exp B c w).1 = none) :
    (sanity_check_mpc_exp B c w).2.2 = { w with emin := c.emin, emax := c.emax } := by
  unfold sanity_check_mpc_exp at h ⊢
  split at h
  · simp at h
  split at h
  · simp at h
  split at h
  · simp at h
  split at h
  · simp at h
  rename_i a1 a2 a3 a4
  split at h
  · simp at h
  rename_i a5
  simp only [not_not] at a4 a5
  have h4 := (mpfr_set_emin_ret B c.emin w).1 a4
  have h5 := (mpfr_set_emax_ret B c.emax _).1 a5
  rw [if_neg a1, if_neg a2, if_neg a3, if_neg (not_not.mpr a4), if_neg (not_not.mpr a5)]
  simp [mpfr_set_emin, mpfr_set_emax, h4, h5]

theorem sanity_check_ok_world (B : Backend) (c : gmpy_context) (w : World)
    (h : (sanity_check B c w).1 = none) :
    (sanity_check B c w).2.2 = { w with emin := c.emin, emax := c.emax } := by
  unfold sanity_check at h ⊢
  split at h
  · simp at h
  split at h
  · simp at h
  split at h
  · simp at h
  split at h
  · simp at h
  rename_i a1 a2 a3 a4
  rw [if_neg a1, if_neg a2, if_neg a3, if_neg a4]
  rw [sanity_check_mpc_exp_ok_world B _ w h, force_mpc_rounding_emin, force_mpc_rounding_emax]

theorem sanity_check_valid_eq (B : Backend) (c : gmpy_context) (w : World)
    (hv : spec_options_valid B c) :
    sanity_check B c w
      = (none, force_mpc_rounding c, { w with emin := c.emin, emax := c.emax }) := by
  have h1 := (sanity_check_none_iff B c w).1.2 hv
  have h2 := sanity_check_ok_struct B c w h1
  have h3 := sanity_check_ok_world B c w h1
  rcases hs : sanity_check B c w with ⟨e, c1, w1⟩
  rw [hs] at h1 h2 h3
  simp only at h1 h2 h3
  rw [h1, h2, h3]

theorem fill_spec (B : Backend) (context nc n0 : Nat) (kw : Kwargs) (w1 : World)
    (oc onc : GMPyContextObject)
    (hoc : w1.obj context = some oc) (hn : w1.obj nc = some onc)
    (ht : kw.well_typed = true) (hv : spec_options_valid B (options_over kw onc.ctx)) :
    local_context_fill B context nc n0 kw w1 =
      (Except.ok (GMPyContextManagerObject.mk nc w1.heap.length),
        { heap := (w1.heap ++ [GMPyContextObject.mk (copy_ctx oc.ctx) none]).set nc
            (GMPyContextObject.mk (force_mpc_rounding (options_over kw onc.ctx)) onc.tstate)
          tls := w1.tls
          cached_context := w1.cached_context
          emin := (options_over kw onc.ctx).emin
          emax := (options_over kw onc.ctx).emax }) := by
  unfold local_context_fill
  have hlt := obj_lt_length w1 nc onc hn
  have h2 : World.obj { w1 with heap := w1.heap ++
      [{ ctx := copy_ctx oc.ctx, tstate := none }] } nc = some onc := by
    simpa [World.obj, List.getElem?_append_left hlt] using hn
  rw [context_copy_eq B context w1 oc hoc]
  simp only [h2, parse_well_typed kw onc.ctx ht, if_true, sanity_check_valid_eq B _ _ hv]
  simp [World.store, List.set_set]

/-! ## `round = MPFR_RNDA` overrides the MPC rounding modes -/

theorem options_over_round_away (kw : Kwargs) (d : gmpy_context)
    (hr : kw.round = some (PyVal.int MPFR_RNDA)) :
    (options_over kw d).mpfr_round = MPFR_RNDA := by
  simp [options_over, hr, option_value, convert_i, MPFR_RNDA, INT_MIN, INT_MAX]

theorem valid_of_round_away (B : Backend) (c : gmpy_context) (hr : c.mpfr_round = MPFR_RNDA)
    (hv : precisions_and_bounds_valid B c) : spec_options_valid B c := by
  obtain ⟨h1, h2, h3, h4, h5⟩ := hv
  refine ⟨h1, h2, h3, Or.inr (Or.inr (Or.inr (Or.inr hr))), ?_, ?_, h4, h5⟩
  · rw [if_pos hr]
    exact Or.inl rfl
  · rw [if_pos hr]
    exact Or.inl rfl

theorem force_round_away (c : gmpy_context) (hr : c.mpfr_round = MPFR_RNDA) :
    (force_mpc_rounding c).mpfr_round = MPFR_RNDA ∧
    (force_mpc_rounding c).real_round = MPFR_RNDN ∧
    (force_mpc_rounding c).imag_round = MPFR_RNDN := by
  simp [force_mpc_rounding, hr]

/-- C34 (amended): when `round = MPFR_RNDA` is supplied, every supplied value converts
under its format unit, and the precisions and exponent bounds of the resulting option
set are valid, the constructor and `local_context` (without a base, with a writable base,
with a readonly base) succeed and the resulting context has `mpfr_round = MPFR_RNDA` and
`real_round = imag_round = MPFR_RNDN`, whatever was supplied for `real_round` and
`imag_round`. -/
theorem away_forces_mpc_rounding (B : Backend) (t : Nat) (kw : Kwargs) (w : World)
    (ht : kw.well_typed = true) (hr : kw.round = some (PyVal.int MPFR_RNDA)) :
    (precisions_and_bounds_valid B (options_over kw (new_ctx B)) →
      ∃ c, (GMPyContext_context B kw w).1 = Except.ok w.heap.length ∧
        (GMPyContext_context B kw w).2.ctx w.heap.length = some c ∧
        c.mpfr_round = MPFR_RNDA ∧ c.real_round = MPFR_RNDN ∧ c.imag_round = MPFR_RNDN) ∧
    (∀ o0 : GMPyContextObject,
      (GMPyContext_current B t w).2.obj (GMPyContext_current B t w).1 = some o0 →
      (precisions_and_bounds_valid B (options_over kw o0.ctx) →
        ∃ m w1 c, GMPyContext_local_context B t none kw w = (Except.ok m, w1) ∧
          w1.ctx m.new_context = some c ∧
          c.mpfr_round = MPFR_RNDA ∧ c.real_round = MPFR_RNDN ∧ c.imag_round = MPFR_RNDN) ∧
      (∀ (b : Nat) (bc : gmpy_context),
        (GMPyContext_current B t w).2.ctx b = some bc →
        precisions_and_bounds_valid B (options_over kw (copy_ctx bc)) →
        ∃ m w1 c, GMPyContext_local_context B t (some b) kw w = (Except.ok m, w1) ∧
          w1.ctx m.new_context = some c ∧
          c.mpfr_round = MPFR_RNDA ∧ c.real_round = MPFR_RNDN ∧ c.imag_round = MPFR_RNDN)) := by
  constructor
  · intro hv
    have hra := options_over_round_away kw (new_ctx B) hr
    have hvalid := valid_of_round_away B _ hra hv
    rw [context_typed_eq B kw w ht, sanity_check_valid_eq B _ _ hvalid]
    refine ⟨clear_flags_ctx (force_mpc_rounding (options_over kw (new_ctx B))), rfl, ?_,
      (force_round_away _ hra).1, (force_round_away _ hra).2.1, (force_round_away _ hra).2.2⟩
    simp [World.ctx, World.obj, World.store, GMPyContext_new, World.alloc]
  · intro o0 hcur
    unfold GMPyContext_local_context
    simp only
    generalize GMPyContext_current B t w = cur at hcur ⊢
    obtain ⟨context, w0⟩ := cur
    simp only at hcur ⊢
    have hlt := obj_lt_length w0 context o0 hcur
    constructor
    · intro hv
      have hra := options_over_round_away kw o0.ctx hr
      have hvalid := valid_of_round_away B _ hra hv
      refine ⟨_, _, force_mpc_rounding (options_over kw o0.ctx),
        fill_spec B context context _ kw w0 o0 o0 hcur hcur ht hvalid, ?_,
        (force_round_away _ hra).1, (force_round_away _ hra).2.1, (force_round_away _ hra).2.2⟩
      simp only [World.ctx, World.obj]
      rw [List.getElem?_set_self (by simp; omega)]
      rfl
    · intro b bc hbc hv
      have hra := options_over_round_away kw (copy_ctx bc) hr
      have hvalid := valid_of_round_away B _ hra hv
      obtain ⟨ob, hob, hobc⟩ : ∃ ob, w0.obj b = some ob ∧ ob.ctx = bc := by
        simp only [World.ctx, Option.map_eq_some'] at hbc
        exact hbc
      have hltb := obj_lt_length w0 b ob hob
      simp only [hbc]
      by_cases hro : bc.readonly = 0
      · have hcopy : copy_ctx bc = ob.ctx := by rw [hobc]; exact copy_ctx_writable bc hro
        rw [hcopy] at hvalid hra
        simp only [hro, ne_eq, not_true_eq_false, if_false]
        refine ⟨_, _, force_mpc_rounding (options_over kw ob.ctx),
          fill_spec B context b _ kw w0 o0 ob hcur hob ht hvalid, ?_,
          (force_round_away _ hra).1, (force_round_away _ hra).2.1, (force_round_away _ hra).2.2⟩
        simp only [World.ctx, World.obj]
        rw [List.getElem?_set_self (by simp; omega)]
        rfl
      · simp only [ne_eq, hro, not_false_eq_true, if_true]
        rw [context_copy_eq B b w0 ob hob]
        simp only
        have hcur1 : World.obj { w0 with heap := w0.heap ++
            [{ ctx := copy_ctx ob.ctx, tstate := none }] } context = some o0 := by
          simpa [World.obj, List.getElem?_append_left hlt] using hcur
        have hnew : World.obj { w0 with heap := w0.heap ++
            [{ ctx := copy_ctx ob.ctx, tstate := none }] } w0.heap.length
            = some { ctx := copy_ctx bc, tstate := none } := by
          simp [World.obj, hobc]
        refine ⟨_, _, force_mpc_rounding (options_over kw (copy_ctx bc)),
          fill_spec B context w0.heap.length _ kw _ o0 _ hcur1 hnew ht hvalid, ?_,
          (force_round_away _ hra).1, (force_round_away _ hra).2.1, (force_round_away _ hra).2.2⟩
        simp only [World.ctx, World.obj]
        rw [List.getElem?_set_self (by simp)]
        rfl

/-- C34 (counterexample): on MPFR 3.1, `context(round=MPFR_RNDA, real_round=2**40)` raises
a `ValueError`, although `round` is `MPFR_RNDA` and no other option is supplied; the
default precisions and exponent bounds are valid. -/
theorem away_with_huge_real_round_fails :
    GMPyContext_context mpfr3 kw_away_with_huge_real_round (World.init mpfr3)
      = (Except.error (PyErr.ValueError "invalid keyword arguments in context()"),
          World.init mpfr3) ∧
    kw_away_with_huge_real_round.round = some (PyVal.int MPFR_RNDA) ∧
    (GMPyContext_context mpfr3 kw_none (World.init mpfr3)).1 = Except.ok 0 := by
  refine ⟨by rfl, by decide, by rfl⟩

/-! ## A context entered directly -/

/-- C36: for the context object at `self`, readonly or not, `self.__enter__()` called by
thread `t` returns a fresh address, different from `self`, whose struct is the struct of
`self` with `readonly = 0`; `current()` on `t` is then that address; and the struct of
`self` is what it was. -/
theorem context_enter_installs_fresh_copy (B : Backend) (t self : Nat) (w : World)
    (o : GMPyContextObject) (h : w.obj self = some o) :
    (GMPyContext_enter B t self w).1 = Except.ok w.heap.length ∧
    w.obj w.heap.length = none ∧
    w.heap.length ≠ self ∧
    (GMPyContext_enter B t self w).2.ctx w.heap.length = some { o.ctx with readonly := 0 } ∧
    (GMPyContext_current B t (GMPyContext_enter B t self w).2).1 = w.heap.length ∧
    (GMPyContext_enter B t self w).2.ctx self = some o.ctx := by
  have hlt := obj_lt_length w self o h
  have hnew : World.obj { w with heap := w.heap ++ [GMPyContextObject.mk (copy_ctx o.ctx) none] }
      w.heap.length = some (GMPyContextObject.mk (copy_ctx o.ctx) none) := by
    simp [World.obj]
  have hi : installed { w with heap := w.heap ++ [GMPyContextObject.mk (copy_ctx o.ctx) none] }
      w.heap.length (GMPyContextObject.mk (copy_ctx o.ctx) none) = w.heap.length := by
    simp [installed]
  obtain ⟨h1, h2, h3, _⟩ := set_push_spec B t w.heap.length _ _ (copy_ctx o.ctx) hnew
  rw [hi] at h1 h2 h3
  rw [context_enter_eq B t self w o h]
  refine ⟨rfl, obj_length_none w, by omega, ?_, ?_, ?_⟩
  · simp only [World.ctx, h2]
    rfl
  · rw [h1]
  · have := h3 self (by omega)
    simp only [World.ctx, this]
    simp [World.obj, List.getElem?_append_left hlt]
    exact ⟨o, h, rfl⟩

/-! ## What a scope leaves in the contexts it touches -/

theorem set_append_objs (w1 w2 : World) (nc : Nat) (a b : GMPyContextObject)
    (hlt : nc < w1.heap.length) (hh : w2.heap = (w1.heap ++ [a]).set nc b) :
    w2.obj nc = some b ∧ w2.obj w1.heap.length = some a ∧
    (∀ r, r ≠ nc → r ≠ w1.heap.length → w2.obj r = w1.obj r) := by
  refine ⟨?_, ?_, ?_⟩
  · simp only [World.obj, hh]
    rw [List.getElem?_set_self (by simp; omega)]
  · simp only [World.obj, hh]
    rw [List.getElem?_set_ne (by omega)]
    simp
  · intro r hr1 hr2
    simp only [World.obj, hh]
    rw [List.getElem?_set_ne (Ne.symm hr1)]
    rcases Nat.lt_or_gt_of_ne hr2 with hlt1 | hgt
    · rw [List.getElem?_append_left hlt1]
    · rw [List.getElem?_eq_none (by simp; omega), List.getElem?_eq_none (by omega)]

theorem cache_context_obj_none (t r : Nat) (w : World) (h : w.obj r = none) :
    cache_context t r w = w := by
  simp [cache_context, h]

theorem cache_context_caches (t r : Nat) (w : World) (o : GMPyContextObject)
    (h : w.obj r = some o) :
    (cache_context t r w).cached_context = some r ∧
    (cache_context t r w).obj r = some { o with tstate := some t } := by
  have hlt := obj_lt_length w r o h
  unfold cache_context
  rw [h]
  exact ⟨rfl, obj_store_same w r _ hlt⟩

theorem from_dict_caches (B : Backend) (t : Nat) (w : World) (o0 : GMPyContextObject)
    (h : (current_context_from_dict B t w).2.obj (current_context_from_dict B t w).1 = some o0) :
    (current_context_from_dict B t w).2.cached_context
      = some (current_context_from_dict B t w).1 ∧ o0.tstate = some t := by
  cases hb : w.binding t with
  | some r =>
    rw [from_dict_bound B t r w hb] at h ⊢
    simp only at h ⊢
    cases ho : w.obj r with
    | none =>
      rw [cache_context_obj_none t r w ho, ho] at h
      exact Option.noConfusion h
    | some o =>
      obtain ⟨h1, h2⟩ := cache_context_caches t r w o ho
      rw [h2] at h
      cases h
      exact ⟨h1, rfl⟩
  | none =>
    rw [from_dict_unbound B t w hb] at h ⊢
    simp only [World.obj, List.getElem?_concat_length, Option.some.injEq] at h
    subst h
    exact ⟨rfl, rfl⟩

theorem current_caches (B : Backend) (t : Nat) (w : World) (o0 : GMPyContextObject)
    (h : (GMPyContext_current B t w).2.obj (GMPyContext_current B t w).1 = some o0) :
    (GMPyContext_current B t w).2.cached_context = some (GMPyContext_current B t w).1 ∧
    o0.tstate = some t := by
  unfold GMPyContext_current at h ⊢
  split
  · rename_i hc
    simp only [hc] at h
    exact from_dict_caches B t w o0 h
  · rename_i rc hrc
    simp only [hrc] at h
    cases ho : w.obj rc with
    | none =>
      simp only [ho] at h ⊢
      exact from_dict_caches B t w o0 h
    | some o =>
      simp only [ho] at h ⊢
      by_cases hts : o.tstate = some t
      · simp only [hts, if_true] at h ⊢
        rw [ho] at h
        cases h
        exact ⟨hrc, hts⟩
      · simp only [hts, if_false] at h ⊢
        exact from_dict_caches B t w o0 h

theorem options_over_readonly (kw : Kwargs) (d : gmpy_context) :
    (options_over kw d).readonly = d.readonly := rfl

theorem force_options_writable (kw : Kwargs) (d : gmpy_context) (h : d.readonly = 0) :
    (force_mpc_rounding (options_over kw d)).readonly = 0 := by
  rw [force_mpc_rounding_readonly, options_over_readonly, h]

/-- C39: thread `t` has the writable active context `c0` and calls `local_context` with
no base and a valid, well-typed override set.  The call succeeds; before `__enter__`,
`current()` is still `c0`, whose struct already carries the overrides; after `__enter__`
(which returns `c0`), `current()` is `c0`; after `__exit__`, `current()` is `old_context`,
an object different from `c0` holding the struct `c0` had before the call, while `c0`
still carries the overrides. -/
theorem scope_without_base_edits_active (B : Backend) (t : Nat) (kw : Kwargs) (w : World)
    (o0 : GMPyContextObject)
    (hcur : (GMPyContext_current B t w).2.obj (GMPyContext_current B t w).1 = some o0)
    (hro : o0.ctx.readonly = 0) (ht : kw.well_typed = true)
    (hv : spec_options_valid B (options_over kw o0.ctx)) :
    ∃ (m : GMPyContextManagerObject) (w1 : World),
      GMPyContext_local_context B t none kw w = (Except.ok m, w1) ∧
      m.new_context = (GMPyContext_current B t w).1 ∧
      m.old_context ≠ (GMPyContext_current B t w).1 ∧
      (GMPyContext_current B t w).2.obj m.old_context = none ∧
      (GMPyContext_current B t w1).1 = (GMPyContext_current B t w).1 ∧
      w1.ctx (GMPyContext_current B t w).1
        = some (force_mpc_rounding (options_over kw o0.ctx)) ∧
      (GMPyContextManager_enter B t m w1).1 = Except.ok (GMPyContext_current B t w).1 ∧
      (GMPyContext_current B t (GMPyContextManager_enter B t m w1).2).1
        = (GMPyContext_current B t w).1 ∧
      (GMPyContextManager_exit B t m (GMPyContextManager_enter B t m w1).2).1 = Except.ok () ∧
      (GMPyContext_current B t
        (GMPyContextManager_exit B t m (GMPyContextManager_enter B t m w1).2).2).1
        = m.old_context ∧
      (GMPyContextManager_exit B t m (GMPyContextManager_enter B t m w1).2).2.ctx m.old_context
        = some o0.ctx ∧
      (GMPyContextManager_exit B t m (GMPyContextManager_enter B t m w1).2).2.ctx
        (GMPyContext_current B t w).1
        = some (force_mpc_rounding (options_over kw o0.ctx)) := by
  obtain ⟨hca, hts⟩ := current_caches B t w o0 hcur
  have hbegin : GMPyContext_local_context B t none kw w
      = local_context_fill B (GMPyContext_current B t w).1 (GMPyContext_current B t w).1
          (GMPyContext_current B t w).2.heap.length kw (GMPyContext_current B t w).2 := rfl
  generalize GMPyContext_current B t w = cur at hcur hca hbegin ⊢
  obtain ⟨context, w0⟩ := cur
  simp only at hcur hca hbegin ⊢
  have hlt := obj_lt_length w0 context o0 hcur
  have hf := fill_spec B context context w0.heap.length kw w0 o0 o0 hcur hcur ht hv
  have hF := force_options_writable kw o0.ctx hro
  generalize force_mpc_rounding (options_over kw o0.ctx) = F at hf hF ⊢
  rcases hfill : local_context_fill B context context w0.heap.length kw w0 with ⟨res, W1⟩
  rw [hfill] at hf hbegin
  simp only [Prod.mk.injEq] at hf
  obtain ⟨hres, hW⟩ := hf
  subst hres
  refine ⟨_, _, hbegin, rfl, by simp only; omega, obj_length_none w0, ?_⟩
  have hh : W1.heap = (w0.heap ++ [GMPyContextObject.mk (copy_ctx o0.ctx) none]).set context
      (GMPyContextObject.mk F o0.tstate) := by rw [hW]
  have hc1 : W1.cached_context = some context := by rw [hW]; exact hca
  clear hW hfill hbegin
  obtain ⟨a1, a2, _⟩ := set_append_objs w0 W1 context _ _ hlt hh
  have hcurW1 := current_of_cached B t context W1 _ hc1 a1 hts
  obtain ⟨e1, e2, e3, e4, _⟩ := manager_enter_spec B t
    (GMPyContextManagerObject.mk context w0.heap.length) W1 _ a1
  have hi1 : installed W1 context (GMPyContextObject.mk F o0.tstate) = context := by
    simp [installed, hF]
  simp only [hi1] at e2 e3 e4
  have hold2 : (GMPyContextManager_enter B t (GMPyContextManagerObject.mk context w0.heap.length)
      W1).2.obj w0.heap.length = some (GMPyContextObject.mk (copy_ctx o0.ctx) none) := by
    rw [e4 w0.heap.length (by omega)]
    exact a2
  obtain ⟨x1, x2, x3, x4, _⟩ := manager_exit_spec B t
    (GMPyContextManagerObject.mk context w0.heap.length) _ _ hold2
  have hi2 : installed (GMPyContextManager_enter B t
      (GMPyContextManagerObject.mk context w0.heap.length) W1).2 w0.heap.length
      (GMPyContextObject.mk (copy_ctx o0.ctx) none) = w0.heap.length := by
    simp [installed]
  simp only [hi2] at x2 x3 x4
  refine ⟨by rw [hcurW1], by simp [World.ctx, a1], e1, by rw [e2], x1, by rw [x2], ?_, ?_⟩
  · simp only [World.ctx, x3]
    simp [copy_ctx_writable o0.ctx hro, copy_ctx_idem]
  · have := x4 context (by omega)
    simp only [World.ctx, this, e3]
    simp [copy_ctx_writable F hF]

theorem begin_with_base_valid (B : Backend) (t b : Nat) (kw : Kwargs) (w : World)
    (o0 : GMPyContextObject) (bc : gmpy_context)
    (hcur : (GMPyContext_current B t w).2.obj (GMPyContext_current B t w).1 = some o0)
    (hbc : (GMPyContext_current B t w).2.ctx b = some bc)
    (ht : kw.well_typed = true)
    (hv : spec_options_valid B (options_over kw (copy_ctx bc))) :
    ∃ (m : GMPyContextManagerObject) (w1 : World),
      GMPyContext_local_context B t (some b) kw w = (Except.ok m, w1) ∧
      (bc.readonly ≠ 0 →
        m.new_context ≠ b ∧ w1.ctx b = some bc ∧
        w1.ctx m.new_context = some (force_mpc_rounding (options_over kw (copy_ctx bc)))) ∧
      (bc.readonly = 0 →
        m.new_context = b ∧
        w1.ctx b = some (force_mpc_rounding (options_over kw bc)) ∧
        (GMPyContextManager_enter B t m w1).1 = Except.ok b ∧
        (GMPyContextManager_enter B t m w1).2.ctx b
          = some (force_mpc_rounding (options_over kw bc)) ∧
        (GMPyContextManager_exit B t m (GMPyContextManager_enter B t m w1).2).1
          = Except.ok () ∧
        (GMPyContextManager_exit B t m (GMPyContextManager_enter B t m w1).2).2.ctx b
          = some (force_mpc_rounding (options_over kw bc))) := by
  unfold GMPyContext_local_context
  simp only
  generalize GMPyContext_current B t w = cur at hcur hbc ⊢
  obtain ⟨context, w0⟩ := cur
  simp only at hcur hbc ⊢
  have hlt := obj_lt_length w0 context o0 hcur
  obtain ⟨ob, hob, hobc⟩ : ∃ ob, w0.obj b = some ob ∧ ob.ctx = bc := by
    simp only [World.ctx, Option.map_eq_some'] at hbc
    exact hbc
  have hltb := obj_lt_length w0 b ob hob
  simp only [hbc]
  by_cases hro : bc.readonly = 0
  · have hcopy : copy_ctx bc = ob.ctx := by rw [hobc]; exact copy_ctx_writable bc hro
    rw [hcopy] at hv
    simp only [hro, ne_eq, not_true_eq_false, if_false]
    have hf := fill_spec B context b w0.heap.length kw w0 o0 ob hcur hob ht hv
    have hF := force_options_writable kw ob.ctx (by rw [hobc]; exact hro)
    rw [← hobc]
    generalize force_mpc_rounding (options_over kw ob.ctx) = F at hf hF ⊢
    rcases hfill : local_context_fill B context b w0.heap.length kw w0 with ⟨res, W1⟩
    rw [hfill] at hf
    simp only [Prod.mk.injEq] at hf
    obtain ⟨hres, hW⟩ := hf
    subst hres
    have hh : W1.heap = (w0.heap ++ [GMPyContextObject.mk (copy_ctx o0.ctx) none]).set b
        (GMPyContextObject.mk F ob.tstate) := by rw [hW]
    clear hW hfill
    obtain ⟨a1, a2, _⟩ := set_append_objs w0 W1 b _ _ hltb hh
    obtain ⟨e1, _, e3, e4, _⟩ := manager_enter_spec B t
      (GMPyContextManagerObject.mk b w0.heap.length) W1 _ a1
    have hi1 : installed W1 b (GMPyContextObject.mk F ob.tstate) = b := by
      simp [installed, hF]
    simp only [hi1] at e3 e4
    have hold2 : (GMPyContextManager_enter B t (GMPyContextManagerObject.mk b w0.heap.length)
        W1).2.obj w0.heap.length = some (GMPyContextObject.mk (copy_ctx o0.ctx) none) := by
      rw [e4 w0.heap.length (by omega)]
      exact a2
    obtain ⟨x1, _, _, x4, _⟩ := manager_exit_spec B t
      (GMPyContextManagerObject.mk b w0.heap.length) _ _ hold2
    have hi2 : installed (GMPyContextManager_enter B t
        (GMPyContextManagerObject.mk b w0.heap.length) W1).2 w0.heap.length
        (GMPyContextObject.mk (copy_ctx o0.ctx) none) = w0.heap.length := by
      simp [installed]
    simp only [hi2] at x4
    refine ⟨_, _, rfl, fun hne => hne.elim, fun _ => ⟨rfl, by simp [World.ctx, a1], e1,
      ?_, x1, ?_⟩⟩
    · simp only [World.ctx, e3]
      simp [copy_ctx_writable F hF]
    · have := x4 b (by omega)
      simp only [World.ctx, this, e3]
      simp [copy_ctx_writable F hF]
  · simp only [ne_eq, hro, not_false_eq_true, if_true]
    rw [context_copy_eq B b w0 ob hob]
    simp only
    have hcur1 : World.obj { w0 with heap := w0.heap ++
        [{ ctx := copy_ctx ob.ctx, tstate := none }] } context = some o0 := by
      simpa [World.obj, List.getElem?_append_left hlt] using hcur
    have hb1 : World.obj { w0 with heap := w0.heap ++
        [{ ctx := copy_ctx ob.ctx, tstate := none }] } b = some ob := by
      simpa [World.obj, List.getElem?_append_left hltb] using hob
    have hnew : World.obj { w0 with heap := w0.heap ++
        [{ ctx := copy_ctx ob.ctx, tstate := none }] } w0.heap.length
        = some { ctx := copy_ctx bc, tstate := none } := by
      simp [World.obj, hobc]
    have hf := fill_spec B context w0.heap.length w0.heap.length kw _ o0 _ hcur1 hnew ht hv
    generalize force_mpc_rounding (options_over kw (copy_ctx bc)) = F at hf ⊢
    rcases hfill : local_context_fill B context w0.heap.length w0.heap.length kw
      { w0 with heap := w0.heap ++ [{ ctx := copy_ctx ob.ctx, tstate := none }] }
      with ⟨res, W1⟩
    rw [hfill] at hf
    simp only [Prod.mk.injEq] at hf
    obtain ⟨hres, hW⟩ := hf
    subst hres
    have hh : W1.heap = (World.heap { w0 with heap := w0.heap ++
        [{ ctx := copy_ctx ob.ctx, tstate := none }] } ++
        [GMPyContextObject.mk (copy_ctx o0.ctx) none]).set w0.heap.length
        (GMPyContextObject.mk F none) := by rw [hW]
    clear hW hfill
    obtain ⟨a1, _, a3⟩ := set_append_objs _ W1 w0.heap.length _ _ (by simp) hh
    refine ⟨_, _, rfl, fun _ => ⟨by simp only; omega, ?_, by simp [World.ctx, a1]⟩,
      fun h0 => h0.elim⟩
    have := a3 b (by omega) (by simp; omega)
    unfold World.ctx
    rw [this, hb1]
    simp [hobc]

/-! ## A scope over an explicit base -/

theorem fill_valid (B : Backend) (context nc n0 : Nat) (kw : Kwargs) (w1 w2 : World)
    (m : GMPyContextManagerObject) (oc onc : GMPyContextObject)
    (hoc : w1.obj context = some oc) (hn : w1.obj nc = some onc)
    (h : local_context_fill B context nc n0 kw w1 = (Except.ok m, w2)) :
    kw.well_typed = true ∧ spec_options_valid B (options_over kw onc.ctx) := by
  unfold local_context_fill at h
  have hlt := obj_lt_length w1 nc onc hn
  have h2 : World.obj { w1 with heap := w1.heap ++
      [{ ctx := copy_ctx oc.ctx, tstate := none }] } nc = some onc := by
    simpa [World.obj, List.getElem?_append_left hlt] using hn
  rw [context_copy_eq B context w1 oc hoc] at h
  simp only [h2] at h
  split at h
  · rename_i hp
    rw [parse_fst] at hp
    split at h
    · simp at h
    · rename_i c1 w4 hs
      refine ⟨hp, ?_⟩
      rw [parse_well_typed kw onc.ctx hp] at hs
      exact (sanity_check_none_iff B _ _).1.1 (by rw [hs])
  · simp at h

/-- C40: thread `t`, whose active context is a live object, calls `local_context` with
the base `b`, and the call succeeds: then every supplied option converts and the option
set over the base is valid.  When the base is readonly its struct is unchanged and
`new_context` is another object, which holds the copy of the base with the overrides
applied.  When the base is writable `new_context` is the base, whose struct now carries
the overrides, and still carries them after `__enter__` and after `__exit__` of the
handle. -/
theorem scope_with_base_edits_base_or_copy (B : Backend) (t b : Nat) (kw : Kwargs)
    (w w1 : World) (m : GMPyContextManagerObject) (o0 : GMPyContextObject) (bc : gmpy_context)
    (hcur : (GMPyContext_current B t w).2.obj (GMPyContext_current B t w).1 = some o0)
    (hbc : (GMPyContext_current B t w).2.ctx b = some bc)
    (hb : GMPyContext_local_context B t (some b) kw w = (Except.ok m, w1)) :
    kw.well_typed = true ∧
    spec_options_valid B (options_over kw (copy_ctx bc)) ∧
    (bc.readonly ≠ 0 →
      m.new_context ≠ b ∧ w1.ctx b = some bc ∧
      w1.ctx m.new_context = some (force_mpc_rounding (options_over kw (copy_ctx bc)))) ∧
    (bc.readonly = 0 →
      m.new_context = b ∧
      w1.ctx b = some (force_mpc_rounding (options_over kw bc)) ∧
      (GMPyContextManager_enter B t m w1).1 = Except.ok b ∧
      (GMPyContextManager_enter B t m w1).2.ctx b
        = some (force_mpc_rounding (options_over kw bc)) ∧
      (GMPyContextManager_exit B t m (GMPyContextManager_enter B t m w1).2).1
        = Except.ok () ∧
      (GMPyContextManager_exit B t m (GMPyContextManager_enter B t m w1).2).2.ctx b
        = some (force_mpc_rounding (options_over kw bc))) := by
  have hv : kw.well_typed = true ∧ spec_options_valid B (options_over kw (copy_ctx bc)) := by
    have hb1 := hb
    unfold GMPyContext_local_context at hb1
    simp only at hb1
    generalize GMPyContext_current B t w = cur at hcur hbc hb1
    obtain ⟨context, w0⟩ := cur
    simp only at hcur hbc hb1
    obtain ⟨ob, hob, hobc⟩ : ∃ ob, w0.obj b = some ob ∧ ob.ctx = bc := by
      simp only [World.ctx, Option.map_eq_some'] at hbc
      exact hbc
    have hlt := obj_lt_length w0 context o0 hcur
    simp only [hbc] at hb1
    by_cases hro : bc.readonly = 0
    · simp only [hro, ne_eq, not_true_eq_false, if_false] at hb1
      have := fill_valid B context b _ kw w0 w1 m o0 ob hcur hob hb1
      rw [hobc, ← copy_ctx_writable bc hro] at this
      exact this
    · simp only [ne_eq, hro, not_false_eq_true, if_true] at hb1
      rw [context_copy_eq B b w0 ob hob] at hb1
      simp only at hb1
      have hcur1 : World.obj { w0 with heap := w0.heap ++
          [{ ctx := copy_ctx ob.ctx, tstate := none }] } context = some o0 := by
        simpa [World.obj, List.getElem?_append_left hlt] using hcur
      have hnew : World.obj { w0 with heap := w0.heap ++
          [{ ctx := copy_ctx ob.ctx, tstate := none }] } w0.heap.length
          = some { ctx := copy_ctx bc, tstate := none } := by
        simp [World.obj, hobc]
      exact fill_valid B context w0.heap.length _ kw _ w1 m o0 _ hcur1 hnew hb1
  obtain ⟨m1, w2, h1, h2, h3⟩ := begin_with_base_valid B t b kw w o0 bc hcur hbc hv.1 hv.2
  rw [hb] at h1
  simp only [Prod.mk.injEq, Except.ok.injEq] at h1
  obtain ⟨hm, hw⟩ := h1
  subst hm hw
  exact ⟨hv.1, hv.2, h2, h3⟩

/-! ## The complex path of the ternary template -/

/-- C35 fails in the code: in the functions that `GMPY_MPFR_MPC_TRIOP(NAME, FUNC)`
generates, whatever `FUNC` is, three operands that are Complex and not all Real reach
the primitive `mpc_fma`; with `FUNC = fms` the real path calls `mpfr_fms` and the complex
path calls `mpc_fma`, not `mpc_fms`. -/
theorem triop_complex_path_calls_mpc_fma :
    (∀ FUNC : String,
      (GMPY_MPFR_MPC_TRIOP.GMPy_Number_NAME mpfr3 toy FUNC 0 (Operand.gaussian 1 1)
        (Operand.int 1) (Operand.int 1) none machine_thread0).2.calls
        = [Call.GMPy_MPC_New, Call.GMPy_MPC_From_Complex, Call.GMPy_MPC_From_Complex,
            Call.GMPy_MPC_From_Complex, Call.mpc "fma" mpfr_flags.clear,
            Call.GMPY_MPC_CLEANUP mpfr_flags.clear]) ∧
    (GMPY_MPFR_MPC_TRIOP.GMPy_Number_NAME mpfr3 toy "fms" 0 (Operand.int 1)
        (Operand.int 1) (Operand.int 1) none machine_thread0).2.calls
      = [Call.GMPy_MPFR_New, Call.GMPy_MPFR_From_Real, Call.GMPy_MPFR_From_Real,
          Call.GMPy_MPFR_From_Real, Call.mpfr_clear_flags, Call.mpfr "fms" mpfr_flags.clear,
          Call.GMPY_MPFR_CLEANUP mpfr_flags.clear] ∧
    Call.mpc "fms" mpfr_flags.clear ∉
      (GMPY_MPFR_MPC_TRIOP.GMPy_Number_NAME mpfr3 toy "fms" 0 (Operand.gaussian 1 1)
        (Operand.int 1) (Operand.int 1) none machine_thread0).2.calls := by
  refine ⟨fun FUNC => rfl, by decide, by decide⟩

/-! ## The textual rendering -/

theorem format_chars_copy (pre rest : List Char) (args : List (Option PyItem))
    (h : '%' ∉ pre) :
    format_chars (pre ++ rest) args = (format_chars rest args).map (fun out => pre ++ out) := by
  induction pre with
  | nil => simp
  | cons ch pre ih =>
    have hch : ch ≠ '%' := fun e => h (by simp [e])
    have hpre : '%' ∉ pre := fun e => h (by simp [e])
    have : format_chars (ch :: (pre ++ rest)) args
        = (format_chars (pre ++ rest) args).map (fun out => ch :: out) := by
      rw [format_chars]
      · exact hch
      · intro _ _ _ e; exact absurd e hch
    simp [this, ih hpre, Function.comp_def]


theorem format_chars_placeholder (rest : List Char) (v : PyItem) (args : List (Option PyItem)) :
    format_chars ('%' :: 's' :: rest) (some v :: args)
      = (format_chars rest args).map (fun out => (PyObject_Str v).toList ++ out) := by
  rw [format_chars]

theorem labelled_format_data (n s : String) (rest : List (String × String)) :
    (labelled_format ((n, s) :: rest)).data
      = n.data ++ ('=' :: '%' :: 's' :: (s.data ++ (labelled_format rest).data)) := by
  simp [labelled_format, String.data_append]

theorem labelled_text_data (n s : String) (v : PyItem) (rest : List (String × PyItem × String)) :
    (labelled_text ((n, v, s) :: rest)).data
      = n.data ++ ('=' :: ((PyObject_Str v).data ++ (s.data ++ (labelled_text rest).data))) := by
  simp [labelled_text, String.data_append]

/-- Formatting a template of labelled placeholders with as many items as labels gives
the text in which every label is followed by the text of its item. -/
theorem format_labelled (fields : List (String × PyItem × String))
    (h : ∀ f ∈ fields, '%' ∉ f.1.data ∧ '%' ∉ f.2.2.data) :
    format_chars (labelled_format (fields.map (fun f => (f.1, f.2.2)))).data
        (fields.map (fun f => some f.2.1))
      = some (labelled_text fields).data := by
  induction fields with
  | nil => rfl
  | cons f fields ih =>
    obtain ⟨n, v, s⟩ := f
    have hf := h (n, v, s) (by simp)
    have ih1 := ih (fun g hg => h g (by simp [hg]))
    simp only [List.map_cons, labelled_format_data, labelled_text_data]
    rw [format_chars_copy _ _ _ hf.1]
    have : format_chars ('=' :: '%' :: 's' :: (s.data ++ (labelled_format
        (fields.map (fun f => (f.1, f.2.2)))).data)) (some v :: fields.map (fun f => some f.2.1))
        = (format_chars ('%' :: 's' :: (s.data ++ (labelled_format
        (fields.map (fun f => (f.1, f.2.2)))).data)) (some v :: fields.map (fun f => some f.2.1))).map
          (fun out => '=' :: out) := format_chars_copy ['='] _ _ (by decide)
    rw [this, format_chars_placeholder, format_chars_copy _ _ _ hf.2, ih1]
    simp

theorem round_to_name_some (v : Int) (h : is_named_rounding v) :
    ∃ r, _round_to_name v = some r := by
  rcases h with h | h | h | h | h | h <;> subst h <;> exact ⟨_, rfl⟩

theorem format_chars_null (rest : List Char) (args : List (Option PyItem)) :
    format_chars ('%' :: 's' :: rest) (none :: args) = none := by
  rw [format_chars]
  intro _ v _ _ e
  cases e

/-- Formatting a template of labelled placeholders with as many items as labels, one of
them `NULL`, gives no text. -/
theorem format_labelled_null (labels : List (String × String))
    (h : ∀ f ∈ labels, '%' ∉ f.1.data ∧ '%' ∉ f.2.data) :
    ∀ items : List (Option PyItem), items.length = labels.length → none ∈ items →
      format_chars (labelled_format labels).data items = none := by
  induction labels with
  | nil =>
    intro items hl hn
    cases items with
    | nil => simp at hn
    | cons _ _ => simp at hl
  | cons f labels ih =>
    obtain ⟨n, s⟩ := f
    have hf := h (n, s) (by simp)
    have ih1 := ih (fun g hg => h g (by simp [hg]))
    intro items hl hn
    cases items with
    | nil => simp at hn
    | cons it its =>
      rw [labelled_format_data, format_chars_copy _ _ _ hf.1]
      have : format_chars ('=' :: '%' :: 's' :: (s.data ++ (labelled_format labels).data))
          (it :: its)
          = (format_chars ('%' :: 's' :: (s.data ++ (labelled_format labels).data))
              (it :: its)).map (fun out => '=' :: out) :=
        format_chars_copy ['='] _ _ (by decide)
      rw [this]
      cases it with
      | none => rw [format_chars_null]; rfl
      | some v =>
        have hn1 : none ∈ its := by simpa using hn
        have hl1 : its.length = labels.length := by simpa using hl
        rw [format_chars_placeholder, format_chars_copy _ _ _ hf.2, ih1 its hl1 hn1]
        rfl

theorem round_to_name_none (v : Int) (h : ¬ is_named_rounding v) : _round_to_name v = none := by
  unfold is_named_rounding at h
  simp only [not_or] at h
  simp [_round_to_name, h.1, h.2.1, h.2.2.1, h.2.2.2.1, h.2.2.2.2.1, h.2.2.2.2.2]

theorem tuple_null_of_unnamed (c : gmpy_context)
    (h : ¬ ∀ v ∈ [c.mpfr_round, c.real_round, c.imag_round], is_named_rounding v) :
    none ∈ GMPyContext_repr.tuple c := by
  by_cases h1 : is_named_rounding c.mpfr_round
  · by_cases h2 : is_named_rounding c.real_round
    · by_cases h3 : is_named_rounding c.imag_round
      · exact absurd (by simpa using ⟨h1, h2, h3⟩) h
      · simp [GMPyContext_repr.tuple, round_to_name_none _ h3]
    · simp [GMPyContext_repr.tuple, round_to_name_none _ h2]
  · simp [GMPyContext_repr.tuple, round_to_name_none _ h1]

theorem repr_none_of_unnamed (c : gmpy_context)
    (h : ¬ ∀ v ∈ [c.mpfr_round, c.real_round, c.imag_round], is_named_rounding v) :
    GMPyContext_repr c = none := by
  have hn := tuple_null_of_unnamed c h
  unfold GMPyContext_repr Py2or3String_Format
  have hfmt : GMPyContext_repr.format
      = "context(" ++ labelled_format (spec_field_names.zip GMPyContext_repr.separators) := by
    decide
  rw [hfmt]
  have hd : ("context(" ++ labelled_format
      (spec_field_names.zip GMPyContext_repr.separators)).toList
      = "context(".data ++ (labelled_format
      (spec_field_names.zip GMPyContext_repr.separators)).data := by
    simp [String.toList, String.data_append]
  rw [hd, format_chars_copy _ _ _ (by decide),
    format_labelled_null _ (by decide) _ (by rfl) hn]
  rfl

/-- C31 (amended): the format of `repr` labels its 23 placeholders, in order, with the 23
names the specification lists, each once, and the k-th object of the tuple is the one
shown for the field of the struct that the k-th name stands for.  For every context whose
three rounding fields hold a value that has a name (one of the five modes, or DEFAULT),
`repr` gives a text, which is `context(` followed, for each name in order, by the name,
`=`, the text of that object and the separator of the format.  For every other context
an item of the tuple is `NULL` and `repr` gives no text. -/
theorem repr_names_fields_in_order (c : gmpy_context) :
    spec_field_names
      = ["precision", "real_prec", "imag_prec", "round", "real_round", "imag_round",
          "emax", "emin", "subnormalize", "trap_underflow", "underflow", "trap_overflow",
          "overflow", "trap_inexact", "inexact", "trap_invalid", "invalid", "trap_erange",
          "erange", "trap_divzero", "divzero", "trap_expbound", "allow_complex"] ∧
    spec_field_names.Nodup ∧ spec_field_names.length = 23 ∧
    GMPyContext_repr.format
      = "context(" ++ labelled_format (spec_field_names.zip GMPyContext_repr.separators) ∧
    (∀ s ∈ spec_field_names ++ GMPyContext_repr.separators, '%' ∉ s.toList) ∧
    GMPyContext_repr.tuple c = spec_fields.map (fun f => f.2.2.shown (f.2.1 c)) ∧
    ((∀ v ∈ [c.mpfr_round, c.real_round, c.imag_round], is_named_rounding v) →
      ∃ vals : List PyItem,
        GMPyContext_repr.tuple c = vals.map some ∧
        GMPyContext_repr c
          = some ("context(" ++ labelled_text
              (spec_field_names.zip (vals.zip GMPyContext_repr.separators)))) ∧
    (¬ (∀ v ∈ [c.mpfr_round, c.real_round, c.imag_round], is_named_rounding v) →
      none ∈ GMPyContext_repr.tuple c ∧ GMPyContext_repr c = none) := by
  refine ⟨by decide, by decide, by decide, by decide, by decide, rfl, ?_, ?_⟩
  · intro h
    obtain ⟨r1, h1⟩ := round_to_name_some _ (h c.mpfr_round (by simp))
    obtain ⟨r2, h2⟩ := round_to_name_some _ (h c.real_round (by simp))
    obtain ⟨r3, h3⟩ := round_to_name_some _ (h c.imag_round (by simp))
    have ht : GMPyContext_repr.tuple c
        = [ PyItem.int c.mpfr_prec,
            if c.real_prec = GMPY_DEFAULT then PyItem.str "Default" else PyItem.int c.real_prec,
            if c.imag_prec = GMPY_DEFAULT then PyItem.str "Default" else PyItem.int c.imag_prec,
            r1, r2, r3, PyItem.int c.emax, PyItem.int c.emin,
            PyItem.bool (decide (c.subnormalize ≠ 0)),
            PyItem.bool (decide (c.trap_underflow ≠ 0)), PyItem.bool (decide (c.underflow ≠ 0)),
            PyItem.bool (decide (c.trap_overflow ≠ 0)), PyItem.bool (decide (c.overflow ≠ 0)),
            PyItem.bool (decide (c.trap_inexact ≠ 0)), PyItem.bool (decide (c.inexact ≠ 0)),
            PyItem.bool (decide (c.trap_invalid ≠ 0)), PyItem.bool (decide (c.invalid ≠ 0)),
            PyItem.bool (decide (c.trap_erange ≠ 0)), PyItem.bool (decide (c.erange ≠ 0)),
            PyItem.bool (decide (c.trap_divzero ≠ 0)), PyItem.bool (decide (c.divzero ≠ 0)),
            PyItem.bool (decide (c.trap_expbound ≠ 0)),
            PyItem.bool (decide (c.allow_complex ≠ 0)) ].map some := by
      simp only [GMPyContext_repr.tuple, h1, h2, h3, PyIntOrLong_FromLong, PyBool_FromLong,
        Py2or3String_FromString, List.map_cons, List.map_nil, apply_ite some]
    refine ⟨_, ht, ?_⟩
    generalize hv : (if c.real_prec = GMPY_DEFAULT then PyItem.str "Default"
      else PyItem.int c.real_prec) = v1 at ht ⊢
    generalize hv2 : (if c.imag_prec = GMPY_DEFAULT then PyItem.str "Default"
      else PyItem.int c.imag_prec) = v2 at ht ⊢
    unfold GMPyContext_repr Py2or3String_Format
    rw [ht]
    have hfmt : GMPyContext_repr.format
        = "context(" ++ labelled_format (spec_field_names.zip GMPyContext_repr.separators) := by
      decide
    rw [hfmt]
    have hd : ("context(" ++ labelled_format
        (spec_field_names.zip GMPyContext_repr.separators)).toList
        = "context(".data ++ (labelled_format
        (spec_field_names.zip GMPyContext_repr.separators)).data := by
      simp [String.toList, String.data_append]
    rw [hd, format_chars_copy _ _ _ (by decide)]
    have hl := format_labelled (spec_field_names.zip ([ PyItem.int c.mpfr_prec, v1, v2,
            r1, r2, r3, PyItem.int c.emax, PyItem.int c.emin,
            PyItem.bool (decide (c.subnormalize ≠ 0)),
            PyItem.bool (decide (c.trap_underflow ≠ 0)), PyItem.bool (decide (c.underflow ≠ 0)),
            PyItem.bool (decide (c.trap_overflow ≠ 0)), PyItem.bool (decide (c.overflow ≠ 0)),
            PyItem.bool (decide (c.trap_inexact ≠ 0)), PyItem.bool (decide (c.inexact ≠ 0)),
            PyItem.bool (decide (c.trap_invalid ≠ 0)), PyItem.bool (decide (c.invalid ≠ 0)),
            PyItem.bool (decide (c.trap_erange ≠ 0)), PyItem.bool (decide (c.erange ≠ 0)),
            PyItem.bool (decide (c.trap_divzero ≠ 0)), PyItem.bool (decide (c.divzero ≠ 0)),
            PyItem.bool (decide (c.trap_expbound ≠ 0)),
            PyItem.bool (decide (c.allow_complex ≠ 0)) ].zip GMPyContext_repr.separators))
      (by
        intro f hf
        simp only [spec_field_names, spec_fields, GMPyContext_repr.separators, List.map_cons,
          List.map_nil, List.zip_cons_cons, List.zip_nil_right, List.mem_cons,
          List.mem_singleton, List.not_mem_nil, or_false] at hf
        rcases hf with hf | hf | hf | hf | hf | hf | hf | hf | hf | hf | hf | hf | hf | hf | hf
          | hf | hf | hf | hf | hf | hf | hf | hf <;> subst hf <;> refine ⟨?_, ?_⟩ <;> dsimp only <;> decide)
    have e1 : labelled_format (spec_field_names.zip GMPyContext_repr.separators)
        = labelled_format ((spec_field_names.zip ([ PyItem.int c.mpfr_prec, v1, v2,
            r1, r2, r3, PyItem.int c.emax, PyItem.int c.emin,
            PyItem.bool (decide (c.subnormalize ≠ 0)),
            PyItem.bool (decide (c.trap_underflow ≠ 0)), PyItem.bool (decide (c.underflow ≠ 0)),
            PyItem.bool (decide (c.trap_overflow ≠ 0)), PyItem.bool (decide (c.overflow ≠ 0)),
            PyItem.bool (decide (c.trap_inexact ≠ 0)), PyItem.bool (decide (c.inexact ≠ 0)),
            PyItem.bool (decide (c.trap_invalid ≠ 0)), PyItem.bool (decide (c.invalid ≠ 0)),
            PyItem.bool (decide (c.trap_erange ≠ 0)), PyItem.bool (decide (c.erange ≠ 0)),
            PyItem.bool (decide (c.trap_divzero ≠ 0)), PyItem.bool (decide (c.divzero ≠ 0)),
            PyItem.bool (decide (c.trap_expbound ≠ 0)),
            PyItem.bool (decide (c.allow_complex ≠ 0)) ].zip GMPyContext_repr.separators)).map
            (fun f => (f.1, f.2.2))) := rfl
    rw [e1]
    erw [hl]
    rfl
  · intro h
    exact ⟨tuple_null_of_unnamed c h, repr_none_of_unnamed c h⟩

/-! ## The exponent registers and the active context -/

theorem cache_context_ctx (t r r1 : Nat) (w : World) :
    (cache_context t r w).ctx r1 = w.ctx r1 := by
  unfold cache_context
  cases ho : w.obj r with
  | none => rfl
  | some o =>
    have hlt := obj_lt_length w r o ho
    have e : World.obj { w.store r { o with tstate := some t } with cached_context := some r } r1
        = (w.store r { o with tstate := some t }).obj r1 := rfl
    simp only [World.ctx, e]
    by_cases h : r1 = r
    · subst h
      rw [obj_store_same _ _ _ hlt, ho]
      rfl
    · rw [obj_store_other w r r1 _ (Ne.symm h)]

theorem current_ctx_bound (B : Backend) (t a r : Nat) (w : World)
    (hb : w.binding t = some a) : (GMPyContext_current B t w).2.ctx r = w.ctx r := by
  unfold GMPyContext_current
  split
  · rw [from_dict_bound B t a w hb]; exact cache_context_ctx t a r w
  · split
    · rw [from_dict_bound B t a w hb]; exact cache_context_ctx t a r w
    · split
      · rfl
      · rw [from_dict_bound B t a w hb]; exact cache_context_ctx t a r w

theorem active_bound (B : Backend) (t a : Nat) (w : World) (hw : w.cache_ok)
    (hb : w.binding t = some a) : active B t w = w.ctx a := by
  unfold active
  rw [current_of_binding B t a w hw hb, current_ctx_bound B t a a w hb]

theorem active_unbound (B : Backend) (t : Nat) (w : World) (hw : w.cache_ok)
    (hb : w.binding t = none) : active B t w = some (new_ctx B) := by
  unfold active
  obtain ⟨h1, h2, _⟩ := current_unbound_spec B t w hw hb
  rw [h1, h2]

theorem keeps_refl (w : World) : w.keeps_bounds w :=
  ⟨rfl, rfl, rfl, fun _ c h => ⟨c, h, rfl, rfl⟩⟩

theorem keeps_trans (w w1 w2 : World) (h1 : w.keeps_bounds w1) (h2 : w1.keeps_bounds w2) :
    w.keeps_bounds w2 := by
  obtain ⟨a1, a2, a3, a4⟩ := h1
  obtain ⟨b1, b2, b3, b4⟩ := h2
  refine ⟨b1.trans a1, b2.trans a2, b3.trans a3, ?_⟩
  intro r c hc
  obtain ⟨c1, hc1, e1, e2⟩ := a4 r c hc
  obtain ⟨c2, hc2, f1, f2⟩ := b4 r c1 hc1
  exact ⟨c2, hc2, f1.trans e1, f2.trans e2⟩

theorem keeps_append (w : World) (o : GMPyContextObject) :
    w.keeps_bounds { w with heap := w.heap ++ [o] } := by
  refine ⟨rfl, rfl, rfl, ?_⟩
  intro r c hc
  obtain ⟨p, hp, hpc⟩ : ∃ p, w.obj r = some p ∧ p.ctx = c := by
    simpa [World.ctx] using hc
  have hlt := obj_lt_length w r p hp
  refine ⟨c, ?_, rfl, rfl⟩
  simp only [World.ctx, World.obj, List.getElem?_append_left hlt]
  simpa [World.ctx, World.obj] using hc

theorem keeps_store (w : World) (r : Nat) (o : GMPyContextObject)
    (h : ∀ o0, w.obj r = some o0 → o.ctx.emin = o0.ctx.emin ∧ o.ctx.emax = o0.ctx.emax) :
    w.keeps_bounds (w.store r o) := by
  refine ⟨rfl, rfl, rfl, ?_⟩
  intro r1 c hc
  obtain ⟨p, hp, hpc⟩ : ∃ p, w.obj r1 = some p ∧ p.ctx = c := by
    simpa [World.ctx] using hc
  by_cases hr : r = r1
  · subst hr
    refine ⟨o.ctx, ?_, ?_⟩
    · simp [World.ctx, obj_store_same w r o (obj_lt_length w r p hp)]
    · rw [← hpc]
      exact h p hp
  · exact ⟨c, by simp only [World.ctx]; rw [obj_store_other w r r1 o hr, hp, ← hpc]; rfl,
      rfl, rfl⟩

theorem keeps_new_store (B : Backend) (w : World) (c : gmpy_context) :
    w.keeps_bounds ((GMPyContext_new B w).2.store w.heap.length (GMPyContextObject.mk c none)) := by
  refine ⟨rfl, rfl, rfl, ?_⟩
  intro r c0 hc0
  obtain ⟨p, hp, hpc⟩ : ∃ p, w.obj r = some p ∧ p.ctx = c0 := by
    simpa [World.ctx] using hc0
  have hlt := obj_lt_length w r p hp
  refine ⟨c0, ?_, rfl, rfl⟩
  simp only [World.ctx]
  rw [obj_store_other _ _ r _ (by omega)]
  simp only [GMPyContext_new, World.alloc, World.obj, List.getElem?_append_left hlt]
  simpa [World.ctx, World.obj] using hc0

theorem keeps_ieee (B : Backend) (bitwidth : PyVal) (w : World) :
    w.keeps_bounds (GMPyContext_ieee B bitwidth w).2 := by
  unfold GMPyContext_ieee
  simp only
  split_ifs
  · exact keeps_refl w
  · exact keeps_new_store B w _
  · exact keeps_new_store B w _
  · exact keeps_new_store B w _
  · exact keeps_refl w

theorem keeps_copy (B : Backend) (self : Nat) (w : World) :
    w.keeps_bounds (GMPyContext_context_copy B self w).2 := by
  cases ho : w.obj self with
  | none => simpa [GMPyContext_context_copy, ho] using keeps_refl w
  | some o =>
    rw [context_copy_eq B self w o ho]
    exact keeps_append w _

theorem keeps_clear_flags (self : Nat) (w : World) :
    w.keeps_bounds (GMPyContext_clear_flags self w).2 := by
  unfold GMPyContext_clear_flags
  split
  · exact keeps_refl w
  · rename_i o ho
    refine keeps_store w self _ ?_
    intro o0 ho0
    rw [ho] at ho0
    rw [← Option.some.inj ho0]
    exact ⟨rfl, rfl⟩

theorem setter_other_bounds (B : Backend) (a : Attr) (c : gmpy_context) (v : PyVal) (w : World)
    (h1 : a ≠ Attr.emin) (h2 : a ≠ Attr.emax) :
    (setter B a c v w).2.1.emin = c.emin ∧ (setter B a c v w).2.1.emax = c.emax ∧
    (setter B a c v w).2.2 = w := by
  cases a <;> simp only [setter, ne_eq, not_true_eq_false, and_true] at h1 h2 ⊢
  · unfold GMPyContext_set_precision; simp only []; split_ifs <;> exact ⟨rfl, rfl⟩
  · unfold GMPyContext_set_real_prec; simp only []; split_ifs <;> exact ⟨rfl, rfl⟩
  · unfold GMPyContext_set_imag_prec; simp only []; split_ifs <;> exact ⟨rfl, rfl⟩
  · unfold GMPyContext_set_round; simp only []; split_ifs <;> exact ⟨rfl, rfl⟩
  · unfold GMPyContext_set_real_round; simp only []; split_ifs <;> exact ⟨rfl, rfl⟩
  · unfold GMPyContext_set_imag_round; simp only []; split_ifs <;> exact ⟨rfl, rfl⟩
  all_goals first
    | (unfold GETSET_BOOLEAN; split_ifs <;> exact ⟨rfl, rfl⟩)
    | (unfold GETSET_BOOLEAN_EX; split_ifs <;> exact ⟨rfl, rfl⟩)

theorem setter_follows (B : Backend) (a : Attr) (c : gmpy_context) (v : PyVal) (w : World)
    (h1 : w.emin = c.emin) (h2 : w.emax = c.emax) :
    (setter B a c v w).2.2.emin = (setter B a c v w).2.1.emin ∧
    (setter B a c v w).2.2.emax = (setter B a c v w).2.1.emax := by
  by_cases ha : a ≠ Attr.emin ∧ a ≠ Attr.emax
  · obtain ⟨e1, e2, e3⟩ := setter_other_bounds B a c v w ha.1 ha.2
    rw [e1, e2, e3]
    exact ⟨h1, h2⟩
  · have : a = Attr.emin ∨ a = Attr.emax := by
      by_cases h : a = Attr.emin
      · exact Or.inl h
      · exact Or.inr (by_contra fun h3 => ha ⟨h, h3⟩)
    rcases this with h | h <;> subst h <;> simp only [setter]
    · unfold GMPyContext_set_emin mpfr_set_emin
      simp only []
      split_ifs <;> simp_all
    · unfold GMPyContext_set_emax mpfr_set_emax
      simp only []
      split_ifs <;> simp_all

theorem setter_raised (B : Backend) (a : Attr) (c : gmpy_context) (v : PyVal) (w : World)
    (e : PyErr) (h : (setter B a c v w).1 = some e) :
    (setter B a c v w).2.1 = c ∧ (setter B a c v w).2.2 = w := by
  revert h
  cases a <;> simp only [setter]
  · unfold GMPyContext_set_precision; simp only []; split_ifs <;> simp
  · unfold GMPyContext_set_real_prec; simp only []; split_ifs <;> simp
  · unfold GMPyContext_set_imag_prec; simp only []; split_ifs <;> simp
  · unfold GMPyContext_set_round; simp only []; split_ifs <;> simp
  · unfold GMPyContext_set_real_round; simp only []; split_ifs <;> simp
  · unfold GMPyContext_set_imag_round; simp only []; split_ifs <;> simp
  · unfold GMPyContext_set_emax mpfr_set_emax; simp only []; split_ifs <;> simp_all
  · unfold GMPyContext_set_emin mpfr_set_emin; simp only []; split_ifs <;> simp_all
  all_goals first
    | (unfold GETSET_BOOLEAN; split_ifs <;> simp)
    | (unfold GETSET_BOOLEAN_EX; split_ifs <;> simp)

theorem reflect_of_keeps (B : Backend) (t : Nat) (w w1 : World) (hw : w.cache_ok)
    (hw1 : w1.cache_ok) (hk : w.keeps_bounds w1) (h0 : registers_reflect_active B t w) :
    registers_reflect_active B t w1 := by
  obtain ⟨k1, k2, k3, k4⟩ := hk
  obtain ⟨c, hc, he, hx⟩ := h0
  cases hb : w.binding t with
  | some a =>
    have hb1 : w1.binding t = some a := by simpa [World.binding, k1] using hb
    rw [active_bound B t a w hw hb] at hc
    obtain ⟨c1, hc1, e1, e2⟩ := k4 a c hc
    exact ⟨c1, by rw [active_bound B t a w1 hw1 hb1]; exact hc1, by rw [k2, he, e1],
      by rw [k3, hx, e2]⟩
  | none =>
    have hb1 : w1.binding t = none := by simpa [World.binding, k1] using hb
    rw [active_unbound B t w hw hb] at hc
    exact ⟨c, by rw [active_unbound B t w1 hw1 hb1]; exact hc, by rw [k2, he], by rw [k3, hx]⟩

theorem reflect_current (B : Backend) (t : Nat) (w : World) (hw : w.cache_ok)
    (h0 : registers_reflect_active B t w) :
    registers_reflect_active B t (GMPyContext_current B t w).2 := by
  obtain ⟨c, hc, he, hx⟩ := h0
  have hw1 := cache_ok_current B t w hw
  obtain ⟨r1, r2⟩ := current_regs B t w
  refine ⟨c, ?_, by rw [r1, he], by rw [r2, hx]⟩
  cases hb : w.binding t with
  | some a =>
    rw [active_bound B t a w hw hb] at hc
    rw [active_bound B t a _ hw1 (binding_current B t t a w hb), current_ctx_bound B t a a w hb]
    exact hc
  | none =>
    rw [active_unbound B t w hw hb] at hc
    obtain ⟨_, h2, h3⟩ := current_unbound_spec B t w hw hb
    rw [active_bound B t _ _ hw1 h3, h2]
    exact hc

theorem reflect_set_context (B : Backend) (t c : Nat) (w : World)
    (h0 : registers_reflect_active B t w) (ha : bounds_accepted B w c = true) :
    registers_reflect_active B t (GMPyContext_set_context B t c w).2 := by
  cases ho : w.obj c with
  | none =>
    rw [set_context_invalid B t c w ho]
    exact h0
  | some o =>
    obtain ⟨_, h2, h3, _, _, h6, h7⟩ := set_context_spec B t c w o ho
    have hacc : B.emin_ok o.ctx.emin = true ∧ B.emax_ok o.ctx.emax = true := by
      simpa [bounds_accepted, World.ctx, ho] using ha
    refine ⟨copy_ctx o.ctx, ?_, by rw [h6, if_pos hacc.1]; rfl, by rw [h7, if_pos hacc.2]; rfl⟩
    unfold active
    rw [current_of_cached B t _ _ _ h2 h3 rfl]
    simp [World.ctx, h3]

theorem reflect_push (B : Backend) (t c : Nat) (w : World) (o : GMPyContextObject)
    (ho : w.obj c = some o) (ha : bounds_accepted B w c = true) :
    registers_reflect_active B t
      (push_bounds B o.ctx (GMPyContext_set_context B t c w).2) := by
  have hacc : B.emin_ok o.ctx.emin = true ∧ B.emax_ok o.ctx.emax = true := by
    simpa [bounds_accepted, World.ctx, ho] using ha
  obtain ⟨_, _, _, h4⟩ := set_push_spec B t c w o o.ctx ho
  obtain ⟨r1, r2⟩ := push_bounds_regs B o.ctx (GMPyContext_set_context B t c w).2 hacc.1 hacc.2
  exact ⟨copy_ctx o.ctx, h4, r1, r2⟩

theorem reflect_manager_enter (B : Backend) (t : Nat) (m : GMPyContextManagerObject)
    (w : World) (h0 : registers_reflect_active B t w)
    (ha : bounds_accepted B w m.new_context = true) :
    registers_reflect_active B t (GMPyContextManager_enter B t m w).2 := by
  cases ho : w.obj m.new_context with
  | none =>
    have : (GMPyContextManager_enter B t m w).2 = w := by
      simp [GMPyContextManager_enter, GMPyContext_set_context, ho]
    rw [this]
    exact h0
  | some o =>
    rw [manager_enter_eq B t m w o ho]
    exact reflect_push B t m.new_context w o ho ha

theorem reflect_manager_exit (B : Backend) (t : Nat) (m : GMPyContextManagerObject)
    (w : World) (h0 : registers_reflect_active B t w)
    (ha : bounds_accepted B w m.old_context = true) :
    registers_reflect_active B t (GMPyContextManager_exit B t m w).2 := by
  cases ho : w.obj m.old_context with
  | none =>
    have : (GMPyContextManager_exit B t m w).2 = w := by
      simp [GMPyContextManager_exit, GMPyContext_set_context, ho]
    rw [this]
    exact h0
  | some o =>
    rw [manager_exit_eq B t m w o ho]
    exact reflect_push B t m.old_context w o ho ha

theorem reflect_context_exit (B : Backend) (t self : Nat) (w : World)
    (h0 : registers_reflect_active B t w) (ha : bounds_accepted B w self = true) :
    registers_reflect_active B t (GMPyContext_exit B t self w).2 := by
  cases ho : w.obj self with
  | none =>
    have : (GMPyContext_exit B t self w).2 = w := by
      simp [GMPyContext_exit, GMPyContext_set_context, ho]
    rw [this]
    exact h0
  | some o =>
    rw [context_exit_eq B t self w o ho]
    exact reflect_push B t self w o ho ha

theorem reflect_context_enter (B : Backend) (t self : Nat) (w : World)
    (h0 : registers_reflect_active B t w) (ha : bounds_accepted B w self = true) :
    registers_reflect_active B t (GMPyContext_enter B t self w).2 := by
  cases ho : w.obj self with
  | none =>
    have : (GMPyContext_enter B t self w).2 = w := by
      simp [GMPyContext_enter, GMPyContext_context_copy, ho]
    rw [this]
    exact h0
  | some o =>
    rw [context_enter_eq B t self w o ho]
    have hnew : World.obj { w with heap := w.heap ++ [GMPyContextObject.mk (copy_ctx o.ctx) none] }
        w.heap.length = some (GMPyContextObject.mk (copy_ctx o.ctx) none) := by
      simp [World.obj]
    refine reflect_push B t w.heap.length _ (GMPyContextObject.mk (copy_ctx o.ctx) none)
      hnew ?_
    have hacc : B.emin_ok o.ctx.emin = true ∧ B.emax_ok o.ctx.emax = true := by
      simpa [bounds_accepted, World.ctx, ho] using ha
    simp only [bounds_accepted, World.ctx, hnew, Option.map_some', Bool.and_eq_true]
    exact hacc

theorem reflect_setattr (B : Backend) (t : Nat) (a : Attr) (self : Nat) (v : PyVal) (w : World)
    (hw : w.cache_ok) (h0 : registers_reflect_active B t w)
    (hadm : (a ≠ Attr.emin ∧ a ≠ Attr.emax) ∨ (GMPyContext_current B t w).1 = self ∨
      raised (GMPyContext_setattr B a self v w).1 = true) :
    registers_reflect_active B t (GMPyContext_setattr B a self v w).2 := by
  have hw1 : (GMPyContext_setattr B a self v w).2.cache_ok :=
    exec_cache_ok B (Op.setattr a self v) w hw rfl
  cases ho : w.obj self with
  | none =>
    have : (GMPyContext_setattr B a self v w).2 = w := by simp [GMPyContext_setattr, ho]
    rw [this]
    exact h0
  | some o =>
    have hlt := obj_lt_length w self o ho
    have hh := setter_heap B a o.ctx v w
    have ht := (setter_world B a o.ctx v w).1
    have hoth := setter_other_bounds B a o.ctx v w
    have hfol := setter_follows B a o.ctx v w
    have hrai := setter_raised B a o.ctx v w
    unfold GMPyContext_setattr at hadm hw1 ⊢
    simp only [ho] at hadm hw1 ⊢
    rcases hs : setter B a o.ctx v w with ⟨e, c1, w1⟩
    rw [hs] at hh ht hoth hfol hrai
    simp only [hs] at hh ht hoth hfol hrai hadm hw1 ⊢
    cases e with
    | some e0 =>
      obtain ⟨g1, g2⟩ := hrai e0 rfl
      subst g1 g2
      show registers_reflect_active B t (w1.store self o)
      rw [store_self w1 self o ho]
      exact h0
    | none =>
      simp only [] at hadm hw1 ⊢
      have hadm1 : (a ≠ Attr.emin ∧ a ≠ Attr.emax) ∨ (GMPyContext_current B t w).1 = self := by
        rcases hadm with h | h | h
        · exact Or.inl h
        · exact Or.inr h
        · simp [raised] at h
      rcases hadm1 with hadm | hadm
      · obtain ⟨e1, e2, e3⟩ := hoth hadm.1 hadm.2
        subst e3
        exact reflect_of_keeps B t w1 _ hw hw1
          (keeps_store w1 self _ (fun o0 ho0 => by
            rw [ho] at ho0
            rw [← Option.some.inj ho0]
            exact ⟨e1, e2⟩)) h0
      · cases hb : w.binding t with
        | none =>
          have := (current_unbound_spec B t w hw hb).1
          rw [hadm] at this
          rw [this, obj_length_none] at ho
          exact Option.noConfusion ho
        | some r =>
          have hr := current_of_binding B t r w hw hb
          rw [hadm] at hr
          subst hr
          obtain ⟨c, hc, he, hx⟩ := h0
          rw [active_bound B t self w hw hb] at hc
          have hco : c = o.ctx := by
            simp only [World.ctx, ho, Option.map_some', Option.some.injEq] at hc
            exact hc.symm
          subst hco
          obtain ⟨f1, f2⟩ := hfol he hx
          have hb1 : (w1.store self { o with ctx := c1 }).binding t = some self := by
            simpa [World.binding, World.store, ht] using hb
          refine ⟨c1, ?_, f1, f2⟩
          rw [active_bound B t self _ hw1 hb1]
          simp [World.ctx, obj_store_same w1 self _ (by rw [hh]; exact hlt)]

theorem sanity_check_eq_regs (B : Backend) (c c1 : gmpy_context) (w w1 : World)
    (h : sanity_check B c w = (none, c1, w1)) :
    w1.emin = c.emin ∧ w1.emax = c.emax := by
  have h1 := sanity_check_ok_world B c w (by rw [h])
  rw [h] at h1
  simp only at h1
  rw [h1]
  exact ⟨rfl, rfl⟩

theorem local_context_none_regs (B : Backend) (t : Nat) (kw : Kwargs) (w : World)
    (m : GMPyContextManagerObject) (w1 : World)
    (hb : GMPyContext_local_context B t none kw w = (Except.ok m, w1)) :
    ∀ o0 : GMPyContextObject,
      (GMPyContext_current B t w).2.obj (GMPyContext_current B t w).1 = some o0 →
      w1.emin = (PyArg_ParseTupleAndKeywords kw o0.ctx).2.emin ∧
      w1.emax = (PyArg_ParseTupleAndKeywords kw o0.ctx).2.emax := by
  unfold GMPyContext_local_context local_context_fill at hb
  simp only at hb
  generalize GMPyContext_current B t w = cur at hb ⊢
  obtain ⟨context, w0⟩ := cur
  simp only at hb ⊢
  intro o0 ho
  have hlt := obj_lt_length w0 context o0 ho
  have h2 : World.obj { w0 with heap := w0.heap ++
      [{ ctx := copy_ctx o0.ctx, tstate := none }] } context = some o0 := by
    simpa [World.obj, List.getElem?_append_left hlt] using ho
  rw [context_copy_eq B context w0 o0 ho] at hb
  simp only [h2] at hb
  split at hb
  · split at hb
    · simp at hb
    · rename_i c1 w4 hs
      obtain ⟨r1, r2⟩ := sanity_check_eq_regs B _ _ _ _ hs
      simp only [Prod.mk.injEq, Except.ok.injEq] at hb
      obtain ⟨hm, hw⟩ := hb
      subst hm hw
      exact ⟨r1, r2⟩
  · simp at hb

theorem reflect_local_context_none (B : Backend) (t : Nat) (kw : Kwargs) (w : World)
    (hnr : raised (GMPyContext_local_context B t none kw w).1 = false) :
    registers_reflect_active B t (GMPyContext_local_context B t none kw w).2 := by
  rcases hres : GMPyContext_local_context B t none kw w with ⟨res, w1⟩
  rw [hres] at hnr
  cases res with
  | error e => simp [raised] at hnr
  | ok m =>
    obtain ⟨o0, h1, h2, h3, h4, h5, h6⟩ := local_context_none_ok B t kw w m w1 hres
    obtain ⟨r1, r2⟩ := local_context_none_regs B t kw w m w1 hres o0 h1
    obtain ⟨hca, hts⟩ := current_caches B t w o0 h1
    have hlt := obj_lt_length _ _ _ h1
    have hobj : w1.obj (GMPyContext_current B t w).1 = some (GMPyContextObject.mk
        (force_mpc_rounding (PyArg_ParseTupleAndKeywords kw o0.ctx).2) o0.tstate) := by
      simp only [World.obj, h4]
      rw [List.getElem?_set_self (by simp; omega)]
    refine ⟨force_mpc_rounding (PyArg_ParseTupleAndKeywords kw o0.ctx).2, ?_,
      by rw [force_mpc_rounding_emin]; exact r1, by rw [force_mpc_rounding_emax]; exact r2⟩
    unfold active
    simp only
    rw [current_of_cached B t (GMPyContext_current B t w).1 w1 _ (by rw [h6, hca]) hobj hts]
    simp [World.ctx, hobj]

theorem local_context_active_base (B : Backend) (t b : Nat) (kw : Kwargs) (w : World)
    (bc : gmpy_context) (hb : b = (GMPyContext_current B t w).1)
    (hbc : (GMPyContext_current B t w).2.ctx b = some bc) (hro : bc.readonly = 0) :
    GMPyContext_local_context B t (some b) kw w = GMPyContext_local_context B t none kw w := by
  unfold GMPyContext_local_context
  simp only [hbc, hro, ne_eq, not_true_eq_false, if_false, ← hb]

theorem exec_reflect (B : Backend) (t : Nat) (op : Op) (w : World) (hw : w.cache_ok)
    (h0 : registers_reflect_active B t w) (hadm : keeps_registers B t op w = true) :
    registers_reflect_active B t (op.exec B w).2 := by
  have he : op.ends_thread = false := by
    cases op <;> first | rfl | simp [keeps_registers] at hadm
  have hw1 := exec_cache_ok B op w hw he
  cases op with
  | new => exact reflect_of_keeps B t w _ hw hw1 (keeps_append w _) h0
  | context kw => simp [keeps_registers] at hadm
  | ieee bitwidth => exact reflect_of_keeps B t w _ hw hw1 (keeps_ieee B bitwidth w) h0
  | copy self => exact reflect_of_keeps B t w _ hw hw1 (keeps_copy B self w) h0
  | get_context t1 =>
    have : t1 = t := by simpa [keeps_registers] using hadm
    subst this
    exact reflect_current B t1 w hw h0
  | set_context t1 other =>
    simp only [keeps_registers, Bool.and_eq_true, decide_eq_true_eq] at hadm
    obtain ⟨ht, ha⟩ := hadm
    subst ht
    exact reflect_set_context B t1 other w h0 ha
  | local_context t1 base kw =>
    simp only [keeps_registers, Bool.and_eq_true, decide_eq_true_eq, Bool.not_eq_true'] at hadm
    obtain ⟨⟨ht, hnr⟩, hbase⟩ := hadm
    subst ht
    cases base with
    | none => exact reflect_local_context_none B t1 kw w hnr
    | some b =>
      simp only [Bool.and_eq_true, decide_eq_true_eq] at hbase
      obtain ⟨hb, hbc⟩ := hbase
      cases hc : (GMPyContext_current B t1 w).2.ctx b with
      | none => simp [hc] at hbc
      | some bc =>
        have hro : bc.readonly = 0 := by simpa [hc] using hbc
        show registers_reflect_active B t1 (GMPyContext_local_context B t1 (some b) kw w).2
        rw [local_context_active_base B t1 b kw w bc hb hc hro] at hnr ⊢
        exact reflect_local_context_none B t1 kw w hnr
  | manager_enter t1 m =>
    simp only [keeps_registers, Bool.and_eq_true, decide_eq_true_eq] at hadm
    obtain ⟨ht, ha⟩ := hadm
    subst ht
    exact reflect_manager_enter B t1 m w h0 ha
  | manager_exit t1 m =>
    simp only [keeps_registers, Bool.and_eq_true, decide_eq_true_eq] at hadm
    obtain ⟨ht, ha⟩ := hadm
    subst ht
    exact reflect_manager_exit B t1 m w h0 ha
  | enter t1 self =>
    simp only [keeps_registers, Bool.and_eq_true, decide_eq_true_eq] at hadm
    obtain ⟨ht, ha⟩ := hadm
    subst ht
    exact reflect_context_enter B t1 self w h0 ha
  | exit t1 self =>
    simp only [keeps_registers, Bool.and_eq_true, decide_eq_true_eq] at hadm
    obtain ⟨ht, ha⟩ := hadm
    subst ht
    exact reflect_context_exit B t1 self w h0 ha
  | clear_flags self =>
    exact reflect_of_keeps B t w _ hw hw1 (keeps_clear_flags self w) h0
  | setattr a self value =>
    simp only [keeps_registers, Bool.or_eq_true, decide_eq_true_eq] at hadm
    exact reflect_setattr B t a self value w hw h0 (by
      rcases hadm with (h | h) | h
      · exact Or.inl h
      · exact Or.inr (Or.inl h)
      · exact Or.inr (Or.inr h))
  | thread_end t1 => simp [keeps_registers] at hadm

theorem context_ok_regs (B : Backend) (kw : Kwargs) (w w1 : World) (r : Nat)
    (h : GMPyContext_context B kw w = (Except.ok r, w1)) :
    ∃ c, w1.ctx r = some c ∧ w1.emin = c.emin ∧ w1.emax = c.emax := by
  unfold GMPyContext_context at h
  simp only at h
  split at h
  · split at h
    · simp at h
    · rename_i c1 w2 hs
      obtain ⟨hh, _, _, hc⟩ := sanity_check_eq B _ _ _ _ _ hs
      obtain ⟨r1, r2⟩ := sanity_check_eq_regs B _ _ _ _ hs
      simp only [Prod.mk.injEq, Except.ok.injEq] at h
      obtain ⟨hr, hw⟩ := h
      subst hr hw
      have hc1 := hc rfl
      refine ⟨clear_flags_ctx c1, ?_, ?_, ?_⟩
      · simp only [World.ctx]
        rw [obj_store_same _ _ _ (by rw [hh]; simp [GMPyContext_new, World.alloc])]
        rfl
      · show w2.emin = c1.emin
        rw [r1, hc1, force_mpc_rounding_emin]
      · show w2.emax = c1.emax
        rw [r2, hc1, force_mpc_rounding_emax]
  · simp at h

/-- C33 (as amended): in a run of calls made by one thread `t` that starts with MPFR's
exponent registers equal to the bounds of the active context of `t` (and the cache slot
consistent), the registers equal the bounds of the active context of `t` after every
call of the run, when the run is made of: `ieee`, `copy`, `clear_flags`, `get_context`;
assignments to any attribute other than `emin` and `emax` on any context; assignments to
`emin` or `emax` on the active context, or that raise; `set_context`, `__enter__` and
`__exit__` of a context whose bounds the backend accepts; and `local_context` calls that
succeed with no base (or with the writable active context as base).  The keyword
constructor is not among them: when it succeeds the registers hold the bounds of the
context it built. -/
theorem registers_follow_active_context (B : Backend) (t : Nat) (ops : List Op) (w : World)
    (hw : w.cache_ok) (h0 : registers_reflect_active B t w)
    (hadm : admissible B (keeps_registers B t) ops w = true) :
    registers_reflect_active B t (run B ops w) ∧
    (∀ kw r w1, GMPyContext_context B kw (run B ops w) = (Except.ok r, w1) →
      ∃ c, w1.ctx r = some c ∧ w1.emin = c.emin ∧ w1.emax = c.emax) := by
  refine ⟨?_, fun kw r w1 h => context_ok_regs B kw _ w1 r h⟩
  induction ops generalizing w with
  | nil => exact h0
  | cons op ops ih =>
    simp only [admissible, Bool.and_eq_true] at hadm
    have he : op.ends_thread = false := by
      cases op <;> first | rfl | simp [keeps_registers] at hadm
    exact ih _ (exec_cache_ok B op w hw he) (exec_reflect B t op w hw h0 hadm.1) hadm.2

/-- C33 fails as stated: when thread 0 has its default context active, with the
registers at that context's bounds, the call `context(precision=53, round=MPFR_RNDN,
emin=-1000, emax=1000)` succeeds, leaves the default context active, and leaves the
registers at `-1000` and `1000`, the bounds of the context just built; and the
assignment `emin = -2000` to the inactive `ieee(32)` context of `world_with_preset`
leaves the `emin` register at `-2000` while the default context is still active. -/
theorem constructor_and_setter_move_registers :
    registers_reflect_active mpfr3 0 world_thread0 ∧
    (GMPyContext_context mpfr3 (kw_four 53 MPFR_RNDN (-1000) 1000) world_thread0).1
      = Except.ok 1 ∧
    active mpfr3 0 (GMPyContext_context mpfr3 (kw_four 53 MPFR_RNDN (-1000) 1000)
      world_thread0).2 = some (new_ctx mpfr3) ∧
    (GMPyContext_context mpfr3 (kw_four 53 MPFR_RNDN (-1000) 1000) world_thread0).2.emin
      = -1000 ∧
    (GMPyContext_context mpfr3 (kw_four 53 MPFR_RNDN (-1000) 1000) world_thread0).2.emax
      = 1000 ∧
    (new_ctx mpfr3).emin = -(2 ^ 30 - 1) ∧ (new_ctx mpfr3).emax = 2 ^ 30 - 1 ∧
    ¬ registers_reflect_active mpfr3 0
      (GMPyContext_context mpfr3 (kw_four 53 MPFR_RNDN (-1000) 1000) world_thread0).2 ∧
    registers_reflect_active mpfr3 0 world_with_preset ∧
    (GMPyContext_setattr mpfr3 Attr.emin 1 (PyVal.int (-2000)) world_with_preset).1
      = Except.ok () ∧
    active mpfr3 0 (GMPyContext_setattr mpfr3 Attr.emin 1 (PyVal.int (-2000))
      world_with_preset).2 = some (new_ctx mpfr3) ∧
    (GMPyContext_setattr mpfr3 Attr.emin 1 (PyVal.int (-2000)) world_with_preset).2.emin
      = -2000 := by
  refine ⟨⟨new_ctx mpfr3, by decide, by decide, by decide⟩, by rfl, by decide, by decide,
    by decide, by decide, by decide, ?_, ⟨new_ctx mpfr3, by decide, by decide, by decide⟩,
    by rfl, by decide, by decide⟩
  rintro ⟨c, hc, he, _⟩
  have ha : active mpfr3 0 (GMPyContext_context mpfr3 (kw_four 53 MPFR_RNDN (-1000) 1000)
      world_thread0).2 = some (new_ctx mpfr3) := by decide
  rw [ha] at hc
  cases hc
  revert he
  decide

/-! ## The cache slot after the end of a thread -/

/-- C19 fails in the code: thread 0 looks its context up, assigns `precision = 100` and
ends.  A thread created afterwards with its `PyThreadState` at the same address has no
context bound, yet its first `current()` returns the object of the ended thread (address
0, which is not fresh), with `precision = 100` instead of the default fields, and binds
nothing; `current_context_from_dict` would have created a fresh object at address 1. -/
theorem stale_cache_serves_ended_thread :
    (run mpfr3 ops_thread0_ends (World.init mpfr3)).binding 0 = none ∧
    (run mpfr3 ops_thread0_ends (World.init mpfr3)).cached_context = some 0 ∧
    ((run mpfr3 ops_thread0_ends (World.init mpfr3)).obj 0).map (fun o => o.tstate)
      = some (some 0) ∧
    (GMPyContext_current mpfr3 0 (run mpfr3 ops_thread0_ends (World.init mpfr3))).1 = 0 ∧
    (run mpfr3 ops_thread0_ends (World.init mpfr3)).obj 0 ≠ none ∧
    active mpfr3 0 (run mpfr3 ops_thread0_ends (World.init mpfr3))
      = some { new_ctx mpfr3 with mpfr_prec := 100 } ∧
    active mpfr3 0 (run mpfr3 ops_thread0_ends (World.init mpfr3)) ≠ some (new_ctx mpfr3) ∧
    (GMPyContext_current mpfr3 0
      (run mpfr3 ops_thread0_ends (World.init mpfr3))).2.binding 0 = none ∧
    (current_context_from_dict mpfr3 0 (run mpfr3 ops_thread0_ends (World.init mpfr3))).1
      = 1 := by
  refine ⟨by decide, by decide, by decide, by decide, by decide, by decide, by decide,
    by decide, by decide⟩

/-- C20 fails in the code: thread 1 looks its context up and ends, and a context is
created at address 1.  For a thread `B` created afterwards with its `PyThreadState` at
the address of the ended thread, `current()` returns address 0 (the cached object of the
ended thread); after `set_context` of address 1 by thread 0, `current()` on `B` returns a
fresh default context at address 2.  The dictionary of `B` holds no binding before or
after. -/
theorem set_context_changes_stale_reader :
    (0 : Nat) ≠ 1 ∧
    (run mpfr3 ops_thread1_ends_then_new (World.init mpfr3)).binding 1 = none ∧
    (GMPyContext_current mpfr3 1
      (run mpfr3 ops_thread1_ends_then_new (World.init mpfr3))).1 = 0 ∧
    (GMPyContext_set_context mpfr3 0 1
      (run mpfr3 ops_thread1_ends_then_new (World.init mpfr3))).1 = Except.ok () ∧
    (GMPyContext_set_context mpfr3 0 1
      (run mpfr3 ops_thread1_ends_then_new (World.init mpfr3))).2.binding 1 = none ∧
    (GMPyContext_current mpfr3 1 (GMPyContext_set_context mpfr3 0 1
      (run mpfr3 ops_thread1_ends_then_new (World.init mpfr3))).2).1 = 2 ∧
    (GMPyContext_set_context mpfr3 0 1
      (run mpfr3 ops_thread1_ends_then_new (World.init mpfr3))).2.obj 2 = none := by
  refine ⟨by decide, by decide, by decide, by rfl, by decide, by decide, by decide⟩

/-- C21 fails in the code: after `current()` by thread 0, `current()` by thread 1,
`set_context` by thread 0 and the end of thread 0, the cache slot holds address 0, whose
`tstate` is the address of the ended thread, while no dictionary binds a context to that
address; for a thread created there `current()` returns address 0 and
`current_context_from_dict` returns the fresh address 2. -/
theorem stale_cache_is_not_transparent :
    (run mpfr3 ops_two_threads_one_ends (World.init mpfr3)).cached_context = some 0 ∧
    ((run mpfr3 ops_two_threads_one_ends (World.init mpfr3)).obj 0).map (fun o => o.tstate)
      = some (some 0) ∧
    (run mpfr3 ops_two_threads_one_ends (World.init mpfr3)).binding 0 = none ∧
    (GMPyContext_current mpfr3 0
      (run mpfr3 ops_two_threads_one_ends (World.init mpfr3))).1 = 0 ∧
    (current_context_from_dict mpfr3 0
      (run mpfr3 ops_two_threads_one_ends (World.init mpfr3))).1 = 2 ∧
    ¬ (run mpfr3 ops_two_threads_one_ends (World.init mpfr3)).cache_ok := by
  refine ⟨by decide, by decide, by decide, by decide, by decide, ?_⟩
  intro h
  obtain ⟨o, ho, hb⟩ := h 0 (by decide)
  have ho1 : (run mpfr3 ops_two_threads_one_ends (World.init mpfr3)).obj 0
      = some { ctx := new_ctx mpfr3, tstate := some 0 } := by decide
  rw [ho1] at ho
  cases ho
  have := hb 0 rfl
  revert this
  decide

/-! ## Supplied values that do not convert -/

/-- C31 (counterexample): `local_context(round=7)` by thread 0 at start-up raises
`ValueError("invalid value for round")` and leaves the active context of thread 0 with
`round = 7`.  For that context `_round_to_name` returns `NULL`, the fourth item of the
tuple is `NULL`, and `repr` produces no text. -/
theorem repr_of_rejected_round_gives_no_text :
    (GMPyContext_local_context mpfr3 0 none kw_round_7 (World.init mpfr3)).1
      = Except.error (PyErr.ValueError "invalid value for round") ∧
    active mpfr3 0 (GMPyContext_local_context mpfr3 0 none kw_round_7 (World.init mpfr3)).2
      = some { new_ctx mpfr3 with mpfr_round := 7 } ∧
    _round_to_name 7 = none ∧
    (GMPyContext_repr.tuple { new_ctx mpfr3 with mpfr_round := 7 }).get? 3 = some none ∧
    (GMPyContext_repr.tuple { new_ctx mpfr3 with mpfr_round := 7 }).length = 23 ∧
    GMPyContext_repr { new_ctx mpfr3 with mpfr_round := 7 } = none ∧
    ¬ is_named_rounding 7 := by
  refine ⟨by rfl, by decide, by decide, by decide, by decide, by decide, ?_⟩
  unfold is_named_rounding
  decide

/-! ## The theorems above at concrete inputs -/

/-- Witness for C1: on the readonly active context of `world_active_readonly`, assigning
`precision = 100` raises the readonly error and leaves the world as it was. -/
theorem readonly_blocks_setters_witness :
    world_active_readonly.obj 0 = some readonly_default_object ∧
    readonly_default_object.ctx.readonly ≠ 0 ∧
    GMPyContext_setattr mpfr3 Attr.precision 0 (PyVal.int 100) world_active_readonly
      = (Except.error readonly_error, world_active_readonly) :=
  ⟨by decide, by decide,
    (readonly_blocks_setters mpfr3 world_active_readonly 0 readonly_default_object
      (by decide) (by decide)).1 Attr.precision (PyVal.int 100) (by decide)⟩

/-- Witness for C3: copying the readonly context at address 0 of `world_active_readonly`
returns address 1, whose struct is the source with `readonly` cleared. -/
theorem copy_clears_readonly_witness :
    world_active_readonly.obj 0 = some readonly_default_object ∧
    (GMPyContext_context_copy mpfr3 0 world_active_readonly).1 = Except.ok 1 ∧
    (GMPyContext_context_copy mpfr3 0 world_active_readonly).2.ctx 1
      = some { readonly_default_object.ctx with readonly := 0 } :=
  ⟨by decide,
    (copy_clears_readonly mpfr3 world_active_readonly 0 readonly_default_object
      (by decide)).1,
    (copy_clears_readonly mpfr3 world_active_readonly 0 readonly_default_object
      (by decide)).2.2.1⟩

/-- Witness for C4: installing the readonly context at address 0 succeeds and `current()`
is then a different address. -/
theorem set_context_then_current_witness :
    world_active_readonly.obj 0 = some readonly_default_object ∧
    (GMPyContext_set_context mpfr3 0 0 world_active_readonly).1 = Except.ok () ∧
    (GMPyContext_current mpfr3 0 (GMPyContext_set_context mpfr3 0 0 world_active_readonly).2).1
      ≠ 0 :=
  ⟨by decide,
    (set_context_then_current mpfr3 0 0 world_active_readonly readonly_default_object
      (by decide)).1.1,
    ((set_context_then_current mpfr3 0 0 world_active_readonly readonly_default_object
      (by decide)).1.2.2.1 (by decide)).1⟩

/-- Witness for C5: `local_context(precision=100)` from the initial world, entered and
left, restores the fields the active context had before `local_context`. -/
theorem scope_restores_fields_before_begin_witness :
    ∃ c0 : gmpy_context,
      active mpfr3 0 (World.init mpfr3) = some c0 ∧
      (GMPyContextManager_enter mpfr3 0 (GMPyContextManagerObject.mk 0 1)
        (GMPyContext_local_context mpfr3 0 none kw_precision_100 (World.init mpfr3)).2).1
          = Except.ok 0 ∧
      (GMPyContextManager_exit mpfr3 0 (GMPyContextManagerObject.mk 0 1)
        (GMPyContextManager_enter mpfr3 0 (GMPyContextManagerObject.mk 0 1)
          (GMPyContext_local_context mpfr3 0 none kw_precision_100 (World.init mpfr3)).2).2).1
          = Except.ok () ∧
      active mpfr3 0 (GMPyContextManager_exit mpfr3 0 (GMPyContextManagerObject.mk 0 1)
        (GMPyContextManager_enter mpfr3 0 (GMPyContextManagerObject.mk 0 1)
          (GMPyContext_local_context mpfr3 0 none kw_precision_100 (World.init mpfr3)).2).2).2
          = some { c0 with readonly := 0 } ∧
      (c0.readonly = 0 →
        active mpfr3 0 (GMPyContextManager_exit mpfr3 0 (GMPyContextManagerObject.mk 0 1)
          (GMPyContextManager_enter mpfr3 0 (GMPyContextManagerObject.mk 0 1)
            (GMPyContext_local_context mpfr3 0 none kw_precision_100 (World.init mpfr3)).2).2).2
            = some c0) :=
  scope_restores_fields_before_begin mpfr3 0 kw_precision_100 (World.init mpfr3)
    (GMPyContextManagerObject.mk 0 1)
    (GMPyContext_local_context mpfr3 0 none kw_precision_100 (World.init mpfr3)).2 (by rfl)

/-- Witness for C6: scope `precision=100`, inside it scope `round=MPFR_RNDA,
real_round=MPFR_RNDU`; after leaving both the default fields are active again. -/
theorem nested_scopes_restore_lifo_witness :
    active mpfr3 0 (World.init mpfr3) = some (new_ctx mpfr3) ∧
    active mpfr3 0 (GMPyContextManager_exit mpfr3 0 (GMPyContextManagerObject.mk 0 1)
      (GMPyContextManager_exit mpfr3 0 (GMPyContextManagerObject.mk 0 2)
        (GMPyContextManager_enter mpfr3 0 (GMPyContextManagerObject.mk 0 2)
          (GMPyContext_local_context mpfr3 0 none kw_round_away
            (GMPyContextManager_enter mpfr3 0 (GMPyContextManagerObject.mk 0 1)
              (GMPyContext_local_context mpfr3 0 none kw_precision_100
                (World.init mpfr3)).2).2).2).2).2).2
      = some (new_ctx mpfr3) :=
  ⟨by decide,
    (nested_scopes_restore_lifo mpfr3 0 kw_precision_100 kw_round_away (World.init mpfr3)
      (GMPyContextManagerObject.mk 0 1) (GMPyContextManagerObject.mk 0 2)
      (GMPyContext_local_context mpfr3 0 none kw_precision_100 (World.init mpfr3)).2
      (GMPyContext_local_context mpfr3 0 none kw_round_away
        (GMPyContextManager_enter mpfr3 0 (GMPyContextManagerObject.mk 0 1)
          (GMPyContext_local_context mpfr3 0 none kw_precision_100 (World.init mpfr3)).2).2).2
      (new_ctx mpfr3) (by decide) (by decide) (by rfl) (by rfl)).2.2.2.2.2⟩

/-- Witness for C7: after `__enter__` and `__exit__` of the writable preset at address 1,
`current()` is address 1. -/
theorem context_scope_leaves_self_active_witness :
    world_with_preset.obj 1 = some ieee32_object ∧
    (GMPyContext_current mpfr3 0
      (GMPyContext_exit mpfr3 0 1 (GMPyContext_enter mpfr3 0 1 world_with_preset).2).2).1 = 1 :=
  ⟨by decide,
    (context_scope_leaves_self_active mpfr3 0 1 world_with_preset ieee32_object
      (by decide)).2.2.2.1 (by decide)⟩

/-- Witness for C9: `context(emin=-5, emax=2**62)` fails on MPFR 3.1 and the `emax`
register is unchanged. -/
theorem failed_call_exponent_registers_witness :
    GMPyContext_context mpfr3 kw_emin_ok_emax_bad (World.init mpfr3)
      = (Except.error (PyErr.ValueError "invalid value for emax"),
          (GMPyContext_context mpfr3 kw_emin_ok_emax_bad (World.init mpfr3)).2) ∧
    (GMPyContext_context mpfr3 kw_emin_ok_emax_bad (World.init mpfr3)).2.emax
      = (World.init mpfr3).emax :=
  ⟨by rfl,
    ((failed_call_exponent_registers mpfr3 kw_emin_ok_emax_bad (World.init mpfr3)
      (GMPyContext_context mpfr3 kw_emin_ok_emax_bad (World.init mpfr3)).2
      (PyErr.ValueError "invalid value for emax")).1 (by rfl)).1⟩

/-- Witness for C10: `real_round = MPFR_RNDU` followed by `round = MPFR_RNDA` is an
admissible sequence and ends with both MPC rounding modes `MPFR_RNDN`. -/
theorem rounding_rule_of_reachable_witness :
    admissible mpfr3 (keeps_rounding_rule mpfr3) ops_real_round_then_round (World.init mpfr3)
      = true ∧
    (run mpfr3 ops_real_round_then_round (World.init mpfr3)).ctx 0
      = some { new_ctx mpfr3 with mpfr_round := MPFR_RNDA, real_round := MPFR_RNDN,
                                  imag_round := MPFR_RNDN } ∧
    ({ new_ctx mpfr3 with mpfr_round := MPFR_RNDA, real_round := MPFR_RNDN,
                          imag_round := MPFR_RNDN } : gmpy_context).real_round = MPFR_RNDN ∧
    ({ new_ctx mpfr3 with mpfr_round := MPFR_RNDA, real_round := MPFR_RNDN,
                          imag_round := MPFR_RNDN } : gmpy_context).imag_round = MPFR_RNDN :=
  ⟨by decide, by decide,
    rounding_rule_of_reachable mpfr3 ops_real_round_then_round (by decide) 0
      { new_ctx mpfr3 with mpfr_round := MPFR_RNDA, real_round := MPFR_RNDN,
                           imag_round := MPFR_RNDN }
      (by decide) (by rfl)⟩

/-- Witness for C13: `context(precision=100, round=MPFR_RNDA, emin=-1000, emax=1000)` on
MPFR 3.1. -/
theorem constructor_round_trip_witness :
    ∃ c : gmpy_context,
      (GMPyContext_context mpfr3 (kw_four 100 MPFR_RNDA (-1000) 1000) (World.init mpfr3)).1
        = Except.ok (World.init mpfr3).heap.length ∧
      (GMPyContext_context mpfr3 (kw_four 100 MPFR_RNDA (-1000) 1000) (World.init mpfr3)).2.ctx
        (World.init mpfr3).heap.length = some c ∧
      GMPyContext_get_precision c = 100 ∧ GMPyContext_get_round c = MPFR_RNDA ∧
      GMPyContext_get_emin c = -1000 ∧ GMPyContext_get_emax c = 1000 ∧
      (MPFR_RNDA = MPFR_RNDA → c.real_round = MPFR_RNDN ∧ c.imag_round = MPFR_RNDN) ∧
      (MPFR_RNDA ≠ MPFR_RNDA → c.real_round = GMPY_DEFAULT ∧ c.imag_round = GMPY_DEFAULT) ∧
      (GETSET_BOOLEAN_get c.underflow = false ∧ GETSET_BOOLEAN_get c.overflow = false ∧
        GETSET_BOOLEAN_get c.inexact = false ∧ GETSET_BOOLEAN_get c.invalid = false ∧
        GETSET_BOOLEAN_get c.erange = false ∧ GETSET_BOOLEAN_get c.divzero = false) :=
  constructor_round_trip mpfr3 mpfr3_c_typed (World.init mpfr3) 100 MPFR_RNDA (-1000) 1000
    (by decide) (by decide) (by decide) (by decide) (by decide)

/-- Witness for C14: on the default context of thread 0, `precision = 100` succeeds and
`precision = 1` fails leaving the world as it was. -/
theorem set_precision_iff_in_range_witness :
    world_thread0.obj 0 = some thread0_default_object ∧
    thread0_default_object.ctx.readonly = 0 ∧
    GMPyContext_setattr mpfr3 Attr.precision 0 (PyVal.int 100) world_thread0 =
      (Except.ok (), world_thread0.store 0
        { thread0_default_object with
          ctx := { thread0_default_object.ctx with mpfr_prec := 100 } }) ∧
    GMPyContext_setattr mpfr3 Attr.precision 0 (PyVal.int 1) world_thread0 =
      (Except.error (PyErr.ValueError "invalid value for precision"), world_thread0) :=
  ⟨by decide, by decide,
    (set_precision_iff_in_range mpfr3 mpfr3_c_typed world_thread0 0 thread0_default_object 100
      (by decide) (by decide)).2.1 (by decide),
    (set_precision_iff_in_range mpfr3 mpfr3_c_typed world_thread0 0 thread0_default_object 1
      (by decide) (by decide)).2.2 (by decide)⟩

/-- Witness for C15: `ieee(64)` from the initial world. -/
theorem ieee_presets_witness :
    (GMPyContext_ieee mpfr3 (PyVal.int 64) (World.init mpfr3)).1 = Except.ok 0 ∧
    (GMPyContext_ieee mpfr3 (PyVal.int 64) (World.init mpfr3)).2.ctx 0 = some
      { new_ctx mpfr3 with subnormalize := 1, mpfr_prec := 53, emax := 1024, emin := -1073 } ∧
    GMPyContext_ieee mpfr3 (PyVal.int 16) (World.init mpfr3) =
      (Except.error (PyErr.ValueError "bitwidth must be 32, 64, or 128"), World.init mpfr3) :=
  ⟨((ieee_presets mpfr3 (World.init mpfr3) 64).2.2.1 rfl).1,
    ((ieee_presets mpfr3 (World.init mpfr3) 64).2.2.1 rfl).2,
    (ieee_presets mpfr3 (World.init mpfr3) 16).2.2.2.2 (by decide) (by decide) (by decide)⟩

/-- Witness for C16: `ieee(64)` from the initial world is writable. -/
theorem ieee_preset_is_writable_witness :
    ∃ c : gmpy_context,
      (GMPyContext_ieee mpfr3 (PyVal.int 64) (World.init mpfr3)).1
        = Except.ok (World.init mpfr3).heap.length ∧
      (World.init mpfr3).obj (World.init mpfr3).heap.length = none ∧
      (GMPyContext_ieee mpfr3 (PyVal.int 64) (World.init mpfr3)).2.ctx
        (World.init mpfr3).heap.length = some c ∧
      c.readonly = 0 ∧
      (∀ v : Bool,
        (GMPyContext_setattr mpfr3 Attr.subnormalize (World.init mpfr3).heap.length
          (PyVal.bool v) (GMPyContext_ieee mpfr3 (PyVal.int 64) (World.init mpfr3)).2).1
          = Except.ok ()) :=
  ieee_preset_is_writable mpfr3 (World.init mpfr3) 64 (by decide)

/-- Witness for C17: `clear_flags()` on the readonly active context of
`world_active_readonly`. -/
theorem clear_flags_frame_witness :
    world_active_readonly.obj 0 = some readonly_default_object ∧
    (GMPyContext_clear_flags 0 world_active_readonly).1 = Except.ok () :=
  ⟨by decide,
    (clear_flags_frame 0 world_active_readonly readonly_default_object (by decide)).elim
      (fun _ h => by rw [h.1])⟩

/-- Witness for C22: thread 0, whose active context at address 0 is readonly, calls
`local_context(ctx0, precision=100)` with that same context as the base: `new_context`
is the fresh address 1, `old_context` the fresh address 2 holding the fields of the
active context with `readonly = 0`. -/
theorem begin_contexts_witness :
    (GMPyContext_current mpfr3 0 world_active_readonly).2.obj
      (GMPyContext_current mpfr3 0 world_active_readonly).1 = some readonly_default_object ∧
    (GMPyContext_local_context mpfr3 0 (some 0) kw_precision_100 world_active_readonly).1
      = Except.ok (GMPyContextManagerObject.mk 1 2) ∧
    (1 : Nat) ≠ 0 ∧
    world_active_readonly.obj 1 = none ∧
    world_active_readonly.obj 2 = none ∧
    (GMPyContext_local_context mpfr3 0 (some 0) kw_precision_100 world_active_readonly).2.ctx 2
      = some (copy_ctx readonly_default_object.ctx) :=
  ⟨by decide, by rfl,
    ((begin_contexts mpfr3 0 (some 0) kw_precision_100 world_active_readonly
      (GMPyContext_local_context mpfr3 0 (some 0) kw_precision_100 world_active_readonly).2
      (GMPyContextManagerObject.mk 1 2) readonly_default_object (by decide) (by rfl)).2.2.1
        0 readonly_default_object.ctx rfl (by decide) (by decide)).1,
    ((begin_contexts mpfr3 0 (some 0) kw_precision_100 world_active_readonly
      (GMPyContext_local_context mpfr3 0 (some 0) kw_precision_100 world_active_readonly).2
      (GMPyContextManagerObject.mk 1 2) readonly_default_object (by decide) (by rfl)).2.2.1
        0 readonly_default_object.ctx rfl (by decide) (by decide)).2.2.1,
    (begin_contexts mpfr3 0 (some 0) kw_precision_100 world_active_readonly
      (GMPyContext_local_context mpfr3 0 (some 0) kw_precision_100 world_active_readonly).2
      (GMPyContextManagerObject.mk 1 2) readonly_default_object (by decide) (by rfl)).2.2.2.1,
    (begin_contexts mpfr3 0 (some 0) kw_precision_100 world_active_readonly
      (GMPyContext_local_context mpfr3 0 (some 0) kw_precision_100 world_active_readonly).2
      (GMPyContextManagerObject.mk 1 2) readonly_default_object (by decide) (by rfl)).2.2.2.2.2.2.2⟩

/-- Witness for C23: the handle of `local_context(precision=100)` made by thread 0 on its
writable default context; `__enter__` returns address 0 and `current()` is address 0. -/
theorem scope_enter_returns_new_context_witness :
    world_thread0.obj 0 = some thread0_default_object ∧
    thread0_default_object.ctx.readonly = 0 ∧
    (GMPyContextManager_enter mpfr3 0 (GMPyContextManagerObject.mk 0 1) world_thread0).1
      = Except.ok 0 ∧
    (GMPyContext_current mpfr3 0
      (GMPyContextManager_enter mpfr3 0 (GMPyContextManagerObject.mk 0 1) world_thread0).2).1
      = 0 :=
  ⟨by decide, by decide,
    (scope_enter_returns_new_context mpfr3 0 (GMPyContextManagerObject.mk 0 1) world_thread0
      thread0_default_object (by decide)).1,
    (scope_enter_returns_new_context mpfr3 0 (GMPyContextManagerObject.mk 0 1) world_thread0
      thread0_default_object (by decide)).2.1 (by decide)⟩

/-- Witness for C24: installing the `ieee(32)` preset at address 1 of `world_with_preset`
leaves the registers at `-148` and `128`. -/
theorem installation_pushes_bounds_witness :
    world_with_preset.obj 1 = some ieee32_object ∧
    mpfr3.emin_ok ieee32_object.ctx.emin = true ∧
    mpfr3.emax_ok ieee32_object.ctx.emax = true ∧
    (GMPyContext_set_context mpfr3 0 1 world_with_preset).2.emin = -148 ∧
    (GMPyContext_set_context mpfr3 0 1 world_with_preset).2.emax = 128 :=
  ⟨by decide, by decide, by decide,
    (installation_pushes_bounds mpfr3 0 1 world_with_preset ieee32_object (by decide)
      (by decide) (by decide)).1.2.1,
    (installation_pushes_bounds mpfr3 0 1 world_with_preset ieee32_object (by decide)
      (by decide) (by decide)).1.2.2⟩

/-- Witness for C25: a binary operation of the example backend called with one
argument, and a constant called with one argument. -/
theorem wrong_arity_fails_first_witness :
    GMPY_MPFR_BINOP.GMPy_Context_NAME mpfr3 toy "div" 0 Self.NULL [Operand.int 1]
      machine_thread0
      = (Except.error (OpErr.py (PyErr.TypeError ("div" ++ "() requires 2 arguments"))),
          machine_thread0) ∧
    GMPY_MPFR_NOOP.GMPy_Context_NAME mpfr3 toy "const_pi" 0 Self.NULL [Operand.int 1]
      machine_thread0
      = (Except.error (OpErr.py (PyErr.TypeError ("const_pi" ++ "() requires 0 arguments"))),
          machine_thread0) :=
  ⟨(wrong_arity_fails_first mpfr3 toy "div" 0 Self.NULL [Operand.int 1]
      machine_thread0).2.1 (by decide),
    (wrong_arity_fails_first mpfr3 toy "const_pi" 0 Self.NULL [Operand.int 1]
      machine_thread0).2.2.2 (by decide)⟩

/-- Witness for C26: the example binary operation on an integer and a string. -/
theorem unsupported_operands_fail_witness :
    GMPY_MPFR_BINOP.GMPy_Number_NAME mpfr3 toy "div" 0 (Operand.int 1) Operand.str none
      machine_thread0
      = (Except.error
          (OpErr.py (PyErr.TypeError ("div" ++ "() argument type not supported"))),
          machine_thread0) :=
  (unsupported_operands_fail mpfr3 toy "div" 0 (Operand.int 1) Operand.str Operand.str none
    machine_thread0).2.2.2.2.2 (by decide)

/-- Witness for C27: the example unary operation on an integer takes the real path, on a
Gaussian integer the complex path. -/
theorem dispatch_by_kind_witness :
    GMPY_MPFR_MPC_UNIOP.GMPy_Number_NAME mpfr3 toy "sqrt" 0 (Operand.int 4) none machine_thread0
      = GMPY_MPFR_MPC_UNIOP.GMPy_Real_NAME mpfr3 toy "sqrt" 0 (Operand.int 4) none
          machine_thread0 ∧
    GMPY_MPFR_MPC_UNIOP.GMPy_Number_NAME mpfr3 toy "sqrt" 0 (Operand.gaussian 3 4) none
        machine_thread0
      = GMPY_MPFR_MPC_UNIOP.GMPy_Complex_NAME mpfr3 toy "sqrt" 0 (Operand.gaussian 3 4) none
          machine_thread0 :=
  ⟨(dispatch_by_kind mpfr3 toy "sqrt" 0 (Operand.int 4) Operand.str Operand.str none
      machine_thread0).1.1 (by decide),
    (dispatch_by_kind mpfr3 toy "sqrt" 0 (Operand.gaussian 3 4) Operand.str Operand.str none
      machine_thread0).1.2 (by decide) (by decide)⟩

/-- Witness for C28: the bound binary division of the example backend, called by thread 1
on the context object at address 0 and by thread 0 on no receiver, through
`GMPY_MPFR_BINOP` and through `GMPY_MPFR_MPC_BIOP_TEMPLATE` over the same real
function. -/
theorem bound_form_uses_receiver_witness :
    GMPY_MPFR_BINOP.GMPy_Context_NAME mpfr3 toy "div" 1 (Self.CTXT 0)
        [Operand.int 1, Operand.int 0] machine_thread0
      = GMPY_MPFR_BINOP.GMPy_Number_NAME mpfr3 toy "div" 0 (Operand.int 1) (Operand.int 0)
          (some 0) machine_thread0 ∧
    (∀ r, Self.NULL ≠ Self.CTXT r) ∧
    GMPY_MPFR_BINOP.GMPy_Context_NAME mpfr3 toy "div" 0 Self.NULL
        [Operand.int 1, Operand.int 0] machine_thread0
      = GMPY_MPFR_BINOP.GMPy_Number_NAME mpfr3 toy "div" 0 (Operand.int 1) (Operand.int 0)
          (some (GMPyContext_current mpfr3 0 machine_thread0.world).1)
          { machine_thread0 with world := (GMPyContext_current mpfr3 0 machine_thread0.world).2 } ∧
    GMPY_MPFR_MPC_BIOP_TEMPLATE.GMPy_Context_NAME mpfr3 toy "div"
        (GMPY_MPFR_BINOP.GMPy_Real_NAME mpfr3 toy "div" 1)
        (GMPY_MPFR_BINOP.GMPy_Real_NAME mpfr3 toy "div" 1) 1 (Self.CTXT 0)
        [Operand.int 1, Operand.int 0] machine_thread0
      = GMPY_MPFR_MPC_BIOP_TEMPLATE.GMPy_Number_NAME toy "div"
          (GMPY_MPFR_BINOP.GMPy_Real_NAME mpfr3 toy "div" 1)
          (GMPY_MPFR_BINOP.GMPy_Real_NAME mpfr3 toy "div" 1)
          (Operand.int 1) (Operand.int 0) (some 0) machine_thread0 :=
  ⟨((bound_form_uses_receiver mpfr3 toy "div" 1 (Operand.int 1) (Operand.int 0) Operand.str
      machine_thread0).1 0 0).2.1,
    fun _ h => Self.noConfusion h,
    ((bound_form_uses_receiver mpfr3 toy "div" 0 (Operand.int 1) (Operand.int 0) Operand.str
      machine_thread0).2.1 Self.NULL (fun _ h => Self.noConfusion h)).2.1,
    ((bound_form_uses_receiver mpfr3 toy "div" 1 (Operand.int 1) (Operand.int 0) Operand.str
      machine_thread0).1 0 0).2.2.2.2.2.2.1 _ _⟩

/-- Witness for C29: the real path of the example division, started with `inexflag`
standing: the primitive is invoked with the flags down and the cleanup finds `divby0`
alone. -/
theorem real_paths_clear_sticky_flags_witness :
    (GMPY_MPFR_BINOP.GMPy_Real_NAME mpfr3 toy "div" 0 (Operand.int 1) (Operand.int 0) none
      machine_stale_inexact).2.calls
      = [Call.GMPy_MPFR_From_Real, Call.GMPy_MPFR_From_Real, Call.GMPy_MPFR_New] ++
        [Call.mpfr_clear_flags, Call.mpfr "div" mpfr_flags.clear,
          Call.GMPY_MPFR_CLEANUP { mpfr_flags.clear with divby0 := true }] :=
  (real_paths_clear_sticky_flags mpfr3 toy "div" 0 (Operand.int 1) (Operand.int 0) Operand.str
    none machine_stale_inexact).2.2.1
    ((CHECK_CONTEXT mpfr3 0 none machine_stale_inexact).2.log Call.GMPy_MPFR_From_Real)
    (((CHECK_CONTEXT mpfr3 0 none machine_stale_inexact).2.log Call.GMPy_MPFR_From_Real).log
      Call.GMPy_MPFR_From_Real)
    ((((CHECK_CONTEXT mpfr3 0 none machine_stale_inexact).2.log Call.GMPy_MPFR_From_Real).log
      Call.GMPy_MPFR_From_Real).log Call.GMPy_MPFR_New)
    (ToyReal.fin 0) (ToyReal.fin 1) (ToyReal.fin 0) (new_ctx mpfr3)
    (by rfl) (by rfl) (by rfl) (by decide)

/-- Witness for C30: dividing 1 by 0 in the example backend.  With `trap_divzero` off the
call returns the positive infinity and the context has `divzero = 1`; with it on the call
fails with `DivisionByZeroError` and the context has `divzero = 1` all the same.  Applied
to a NaN that `MPFR_Check` rejects, with `trap_invalid` on, `MPFR_MONOP` leaves
`InvalidOperationError` raised and the context with `invalid = 1`. -/
theorem trap_policy_witness :
    (GMPY_MPFR_BINOP.GMPy_Real_NAME mpfr3 toy "div" 0 (Operand.int 1) (Operand.int 0) none
      machine_thread0).1 = Except.ok (PyNumber.mpfr (ToyReal.inf false) 0) ∧
    (∃ c1, (GMPY_MPFR_BINOP.GMPy_Real_NAME mpfr3 toy "div" 0 (Operand.int 1) (Operand.int 0)
      none machine_thread0).2.world.ctx 0 = some c1 ∧ c1.divzero = 1) ∧
    (GMPY_MPFR_BINOP.GMPy_Real_NAME mpfr3 toy "div" 0 (Operand.int 1) (Operand.int 0) none
      machine_trap_divzero).1 = Except.error OpErr.DivisionByZeroError ∧
    (∃ c1, (GMPY_MPFR_BINOP.GMPy_Real_NAME mpfr3 toy "div" 0 (Operand.int 1) (Operand.int 0)
      none machine_trap_divzero).2.world.ctx 0 = some c1 ∧ c1.divzero = 1) ∧
    (MPFR_MONOP.PyNAME mpfr3 toy "neg" 0 false mpfr_nan machine_trap_invalid).1.exception
      = some OpErr.InvalidOperationError ∧
    (∃ c1, (MPFR_MONOP.PyNAME mpfr3 toy "neg" 0 false mpfr_nan machine_trap_invalid).2.world.ctx
      0 = some c1 ∧ c1.invalid = 1) :=
  ⟨(((trap_policy mpfr3 toy "div" 0 Kind.divzero (Operand.int 1) (Operand.int 0) Operand.str
      none machine_thread0).2.2.1
      ((CHECK_CONTEXT mpfr3 0 none machine_thread0).2.log Call.GMPy_MPFR_From_Real)
      (((CHECK_CONTEXT mpfr3 0 none machine_thread0).2.log Call.GMPy_MPFR_From_Real).log
        Call.GMPy_MPFR_From_Real)
      ((((CHECK_CONTEXT mpfr3 0 none machine_thread0).2.log Call.GMPy_MPFR_From_Real).log
        Call.GMPy_MPFR_From_Real).log Call.GMPy_MPFR_New)
      (ToyReal.fin 0) (ToyReal.fin 1) (ToyReal.fin 0) thread0_default_object
      (by rfl) (by rfl) (by rfl) (by decide) (by decide)).2.2 (by decide)).2 (by decide),
    ((trap_policy mpfr3 toy "div" 0 Kind.divzero (Operand.int 1) (Operand.int 0) Operand.str
      none machine_thread0).2.2.1
      ((CHECK_CONTEXT mpfr3 0 none machine_thread0).2.log Call.GMPy_MPFR_From_Real)
      (((CHECK_CONTEXT mpfr3 0 none machine_thread0).2.log Call.GMPy_MPFR_From_Real).log
        Call.GMPy_MPFR_From_Real)
      ((((CHECK_CONTEXT mpfr3 0 none machine_thread0).2.log Call.GMPy_MPFR_From_Real).log
        Call.GMPy_MPFR_From_Real).log Call.GMPy_MPFR_New)
      (ToyReal.fin 0) (ToyReal.fin 1) (ToyReal.fin 0) thread0_default_object
      (by rfl) (by rfl) (by rfl) (by decide) (by decide)).1,
    (((trap_policy mpfr3 toy "div" 0 Kind.divzero (Operand.int 1) (Operand.int 0) Operand.str
      none machine_trap_divzero).2.2.1
      ((CHECK_CONTEXT mpfr3 0 none machine_trap_divzero).2.log Call.GMPy_MPFR_From_Real)
      (((CHECK_CONTEXT mpfr3 0 none machine_trap_divzero).2.log Call.GMPy_MPFR_From_Real).log
        Call.GMPy_MPFR_From_Real)
      ((((CHECK_CONTEXT mpfr3 0 none machine_trap_divzero).2.log Call.GMPy_MPFR_From_Real).log
        Call.GMPy_MPFR_From_Real).log Call.GMPy_MPFR_New)
      (ToyReal.fin 0) (ToyReal.fin 1) (ToyReal.fin 0)
      { ctx := { new_ctx mpfr3 with trap_divzero := 1 }, tstate := some 0 }
      (by rfl) (by rfl) (by rfl) (by decide) (by decide)).2.2 (by decide)).1
        (by decide) (by decide),
    ((trap_policy mpfr3 toy "div" 0 Kind.divzero (Operand.int 1) (Operand.int 0) Operand.str
      none machine_trap_divzero).2.2.1
      ((CHECK_CONTEXT mpfr3 0 none machine_trap_divzero).2.log Call.GMPy_MPFR_From_Real)
      (((CHECK_CONTEXT mpfr3 0 none machine_trap_divzero).2.log Call.GMPy_MPFR_From_Real).log
        Call.GMPy_MPFR_From_Real)
      ((((CHECK_CONTEXT mpfr3 0 none machine_trap_divzero).2.log Call.GMPy_MPFR_From_Real).log
        Call.GMPy_MPFR_From_Real).log Call.GMPy_MPFR_New)
      (ToyReal.fin 0) (ToyReal.fin 1) (ToyReal.fin 0)
      { ctx := { new_ctx mpfr3 with trap_divzero := 1 }, tstate := some 0 }
      (by rfl) (by rfl) (by rfl) (by decide) (by decide)).1,
    ((trap_policy mpfr3 toy "neg" 0 Kind.invalid Operand.str Operand.str Operand.str
      none machine_trap_invalid).2.2.2.2.2.1 mpfr_nan
      ((CHECK_CONTEXT_SET_EXPONENT mpfr3 0 none machine_trap_invalid).2.log Call.GMPy_MPFR_New)
      (ToyReal.fin 0)
      { ctx := { new_ctx mpfr3 with trap_invalid := 1 }, tstate := some 0 }
      _ _ _ (by rfl) (by decide) rfl rfl rfl (by decide)).2.2.1 (by decide) (by decide),
    ((trap_policy mpfr3 toy "neg" 0 Kind.invalid Operand.str Operand.str Operand.str
      none machine_trap_invalid).2.2.2.2.2.1 mpfr_nan
      ((CHECK_CONTEXT_SET_EXPONENT mpfr3 0 none machine_trap_invalid).2.log Call.GMPy_MPFR_New)
      (ToyReal.fin 0)
      { ctx := { new_ctx mpfr3 with trap_invalid := 1 }, tstate := some 0 }
      _ _ _ (by rfl) (by decide) rfl rfl rfl (by decide)).1⟩

/-- Witness for C31: the default context has named rounding values; its tuple pairs with
the named fields and its rendering is the familiar text. -/
theorem repr_names_fields_in_order_witness :
    (∀ v ∈ [(new_ctx mpfr3).mpfr_round, (new_ctx mpfr3).real_round,
      (new_ctx mpfr3).imag_round], is_named_rounding v) ∧
    GMPyContext_repr.tuple (new_ctx mpfr3)
      = spec_fields.map (fun f => f.2.2.shown (f.2.1 (new_ctx mpfr3))) ∧
    (∃ vals : List PyItem,
      GMPyContext_repr.tuple (new_ctx mpfr3) = vals.map some ∧
      GMPyContext_repr (new_ctx mpfr3)
        = some ("context(" ++ labelled_text
            (spec_field_names.zip (vals.zip GMPyContext_repr.separators)))) ∧
    GMPyContext_repr (new_ctx mpfr3)
      = some ("context(precision=53, real_prec=Default, imag_prec=Default,\n" ++
          "        round=RoundToNearest, real_round=Default, imag_round=Default,\n" ++
          "        emax=1073741823, emin=-1073741823,\n" ++
          "        subnormalize=False,\n" ++
          "        trap_underflow=False, underflow=False,\n" ++
          "        trap_overflow=False, overflow=False,\n" ++
          "        trap_inexact=False, inexact=False,\n" ++
          "        trap_invalid=False, invalid=False,\n" ++
          "        trap_erange=False, erange=False,\n" ++
          "        trap_divzero=False, divzero=False,\n" ++
          "        trap_expbound=False,\n" ++
          "        allow_complex=False)") :=
  ⟨by unfold is_named_rounding; decide,
    (repr_names_fields_in_order (new_ctx mpfr3)).2.2.2.2.2.1,
    (repr_names_fields_in_order (new_ctx mpfr3)).2.2.2.2.2.2.1
      (by unfold is_named_rounding; decide),
    by decide⟩

/-- Witness for C33: along `ops_scope_after_lookup` from start-up every call is one of
those listed, and at the end the registers hold the bounds of the active context, the
snapshot with `emin = -2000`. -/
theorem registers_follow_active_context_witness :
    (World.init mpfr3).cache_ok ∧
    registers_reflect_active mpfr3 0 (World.init mpfr3) ∧
    admissible mpfr3 (keeps_registers mpfr3 0) ops_scope_after_lookup (World.init mpfr3)
      = true ∧
    registers_reflect_active mpfr3 0 (run mpfr3 ops_scope_after_lookup (World.init mpfr3)) ∧
    (run mpfr3 ops_scope_after_lookup (World.init mpfr3)).emin = -2000 ∧
    (run mpfr3 ops_scope_after_lookup (World.init mpfr3)).emax = 2 ^ 30 - 1 :=
  ⟨cache_ok_init mpfr3, ⟨new_ctx mpfr3, by decide, by decide, by decide⟩, by decide,
    (registers_follow_active_context mpfr3 0 ops_scope_after_lookup (World.init mpfr3)
      (cache_ok_init mpfr3) ⟨new_ctx mpfr3, by decide, by decide, by decide⟩ (by decide)).1,
    by decide, by decide⟩

/-- Witness for C32: on the default context of thread 0, `real_round = MPFR_RNDU`
succeeds and `imag_round = MPFR_RNDA` is rejected, leaving the world as it was. -/
theorem set_mpc_round_iff_in_enum_witness :
    world_thread0.obj 0 = some thread0_default_object ∧
    thread0_default_object.ctx.readonly = 0 ∧
    (GMPyContext_setattr mpfr3 Attr.real_round 0 (PyVal.int MPFR_RNDU) world_thread0).1
      = Except.ok () ∧
    GMPyContext_setattr mpfr3 Attr.imag_round 0 (PyVal.int MPFR_RNDA) world_thread0
      = (Except.error (PyErr.ValueError "invalid value for round mode"), world_thread0) :=
  ⟨by decide, by decide,
    (set_mpc_round_iff_in_enum mpfr3 world_thread0 0 thread0_default_object MPFR_RNDU
      (by decide) (by decide)).1.2 (Or.inr (Or.inr (Or.inl rfl))),
    ((set_mpc_round_iff_in_enum mpfr3 world_thread0 0 thread0_default_object MPFR_RNDA
      (by decide) (by decide)).2.2.2.1
      (set_mpc_round_iff_in_enum mpfr3 world_thread0 0 thread0_default_object MPFR_RNDA
        (by decide) (by decide)).2.2.2.2).2⟩

/-- Witness for C34: `context(round=MPFR_RNDA, real_round=99, imag_round=MPFR_RNDA)` at
start-up succeeds and the new context has both MPC rounding modes at `MPFR_RNDN`. -/
theorem away_forces_mpc_rounding_witness :
    kw_away_with_bad_mpc_rounds.well_typed = true ∧
    kw_away_with_bad_mpc_rounds.round = some (PyVal.int MPFR_RNDA) ∧
    precisions_and_bounds_valid mpfr3 (options_over kw_away_with_bad_mpc_rounds (new_ctx mpfr3)) ∧
    ∃ c, (GMPyContext_context mpfr3 kw_away_with_bad_mpc_rounds (World.init mpfr3)).1
        = Except.ok (World.init mpfr3).heap.length ∧
      (GMPyContext_context mpfr3 kw_away_with_bad_mpc_rounds (World.init mpfr3)).2.ctx
        (World.init mpfr3).heap.length = some c ∧
      c.mpfr_round = MPFR_RNDA ∧ c.real_round = MPFR_RNDN ∧ c.imag_round = MPFR_RNDN :=
  ⟨by decide, rfl, by unfold precisions_and_bounds_valid; decide,
    (away_forces_mpc_rounding mpfr3 0 kw_away_with_bad_mpc_rounds (World.init mpfr3)
      (by decide) rfl).1 (by unfold precisions_and_bounds_valid; decide)⟩

/-- Witness for C36: `__enter__` of the readonly context at address 0 of
`world_active_readonly` returns the fresh address 1, which is then current and holds the
writable copy. -/
theorem context_enter_installs_fresh_copy_witness :
    world_active_readonly.obj 0 = some readonly_default_object ∧
    (GMPyContext_enter mpfr3 0 0 world_active_readonly).1 = Except.ok 1 ∧
    (GMPyContext_enter mpfr3 0 0 world_active_readonly).2.ctx 1
      = some { readonly_default_object.ctx with readonly := 0 } ∧
    (GMPyContext_current mpfr3 0 (GMPyContext_enter mpfr3 0 0 world_active_readonly).2).1
      = 1 ∧
    (GMPyContext_enter mpfr3 0 0 world_active_readonly).2.ctx 0
      = some readonly_default_object.ctx :=
  ⟨by decide,
    (context_enter_installs_fresh_copy mpfr3 0 0 world_active_readonly
      readonly_default_object (by decide)).1,
    (context_enter_installs_fresh_copy mpfr3 0 0 world_active_readonly
      readonly_default_object (by decide)).2.2.2.1,
    (context_enter_installs_fresh_copy mpfr3 0 0 world_active_readonly
      readonly_default_object (by decide)).2.2.2.2.1,
    (context_enter_installs_fresh_copy mpfr3 0 0 world_active_readonly
      readonly_default_object (by decide)).2.2.2.2.2⟩

/-- Witness for C37: on the default context of thread 0, `round = MPFR_RNDA` succeeds
and sets both MPC rounding modes to `MPFR_RNDN`; `round = 7` is rejected. -/
theorem set_round_iff_in_enum_witness :
    world_thread0.obj 0 = some thread0_default_object ∧
    thread0_default_object.ctx.readonly = 0 ∧
    GMPyContext_setattr mpfr3 Attr.round 0 (PyVal.int MPFR_RNDA) world_thread0
      = (Except.ok (), world_thread0.store 0 { thread0_default_object with ctx :=
          { thread0_default_object.ctx with mpfr_round := MPFR_RNDA, real_round := MPFR_RNDN,
                                            imag_round := MPFR_RNDN } }) ∧
    ((GMPyContext_setattr mpfr3 Attr.round 0 (PyVal.int 7) world_thread0).1 = Except.ok () ↔
      is_mpfr_rounding 7) :=
  ⟨by decide, by decide,
    (set_round_iff_in_enum mpfr3 world_thread0 0 thread0_default_object MPFR_RNDA
      (by decide) (by decide)).2.2.1 rfl,
    (set_round_iff_in_enum mpfr3 world_thread0 0 thread0_default_object 7
      (by decide) (by decide)).1⟩

/-- Witness for C38: on the inactive `ieee(32)` context at address 1 of
`world_with_preset`, `emin = -2000` is stored and written to the register; `emax = 2**62`
is rejected by MPFR 3.1 and leaves the world as it was. -/
theorem set_exponent_bound_frame_witness :
    world_with_preset.obj 1 = some ieee32_object ∧
    ieee32_object.ctx.readonly = 0 ∧
    mpfr3.emin_ok (-2000) = true ∧ mpfr3.emax_ok (2 ^ 62) = false ∧
    GMPyContext_setattr mpfr3 Attr.emin 1 (PyVal.int (-2000)) world_with_preset =
      (Except.ok (), World.store { world_with_preset with emin := -2000 } 1
        { ieee32_object with ctx := { ieee32_object.ctx with emin := -2000 } }) ∧
    GMPyContext_setattr mpfr3 Attr.emax 1 (PyVal.int (2 ^ 62)) world_with_preset =
      (Except.error (PyErr.ValueError "requested maximum exponent is invalid"),
        world_with_preset) :=
  ⟨by decide, by decide, by decide, by decide,
    (set_exponent_bound_frame mpfr3 mpfr3_c_typed world_with_preset 1 ieee32_object (-2000)
      (by decide) (by decide)).1 (by decide),
    (set_exponent_bound_frame mpfr3 mpfr3_c_typed world_with_preset 1 ieee32_object (2 ^ 62)
      (by decide) (by decide)).2.2.2 (by decide)⟩

/-- Witness for C39: `local_context(precision=100)` by thread 0 on its writable default
context, at start-up. -/
theorem scope_without_base_edits_active_witness :
    (GMPyContext_current mpfr3 0 (World.init mpfr3)).2.obj
      (GMPyContext_current mpfr3 0 (World.init mpfr3)).1 = some thread0_default_object ∧
    thread0_default_object.ctx.readonly = 0 ∧
    kw_precision_100.well_typed = true ∧
    spec_options_valid mpfr3 (options_over kw_precision_100 thread0_default_object.ctx) ∧
    ∃ (m : GMPyContextManagerObject) (w1 : World),
      GMPyContext_local_context mpfr3 0 none kw_precision_100 (World.init mpfr3)
        = (Except.ok m, w1) ∧
      m.new_context = (GMPyContext_current mpfr3 0 (World.init mpfr3)).1 ∧
      m.old_context ≠ (GMPyContext_current mpfr3 0 (World.init mpfr3)).1 ∧
      w1.ctx (GMPyContext_current mpfr3 0 (World.init mpfr3)).1
        = some (force_mpc_rounding (options_over kw_precision_100 thread0_default_object.ctx)) :=
  ⟨by decide, by decide, by decide,
    by unfold spec_options_valid is_mpc_rounding; decide,
    (scope_without_base_edits_active mpfr3 0 kw_precision_100 (World.init mpfr3)
      thread0_default_object (by decide) (by decide) (by decide)
      (by unfold spec_options_valid is_mpc_rounding; decide)).imp
      (fun _ h => h.imp (fun _ h1 => ⟨h1.1, h1.2.1, h1.2.2.1, h1.2.2.2.2.2.1⟩))⟩

/-- Witness for C40: `local_context(ctx, precision=100)` by thread 0 with the writable
`ieee(32)` context at address 1 of `world_with_preset` as base. -/
theorem scope_with_base_edits_base_or_copy_witness :
    (GMPyContext_current mpfr3 0 world_with_preset).2.obj
      (GMPyContext_current mpfr3 0 world_with_preset).1 = some thread0_default_object ∧
    (GMPyContext_current mpfr3 0 world_with_preset).2.ctx 1 = some ieee32_object.ctx ∧
    GMPyContext_local_context mpfr3 0 (some 1) kw_precision_100 world_with_preset
      = (Except.ok (GMPyContextManagerObject.mk 1 2),
          (GMPyContext_local_context mpfr3 0 (some 1) kw_precision_100 world_with_preset).2) ∧
    ieee32_object.ctx.readonly = 0 ∧
    (GMPyContext_local_context mpfr3 0 (some 1) kw_precision_100 world_with_preset).2.ctx 1
      = some (force_mpc_rounding (options_over kw_precision_100 ieee32_object.ctx)) ∧
    (GMPyContextManager_exit mpfr3 0 (GMPyContextManagerObject.mk 1 2)
      (GMPyContextManager_enter mpfr3 0 (GMPyContextManagerObject.mk 1 2)
        (GMPyContext_local_context mpfr3 0 (some 1) kw_precision_100
          world_with_preset).2).2).2.ctx 1
      = some (force_mpc_rounding (options_over kw_precision_100 ieee32_object.ctx)) :=
  ⟨by decide, by decide, by rfl, by decide,
    ((scope_with_base_edits_base_or_copy mpfr3 0 1 kw_precision_100 world_with_preset
      (GMPyContext_local_context mpfr3 0 (some 1) kw_precision_100 world_with_preset).2
      (GMPyContextManagerObject.mk 1 2) thread0_default_object ieee32_object.ctx
      (by decide) (by decide) (by rfl)).2.2.2 (by decide)).2.1,
    ((scope_with_base_edits_base_or_copy mpfr3 0 1 kw_precision_100 world_with_preset
      (GMPyContext_local_context mpfr3 0 (some 1) kw_precision_100 world_with_preset).2
      (GMPyContextManagerObject.mk 1 2) thread0_default_object ieee32_object.ctx
      (by decide) (by decide) (by rfl)).2.2.2 (by decide)).2.2.2.2.2⟩

end Gmpy
